import Mathlib

/-!
# AC-Optimizer: a shallow embedding of the simulation core

The JavaScript core (`src/core/AirParticle.js`, `src/core/Apartment.js`,
`src/core/FlowSolver.js`) and the injection handler and liveness filter of
`src/main.js` are embedded as Lean functions.

Modelling conventions.

* In the main embedding JavaScript numbers are elements of a linearly ordered
  field `K` (exact arithmetic, no rounding, no NaN).  Every definition is
  generic in `K` and computable at `K = ℚ`; theorems that need square roots or
  limits are stated at `K = ℝ`.
* Two further embeddings cover what exact arithmetic cannot express.  The
  particle step (`update`, `handleBoundaries` and what they call) is embedded
  once more over `JSNumber K`, a finite value or NaN, with the comparisons and
  operations of JavaScript on NaN; its definitions carry the suffix `JS`.
  `addForce` and the zone temperature update are embedded once more with every
  operation rounded to the nearest IEEE-754 double (`toDouble`); these
  definitions carry the suffix `Double`, and a result `none` is an overflow.
* `Math.sqrt` is a parameter `sqrt : K → K` of the functions that call it; at
  `K = ℝ` it is instantiated with `Real.sqrt`.
* `Math.random()` is a parameter `rand : Nat → K`, the sequence of draws seen by
  the call.
* The object literals with a fixed key set (`zones`, `openings`, `fans`) are
  structures with one field per key; `values` and `entries` list them in
  insertion order and `get?` is the lookup by key.
* A zone's `airParticles` array holds references to particle objects of the
  frame's `particles` array; a reference is the index of the particle in that
  array.
* Mutating methods return the new state.
-/

namespace ACOptimizer

variable {K : Type} [LinearOrderedField K]

/-! ## Data model -/

/-- A plain `{ x, y }` object (velocity, direction). -/
structure Vec2 (K : Type) where
  x : K
  y : K
deriving DecidableEq, Repr

/-- A plain `{ x, y, width, height }` object (stair opening, tube, duct). -/
structure Rect (K : Type) where
  x : K
  y : K
  width : K
  height : K
deriving DecidableEq, Repr

/-- State of an `AirParticle` object.  Field `id` holds the random draw the
constructor turns into the identifier string. -/
structure AirParticle (K : Type) where
  x : K
  y : K
  temperature : K
  velocity : Vec2 K
  age : Nat
  maxAge : Nat
  mass : K
  id : K
  zone : Option String
deriving DecidableEq, Repr

/-- One entry of `Apartment.zones`. -/
structure Zone (K : Type) where
  id : String
  x : K
  y : K
  width : K
  height : K
  connections : List String
  temperature : K
  airParticles : List Nat
deriving DecidableEq, Repr

/-- The object `Apartment.zones`. -/
structure Zones (K : Type) where
  upperMezzanine : Zone K
  upperBedroom : Zone K
  lowerFloor : Zone K
deriving DecidableEq, Repr

/-- One entry of `Apartment.openings`. -/
structure Opening (K : Type) where
  fromZone : String
  toZone : String
  x : K
  y : K
  width : K
  height : K
  isOpen : Bool
deriving DecidableEq, Repr

/-- The object `Apartment.openings`. -/
structure Openings (K : Type) where
  bedroomDoor : Opening K
  leftWindow : Opening K
  rightWindow : Opening K
deriving DecidableEq, Repr

/-- The object `Apartment.acUnit`. -/
structure ACUnit (K : Type) where
  zone : String
  x : K
  y : K
  width : K
  height : K
  temperature : K
  flowStrength : K
  isActive : Bool
  direction : Vec2 K
  tube : Rect K
deriving DecidableEq, Repr

/-- One entry of `Apartment.fans`; `duct` is optional because the code guards
with `!fan.duct`. -/
structure Fan (K : Type) where
  id : String
  zone : String
  x : K
  y : K
  width : K
  height : K
  direction : Vec2 K
  flowStrength : K
  isActive : Bool
  temperature : K
  duct : Option (Rect K)
deriving DecidableEq, Repr

/-- The object `Apartment.fans`. -/
structure Fans (K : Type) where
  stairFan : Fan K
  bedroomFan : Fan K
deriving DecidableEq, Repr

/-- State of an `Apartment` object. -/
structure Apartment (K : Type) where
  width : K
  height : K
  floorHeight : K
  zones : Zones K
  openings : Openings K
  stairOpening : Rect K
  acUnit : ACUnit K
  fans : Fans K
deriving DecidableEq, Repr

/-- State of a `FlowSolver` object (the `AirParticle` class reference is the
constructor `AirParticle.new`). -/
structure FlowSolver (K : Type) where
  apartment : Apartment K
  ambientTemperature : K
deriving DecidableEq, Repr

/-- The list `Object.values(zones)`, in insertion order. -/
def Zones.values (z : Zones K) : List (Zone K) :=
  [z.upperMezzanine, z.upperBedroom, z.lowerFloor]

/-- The lookup `zones[key]`; `none` is JavaScript `undefined`. -/
def Zones.get? (z : Zones K) (key : String) : Option (Zone K) :=
  if key = "upperMezzanine" then some z.upperMezzanine
  else if key = "upperBedroom" then some z.upperBedroom
  else if key = "lowerFloor" then some z.lowerFloor
  else none

/-- The list `Object.entries(openings)`, in insertion order. -/
def Openings.entries (o : Openings K) : List (String × Opening K) :=
  [("bedroomDoor", o.bedroomDoor), ("leftWindow", o.leftWindow),
   ("rightWindow", o.rightWindow)]

/-- The list `Object.values(fans)`, in insertion order. -/
def Fans.values (f : Fans K) : List (Fan K) :=
  [f.stairFan, f.bedroomFan]

/-! ## `Apartment.js` -/

/-- The constructor `new Apartment(width, height)`. -/
def Apartment.new (width height : K) : Apartment K where
  width := width
  height := height
  floorHeight := 3.0
  zones :=
    { upperMezzanine :=
        { id := "upperMezzanine", x := 0, y := 3, width := 6, height := 3,
          connections := ["upperBedroom", "stairShaft"], temperature := 22,
          airParticles := [] }
      upperBedroom :=
        { id := "upperBedroom", x := 6, y := 3, width := 3, height := 3,
          connections := ["upperMezzanine"], temperature := 22,
          airParticles := [] }
      lowerFloor :=
        { id := "lowerFloor", x := 0, y := 0, width := 9, height := 3,
          connections := [], temperature := 22, airParticles := [] } }
  openings :=
    { bedroomDoor :=
        { fromZone := "upperMezzanine", toZone := "upperBedroom",
          x := 6, y := 3, width := 0.8, height := 2.1, isOpen := true }
      leftWindow :=
        { fromZone := "lowerFloor", toZone := "outside",
          x := 0, y := 0.5, width := 0.1, height := 1.5, isOpen := false }
      rightWindow :=
        { fromZone := "lowerFloor", toZone := "outside",
          x := 8.9, y := 0.5, width := 0.1, height := 1.5, isOpen := false } }
  stairOpening := { x := 4.9, y := 2.9, width := 1.2, height := 0.2 }
  acUnit :=
    { zone := "upperMezzanine", x := 0.2, y := 4, width := 0.6, height := 0.3,
      temperature := 16, flowStrength := 0.5, isActive := true,
      direction := { x := 1, y := 0 },
      tube := { x := 0.8, y := 4.05, width := 0.4, height := 0.2 } }
  fans :=
    { stairFan :=
        { id := "stairFan", zone := "upperMezzanine",
          x := 5.3, y := 5.5, width := 0.4, height := 0.4,
          direction := { x := 0, y := -1 }, flowStrength := 0.5,
          isActive := false, temperature := 22,
          duct := some { x := 5.35, y := 5.1, width := 0.3, height := 0.4 } }
      bedroomFan :=
        { id := "bedroomFan", zone := "upperBedroom",
          x := 8.5, y := 4.5, width := 0.3, height := 0.3,
          direction := { x := -1, y := 0 }, flowStrength := 0.5,
          isActive := false, temperature := 22,
          duct := some { x := 8.0, y := 4.55, width := 0.5, height := 0.2 } } }

/-- The default apartment `new Apartment()` (9 m by 6 m). -/
def defaultApartment : Apartment K :=
  Apartment.new 9.0 6.0

/-- An apartment has the default layout when it is `new Apartment()` up to the
state the program mutates afterwards: zone temperatures and particle lists,
the open flag of each opening, the window heights (the height slider sets
them to at most 2 m), the AC settings and the fan settings. -/
structure DefaultLayout (a : Apartment K) : Prop where
  width : a.width = 9
  height : a.height = 6
  stairOpening : a.stairOpening = { x := 4.9, y := 2.9, width := 1.2, height := 0.2 }
  upperMezzanine : ∃ t l, a.zones.upperMezzanine =
    { (defaultApartment : Apartment K).zones.upperMezzanine with
      temperature := t, airParticles := l }
  upperBedroom : ∃ t l, a.zones.upperBedroom =
    { (defaultApartment : Apartment K).zones.upperBedroom with
      temperature := t, airParticles := l }
  lowerFloor : ∃ t l, a.zones.lowerFloor =
    { (defaultApartment : Apartment K).zones.lowerFloor with
      temperature := t, airParticles := l }
  bedroomDoor : ∃ b, a.openings.bedroomDoor =
    { (defaultApartment : Apartment K).openings.bedroomDoor with isOpen := b }
  leftWindow : ∃ b h, 0 ≤ h ∧ h ≤ 2 ∧ a.openings.leftWindow =
    { (defaultApartment : Apartment K).openings.leftWindow with
      isOpen := b, height := h }
  rightWindow : ∃ b h, 0 ≤ h ∧ h ≤ 2 ∧ a.openings.rightWindow =
    { (defaultApartment : Apartment K).openings.rightWindow with
      isOpen := b, height := h }
  acUnit : ∃ t f b, a.acUnit =
    { (defaultApartment : Apartment K).acUnit with
      temperature := t, flowStrength := f, isActive := b }
  stairFan : ∃ f b, a.fans.stairFan =
    { (defaultApartment : Apartment K).fans.stairFan with
      flowStrength := f, isActive := b }
  bedroomFan : ∃ f b, a.fans.bedroomFan =
    { (defaultApartment : Apartment K).fans.bedroomFan with
      flowStrength := f, isActive := b }

/-- The method `Apartment.getZoneAtPoint(x, y)`; `none` is `null`. -/
def Apartment.getZoneAtPoint (a : Apartment K) (x y : K) : Option (Zone K) :=
  if 2.95 < y ∧ y < 3.05 then
    if a.stairOpening.x ≤ x ∧ x ≤ a.stairOpening.x + a.stairOpening.width then
      if y < 3 then some a.zones.lowerFloor else some a.zones.upperMezzanine
    else none
  else
    a.zones.values.find? fun zone =>
      decide (zone.x ≤ x ∧ x ≤ zone.x + zone.width ∧
        zone.y ≤ y ∧ y ≤ zone.y + zone.height)

/-- The method `Apartment.updateOpeningState(openingName, isOpen)`. -/
def Apartment.updateOpeningState (a : Apartment K) (openingName : String) (isOpen : Bool) :
    Apartment K :=
  if openingName = "bedroomDoor" then
    { a with openings :=
      { a.openings with bedroomDoor := { a.openings.bedroomDoor with isOpen := isOpen } } }
  else if openingName = "leftWindow" then
    { a with openings :=
      { a.openings with leftWindow := { a.openings.leftWindow with isOpen := isOpen } } }
  else if openingName = "rightWindow" then
    { a with openings :=
      { a.openings with rightWindow := { a.openings.rightWindow with isOpen := isOpen } } }
  else a

/-- The method `Apartment.isValidPosition(x, y)`. -/
def Apartment.isValidPosition (a : Apartment K) (x y : K) : Bool :=
  if x < 0 ∨ a.width < x ∨ y < 0 ∨ a.height < y then false
  else (a.getZoneAtPoint x y).isSome

/-! ## `AirParticle.js` -/

/-- The method `AirParticle.calculateMass(temperature)`. -/
def AirParticle.calculateMass (temperature : K) : K :=
  let baseMass : K := 1.0
  let tempEffect : K := (20 - temperature) * 0.05
  max 0.1 (baseMass + tempEffect)

/-- The constructor `new AirParticle(x, y, temperature, velocity)`; `idDraw` is
the `Math.random()` draw used for the identifier. -/
def AirParticle.new (x y temperature : K) (velocity : Vec2 K) (idDraw : K) :
    AirParticle K where
  x := x
  y := y
  temperature := temperature
  velocity := velocity
  age := 0
  maxAge := 1200
  mass := AirParticle.calculateMass temperature
  id := idDraw
  zone := none

/-- The expression `Math.sqrt(velocity.x * velocity.x + velocity.y * velocity.y)`
shared by `update` and `addForce`. -/
def Vec2.speed (sqrt : K → K) (v : Vec2 K) : K :=
  sqrt (v.x * v.x + v.y * v.y)

/-- The method `AirParticle.addForce(forceX, forceY)`. -/
def AirParticle.addForce (sqrt : K → K) (p : AirParticle K) (forceX forceY : K) :
    AirParticle K :=
  let v : Vec2 K := { x := p.velocity.x + forceX, y := p.velocity.y + forceY }
  let maxVel : K := 5.0
  let speed := v.speed sqrt
  if maxVel < speed then
    { p with velocity := { x := (v.x / speed) * maxVel, y := (v.y / speed) * maxVel } }
  else
    { p with velocity := v }

/-- A finite sequence of `addForce` calls on one particle, first force first. -/
def AirParticle.addForces (sqrt : K → K) (p : AirParticle K) (forces : List (K × K)) :
    AirParticle K :=
  forces.foldl (fun q f => q.addForce sqrt f.1 f.2) p

/-- Lines 76 to 79 of `bounceFromWalls`: the left outer wall. -/
def AirParticle.bounceLeft (p : AirParticle K) : AirParticle K :=
  if p.x ≤ 0 then
    { p with x := 0, velocity := { p.velocity with x := |p.velocity.x| * 0.3 } }
  else p

/-- Lines 80 to 83 of `bounceFromWalls`: the right outer wall. -/
def AirParticle.bounceRight (p : AirParticle K) (a : Apartment K) : AirParticle K :=
  if a.width ≤ p.x then
    { p with x := a.width, velocity := { p.velocity with x := -|p.velocity.x| * 0.3 } }
  else p

/-- Lines 84 to 87 of `bounceFromWalls`: the bottom outer wall. -/
def AirParticle.bounceBottom (p : AirParticle K) : AirParticle K :=
  if p.y ≤ 0 then
    { p with y := 0, velocity := { p.velocity with y := |p.velocity.y| * 0.3 } }
  else p

/-- Lines 88 to 91 of `bounceFromWalls`: the top outer wall. -/
def AirParticle.bounceTop (p : AirParticle K) (a : Apartment K) : AirParticle K :=
  if a.height ≤ p.y then
    { p with y := a.height, velocity := { p.velocity with y := -|p.velocity.y| * 0.3 } }
  else p

/-- Lines 93 to 120 of `bounceFromWalls`: the solid floor at y = 3 outside the
stair opening. -/
def AirParticle.bounceFloor (p : AirParticle K) (a : Apartment K) : AirParticle K :=
  let opening := a.stairOpening
  let inStairOpening := opening.x ≤ p.x ∧ p.x ≤ opening.x + opening.width
  if ¬ inStairOpening then
    if 2.95 < p.y ∧ p.y < 3.05 then
      if 0 < p.velocity.y then
        { p with y := 2.95, velocity := { p.velocity with y := -|p.velocity.y| * 0.3 } }
      else
        { p with y := 3.05, velocity := { p.velocity with y := |p.velocity.y| * 0.3 } }
    else if 3 < p.y ∧ p.y < 3.1 then
      { p with y := 3.05, velocity := { p.velocity with y := |p.velocity.y| * 0.5 } }
    else if p.y < 3 ∧ 2.9 < p.y then
      { p with y := 2.95, velocity := { p.velocity with y := -|p.velocity.y| * 0.5 } }
    else p
  else p

/-- The method `AirParticle.bounceFromWalls(apartment)`: its five blocks in
source order. -/
def AirParticle.bounceFromWalls (p : AirParticle K) (a : Apartment K) : AirParticle K :=
  ((((p.bounceLeft).bounceRight a).bounceBottom).bounceTop a).bounceFloor a

/-- The test `inWindow` of `handleWindowEscape`: the point lies in the opening
rectangle expanded by 0.1 in x. -/
def Opening.inWindow (opening : Opening K) (x y : K) : Prop :=
  opening.x - 0.1 ≤ x ∧ x ≤ opening.x + opening.width + 0.1 ∧
  opening.y ≤ y ∧ y ≤ opening.y + opening.height

instance (opening : Opening K) (x y : K) : Decidable (opening.inWindow x y) := by
  unfold Opening.inWindow; infer_instance

/-- The loop over `Object.entries(apartment.openings)` of `handleWindowEscape`:
true when some open opening leading outside contains the particle, in which
case the method sets `age = maxAge` and returns. -/
def AirParticle.escapes (p : AirParticle K) (a : Apartment K) : Bool :=
  a.openings.entries.any fun entry =>
    entry.2.isOpen && (entry.2.toZone == "outside") && decide (entry.2.inWindow p.x p.y)

/-- The bedroom-wall block of `handleWindowEscape` (vertical wall at x = 6). -/
def AirParticle.bedroomWall (p : AirParticle K) (a : Apartment K) : AirParticle K :=
  if 5.9 < p.x ∧ p.x < 6.1 ∧ 3 ≤ p.y ∧ p.y ≤ 6 then
    let doorOpen := a.openings.bedroomDoor.isOpen
    let inDoorArea := 3 ≤ p.y ∧ p.y ≤ 5.1
    if doorOpen = false ∨ ¬ inDoorArea then
      if 0 < p.velocity.x then
        { p with x := 5.9, velocity := { p.velocity with x := -|p.velocity.x| * 0.3 } }
      else
        { p with x := 6.1, velocity := { p.velocity with x := |p.velocity.x| * 0.3 } }
    else p
  else p

/-- Lines 192 to 197 of `handleWindowEscape`: vertical centring in the AC section. -/
def AirParticle.acCenter (p : AirParticle K) (centerY allowedDeviation : K) : AirParticle K :=
  if allowedDeviation < |p.y - centerY| then
    let correctionForce := (centerY - p.y) * 0.8
    { p with velocity := { p.velocity with y := p.velocity.y + correctionForce } }
  else p

/-- Lines 199 to 206 of `handleWindowEscape`: bounce off the tube walls. -/
def AirParticle.acTubeWalls (p : AirParticle K) (sectionBottom sectionTop : K) :
    AirParticle K :=
  if p.y ≤ sectionBottom then
    { p with y := sectionBottom + 0.01, velocity := { p.velocity with y := |p.velocity.y| * 0.1 } }
  else if sectionTop ≤ p.y then
    { p with y := sectionTop - 0.01, velocity := { p.velocity with y := -|p.velocity.y| * 0.1 } }
  else p

/-- Lines 208 to 215 of `handleWindowEscape`: prevent backward movement. -/
def AirParticle.acNoBackward (p : AirParticle K) (ac : ACUnit K)
    (inMainUnit inExtendedTube : Bool) : AirParticle K :=
  if inMainUnit = true ∧ p.x ≤ ac.x then
    { p with x := ac.x + 0.01, velocity := { p.velocity with x := |p.velocity.x| * 1.5 } }
  else if inExtendedTube = true ∧ p.x ≤ ac.tube.x then
    { p with x := ac.tube.x + 0.01, velocity := { p.velocity with x := |p.velocity.x| * 1.2 } }
  else p

/-- The AC-unit block of `handleWindowEscape` (lines 162 to 216: housing and
extension tube). -/
def AirParticle.acChannel (p : AirParticle K) (a : Apartment K) : AirParticle K :=
  let ac := a.acUnit
  let tube := ac.tube
  let inMainUnit : Bool := decide (ac.x ≤ p.x ∧ p.x ≤ ac.x + ac.width ∧
    ac.y ≤ p.y ∧ p.y ≤ ac.y + ac.height)
  let inExtendedTube : Bool := decide (tube.x ≤ p.x ∧ p.x ≤ tube.x + tube.width ∧
    tube.y ≤ p.y ∧ p.y ≤ tube.y + tube.height)
  if inMainUnit = true ∨ inExtendedTube = true then
    let centerY := if inMainUnit = true then ac.y + ac.height / 2 else tube.y + tube.height / 2
    let sectionTop := if inMainUnit = true then ac.y + ac.height else tube.y + tube.height
    let sectionBottom := if inMainUnit = true then ac.y else tube.y
    let forceToOutlet : K := 2.5
    let p1 : AirParticle K :=
      { p with velocity := { p.velocity with x := max p.velocity.x forceToOutlet } }
    let allowedDeviation :=
      if inExtendedTube = true then tube.height * 0.2 else ac.height * 0.3
    ((p1.acCenter centerY allowedDeviation).acTubeWalls sectionBottom sectionTop).acNoBackward
      ac inMainUnit inExtendedTube
  else p

/-- Lines 232 to 239 of `handleWindowEscape`: bounce off the duct walls in x. -/
def AirParticle.ductBounceX (p : AirParticle K) (duct : Rect K) : AirParticle K :=
  if p.x ≤ duct.x then
    { p with x := duct.x + 0.01, velocity := { p.velocity with x := |p.velocity.x| } }
  else if duct.x + duct.width ≤ p.x then
    { p with x := duct.x + duct.width - 0.01,
             velocity := { p.velocity with x := -|p.velocity.x| } }
  else p

/-- Lines 241 to 247 of `handleWindowEscape`: bounce off the duct walls in y. -/
def AirParticle.ductBounceY (p : AirParticle K) (duct : Rect K) : AirParticle K :=
  if p.y ≤ duct.y then
    { p with y := duct.y + 0.01, velocity := { p.velocity with y := |p.velocity.y| } }
  else if duct.y + duct.height ≤ p.y then
    { p with y := duct.y + duct.height - 0.01,
             velocity := { p.velocity with y := -|p.velocity.y| } }
  else p

/-- Lines 249 to 256 of `handleWindowEscape`: centring in the duct, in x. -/
def AirParticle.ductCorrectX (p : AirParticle K) (duct : Rect K) : AirParticle K :=
  let ductCenterX := duct.x + duct.width / 2
  if duct.width * 0.3 < |p.x - ductCenterX| then
    let correctionX := (ductCenterX - p.x) * 0.5
    { p with velocity := { p.velocity with x := p.velocity.x + correctionX } }
  else p

/-- Lines 251 and 258 to 261 of `handleWindowEscape`: centring in the duct, in y. -/
def AirParticle.ductCorrectY (p : AirParticle K) (duct : Rect K) : AirParticle K :=
  let ductCenterY := duct.y + duct.height / 2
  if duct.height * 0.3 < |p.y - ductCenterY| then
    let correctionY := (ductCenterY - p.y) * 0.5
    { p with velocity := { p.velocity with y := p.velocity.y + correctionY } }
  else p

/-- The body of the `forEach` over `Object.values(apartment.fans)` in
`handleWindowEscape` (lines 219 to 263), for one fan. -/
def AirParticle.fanDuct (p : AirParticle K) (fan : Fan K) : AirParticle K :=
  match fan.isActive, fan.duct with
  | true, some duct =>
    if duct.x ≤ p.x ∧ p.x ≤ duct.x + duct.width ∧
        duct.y ≤ p.y ∧ p.y ≤ duct.y + duct.height then
      let forceStrength : K := 3.0
      let p1 : AirParticle K := { p with velocity :=
        { x := p.velocity.x + fan.direction.x * forceStrength,
          y := p.velocity.y + fan.direction.y * forceStrength } }
      (((p1.ductBounceX duct).ductBounceY duct).ductCorrectX duct).ductCorrectY duct
    else p
  | _, _ => p

/-- The method `AirParticle.handleWindowEscape(apartment)`. -/
def AirParticle.handleWindowEscape (p : AirParticle K) (a : Apartment K) : AirParticle K :=
  if p.escapes a then
    { p with age := p.maxAge }
  else
    a.fans.values.foldl AirParticle.fanDuct ((p.bedroomWall a).acChannel a)

/-- The method `AirParticle.handleBoundaries(apartment)`. -/
def AirParticle.handleBoundaries (p : AirParticle K) (a : Apartment K) : AirParticle K :=
  let p1 : AirParticle K :=
    match a.getZoneAtPoint p.x p.y with
    | none => p.bounceFromWalls a
    | some currentZone => { p with zone := some currentZone.id }
  p1.handleWindowEscape a

/-- Lines 23 to 51 of `AirParticle.update`: ageing, mass, buoyancy, gravity,
friction, Euler integration and temperature mixing, up to the boundary checks. -/
def AirParticle.integrate (sqrt : K → K) (p : AirParticle K) (dt ambientTemp : K) :
    AirParticle K :=
  let age := p.age + 1
  let mass := AirParticle.calculateMass p.temperature
  let speed := p.velocity.speed sqrt
  let momentumFactor : K := max 0.1 (1 - speed * 0.5)
  let buoyancyForce := (ambientTemp - p.temperature) * 0.02 * momentumFactor
  let vy1 := p.velocity.y + buoyancyForce * dt
  let vy2 := if p.temperature < ambientTemp then vy1 - 0.1 * dt * momentumFactor else vy1
  let vx := p.velocity.x * 0.99
  let vy := vy2 * 0.99
  let tempMixingRate : K := 0.001
  let tempDiff := ambientTemp - p.temperature
  { p with
    age := age
    mass := mass
    velocity := { x := vx, y := vy }
    x := p.x + vx * dt
    y := p.y + vy * dt
    temperature := p.temperature + tempDiff * tempMixingRate }

/-- The method `AirParticle.update(dt, apartment, ambientTemp)`: the new particle
state and the returned liveness flag `age < maxAge`. -/
def AirParticle.update (sqrt : K → K) (p : AirParticle K) (dt : K) (a : Apartment K)
    (ambientTemp : K) : AirParticle K × Bool :=
  let q := (p.integrate sqrt dt ambientTemp).handleBoundaries a
  (q, decide (q.age < q.maxAge))

/-! ## `FlowSolver.js` -/

/-- The constructor `new FlowSolver(apartment, AirParticle)`. -/
def FlowSolver.new (apartment : Apartment K) : FlowSolver K where
  apartment := apartment
  ambientTemperature := 22

/-- The method `FlowSolver.setAmbientTemperature(temp)`. -/
def FlowSolver.setAmbientTemperature (fs : FlowSolver K) (temp : K) : FlowSolver K :=
  { fs with ambientTemperature := temp }

/-- The temperature read through a particle reference of a zone list; a
reference outside the array (which the program never creates) reads as 0. -/
def particleTemperature (particles : List (AirParticle K)) (ref : Nat) : K :=
  match particles[ref]? with
  | some particle => particle.temperature
  | none => 0

/-- The expression `zone.airParticles.reduce((sum, p) => sum + p.temperature, 0) /
zone.airParticles.length` of `updateZoneTemperatures`. -/
def Zone.avgTemp (zone : Zone K) (particles : List (AirParticle K)) : K :=
  zone.airParticles.foldl (fun sum ref => sum + particleTemperature particles ref) 0 /
    (zone.airParticles.length : K)

/-- The body of the `forEach` of `FlowSolver.updateZoneTemperatures`, for one zone. -/
def FlowSolver.updateZoneTemperature (fs : FlowSolver K) (particles : List (AirParticle K))
    (zone : Zone K) : Zone K :=
  if 0 < zone.airParticles.length then
    let avgTemp := zone.avgTemp particles
    { zone with temperature := zone.temperature * 0.95 + avgTemp * 0.05 }
  else
    { zone with temperature := zone.temperature * 0.999 + fs.ambientTemperature * 0.001 }

/-- The method `FlowSolver.updateZoneTemperatures()`; `particles` is the array
the zone lists refer to. -/
def FlowSolver.updateZoneTemperatures (fs : FlowSolver K) (particles : List (AirParticle K)) :
    FlowSolver K :=
  { fs with apartment := { fs.apartment with zones :=
    { upperMezzanine := fs.updateZoneTemperature particles fs.apartment.zones.upperMezzanine
      upperBedroom := fs.updateZoneTemperature particles fs.apartment.zones.upperBedroom
      lowerFloor := fs.updateZoneTemperature particles fs.apartment.zones.lowerFloor } } }

/-- The constant `sourceZone` of `moveParticlesBetweenZones`. -/
def FlowSolver.sourceZone (zoneA zoneB : Zone K) (flowDirection : K) : Zone K :=
  if 0 < flowDirection then zoneA else zoneB

/-- The constant `targetZone` of `moveParticlesBetweenZones`. -/
def FlowSolver.targetZone (zoneA zoneB : Zone K) (flowDirection : K) : Zone K :=
  if 0 < flowDirection then zoneB else zoneA

/-- The constant `particlesToMove` of `moveParticlesBetweenZones`. -/
def FlowSolver.particlesToMove [FloorRing K] (sourceZone : Zone K) (flowStrength : K) : Int :=
  min ⌊(sourceZone.airParticles.length : K) * flowStrength * 0.1⌋
    (max 1 ⌊(sourceZone.airParticles.length : K) * 0.05⌋)

/-- One iteration of the `for` loop of `moveParticlesBetweenZones` (lines 105 to
124) with the draw `draw` of `Math.random()`.  The state is the particle array
together with the record of the `addForce` calls made so far (receiver
reference, forceX, forceY). -/
def FlowSolver.nudgeParticle [FloorRing K] (sqrt : K → K) (sourceZone targetZone : Zone K)
    (flowStrength : K) (state : List (AirParticle K) × List (Nat × K × K)) (draw : K) :
    List (AirParticle K) × List (Nat × K × K) :=
  let index : Int := ⌊draw * (sourceZone.airParticles.length : K)⌋
  match (if 0 ≤ index then sourceZone.airParticles[index.toNat]? else none) with
  | none => state
  | some ref =>
    match state.1[ref]? with
    | none => state
    | some particle =>
      let targetCenter : Vec2 K :=
        { x := targetZone.x + targetZone.width / 2, y := targetZone.y + targetZone.height / 2 }
      let dx := targetCenter.x - particle.x
      let dy := targetCenter.y - particle.y
      let distance := sqrt (dx * dx + dy * dy)
      if 0 < distance then
        let force := flowStrength * 0.5
        (state.1.set ref (particle.addForce sqrt ((dx / distance) * force)
            ((dy / distance) * force)),
          state.2 ++ [(ref, (dx / distance) * force, (dy / distance) * force)])
      else state

/-- The method `FlowSolver.moveParticlesBetweenZones(zoneA, zoneB, flowDirection,
flowStrength)`: the new particle array and the record of the `addForce` calls
it made, in order; `rand i` is the draw of iteration `i`. -/
def FlowSolver.moveParticlesBetweenZones [FloorRing K] (sqrt : K → K) (rand : Nat → K)
    (particles : List (AirParticle K)) (zoneA zoneB : Zone K) (flowDirection flowStrength : K) :
    List (AirParticle K) × List (Nat × K × K) :=
  let sourceZone := FlowSolver.sourceZone zoneA zoneB flowDirection
  let targetZone := FlowSolver.targetZone zoneA zoneB flowDirection
  if sourceZone.airParticles.length = 0 then (particles, [])
  else
    (List.range (FlowSolver.particlesToMove sourceZone flowStrength).toNat).foldl
      (fun state i =>
        FlowSolver.nudgeParticle sqrt sourceZone targetZone flowStrength state (rand i))
      (particles, [])

/-- Replays a record of `addForce` calls (receiver reference, forceX, forceY) on
a particle array. -/
def FlowSolver.applyForces (sqrt : K → K) (particles : List (AirParticle K))
    (calls : List (Nat × K × K)) : List (AirParticle K) :=
  calls.foldl
    (fun ps call =>
      match ps[call.1]? with
      | some particle => ps.set call.1 (particle.addForce sqrt call.2.1 call.2.2)
      | none => ps)
    particles

/-- The method `FlowSolver.createInterZoneFlow(zoneA, zoneB, flowArea, dt)`, with
the same result pair as `moveParticlesBetweenZones`. -/
def FlowSolver.createInterZoneFlow [FloorRing K] (sqrt : K → K) (rand : Nat → K)
    (particles : List (AirParticle K)) (zoneA zoneB : Zone K) (flowArea dt : K) :
    List (AirParticle K) × List (Nat × K × K) :=
  let tempDiff := zoneA.temperature - zoneB.temperature
  let pressureDiff := tempDiff * 0.1
  let flowDirection : K := if 0 < tempDiff then 1 else -1
  let flowStrength := |pressureDiff| * flowArea * dt * 0.1
  if 0.5 < |tempDiff| ∧ 0.01 < flowStrength then
    FlowSolver.moveParticlesBetweenZones sqrt rand particles zoneA zoneB flowDirection
      flowStrength
  else (particles, [])

/-- The method `Apartment.getOpeningsBetweenZones(zoneA, zoneB)`. -/
def Apartment.getOpeningsBetweenZones (a : Apartment K) (zoneA zoneB : String) :
    List (Opening K) :=
  (a.openings.entries.map Prod.snd).filter fun opening =>
    (opening.fromZone == zoneA && opening.toZone == zoneB) ||
    (opening.fromZone == zoneB && opening.toZone == zoneA)

/-- The body of the inner `forEach` of `FlowSolver.calculateInterZoneFlows` (lines
52 to 72) for one zone and one of its connection ids.  The state is the
particle array, the record of the `createInterZoneFlow` calls made so far (id
of zoneA, id of zoneB, flowArea) and the record of the `addForce` calls. -/
def FlowSolver.flowBetween [FloorRing K] (sqrt : K → K) (rand : Nat → K) (fs : FlowSolver K)
    (dt : K) (state : List (AirParticle K) × List (String × String × K) × List (Nat × K × K))
    (zone : Zone K) (connectedZoneId : String) :
    List (AirParticle K) × List (String × String × K) × List (Nat × K × K) :=
  match fs.apartment.zones.get? connectedZoneId with
  | none => state
  | some connectedZone =>
    let openings := fs.apartment.getOpeningsBetweenZones zone.id connectedZoneId
    let openArea : K := openings.foldl
      (fun total opening => if opening.isOpen then total + opening.width * opening.height
        else total) 0
    let totalFlowArea : K :=
      if (zone.id = "stairShaft" ∨ connectedZoneId = "stairShaft") ∧ openArea = 0 then 1.0
      else openArea
    if 0 < totalFlowArea then
      let r := FlowSolver.createInterZoneFlow sqrt rand state.1 zone connectedZone
        totalFlowArea dt
      (r.1, state.2.1 ++ [(zone.id, connectedZone.id, totalFlowArea)], state.2.2 ++ r.2)
    else state

/-- The pairs (zone, connection id) visited by the two nested `forEach` loops of
`calculateInterZoneFlows`, in order. -/
def FlowSolver.connectionPairs (fs : FlowSolver K) : List (Zone K × String) :=
  fs.apartment.zones.values.flatMap fun zone => zone.connections.map fun id => (zone, id)

/-- The method `FlowSolver.calculateInterZoneFlows(dt)`: the new particle array,
the record of the `createInterZoneFlow` calls and the record of the `addForce`
calls; `rand k` is the sequence of draws seen while pair number `k` is handled. -/
def FlowSolver.calculateInterZoneFlows [FloorRing K] (sqrt : K → K) (rand : Nat → Nat → K)
    (fs : FlowSolver K) (particles : List (AirParticle K)) (dt : K) :
    List (AirParticle K) × List (String × String × K) × List (Nat × K × K) :=
  fs.connectionPairs.enum.foldl
    (fun state pair => FlowSolver.flowBetween sqrt (rand pair.1) fs dt state pair.2.1 pair.2.2)
    (particles, [], [])

/-- The method `FlowSolver.createACParticle(ac, AirParticle)`; `cos`, `sin` and
`pi` stand for `Math.cos`, `Math.sin` and `Math.PI`, `angleDraw` is the draw
used for the angle and `idDraw` the draw of the particle constructor. -/
def FlowSolver.createACParticle (cos sin : K → K) (pi : K) (ac : ACUnit K)
    (angleDraw idDraw : K) : AirParticle K :=
  let x := ac.x + ac.width
  let y := ac.y + ac.height / 2
  let maxAngleDegrees : K := 1
  let angleRadians := (angleDraw - 0.5) * 2 * (maxAngleDegrees * pi / 180)
  let speed := ac.flowStrength * 1.5
  AirParticle.new x y ac.temperature
    { x := speed * cos angleRadians, y := speed * sin angleRadians } idDraw

/-- Lines 136 to 143 of `applyACEffects`: the spawn loop with its cap of 1000
particles; iteration `i` uses the draws `rand (2 * i)` and `rand (2 * i + 1)`. -/
def FlowSolver.spawnACParticles [FloorRing K] (cos sin : K → K) (pi : K) (rand : Nat → K)
    (ac : ACUnit K) (particles : List (AirParticle K)) : List (AirParticle K) :=
  let particlesPerFrame : Int := ⌊ac.flowStrength * 2⌋
  (List.range particlesPerFrame.toNat).foldl
    (fun ps i =>
      if ps.length < 1000 then
        ps ++ [FlowSolver.createACParticle cos sin pi ac (rand (2 * i)) (rand (2 * i + 1))]
      else ps)
    particles

/-- The test `isInAirflowPath` of `applyACEffects`. -/
def ACUnit.isInAirflowPath (ac : ACUnit K) (particle : AirParticle K) : Prop :=
  ac.x ≤ particle.x ∧ particle.x ≤ ac.tube.x + ac.tube.width + 1.0 ∧
  ac.tube.y - 0.1 ≤ particle.y ∧ particle.y ≤ ac.tube.y + ac.tube.height + 0.1

instance (ac : ACUnit K) (particle : AirParticle K) : Decidable (ac.isInAirflowPath particle) := by
  unfold ACUnit.isInAirflowPath; infer_instance

/-- The constant `distance` of `applyACEffects`: distance from the AC outlet centre. -/
def ACUnit.outletDistance (sqrt : K → K) (ac : ACUnit K) (particle : AirParticle K) : K :=
  let dx := particle.x - (ac.x + ac.width)
  let dy := particle.y - (ac.y + ac.height / 2)
  sqrt (dx * dx + dy * dy)

/-- The constant `coolingEffect` of `applyACEffects`. -/
def ACUnit.coolingEffect (ac : ACUnit K) (dt distance : K) : K :=
  max 0 ((2.0 - distance) / 2.0) * ac.flowStrength * dt * 0.8

/-- The body of the `forEach` over `acZone.airParticles` in `applyACEffects` (lines
147 to 171), for one particle. -/
def FlowSolver.coolParticle (sqrt : K → K) (ac : ACUnit K) (dt : K) (particle : AirParticle K) :
    AirParticle K :=
  if ac.isInAirflowPath particle then
    let distance := ac.outletDistance sqrt particle
    if distance < 2.0 then
      let coolingEffect := ac.coolingEffect dt distance
      let targetTemp := ac.temperature
      let cooled : AirParticle K := { particle with
        temperature := particle.temperature * (1 - coolingEffect) + targetTemp * coolingEffect }
      let pushForce := ac.flowStrength * 0.3 * (2.0 - distance) / 2.0
      cooled.addForce sqrt pushForce 0
    else particle
  else particle

/-- The method `FlowSolver.applyACEffects(particles, dt)`: the new particle array. -/
def FlowSolver.applyACEffects [FloorRing K] (sqrt cos sin : K → K) (pi : K) (rand : Nat → K)
    (fs : FlowSolver K) (particles : List (AirParticle K)) (dt : K) : List (AirParticle K) :=
  if fs.apartment.acUnit.isActive = false then particles
  else
    let ac := fs.apartment.acUnit
    match fs.apartment.zones.get? ac.zone with
    | none => particles
    | some acZone =>
      acZone.airParticles.foldl
        (fun ps ref =>
          match ps[ref]? with
          | some particle => ps.set ref (FlowSolver.coolParticle sqrt ac dt particle)
          | none => ps)
        (FlowSolver.spawnACParticles cos sin pi rand ac particles)

/-! ## `Apartment.js` and `AirParticle.js`, further methods -/

/-- The lookup `openings[key]`; `none` is JavaScript `undefined`. -/
def Openings.get? (o : Openings K) (key : String) : Option (Opening K) :=
  if key = "bedroomDoor" then some o.bedroomDoor
  else if key = "leftWindow" then some o.leftWindow
  else if key = "rightWindow" then some o.rightWindow
  else none

/-- The method `Apartment.getConnectedZones(zoneId)`. -/
def Apartment.getConnectedZones (a : Apartment K) (zoneId : String) : List (Zone K) :=
  match a.zones.get? zoneId with
  | none => []
  | some zone => zone.connections.filterMap fun id => a.zones.get? id

/-- The method `Apartment.updateACSettings(temperature, flowStrength)`. -/
def Apartment.updateACSettings (a : Apartment K) (temperature flowStrength : K) : Apartment K :=
  { a with acUnit := { a.acUnit with temperature := temperature, flowStrength := flowStrength } }

/-- The method `Apartment.getAverageTemperatureInZone(zoneId)`; `particles` is the
array the zone lists refer to.  For an id that names no zone the guard
`!zone || ...` is true and the method evaluates `zone.temperature` on
`undefined`, which throws a TypeError: the result is then `Except.error`. -/
def Apartment.getAverageTemperatureInZone (a : Apartment K) (particles : List (AirParticle K))
    (zoneId : String) : Except String K :=
  match a.zones.get? zoneId with
  | none => Except.error "TypeError: zone is undefined"
  | some zone =>
    if zone.airParticles.length = 0 then Except.ok zone.temperature
    else Except.ok (zone.avgTemp particles)

/-- The method `AirParticle.setTemperature(newTemp)`. -/
def AirParticle.setTemperature (p : AirParticle K) (newTemp : K) : AirParticle K :=
  { p with temperature := newTemp, mass := AirParticle.calculateMass newTemp }

/-- Lines 61 to 68 of `handleBoundaries`: the zone lookup with its bounce
fallback, before `handleWindowEscape` is called. -/
def AirParticle.resolveZone (p : AirParticle K) (a : Apartment K) : AirParticle K :=
  match a.getZoneAtPoint p.x p.y with
  | none => p.bounceFromWalls a
  | some currentZone => { p with zone := some currentZone.id }

/-- The value of the escape test of `handleWindowEscape` during one `update`. -/
def AirParticle.escapesInUpdate (sqrt : K → K) (p : AirParticle K) (dt : K) (a : Apartment K)
    (ambientTemp : K) : Bool :=
  ((p.integrate sqrt dt ambientTemp).resolveZone a).escapes a

/-- A particle never escapes along a sequence of `update` calls, each with its
own `dt`, apartment state and ambient temperature. -/
def AirParticle.neverEscapes (sqrt : K → K) :
    AirParticle K → List (K × Apartment K × K) → Prop
  | _, [] => True
  | p, step :: rest =>
    p.escapesInUpdate sqrt step.1 step.2.1 step.2.2 = false ∧
    AirParticle.neverEscapes sqrt (p.update sqrt step.1 step.2.1 step.2.2).1 rest

/-- The liveness flags returned by a sequence of `update` calls on one particle. -/
def AirParticle.updateFlags (sqrt : K → K) :
    AirParticle K → List (K × Apartment K × K) → List Bool
  | _, [] => []
  | p, step :: rest =>
    (p.update sqrt step.1 step.2.1 step.2.2).2 ::
      AirParticle.updateFlags sqrt (p.update sqrt step.1 step.2.1 step.2.2).1 rest

/-- The particle after a sequence of `update` calls. -/
def AirParticle.updateAll (sqrt : K → K) :
    AirParticle K → List (K × Apartment K × K) → AirParticle K
  | p, [] => p
  | p, step :: rest =>
    AirParticle.updateAll sqrt (p.update sqrt step.1 step.2.1 step.2.2).1 rest

/-- The valid points of the default layout: inside the bounds [0, 9] x [0, 6] and,
when in the floor band, inside the stair gap. -/
def InsideDefaultLayout (x y : K) : Prop :=
  0 ≤ x ∧ x ≤ 9 ∧ 0 ≤ y ∧ y ≤ 6 ∧ (2.95 < y → y < 3.05 → 4.9 ≤ x ∧ x ≤ 6.1)

/-- The point-in-rectangle test used for the tube (`inExtendedTube`) and the fan
ducts (`inDuct`). -/
def Rect.contains (r : Rect K) (x y : K) : Prop :=
  r.x ≤ x ∧ x ≤ r.x + r.width ∧ r.y ≤ y ∧ y ≤ r.y + r.height

/-- The test `inMainUnit` of `handleWindowEscape`. -/
def ACUnit.inMainUnit (ac : ACUnit K) (x y : K) : Prop :=
  ac.x ≤ x ∧ x ≤ ac.x + ac.width ∧ ac.y ≤ y ∧ y ≤ ac.y + ac.height

/-! ## `FlowSolver.js` and `main.js`, particle interactions and zone assignment -/

/-- The method `AirParticle.distanceTo(other)`. -/
def AirParticle.distanceTo (sqrt : K → K) (p other : AirParticle K) : K :=
  let dx := p.x - other.x
  let dy := p.y - other.y
  sqrt (dx * dx + dy * dy)

/-- The body of the inner loop of `FlowSolver.handleParticleInteractions` (lines
200 to 220) for the pair of indices `i`, `j`.  The state is the particle array
together with the list of the indices of the particles whose velocity is no
longer a finite number: when `distance` is 0 the quotients `dx` and `dy` are
`0 / 0`, that is `NaN`, and the two `addForce` calls turn both velocities into
`NaN` (the test `speed > maxVel` is false for `NaN`); the velocity recorded for
a listed particle is then without meaning.  Temperatures and positions do not
depend on velocities here. -/
def FlowSolver.interactPair (sqrt : K → K) (dt : K)
    (state : List (AirParticle K) × List Nat) (i j : Nat) : List (AirParticle K) × List Nat :=
  match state.1[i]? with
  | none => state
  | some particleA =>
    match state.1[j]? with
    | none => state
    | some particleB =>
      let distance := particleA.distanceTo sqrt particleB
      if distance < 0.3 then
        let tempDiff := particleA.temperature - particleB.temperature
        let mixingRate := 0.1 * dt
        let mixedA : AirParticle K :=
          { particleA with temperature := particleA.temperature - tempDiff * mixingRate }
        let mixedB : AirParticle K :=
          { particleB with temperature := particleB.temperature + tempDiff * mixingRate }
        let repulsion : K := 0.05
        if distance = 0 then
          ((state.1.set i mixedA).set j mixedB, state.2 ++ [i, j])
        else
          let dx := (particleA.x - particleB.x) / distance
          let dy := (particleA.y - particleB.y) / distance
          ((state.1.set i (mixedA.addForce sqrt (dx * repulsion) (dy * repulsion))).set j
            (mixedB.addForce sqrt (-dx * repulsion) (-dy * repulsion)), state.2)
      else state

/-- The pairs of indices visited by the two nested `for` loops of
`handleParticleInteractions` on an array of length `n`, in order. -/
def FlowSolver.interactionPairs (n : Nat) : List (Nat × Nat) :=
  (List.range n).flatMap fun i => (List.range' (i + 1) (n - (i + 1))).map fun j => (i, j)

/-- The method `FlowSolver.handleParticleInteractions(particles, dt)`: the new
particle array and the indices of the particles left with a `NaN` velocity. -/
def FlowSolver.handleParticleInteractions (sqrt : K → K) (particles : List (AirParticle K))
    (dt : K) : List (AirParticle K) × List Nat :=
  (FlowSolver.interactionPairs particles.length).foldl
    (fun state pair => FlowSolver.interactPair sqrt dt state pair.1 pair.2) (particles, [])

/-- The key of an entry of `Apartment.zones`: the identity of a zone object. -/
inductive ZoneKey where
  | upperMezzanine
  | upperBedroom
  | lowerFloor
deriving DecidableEq, Repr

/-- The zone object `zones[key]`. -/
def Zones.byKey (z : Zones K) : ZoneKey → Zone K
  | ZoneKey.upperMezzanine => z.upperMezzanine
  | ZoneKey.upperBedroom => z.upperBedroom
  | ZoneKey.lowerFloor => z.lowerFloor

/-- The list `Object.keys(zones)`, in insertion order. -/
def Zones.keys : List ZoneKey :=
  [ZoneKey.upperMezzanine, ZoneKey.upperBedroom, ZoneKey.lowerFloor]

/-- The method `Apartment.getZoneAtPoint(x, y)` read as returning a reference: the
key of the zone object it returns. -/
def Apartment.getZoneKeyAtPoint (a : Apartment K) (x y : K) : Option ZoneKey :=
  if 2.95 < y ∧ y < 3.05 then
    if a.stairOpening.x ≤ x ∧ x ≤ a.stairOpening.x + a.stairOpening.width then
      if y < 3 then some ZoneKey.lowerFloor else some ZoneKey.upperMezzanine
    else none
  else
    Zones.keys.find? fun key =>
      decide ((a.zones.byKey key).x ≤ x ∧ x ≤ (a.zones.byKey key).x + (a.zones.byKey key).width ∧
        (a.zones.byKey key).y ≤ y ∧ y ≤ (a.zones.byKey key).y + (a.zones.byKey key).height)

/-- The statement `zones[key].airParticles.push(ref)`. -/
def Zones.push (z : Zones K) (key : ZoneKey) (ref : Nat) : Zones K :=
  match key with
  | ZoneKey.upperMezzanine =>
    { z with upperMezzanine :=
      { z.upperMezzanine with airParticles := z.upperMezzanine.airParticles ++ [ref] } }
  | ZoneKey.upperBedroom =>
    { z with upperBedroom :=
      { z.upperBedroom with airParticles := z.upperBedroom.airParticles ++ [ref] } }
  | ZoneKey.lowerFloor =>
    { z with lowerFloor :=
      { z.lowerFloor with airParticles := z.lowerFloor.airParticles ++ [ref] } }

/-- Lines 10 to 12 of `FlowSolver.update`: every zone list is emptied. -/
def FlowSolver.clearZones (fs : FlowSolver K) : FlowSolver K :=
  { fs with apartment := { fs.apartment with zones :=
    { upperMezzanine := { fs.apartment.zones.upperMezzanine with airParticles := [] }
      upperBedroom := { fs.apartment.zones.upperBedroom with airParticles := [] }
      lowerFloor := { fs.apartment.zones.lowerFloor with airParticles := [] } } } }

/-- The body of the `forEach` of lines 15 to 21 of `FlowSolver.update` for the
particle `entry.2` at index `entry.1`. -/
def FlowSolver.assignParticle (state : FlowSolver K × List (AirParticle K))
    (entry : Nat × AirParticle K) : FlowSolver K × List (AirParticle K) :=
  match state.1.apartment.getZoneKeyAtPoint entry.2.x entry.2.y with
  | none => state
  | some key =>
    ({ state.1 with apartment := { state.1.apartment with
        zones := state.1.apartment.zones.push key entry.1 } },
      state.2.set entry.1
        { entry.2 with zone := some (state.1.apartment.zones.byKey key).id })

/-- Lines 9 to 21 of `FlowSolver.update` (steps 1 and 2): the solver with the new
zone lists and the particle array with the `zone` fields written. -/
def FlowSolver.assignZones (fs : FlowSolver K) (particles : List (AirParticle K)) :
    FlowSolver K × List (AirParticle K) :=
  particles.enum.foldl FlowSolver.assignParticle (fs.clearZones, particles)

/-- Lines 28 to 38 of `AirParticle.update`: the amount the buoyancy and gravity
terms add to `velocity.y`. -/
def AirParticle.buoyancyGravity (sqrt : K → K) (p : AirParticle K) (dt ambientTemp : K) : K :=
  let speed := p.velocity.speed sqrt
  let momentumFactor : K := max 0.1 (1 - speed * 0.5)
  let buoyancyForce := (ambientTemp - p.temperature) * 0.02 * momentumFactor
  if p.temperature < ambientTemp then buoyancyForce * dt - 0.1 * dt * momentumFactor
  else buoyancyForce * dt

/-! ## `main.js` -/

/-- Lines 200 to 203 of `FluidSimulation.update`: every particle is updated and
the particles whose `update` returned false are dropped. -/
def FluidSimulation.updateParticles (sqrt : K → K) (particles : List (AirParticle K))
    (dt : K) (a : Apartment K) (ambientTemp : K) : List (AirParticle K) :=
  particles.filterMap fun particle =>
    let r := particle.update sqrt dt a ambientTemp
    if r.2 then some r.1 else none

/-- The `injectAir` handler of `FluidSimulation.setupCanvasInteraction` (lines
143 to 160): the new `particles` array.  Particle `i` uses the draws
`rand (5 * i)` to `rand (5 * i + 3)` for the jitter of x, y, velocity.x and
velocity.y, and `rand (5 * i + 4)` for its identifier. -/
def FluidSimulation.injectAir (rand : Nat → K) (a : Apartment K)
    (particles : List (AirParticle K)) (x y temperature : K) (velocity : Vec2 K) :
    List (AirParticle K) :=
  if a.isValidPosition x y = true then
    (List.range 5).foldl
      (fun ps i => ps ++ [AirParticle.new
        (x + (rand (5 * i) - 0.5) * 0.3)
        (y + (rand (5 * i + 1) - 0.5) * 0.3)
        temperature
        { x := velocity.x + (rand (5 * i + 2) - 0.5) * 0.5,
          y := velocity.y + (rand (5 * i + 3) - 0.5) * 0.5 }
        (rand (5 * i + 4))])
      particles
  else particles

/-- The object `FluidSimulation.settings`. -/
structure Settings (K : Type) where
  ambientTemp : K
  acTemp : K
  acFlow : K
  particleDensity : K
  flowSpeed : K
deriving DecidableEq, Repr

/-- The settings the constructor of `FluidSimulation` starts with. -/
def defaultSettings : Settings K :=
  { ambientTemp := 22, acTemp := 16, acFlow := 50, particleDensity := 100, flowSpeed := 1.0 }

/-- The method `FluidSimulation.addACParticles()`: the new particle array; `rand i`
is the draw of the particle constructor in iteration `i`. -/
def FluidSimulation.addACParticles [FloorRing K] (settings : Settings K) (a : Apartment K)
    (rand : Nat → K) (particles : List (AirParticle K)) : List (AirParticle K) :=
  let particlesPerFrame : Int := ⌊settings.acFlow / 12⌋
  let ac := a.acUnit
  let maxParticles : K := max 500 (settings.particleDensity * 8)
  (List.range particlesPerFrame.toNat).foldl
    (fun ps i =>
      if (ps.length : K) < maxParticles * 0.95 then
        let x := ac.x + 0.05
        let y := ac.y + ac.height / 2
        let minSpeed : K := 1.2
        let speed := max minSpeed (ac.flowStrength * 1.5)
        ps ++ [AirParticle.new x y settings.acTemp { x := speed, y := 0 } (rand i)]
      else ps)
    particles

/-! ## Concrete inputs used by the witnesses -/

/-- A cold particle at rest at (3, 2.7), temperature 2. -/
def floorBandParticle : AirParticle K :=
  AirParticle.new 3 2.7 2 { x := 0, y := 0 } 0

/-- An ambient particle at rest at (0.1, 1), inside the left window. -/
def windowParticle : AirParticle K :=
  AirParticle.new 0.1 1 22 { x := 0, y := 0 } 0

/-- The flow solver of the default apartment after `setAmbientTemperature(30)`. -/
def warmAmbientSolver : FlowSolver K :=
  (FlowSolver.new defaultApartment).setAmbientTemperature 30

/-- The upper mezzanine of the default apartment cooled to 20 degrees, no
particle listed. -/
def coolMezzanine : Zone K :=
  { (defaultApartment : Apartment K).zones.upperMezzanine with temperature := 20 }

/-- The upper bedroom of the default apartment at 30 degrees, listing the six
particles of `bedroomParticles`. -/
def warmBedroom : Zone K :=
  { (defaultApartment : Apartment K).zones.upperBedroom with
    temperature := 30, airParticles := [0, 1, 2, 3, 4, 5] }

/-- Six particles at rest at (7, 4.5) in the bedroom, temperature 30. -/
def bedroomParticles : List (AirParticle K) :=
  List.replicate 6 (AirParticle.new 7 4.5 30 { x := 0, y := 0 } 0)

/-- A particle at rest at (1, 1) on the lower floor, temperature 20. -/
def lowerFloorParticle : AirParticle K :=
  AirParticle.new 1 1 20 { x := 0, y := 0 } 0

/-- An ambient particle at rest at the centre of the AC outlet face, (0.8, 4.15). -/
def outletParticle : AirParticle K :=
  AirParticle.new 0.8 4.15 22 { x := 0, y := 0 } 0

/-- An ambient particle inside the AC housing at (0.5, 4.15), moving straight up
with speed 4.9. -/
def housingParticle : AirParticle K :=
  AirParticle.new 0.5 4.15 22 { x := 0, y := 4.9 } 0

/-- An ambient particle at (1, 1) on the lower floor with velocity (3, 4), speed 5. -/
def diagonalParticle : AirParticle K :=
  AirParticle.new 1 1 22 { x := 3, y := 4 } 0

/-- The default apartment with particles 0 and 1 listed on the lower floor. -/
def twoParticleApartment : Apartment K :=
  { (defaultApartment : Apartment K) with
    zones := { (defaultApartment : Apartment K).zones with
      lowerFloor := { (defaultApartment : Apartment K).zones.lowerFloor with
        airParticles := [0, 1] } } }

/-- Two particles on the lower floor, temperatures 20 and 26. -/
def twoParticles : List (AirParticle K) :=
  [AirParticle.new 1 1 20 { x := 0, y := 0 } 0, AirParticle.new 2 1 26 { x := 0, y := 0 } 0]

/-- The default apartment with the bedroom door closed and the upper mezzanine
cooled to 16 degrees (the lower floor stays at 22). -/
def closedDoorApartment : Apartment K :=
  { ((defaultApartment : Apartment K).updateOpeningState "bedroomDoor" false) with
    zones := { (defaultApartment : Apartment K).zones with
      upperMezzanine := { (defaultApartment : Apartment K).zones.upperMezzanine with
        temperature := 16 } } }

/-- The AC unit of the default apartment after `updateACSettings(16, 1)`: target
16 degrees, full flow strength. -/
def fullFlowAC : ACUnit K :=
  ((defaultApartment : Apartment K).updateACSettings 16 1).acUnit

/-- A particle as `addACParticles` creates it in the default apartment with the
default settings: at (0.25, 4.15), velocity (1.2, 0), temperature 16. -/
def ventParticle (idDraw : K) : AirParticle K :=
  AirParticle.new 0.25 4.15 16 { x := 1.2, y := 0 } idDraw

/-- Four particles at rest: on the lower floor at (1, 1), in the mezzanine at
(1, 4), in the bedroom at (7, 4), and in the floor band outside the stair gap
at (1, 3), where no zone is resolved. -/
def fourParticles : List (AirParticle K) :=
  [AirParticle.new 1 1 22 { x := 0, y := 0 } 0, AirParticle.new 1 4 22 { x := 0, y := 0 } 0,
   AirParticle.new 7 4 22 { x := 0, y := 0 } 0, AirParticle.new 1 3 22 { x := 0, y := 0 } 0]

/-- An ambient particle at (6, 4), inside the band of the partition wall, moving
right with velocity (2, 0). -/
def wallParticle : AirParticle K :=
  AirParticle.new 6 4 22 { x := 2, y := 0 } 0

/-- An ambient particle inside the AC housing at (0.5, 4.15), moving left with
velocity (-3, 0). -/
def backwardParticle : AirParticle K :=
  AirParticle.new 0.5 4.15 22 { x := -3, y := 0 } 0

/-- An ambient particle on the lower face of the floor band at (1, 2.95), moving
up with velocity (0, 2). -/
def jumpParticle : AirParticle K :=
  AirParticle.new 1 2.95 22 { x := 0, y := 2 } 0

/-- An ambient particle on the lower floor at (1, 2.9), moving up with velocity
(0, 2). -/
def risingParticle : AirParticle K :=
  AirParticle.new 1 2.9 22 { x := 0, y := 2 } 0

/-- A warm particle at rest at (1, 1), temperature 30. -/
def warmParticle : AirParticle K :=
  AirParticle.new 1 1 30 { x := 0, y := 0 } 0

/-- The default apartment (bedroom door open) with the upper mezzanine cooled to
16 degrees, the bedroom staying at 22. -/
def coolMezzanineApartment : Apartment K :=
  { (defaultApartment : Apartment K) with
    zones := { (defaultApartment : Apartment K).zones with
      upperMezzanine := { (defaultApartment : Apartment K).zones.upperMezzanine with
        temperature := 16 } } }

/-! ## JavaScript numbers with NaN

The methods of `AirParticle.js` that `update` runs, once more, for particle
numbers that may be NaN.  An IEEE comparison with a NaN operand is false, an
arithmetic operation, `Math.abs`, `Math.max` and `Math.sqrt` with a NaN operand
give NaN.  The numbers of the apartment are the finite values written by its
constructor and setters.  Each definition follows its source lines and the
definition of the same name above, with the tests read as JavaScript reads
them. -/

/-- A JavaScript number that is a finite value or NaN. -/
inductive JSNumber (K : Type) where
  | finite (value : K)
  | nan
deriving DecidableEq, Repr

instance : Coe K (JSNumber K) := ⟨JSNumber.finite⟩

instance (n : Nat) [OfNat K n] : OfNat (JSNumber K) n := ⟨JSNumber.finite (OfNat.ofNat n)⟩

instance : OfScientific (JSNumber K) :=
  ⟨fun m s e => JSNumber.finite (OfScientific.ofScientific m s e)⟩

/-- The operator `+`. -/
def JSNumber.add : JSNumber K → JSNumber K → JSNumber K
  | .finite a, .finite b => .finite (a + b)
  | _, _ => .nan

/-- The operator `-`. -/
def JSNumber.sub : JSNumber K → JSNumber K → JSNumber K
  | .finite a, .finite b => .finite (a - b)
  | _, _ => .nan

/-- The operator `*`. -/
def JSNumber.mul : JSNumber K → JSNumber K → JSNumber K
  | .finite a, .finite b => .finite (a * b)
  | _, _ => .nan

/-- The operator `/` for a divisor that is not zero, and 0 / 0, which is NaN; the
methods below divide by the literal 2 only. -/
def JSNumber.div : JSNumber K → JSNumber K → JSNumber K
  | .finite a, .finite b => if b = 0 then .nan else .finite (a / b)
  | _, _ => .nan

/-- Unary minus. -/
def JSNumber.neg : JSNumber K → JSNumber K
  | .finite a => .finite (-a)
  | .nan => .nan

instance : Add (JSNumber K) := ⟨JSNumber.add⟩
instance : Sub (JSNumber K) := ⟨JSNumber.sub⟩
instance : Mul (JSNumber K) := ⟨JSNumber.mul⟩
instance : Div (JSNumber K) := ⟨JSNumber.div⟩
instance : Neg (JSNumber K) := ⟨JSNumber.neg⟩

/-- The operator `<=`, false when an operand is NaN. -/
def JSNumber.le : JSNumber K → JSNumber K → Prop
  | .finite a, .finite b => a ≤ b
  | _, _ => False

/-- The operator `<`, false when an operand is NaN. -/
def JSNumber.lt : JSNumber K → JSNumber K → Prop
  | .finite a, .finite b => a < b
  | _, _ => False

instance : LE (JSNumber K) := ⟨JSNumber.le⟩
instance : LT (JSNumber K) := ⟨JSNumber.lt⟩

instance (x y : JSNumber K) : Decidable (x ≤ y) :=
  match x, y with
  | .finite a, .finite b => inferInstanceAs (Decidable (a ≤ b))
  | .finite _, .nan => isFalse fun h => h
  | .nan, _ => isFalse fun h => h

instance (x y : JSNumber K) : Decidable (x < y) :=
  match x, y with
  | .finite a, .finite b => inferInstanceAs (Decidable (a < b))
  | .finite _, .nan => isFalse fun h => h
  | .nan, _ => isFalse fun h => h

/-- The function `Math.abs`. -/
def JSNumber.abs : JSNumber K → JSNumber K
  | .finite a => .finite |a|
  | .nan => .nan

/-- The function `Math.max` of two arguments, NaN when an argument is NaN. -/
def JSNumber.max : JSNumber K → JSNumber K → JSNumber K
  | .finite a, .finite b => .finite (Max.max a b)
  | _, _ => .nan

/-- The function `Math.sqrt`, NaN for a negative or NaN argument. -/
def JSNumber.sqrt (sqrt : K → K) : JSNumber K → JSNumber K
  | .finite a => if a < 0 then .nan else .finite (sqrt a)
  | .nan => .nan

/-- The method `Apartment.getZoneAtPoint(x, y)` for particle coordinates that may
be NaN; `none` is `null`. -/
def Apartment.getZoneAtPointJS (a : Apartment K) (x y : JSNumber K) : Option (Zone K) :=
  if 2.95 < y ∧ y < 3.05 then
    if (a.stairOpening.x : JSNumber K) ≤ x ∧
        x ≤ (a.stairOpening.x : JSNumber K) + (a.stairOpening.width : JSNumber K) then
      if y < 3 then some a.zones.lowerFloor else some a.zones.upperMezzanine
    else none
  else
    a.zones.values.find? fun zone =>
      decide ((zone.x : JSNumber K) ≤ x ∧ x ≤ (zone.x : JSNumber K) + (zone.width : JSNumber K) ∧
        (zone.y : JSNumber K) ≤ y ∧ y ≤ (zone.y : JSNumber K) + (zone.height : JSNumber K))

/-- The method `Apartment.isValidPosition(x, y)` for coordinates that may be NaN. -/
def Apartment.isValidPositionJS (a : Apartment K) (x y : JSNumber K) : Bool :=
  if x < 0 ∨ (a.width : JSNumber K) < x ∨ y < 0 ∨ (a.height : JSNumber K) < y then false
  else (a.getZoneAtPointJS x y).isSome

/-- The method `AirParticle.calculateMass(temperature)`. -/
def AirParticle.calculateMassJS (temperature : JSNumber K) : JSNumber K :=
  let baseMass : JSNumber K := 1.0
  let tempEffect : JSNumber K := (20 - temperature) * 0.05
  JSNumber.max 0.1 (baseMass + tempEffect)

/-- The expression `Math.sqrt(velocity.x * velocity.x + velocity.y * velocity.y)`. -/
def Vec2.speedJS (sqrt : K → K) (v : Vec2 (JSNumber K)) : JSNumber K :=
  JSNumber.sqrt sqrt (v.x * v.x + v.y * v.y)

/-- Lines 76 to 79 of `bounceFromWalls`: the left outer wall. -/
def AirParticle.bounceLeftJS (p : AirParticle (JSNumber K)) : AirParticle (JSNumber K) :=
  if p.x ≤ 0 then
    { p with x := 0, velocity := { p.velocity with x := JSNumber.abs p.velocity.x * 0.3 } }
  else p

/-- Lines 80 to 83 of `bounceFromWalls`: the right outer wall. -/
def AirParticle.bounceRightJS (p : AirParticle (JSNumber K)) (a : Apartment K) :
    AirParticle (JSNumber K) :=
  if (a.width : JSNumber K) ≤ p.x then
    { p with x := (a.width : JSNumber K),
             velocity := { p.velocity with x := -JSNumber.abs p.velocity.x * 0.3 } }
  else p

/-- Lines 84 to 87 of `bounceFromWalls`: the bottom outer wall. -/
def AirParticle.bounceBottomJS (p : AirParticle (JSNumber K)) : AirParticle (JSNumber K) :=
  if p.y ≤ 0 then
    { p with y := 0, velocity := { p.velocity with y := JSNumber.abs p.velocity.y * 0.3 } }
  else p

/-- Lines 88 to 91 of `bounceFromWalls`: the top outer wall. -/
def AirParticle.bounceTopJS (p : AirParticle (JSNumber K)) (a : Apartment K) :
    AirParticle (JSNumber K) :=
  if (a.height : JSNumber K) ≤ p.y then
    { p with y := (a.height : JSNumber K),
             velocity := { p.velocity with y := -JSNumber.abs p.velocity.y * 0.3 } }
  else p

/-- Lines 93 to 120 of `bounceFromWalls`: the solid floor at y = 3 outside the
stair opening. -/
def AirParticle.bounceFloorJS (p : AirParticle (JSNumber K)) (a : Apartment K) :
    AirParticle (JSNumber K) :=
  let opening := a.stairOpening
  let inStairOpening := (opening.x : JSNumber K) ≤ p.x ∧
    p.x ≤ (opening.x : JSNumber K) + (opening.width : JSNumber K)
  if ¬ inStairOpening then
    if 2.95 < p.y ∧ p.y < 3.05 then
      if 0 < p.velocity.y then
        { p with y := 2.95,
                 velocity := { p.velocity with y := -JSNumber.abs p.velocity.y * 0.3 } }
      else
        { p with y := 3.05,
                 velocity := { p.velocity with y := JSNumber.abs p.velocity.y * 0.3 } }
    else if 3 < p.y ∧ p.y < 3.1 then
      { p with y := 3.05, velocity := { p.velocity with y := JSNumber.abs p.velocity.y * 0.5 } }
    else if p.y < 3 ∧ 2.9 < p.y then
      { p with y := 2.95, velocity := { p.velocity with y := -JSNumber.abs p.velocity.y * 0.5 } }
    else p
  else p

/-- The method `AirParticle.bounceFromWalls(apartment)`: its five blocks in
source order. -/
def AirParticle.bounceFromWallsJS (p : AirParticle (JSNumber K)) (a : Apartment K) :
    AirParticle (JSNumber K) :=
  ((((p.bounceLeftJS).bounceRightJS a).bounceBottomJS).bounceTopJS a).bounceFloorJS a

/-- The test `inWindow` of `handleWindowEscape`. -/
def Opening.inWindowJS (opening : Opening K) (x y : JSNumber K) : Prop :=
  (opening.x : JSNumber K) - 0.1 ≤ x ∧
  x ≤ (opening.x : JSNumber K) + (opening.width : JSNumber K) + 0.1 ∧
  (opening.y : JSNumber K) ≤ y ∧ y ≤ (opening.y : JSNumber K) + (opening.height : JSNumber K)

instance (opening : Opening K) (x y : JSNumber K) : Decidable (opening.inWindowJS x y) := by
  unfold Opening.inWindowJS; infer_instance

/-- The loop over `Object.entries(apartment.openings)` of `handleWindowEscape`:
true when some open opening leading outside contains the particle. -/
def AirParticle.escapesJS (p : AirParticle (JSNumber K)) (a : Apartment K) : Bool :=
  a.openings.entries.any fun entry =>
    entry.2.isOpen && (entry.2.toZone == "outside") && decide (entry.2.inWindowJS p.x p.y)

/-- The bedroom-wall block of `handleWindowEscape` (vertical wall at x = 6). -/
def AirParticle.bedroomWallJS (p : AirParticle (JSNumber K)) (a : Apartment K) :
    AirParticle (JSNumber K) :=
  if 5.9 < p.x ∧ p.x < 6.1 ∧ 3 ≤ p.y ∧ p.y ≤ 6 then
    let doorOpen := a.openings.bedroomDoor.isOpen
    let inDoorArea := 3 ≤ p.y ∧ p.y ≤ 5.1
    if doorOpen = false ∨ ¬ inDoorArea then
      if 0 < p.velocity.x then
        { p with x := 5.9,
                 velocity := { p.velocity with x := -JSNumber.abs p.velocity.x * 0.3 } }
      else
        { p with x := 6.1,
                 velocity := { p.velocity with x := JSNumber.abs p.velocity.x * 0.3 } }
    else p
  else p

/-- Lines 192 to 197 of `handleWindowEscape`: vertical centring in the AC section. -/
def AirParticle.acCenterJS (p : AirParticle (JSNumber K)) (centerY allowedDeviation : JSNumber K) :
    AirParticle (JSNumber K) :=
  if allowedDeviation < JSNumber.abs (p.y - centerY) then
    let correctionForce := (centerY - p.y) * 0.8
    { p with velocity := { p.velocity with y := p.velocity.y + correctionForce } }
  else p

/-- Lines 199 to 206 of `handleWindowEscape`: bounce off the tube walls. -/
def AirParticle.acTubeWallsJS (p : AirParticle (JSNumber K))
    (sectionBottom sectionTop : JSNumber K) : AirParticle (JSNumber K) :=
  if p.y ≤ sectionBottom then
    { p with y := sectionBottom + 0.01,
             velocity := { p.velocity with y := JSNumber.abs p.velocity.y * 0.1 } }
  else if sectionTop ≤ p.y then
    { p with y := sectionTop - 0.01,
             velocity := { p.velocity with y := -JSNumber.abs p.velocity.y * 0.1 } }
  else p

/-- Lines 208 to 215 of `handleWindowEscape`: prevent backward movement. -/
def AirParticle.acNoBackwardJS (p : AirParticle (JSNumber K)) (ac : ACUnit K)
    (inMainUnit inExtendedTube : Bool) : AirParticle (JSNumber K) :=
  if inMainUnit = true ∧ p.x ≤ (ac.x : JSNumber K) then
    { p with x := (ac.x : JSNumber K) + 0.01,
             velocity := { p.velocity with x := JSNumber.abs p.velocity.x * 1.5 } }
  else if inExtendedTube = true ∧ p.x ≤ (ac.tube.x : JSNumber K) then
    { p with x := (ac.tube.x : JSNumber K) + 0.01,
             velocity := { p.velocity with x := JSNumber.abs p.velocity.x * 1.2 } }
  else p

/-- The AC-unit block of `handleWindowEscape` (lines 162 to 216: housing and
extension tube). -/
def AirParticle.acChannelJS (p : AirParticle (JSNumber K)) (a : Apartment K) :
    AirParticle (JSNumber K) :=
  let ac := a.acUnit
  let tube := ac.tube
  let inMainUnit : Bool := decide ((ac.x : JSNumber K) ≤ p.x ∧
    p.x ≤ (ac.x : JSNumber K) + (ac.width : JSNumber K) ∧
    (ac.y : JSNumber K) ≤ p.y ∧ p.y ≤ (ac.y : JSNumber K) + (ac.height : JSNumber K))
  let inExtendedTube : Bool := decide ((tube.x : JSNumber K) ≤ p.x ∧
    p.x ≤ (tube.x : JSNumber K) + (tube.width : JSNumber K) ∧
    (tube.y : JSNumber K) ≤ p.y ∧ p.y ≤ (tube.y : JSNumber K) + (tube.height : JSNumber K))
  if inMainUnit = true ∨ inExtendedTube = true then
    let centerY : JSNumber K :=
      if inMainUnit = true then (ac.y : JSNumber K) + (ac.height : JSNumber K) / 2
      else (tube.y : JSNumber K) + (tube.height : JSNumber K) / 2
    let sectionTop : JSNumber K :=
      if inMainUnit = true then (ac.y : JSNumber K) + (ac.height : JSNumber K)
      else (tube.y : JSNumber K) + (tube.height : JSNumber K)
    let sectionBottom : JSNumber K :=
      if inMainUnit = true then (ac.y : JSNumber K) else (tube.y : JSNumber K)
    let forceToOutlet : JSNumber K := 2.5
    let p1 : AirParticle (JSNumber K) :=
      { p with velocity := { p.velocity with x := JSNumber.max p.velocity.x forceToOutlet } }
    let allowedDeviation : JSNumber K :=
      if inExtendedTube = true then (tube.height : JSNumber K) * 0.2
      else (ac.height : JSNumber K) * 0.3
    ((p1.acCenterJS centerY allowedDeviation).acTubeWallsJS sectionBottom
      sectionTop).acNoBackwardJS ac inMainUnit inExtendedTube
  else p

/-- Lines 232 to 239 of `handleWindowEscape`: bounce off the duct walls in x. -/
def AirParticle.ductBounceXJS (p : AirParticle (JSNumber K)) (duct : Rect K) :
    AirParticle (JSNumber K) :=
  if p.x ≤ (duct.x : JSNumber K) then
    { p with x := (duct.x : JSNumber K) + 0.01,
             velocity := { p.velocity with x := JSNumber.abs p.velocity.x } }
  else if (duct.x : JSNumber K) + (duct.width : JSNumber K) ≤ p.x then
    { p with x := (duct.x : JSNumber K) + (duct.width : JSNumber K) - 0.01,
             velocity := { p.velocity with x := -JSNumber.abs p.velocity.x } }
  else p

/-- Lines 241 to 247 of `handleWindowEscape`: bounce off the duct walls in y. -/
def AirParticle.ductBounceYJS (p : AirParticle (JSNumber K)) (duct : Rect K) :
    AirParticle (JSNumber K) :=
  if p.y ≤ (duct.y : JSNumber K) then
    { p with y := (duct.y : JSNumber K) + 0.01,
             velocity := { p.velocity with y := JSNumber.abs p.velocity.y } }
  else if (duct.y : JSNumber K) + (duct.height : JSNumber K) ≤ p.y then
    { p with y := (duct.y : JSNumber K) + (duct.height : JSNumber K) - 0.01,
             velocity := { p.velocity with y := -JSNumber.abs p.velocity.y } }
  else p

/-- Lines 249 to 256 of `handleWindowEscape`: centring in the duct, in x. -/
def AirParticle.ductCorrectXJS (p : AirParticle (JSNumber K)) (duct : Rect K) :
    AirParticle (JSNumber K) :=
  let ductCenterX : JSNumber K := (duct.x : JSNumber K) + (duct.width : JSNumber K) / 2
  if (duct.width : JSNumber K) * 0.3 < JSNumber.abs (p.x - ductCenterX) then
    let correctionX := (ductCenterX - p.x) * 0.5
    { p with velocity := { p.velocity with x := p.velocity.x + correctionX } }
  else p

/-- Lines 251 and 258 to 261 of `handleWindowEscape`: centring in the duct, in y. -/
def AirParticle.ductCorrectYJS (p : AirParticle (JSNumber K)) (duct : Rect K) :
    AirParticle (JSNumber K) :=
  let ductCenterY : JSNumber K := (duct.y : JSNumber K) + (duct.height : JSNumber K) / 2
  if (duct.height : JSNumber K) * 0.3 < JSNumber.abs (p.y - ductCenterY) then
    let correctionY := (ductCenterY - p.y) * 0.5
    { p with velocity := { p.velocity with y := p.velocity.y + correctionY } }
  else p

/-- The body of the `forEach` over `Object.values(apartment.fans)` in
`handleWindowEscape` (lines 219 to 263), for one fan. -/
def AirParticle.fanDuctJS (p : AirParticle (JSNumber K)) (fan : Fan K) :
    AirParticle (JSNumber K) :=
  match fan.isActive, fan.duct with
  | true, some duct =>
    if (duct.x : JSNumber K) ≤ p.x ∧ p.x ≤ (duct.x : JSNumber K) + (duct.width : JSNumber K) ∧
        (duct.y : JSNumber K) ≤ p.y ∧
        p.y ≤ (duct.y : JSNumber K) + (duct.height : JSNumber K) then
      let forceStrength : JSNumber K := 3.0
      let p1 : AirParticle (JSNumber K) := { p with velocity :=
        { x := p.velocity.x + (fan.direction.x : JSNumber K) * forceStrength,
          y := p.velocity.y + (fan.direction.y : JSNumber K) * forceStrength } }
      (((p1.ductBounceXJS duct).ductBounceYJS duct).ductCorrectXJS duct).ductCorrectYJS duct
    else p
  | _, _ => p

/-- The method `AirParticle.handleWindowEscape(apartment)`. -/
def AirParticle.handleWindowEscapeJS (p : AirParticle (JSNumber K)) (a : Apartment K) :
    AirParticle (JSNumber K) :=
  if p.escapesJS a then
    { p with age := p.maxAge }
  else
    a.fans.values.foldl AirParticle.fanDuctJS ((p.bedroomWallJS a).acChannelJS a)

/-- The method `AirParticle.handleBoundaries(apartment)`. -/
def AirParticle.handleBoundariesJS (p : AirParticle (JSNumber K)) (a : Apartment K) :
    AirParticle (JSNumber K) :=
  let p1 : AirParticle (JSNumber K) :=
    match a.getZoneAtPointJS p.x p.y with
    | none => p.bounceFromWallsJS a
    | some currentZone => { p with zone := some currentZone.id }
  p1.handleWindowEscapeJS a

/-- Lines 23 to 51 of `AirParticle.update`: ageing, mass, buoyancy, gravity,
friction, Euler integration and temperature mixing, up to the boundary checks. -/
def AirParticle.integrateJS (sqrt : K → K) (p : AirParticle (JSNumber K))
    (dt ambientTemp : JSNumber K) : AirParticle (JSNumber K) :=
  let age := p.age + 1
  let mass := AirParticle.calculateMassJS p.temperature
  let speed := p.velocity.speedJS sqrt
  let momentumFactor : JSNumber K := JSNumber.max 0.1 (1 - speed * 0.5)
  let buoyancyForce := (ambientTemp - p.temperature) * 0.02 * momentumFactor
  let vy1 := p.velocity.y + buoyancyForce * dt
  let vy2 := if p.temperature < ambientTemp then vy1 - 0.1 * dt * momentumFactor else vy1
  let vx := p.velocity.x * 0.99
  let vy := vy2 * 0.99
  let tempMixingRate : JSNumber K := 0.001
  let tempDiff := ambientTemp - p.temperature
  { p with
    age := age
    mass := mass
    velocity := { x := vx, y := vy }
    x := p.x + vx * dt
    y := p.y + vy * dt
    temperature := p.temperature + tempDiff * tempMixingRate }

/-- The method `AirParticle.update(dt, apartment, ambientTemp)`: the new particle
state and the returned liveness flag `age < maxAge`. -/
def AirParticle.updateJS (sqrt : K → K) (p : AirParticle (JSNumber K)) (dt : JSNumber K)
    (a : Apartment K) (ambientTemp : JSNumber K) : AirParticle (JSNumber K) × Bool :=
  let q := (p.integrateJS sqrt dt ambientTemp).handleBoundariesJS a
  (q, decide (q.age < q.maxAge))

/-- The particle state `update` leaves after n calls, the liveness flag put aside. -/
def AirParticle.updatesJS (sqrt : K → K) (dt : JSNumber K) (a : Apartment K)
    (ambientTemp : JSNumber K) : Nat → AirParticle (JSNumber K) → AirParticle (JSNumber K)
  | 0, p => p
  | n + 1, p => AirParticle.updatesJS sqrt dt a ambientTemp n (p.updateJS sqrt dt a ambientTemp).1

/-- A particle released by `addACParticles` at the AC outlet (0.25, 4.15) with
temperature 16, at the end of the next `FlowSolver.update`: the zone assignment
has set its zone field to the mezzanine and `handleParticleInteractions` has
called `addForce(NaN, NaN)` on it, so both velocity components are NaN. -/
def nanVelocityParticle : AirParticle (JSNumber K) :=
  { x := 0.25, y := 4.15, temperature := 16,
    velocity := { x := JSNumber.nan, y := JSNumber.nan },
    age := 0, maxAge := 1200, mass := AirParticle.calculateMassJS 16, id := 0,
    zone := some "upperMezzanine" }

/-- The method `AirParticle.addForce(forceX, forceY)` for numbers that may be NaN. -/
def AirParticle.addForceJS (sqrt : K → K) (p : AirParticle (JSNumber K))
    (forceX forceY : JSNumber K) : AirParticle (JSNumber K) :=
  let v : Vec2 (JSNumber K) := { x := p.velocity.x + forceX, y := p.velocity.y + forceY }
  let maxVel : JSNumber K := 5.0
  let speed := v.speedJS sqrt
  if maxVel < speed then
    { p with velocity := { x := (v.x / speed) * maxVel, y := (v.y / speed) * maxVel } }
  else
    { p with velocity := v }

/-! ## IEEE-754 double precision

JavaScript numbers are IEEE-754 binary64 values and every arithmetic operation
returns the double nearest to the exact result (round to nearest, ties to
even).  The two methods below are embedded once more with each operation of
the source followed by that rounding; a decimal literal of the source denotes
the double nearest to it. -/

/-- The integer nearest to `x`, the even one of the two when `x` lies half way. -/
def roundHalfEven [FloorRing K] (x : K) : Int :=
  if x - (⌊x⌋ : K) < 1 / 2 then ⌊x⌋
  else if 1 / 2 < x - (⌊x⌋ : K) then ⌊x⌋ + 1
  else if ⌊x⌋ % 2 = 0 then ⌊x⌋ else ⌊x⌋ + 1

/-- The double nearest to the real number `r`: a significand of 53 bits, with
the exponent `e` of `r` (`2 ^ e ≤ |r| < 2 ^ (e + 1)`) not below -1022, so that
the spacing of the doubles near `r` is `2 ^ (e - 52)`, and `2 ^ (-1074)` in the
subnormal range.  The result is `none` when the rounded value reaches
`2 ^ 1024`, where the operation overflows to an infinity. -/
def toDouble [FloorRing K] (r : K) : Option K :=
  if r = 0 then some 0
  else
    let e : Int := max (Int.log 2 |r|) (-1022)
    let d : K := (roundHalfEven (r * (2 : K) ^ (52 - e)) : K) * (2 : K) ^ (e - 52)
    if |d| < (2 : K) ^ (1024 : Int) then some d else none

/-- The method `AirParticle.addForce(forceX, forceY)` in double precision; `none`
when an operation overflows. -/
def AirParticle.addForceDouble [FloorRing K] (sqrt : K → K) (p : AirParticle K)
    (forceX forceY : K) : Option (AirParticle K) := do
  let vx ← toDouble (p.velocity.x + forceX)
  let vy ← toDouble (p.velocity.y + forceY)
  let maxVel ← toDouble (5.0 : K)
  let xx ← toDouble (vx * vx)
  let yy ← toDouble (vy * vy)
  let sum ← toDouble (xx + yy)
  let speed ← toDouble (sqrt sum)
  if maxVel < speed then
    let qx ← toDouble (vx / speed)
    let rx ← toDouble (qx * maxVel)
    let qy ← toDouble (vy / speed)
    let ry ← toDouble (qy * maxVel)
    pure { p with velocity := { x := rx, y := ry } }
  else
    pure { p with velocity := { x := vx, y := vy } }

/-- A finite sequence of `addForce` calls on one particle in double precision,
first force first; `none` when an operation overflows. -/
def AirParticle.addForcesDouble [FloorRing K] (sqrt : K → K) (p : AirParticle K)
    (forces : List (K × K)) : Option (AirParticle K) :=
  forces.foldlM (fun q f => q.addForceDouble sqrt f.1 f.2) p

/-- The expression `zone.airParticles.reduce((sum, p) => sum + p.temperature, 0) /
zone.airParticles.length` of `updateZoneTemperatures` in double precision. -/
def Zone.avgTempDouble [FloorRing K] (zone : Zone K) (particles : List (AirParticle K)) :
    Option K := do
  let sum ← zone.airParticles.foldlM
    (fun sum ref => toDouble (sum + particleTemperature particles ref)) (0 : K)
  toDouble (sum / (zone.airParticles.length : K))

/-- The body of the `forEach` of `FlowSolver.updateZoneTemperatures`, for one
zone, in double precision; `none` when an operation overflows. -/
def FlowSolver.updateZoneTemperatureDouble [FloorRing K] (fs : FlowSolver K)
    (particles : List (AirParticle K)) (zone : Zone K) : Option (Zone K) :=
  if 0 < zone.airParticles.length then do
    let avgTemp ← zone.avgTempDouble particles
    let c95 ← toDouble (0.95 : K)
    let c05 ← toDouble (0.05 : K)
    let a ← toDouble (zone.temperature * c95)
    let b ← toDouble (avgTemp * c05)
    let t ← toDouble (a + b)
    pure { zone with temperature := t }
  else do
    let c999 ← toDouble (0.999 : K)
    let c001 ← toDouble (0.001 : K)
    let a ← toDouble (zone.temperature * c999)
    let b ← toDouble (fs.ambientTemperature * c001)
    let t ← toDouble (a + b)
    pure { zone with temperature := t }

/-- The zone after `n` consecutive runs of the `forEach` body of
`updateZoneTemperatures` on it, in double precision. -/
def FlowSolver.updateZoneTemperatureDoubleIter [FloorRing K] (fs : FlowSolver K)
    (particles : List (AirParticle K)) : Nat → Zone K → Option (Zone K)
  | 0, zone => some zone
  | n + 1, zone =>
    (fs.updateZoneTemperatureDouble particles zone).bind
      (FlowSolver.updateZoneTemperatureDoubleIter fs particles n)

/-- An ambient particle at (1, 1) moving right with velocity (5, 0), at the
speed ceiling. -/
def ceilingParticle : AirParticle K :=
  AirParticle.new 1 1 22 { x := 5, y := 0 } 0

/-- The empty lower floor of the default apartment at the temperature
8444249301319493 / 2 ^ 48, the double 29.999999999999336. -/
def stalledZone : Zone K :=
  { (defaultApartment : Apartment K).zones.lowerFloor with
    temperature := 8444249301319493 / 2 ^ 48 }

/-! ## Shared lemmas -/

/-- The default apartment has the default layout. -/
theorem defaultApartment_layout : DefaultLayout (defaultApartment : Apartment K) where
  width := by norm_num [defaultApartment, Apartment.new]
  height := by norm_num [defaultApartment, Apartment.new]
  stairOpening := rfl
  upperMezzanine := ⟨22, [], rfl⟩
  upperBedroom := ⟨22, [], rfl⟩
  lowerFloor := ⟨22, [], rfl⟩
  bedroomDoor := ⟨true, rfl⟩
  leftWindow := ⟨false, 1.5, by norm_num, by norm_num, rfl⟩
  rightWindow := ⟨false, 1.5, by norm_num, by norm_num, rfl⟩
  acUnit := ⟨16, 0.5, true, rfl⟩
  stairFan := ⟨0.5, false, rfl⟩
  bedroomFan := ⟨0.5, false, rfl⟩

/-- In the default layout a point of the floor band outside the stair gap
resolves to no zone. -/
theorem getZoneAtPoint_band_outside (a : Apartment K) (hL : DefaultLayout a) (x y : K)
    (hlo : 2.95 < y) (hhi : y < 3.05) (hx : ¬ (4.9 ≤ x ∧ x ≤ 6.1)) :
    a.getZoneAtPoint x y = none := by
  have hgap : a.stairOpening.x + a.stairOpening.width = 6.1 := by
    rw [hL.stairOpening]; norm_num
  have hx0 : a.stairOpening.x = 4.9 := by rw [hL.stairOpening]
  unfold Apartment.getZoneAtPoint
  rw [if_pos ⟨hlo, hhi⟩, hgap, hx0, if_neg hx]

/-- In the default layout the bedroom wall, the AC unit and the fan ducts leave
alone a particle that is below y = 4 and not inside the wall band: after
`handleWindowEscape` only its age can differ. -/
theorem handleWindowEscape_below_devices (a : Apartment K) (hL : DefaultLayout a)
    (p : AirParticle K) (hy : p.y < 4) (hw : p.x ≤ 5.9 ∨ 6.1 ≤ p.x ∨ p.y < 3) :
    p.handleWindowEscape a = (if p.escapes a then { p with age := p.maxAge } else p) := by
  obtain ⟨t, f, b, hac⟩ := hL.acUnit
  obtain ⟨f1, b1, hf1⟩ := hL.stairFan
  obtain ⟨f2, b2, hf2⟩ := hL.bedroomFan
  unfold AirParticle.handleWindowEscape
  split_ifs with he
  · rfl
  · have h1 : p.bedroomWall a = p := by
      unfold AirParticle.bedroomWall
      rw [if_neg]
      rintro ⟨h1, h2, h3, -⟩
      rcases hw with h | h | h <;> linarith
    have h2 : p.acChannel a = p := by
      unfold AirParticle.acChannel
      simp only [hac, defaultApartment, Apartment.new]
      rw [if_neg]
      simp only [Bool.decide_eq_true, decide_eq_true_eq, not_or, not_and, not_le]
      constructor
      · intro _ _ h; linarith
      · intro _ _ h; norm_num at h; linarith
    have h3 : ∀ q : AirParticle K, q.y < 4 → q.fanDuct a.fans.stairFan = q := by
      intro q hq
      unfold AirParticle.fanDuct
      rw [hf1]
      cases b1
      · rfl
      · simp only [defaultApartment, Apartment.new]
        rw [if_neg]
        rintro ⟨-, -, h, -⟩
        norm_num at h; linarith
    have h4 : ∀ q : AirParticle K, q.y < 4 → q.fanDuct a.fans.bedroomFan = q := by
      intro q hq
      unfold AirParticle.fanDuct
      rw [hf2]
      cases b2
      · rfl
      · simp only [defaultApartment, Apartment.new]
        rw [if_neg]
        rintro ⟨-, -, h, -⟩
        norm_num at h; linarith
    simp only [Fans.values, List.foldl_cons, List.foldl_nil, h1, h2, h3 p hy, h4 p hy]

/-! ### What each block of the boundary resolution leaves unchanged -/

@[simp] theorem bounceLeft_y (p : AirParticle K) : p.bounceLeft.y = p.y := by
  unfold AirParticle.bounceLeft; split_ifs <;> rfl

@[simp] theorem bounceLeft_vy (p : AirParticle K) :
    p.bounceLeft.velocity.y = p.velocity.y := by
  unfold AirParticle.bounceLeft; split_ifs <;> rfl

@[simp] theorem bounceLeft_age (p : AirParticle K) : p.bounceLeft.age = p.age := by
  unfold AirParticle.bounceLeft; split_ifs <;> rfl

@[simp] theorem bounceLeft_maxAge (p : AirParticle K) : p.bounceLeft.maxAge = p.maxAge := by
  unfold AirParticle.bounceLeft; split_ifs <;> rfl

@[simp] theorem bounceRight_y (p : AirParticle K) (a : Apartment K) :
    (p.bounceRight a).y = p.y := by
  unfold AirParticle.bounceRight; split_ifs <;> rfl

@[simp] theorem bounceRight_vy (p : AirParticle K) (a : Apartment K) :
    (p.bounceRight a).velocity.y = p.velocity.y := by
  unfold AirParticle.bounceRight; split_ifs <;> rfl

@[simp] theorem bounceRight_age (p : AirParticle K) (a : Apartment K) :
    (p.bounceRight a).age = p.age := by
  unfold AirParticle.bounceRight; split_ifs <;> rfl

@[simp] theorem bounceRight_maxAge (p : AirParticle K) (a : Apartment K) :
    (p.bounceRight a).maxAge = p.maxAge := by
  unfold AirParticle.bounceRight; split_ifs <;> rfl

@[simp] theorem bounceBottom_x (p : AirParticle K) : p.bounceBottom.x = p.x := by
  unfold AirParticle.bounceBottom; split_ifs <;> rfl

@[simp] theorem bounceBottom_vx (p : AirParticle K) :
    p.bounceBottom.velocity.x = p.velocity.x := by
  unfold AirParticle.bounceBottom; split_ifs <;> rfl

@[simp] theorem bounceBottom_age (p : AirParticle K) : p.bounceBottom.age = p.age := by
  unfold AirParticle.bounceBottom; split_ifs <;> rfl

@[simp] theorem bounceBottom_maxAge (p : AirParticle K) :
    p.bounceBottom.maxAge = p.maxAge := by
  unfold AirParticle.bounceBottom; split_ifs <;> rfl

@[simp] theorem bounceTop_x (p : AirParticle K) (a : Apartment K) :
    (p.bounceTop a).x = p.x := by
  unfold AirParticle.bounceTop; split_ifs <;> rfl

@[simp] theorem bounceTop_vx (p : AirParticle K) (a : Apartment K) :
    (p.bounceTop a).velocity.x = p.velocity.x := by
  unfold AirParticle.bounceTop; split_ifs <;> rfl

@[simp] theorem bounceTop_age (p : AirParticle K) (a : Apartment K) :
    (p.bounceTop a).age = p.age := by
  unfold AirParticle.bounceTop; split_ifs <;> rfl

@[simp] theorem bounceTop_maxAge (p : AirParticle K) (a : Apartment K) :
    (p.bounceTop a).maxAge = p.maxAge := by
  unfold AirParticle.bounceTop; split_ifs <;> rfl

@[simp] theorem bounceFloor_x (p : AirParticle K) (a : Apartment K) :
    (p.bounceFloor a).x = p.x := by
  unfold AirParticle.bounceFloor; simp only []; split_ifs <;> rfl

@[simp] theorem bounceFloor_vx (p : AirParticle K) (a : Apartment K) :
    (p.bounceFloor a).velocity.x = p.velocity.x := by
  unfold AirParticle.bounceFloor; simp only []; split_ifs <;> rfl

@[simp] theorem bounceFloor_age (p : AirParticle K) (a : Apartment K) :
    (p.bounceFloor a).age = p.age := by
  unfold AirParticle.bounceFloor; simp only []; split_ifs <;> rfl

@[simp] theorem bounceFloor_maxAge (p : AirParticle K) (a : Apartment K) :
    (p.bounceFloor a).maxAge = p.maxAge := by
  unfold AirParticle.bounceFloor; simp only []; split_ifs <;> rfl

@[simp] theorem bounceFromWalls_age (p : AirParticle K) (a : Apartment K) :
    (p.bounceFromWalls a).age = p.age := by
  simp [AirParticle.bounceFromWalls]

@[simp] theorem bounceFromWalls_maxAge (p : AirParticle K) (a : Apartment K) :
    (p.bounceFromWalls a).maxAge = p.maxAge := by
  simp [AirParticle.bounceFromWalls]

@[simp] theorem bedroomWall_age (p : AirParticle K) (a : Apartment K) :
    (p.bedroomWall a).age = p.age := by
  unfold AirParticle.bedroomWall; simp only []; split_ifs <;> rfl

@[simp] theorem bedroomWall_maxAge (p : AirParticle K) (a : Apartment K) :
    (p.bedroomWall a).maxAge = p.maxAge := by
  unfold AirParticle.bedroomWall; simp only []; split_ifs <;> rfl

@[simp] theorem acCenter_age (p : AirParticle K) (c d : K) : (p.acCenter c d).age = p.age := by
  unfold AirParticle.acCenter; simp only []; split_ifs <;> rfl

@[simp] theorem acCenter_maxAge (p : AirParticle K) (c d : K) :
    (p.acCenter c d).maxAge = p.maxAge := by
  unfold AirParticle.acCenter; simp only []; split_ifs <;> rfl

@[simp] theorem acTubeWalls_age (p : AirParticle K) (c d : K) :
    (p.acTubeWalls c d).age = p.age := by
  unfold AirParticle.acTubeWalls; split_ifs <;> rfl

@[simp] theorem acTubeWalls_maxAge (p : AirParticle K) (c d : K) :
    (p.acTubeWalls c d).maxAge = p.maxAge := by
  unfold AirParticle.acTubeWalls; split_ifs <;> rfl

@[simp] theorem acNoBackward_age (p : AirParticle K) (ac : ACUnit K) (m t : Bool) :
    (p.acNoBackward ac m t).age = p.age := by
  unfold AirParticle.acNoBackward; split_ifs <;> rfl

@[simp] theorem acNoBackward_maxAge (p : AirParticle K) (ac : ACUnit K) (m t : Bool) :
    (p.acNoBackward ac m t).maxAge = p.maxAge := by
  unfold AirParticle.acNoBackward; split_ifs <;> rfl

@[simp] theorem acChannel_age (p : AirParticle K) (a : Apartment K) :
    (p.acChannel a).age = p.age := by
  unfold AirParticle.acChannel; simp only []; split_ifs <;> simp

@[simp] theorem acChannel_maxAge (p : AirParticle K) (a : Apartment K) :
    (p.acChannel a).maxAge = p.maxAge := by
  unfold AirParticle.acChannel; simp only []; split_ifs <;> simp

@[simp] theorem ductBounceX_age (p : AirParticle K) (duct : Rect K) :
    (p.ductBounceX duct).age = p.age := by
  unfold AirParticle.ductBounceX; split_ifs <;> rfl

@[simp] theorem ductBounceX_maxAge (p : AirParticle K) (duct : Rect K) :
    (p.ductBounceX duct).maxAge = p.maxAge := by
  unfold AirParticle.ductBounceX; split_ifs <;> rfl

@[simp] theorem ductBounceY_age (p : AirParticle K) (duct : Rect K) :
    (p.ductBounceY duct).age = p.age := by
  unfold AirParticle.ductBounceY; split_ifs <;> rfl

@[simp] theorem ductBounceY_maxAge (p : AirParticle K) (duct : Rect K) :
    (p.ductBounceY duct).maxAge = p.maxAge := by
  unfold AirParticle.ductBounceY; split_ifs <;> rfl

@[simp] theorem ductCorrectX_age (p : AirParticle K) (duct : Rect K) :
    (p.ductCorrectX duct).age = p.age := by
  unfold AirParticle.ductCorrectX; simp only []; split_ifs <;> rfl

@[simp] theorem ductCorrectX_maxAge (p : AirParticle K) (duct : Rect K) :
    (p.ductCorrectX duct).maxAge = p.maxAge := by
  unfold AirParticle.ductCorrectX; simp only []; split_ifs <;> rfl

@[simp] theorem ductCorrectY_age (p : AirParticle K) (duct : Rect K) :
    (p.ductCorrectY duct).age = p.age := by
  unfold AirParticle.ductCorrectY; simp only []; split_ifs <;> rfl

@[simp] theorem ductCorrectY_maxAge (p : AirParticle K) (duct : Rect K) :
    (p.ductCorrectY duct).maxAge = p.maxAge := by
  unfold AirParticle.ductCorrectY; simp only []; split_ifs <;> rfl

@[simp] theorem fanDuct_age (p : AirParticle K) (fan : Fan K) :
    (p.fanDuct fan).age = p.age := by
  unfold AirParticle.fanDuct
  split
  · simp only []; split_ifs <;> simp
  · rfl

@[simp] theorem fanDuct_maxAge (p : AirParticle K) (fan : Fan K) :
    (p.fanDuct fan).maxAge = p.maxAge := by
  unfold AirParticle.fanDuct
  split
  · simp only []; split_ifs <;> simp
  · rfl

/-- The method `handleWindowEscape` sets the age to `maxAge` exactly when the
escape test succeeds, and never changes `maxAge`. -/
theorem handleWindowEscape_age (p : AirParticle K) (a : Apartment K) :
    (p.handleWindowEscape a).age = (if p.escapes a then p.maxAge else p.age) ∧
    (p.handleWindowEscape a).maxAge = p.maxAge := by
  unfold AirParticle.handleWindowEscape
  split_ifs with h
  · exact ⟨rfl, rfl⟩
  · simp [Fans.values]

/-- In the default layout the two outer-wall blocks in x clamp x to [0, 9]. -/
theorem bounceLeftRight_x (a : Apartment K) (hL : DefaultLayout a) (q : AirParticle K) :
    ((q.bounceLeft).bounceRight a).x = (if q.x ≤ 0 then 0 else if 9 ≤ q.x then 9 else q.x) := by
  unfold AirParticle.bounceRight AirParticle.bounceLeft
  rw [hL.width]
  by_cases h1 : q.x ≤ 0
  · have h2 : ¬ (9 : K) ≤ 0 := by norm_num
    simp only [h1, h2, if_true, if_false]
  · by_cases h2 : (9 : K) ≤ q.x
    · simp only [h1, h2, if_true, if_false]
    · simp only [h1, h2, if_false]

/-- The bottom and top outer-wall blocks do nothing strictly inside 0 < y < height. -/
theorem bounceBottomTop_inside (a : Apartment K) (q : AirParticle K) (h0 : 0 < q.y)
    (h1 : q.y < a.height) : (q.bounceBottom).bounceTop a = q := by
  have hb : q.bounceBottom = q := by
    unfold AirParticle.bounceBottom; rw [if_neg (not_le.mpr h0)]
  rw [hb]
  unfold AirParticle.bounceTop; rw [if_neg (not_le.mpr h1)]

/-- In the default layout `bounceFromWalls` moves a particle of the floor band
outside the stair gap to the face of the band it was heading away from, with
restitution 0.3, and leaves it outside the wall band around x = 6. -/
theorem bounceFromWalls_band (a : Apartment K) (hL : DefaultLayout a) (q : AirParticle K)
    (hx : ¬ (4.9 ≤ q.x ∧ q.x ≤ 6.1)) (hlo : 2.95 < q.y) (hhi : q.y < 3.05) :
    (q.bounceFromWalls a).y = (if 0 < q.velocity.y then 2.95 else 3.05) ∧
    (q.bounceFromWalls a).velocity.y =
      (if 0 < q.velocity.y then -|q.velocity.y| * 0.3 else |q.velocity.y| * 0.3) ∧
    ((q.bounceFromWalls a).x ≤ 5.9 ∨ 6.1 ≤ (q.bounceFromWalls a).x) := by
  have hx2 : q.x < 4.9 ∨ 6.1 < q.x := by
    by_contra hc
    push_neg at hc
    exact hx hc
  have e1 : (4.9 : K) + 1.2 = 6.1 := by norm_num
  have hbt : (((q.bounceLeft).bounceRight a).bounceBottom).bounceTop a
      = (q.bounceLeft).bounceRight a := by
    apply bounceBottomTop_inside
    · simp only [bounceRight_y, bounceLeft_y]; norm_num at hlo; linarith
    · simp only [bounceRight_y, bounceLeft_y, hL.height]; norm_num at hhi; linarith
  have hX := bounceLeftRight_x a hL q
  have hgap : ¬ (4.9 ≤ ((q.bounceLeft).bounceRight a).x ∧
      ((q.bounceLeft).bounceRight a).x ≤ 6.1) := by
    rw [hX]
    norm_num at hx2 ⊢
    split_ifs with h1 h2
    · norm_num
    · norm_num
    · intro h; rcases hx2 with h3 | h3 <;> linarith
  have hout : ((q.bounceLeft).bounceRight a).x ≤ 5.9 ∨
      6.1 ≤ ((q.bounceLeft).bounceRight a).x := by
    by_contra hc
    push_neg at hc
    apply hgap
    norm_num at hc ⊢
    constructor <;> linarith
  unfold AirParticle.bounceFromWalls
  rw [hbt]
  refine ⟨?_, ?_, by simpa using hout⟩
  · unfold AirParticle.bounceFloor
    simp only [hL.stairOpening, e1, hgap, not_false_eq_true, if_true, bounceRight_y,
      bounceLeft_y, bounceRight_vy, bounceLeft_vy, hlo, hhi, and_self]
    split_ifs <;> rfl
  · unfold AirParticle.bounceFloor
    simp only [hL.stairOpening, e1, hgap, not_false_eq_true, if_true, bounceRight_y,
      bounceLeft_y, bounceRight_vy, bounceLeft_vy, hlo, hhi, and_self]
    split_ifs <;> rfl

/-- In the default layout a point that resolves to a zone lies within the
bounds [0, 9] x [0, 6]. -/
theorem getZoneAtPoint_some_bounds (a : Apartment K) (hL : DefaultLayout a) (x y : K)
    (zone : Zone K) (h : a.getZoneAtPoint x y = some zone) :
    0 ≤ x ∧ x ≤ 9 ∧ 0 ≤ y ∧ y ≤ 6 := by
  obtain ⟨tl, ll, hlow⟩ := hL.lowerFloor
  obtain ⟨tu, lu, hup⟩ := hL.upperMezzanine
  obtain ⟨tb, lb, hbed⟩ := hL.upperBedroom
  unfold Apartment.getZoneAtPoint at h
  split_ifs at h with hband hgap
  · rw [hL.stairOpening] at hgap
    norm_num at hband hgap ⊢
    refine ⟨?_, ?_, ?_, ?_⟩ <;> linarith [hband.1, hband.2, hgap.1, hgap.2]
  · rw [hL.stairOpening] at hgap
    norm_num at hband hgap ⊢
    refine ⟨?_, ?_, ?_, ?_⟩ <;> linarith [hband.1, hband.2, hgap.1, hgap.2]
  · have hp := List.find?_some h
    have hm := List.mem_of_find?_eq_some h
    simp only [Zones.values, List.mem_cons, List.mem_singleton, List.not_mem_nil, or_false] at hm
    rcases hm with rfl | rfl | rfl
    · rw [hup] at hp
      simp only [defaultApartment, Apartment.new, decide_eq_true_eq] at hp
      norm_num at hp ⊢
      refine ⟨?_, ?_, ?_, ?_⟩ <;> linarith [hp.1, hp.2.1, hp.2.2.1, hp.2.2.2]
    · rw [hbed] at hp
      simp only [defaultApartment, Apartment.new, decide_eq_true_eq] at hp
      norm_num at hp ⊢
      refine ⟨?_, ?_, ?_, ?_⟩ <;> linarith [hp.1, hp.2.1, hp.2.2.1, hp.2.2.2]
    · rw [hlow] at hp
      simp only [defaultApartment, Apartment.new, decide_eq_true_eq] at hp
      norm_num at hp ⊢
      refine ⟨?_, ?_, ?_, ?_⟩ <;> linarith [hp.1, hp.2.1, hp.2.2.1, hp.2.2.2]

/-- The floor block does nothing at or below y = 2.9. -/
theorem bounceFloor_low (a : Apartment K) (q : AirParticle K) (h : q.y ≤ 2.9) :
    q.bounceFloor a = q := by
  unfold AirParticle.bounceFloor
  simp only []
  have h1 : ¬ (2.95 < q.y ∧ q.y < 3.05) := by
    rintro ⟨h1, -⟩; norm_num at h h1; linarith
  have h2 : ¬ (3 < q.y ∧ q.y < 3.1) := by
    rintro ⟨h1, -⟩; norm_num at h h1; linarith
  have h3 : ¬ (q.y < 3 ∧ 2.9 < q.y) := by
    rintro ⟨-, h1⟩; exact absurd h (not_le.mpr h1)
  simp only [h1, h2, h3, if_false, ite_self]

/-- In the default layout, for a particle with 0 < y ≤ 2.9 the zone step of
`handleBoundaries` keeps y, age and `maxAge` and clamps x to [0, 9] before
`handleWindowEscape` runs. -/
theorem handleBoundaries_low (a : Apartment K) (hL : DefaultLayout a) (q : AirParticle K)
    (h0 : 0 < q.y) (h1 : q.y ≤ 2.9) :
    ∃ q1 : AirParticle K, q.handleBoundaries a = q1.handleWindowEscape a ∧ q1.y = q.y ∧
      q1.x = (if q.x ≤ 0 then 0 else if 9 ≤ q.x then 9 else q.x) ∧
      q1.age = q.age ∧ q1.maxAge = q.maxAge := by
  unfold AirParticle.handleBoundaries
  cases hz : a.getZoneAtPoint q.x q.y with
  | none =>
    refine ⟨q.bounceFromWalls a, rfl, ?_, ?_, by simp, by simp⟩
    · unfold AirParticle.bounceFromWalls
      rw [bounceBottomTop_inside, bounceFloor_low] <;> simp [hL.height]
      · exact h1
      · exact h0
      · norm_num at h1; linarith
    · unfold AirParticle.bounceFromWalls
      rw [bounceBottomTop_inside, bounceFloor_low, bounceLeftRight_x a hL] <;>
        simp [hL.height]
      · exact h1
      · exact h0
      · norm_num at h1; linarith
  | some zone =>
    obtain ⟨hx0, hx9, -, -⟩ := getZoneAtPoint_some_bounds a hL _ _ zone hz
    refine ⟨{ q with zone := some zone.id }, rfl, rfl, ?_, rfl, rfl⟩
    show q.x = _
    split_ifs with h2 h3
    · exact le_antisymm h2 hx0
    · exact le_antisymm hx9 h3
    · rfl

/-- In the default layout only the two windows lead outside: the escape test
is the disjunction of the two window tests. -/
theorem escapes_eq (a : Apartment K) (hL : DefaultLayout a) (q : AirParticle K) :
    q.escapes a =
      ((a.openings.leftWindow.isOpen && decide (a.openings.leftWindow.inWindow q.x q.y)) ||
       (a.openings.rightWindow.isOpen && decide (a.openings.rightWindow.inWindow q.x q.y))) := by
  obtain ⟨b, hd⟩ := hL.bedroomDoor
  obtain ⟨bl, hl, -, -, hlw⟩ := hL.leftWindow
  obtain ⟨br, hr, -, -, hrw⟩ := hL.rightWindow
  unfold AirParticle.escapes Openings.entries
  simp [List.any, hd, hlw, hrw, defaultApartment, Apartment.new]

/-- In the default layout, a particle inside the expanded rectangle of an
opening leading outside reaches `handleWindowEscape` with its age unchanged, and
the escape test then succeeds exactly when that opening is open. -/
theorem escapes_in_window (a : Apartment K) (hL : DefaultLayout a) (q : AirParticle K)
    (entry : String × Opening K) (hmem : entry ∈ a.openings.entries)
    (hout : entry.2.toZone = "outside") (hin : entry.2.inWindow q.x q.y) :
    ∃ q1 : AirParticle K, q.handleBoundaries a = q1.handleWindowEscape a ∧
      q1.age = q.age ∧ q1.maxAge = q.maxAge ∧ q1.escapes a = entry.2.isOpen := by
  obtain ⟨b, hd⟩ := hL.bedroomDoor
  obtain ⟨bl, hl, hl0, hl2, hlw⟩ := hL.leftWindow
  obtain ⟨br, hr, hr0, hr2, hrw⟩ := hL.rightWindow
  simp only [Openings.entries, List.mem_cons, List.mem_singleton, List.not_mem_nil,
    or_false] at hmem
  rcases hmem with rfl | rfl | rfl
  · simp [hd, defaultApartment, Apartment.new] at hout
  · simp only [Opening.inWindow, hlw, defaultApartment, Apartment.new] at hin
    norm_num at hin
    obtain ⟨hx1, hx2, hy1, hy2⟩ := hin
    obtain ⟨q1, hb, hy, hx, hage, hmax⟩ :=
      handleBoundaries_low a hL q (by linarith) (by norm_num; linarith)
    refine ⟨q1, hb, hage, hmax, ?_⟩
    have hxl : 0 ≤ q1.x ∧ q1.x ≤ 1 / 5 := by
      rw [hx]; split_ifs with h1 h2
      · norm_num
      · linarith
      · exact ⟨le_of_not_le h1, hx2⟩
    have hinL : a.openings.leftWindow.inWindow q1.x q1.y := by
      simp only [Opening.inWindow, hlw, defaultApartment, Apartment.new, hy]
      norm_num
      exact ⟨by linarith [hxl.1], by linarith [hxl.2], hy1, hy2⟩
    have hinR : ¬ a.openings.rightWindow.inWindow q1.x q1.y := by
      simp only [Opening.inWindow, hrw, defaultApartment, Apartment.new, hy]
      norm_num
      intro h
      linarith [hxl.2]
    rw [escapes_eq a hL]
    simp [hinL, hinR]
  · simp only [Opening.inWindow, hrw, defaultApartment, Apartment.new] at hin
    norm_num at hin
    obtain ⟨hx1, hx2, hy1, hy2⟩ := hin
    obtain ⟨q1, hb, hy, hx, hage, hmax⟩ :=
      handleBoundaries_low a hL q (by linarith) (by norm_num; linarith)
    refine ⟨q1, hb, hage, hmax, ?_⟩
    have hxl : 44 / 5 ≤ q1.x ∧ q1.x ≤ 9 := by
      rw [hx]; split_ifs with h1 h2
      · linarith
      · norm_num
      · exact ⟨hx1, le_of_not_le h2⟩
    have hinR : a.openings.rightWindow.inWindow q1.x q1.y := by
      simp only [Opening.inWindow, hrw, defaultApartment, Apartment.new, hy]
      norm_num
      exact ⟨by linarith [hxl.1], by linarith [hxl.2], hy1, hy2⟩
    have hinL : ¬ a.openings.leftWindow.inWindow q1.x q1.y := by
      simp only [Opening.inWindow, hlw, defaultApartment, Apartment.new, hy]
      norm_num
      intro _ h
      linarith [hxl.1]
    rw [escapes_eq a hL]
    simp [hinL, hinR]

/-- The mutator `updateOpeningState` keeps the default layout. -/
theorem updateOpeningState_layout (a : Apartment K) (hL : DefaultLayout a)
    (openingName : String) (isOpen : Bool) :
    DefaultLayout (a.updateOpeningState openingName isOpen) := by
  obtain ⟨b, hd⟩ := hL.bedroomDoor
  obtain ⟨bl, hl, hl0, hl2, hlw⟩ := hL.leftWindow
  obtain ⟨br, hr, hr0, hr2, hrw⟩ := hL.rightWindow
  unfold Apartment.updateOpeningState
  split_ifs
  · exact { hL with bedroomDoor := ⟨isOpen, by simp only [hd]⟩ }
  · exact { hL with leftWindow := ⟨isOpen, hl, hl0, hl2, by simp only [hlw]⟩ }
  · exact { hL with rightWindow := ⟨isOpen, hr, hr0, hr2, by simp only [hrw]⟩ }
  · exact hL

omit [LinearOrderedField K] in
/-- Opening the left window changes only the flag of the left window. -/
theorem updateOpeningState_leftWindow (a : Apartment K) (isOpen : Bool) :
    (a.updateOpeningState "leftWindow" isOpen).openings.leftWindow =
      { a.openings.leftWindow with isOpen := isOpen } := by
  unfold Apartment.updateOpeningState
  rw [if_neg (by decide), if_pos rfl]

/-- One call of `updateZoneTemperatures` on a zone whose list is empty keeps the
list empty and moves the temperature 0.1 % of the way to ambient; the ambient
temperature is not changed. -/
theorem updateZoneTemperatures_empty (fs : FlowSolver K) (particles : List (AirParticle K))
    (key : String) (zone : Zone K) (h : fs.apartment.zones.get? key = some zone)
    (hempty : zone.airParticles = []) :
    (fs.updateZoneTemperatures particles).apartment.zones.get? key =
      some { zone with temperature := zone.temperature * 0.999 + fs.ambientTemperature * 0.001 } ∧
    (fs.updateZoneTemperatures particles).ambientTemperature = fs.ambientTemperature := by
  refine ⟨?_, rfl⟩
  have hz : fs.updateZoneTemperature particles zone =
      { zone with temperature := zone.temperature * 0.999 + fs.ambientTemperature * 0.001 } := by
    unfold FlowSolver.updateZoneTemperature
    rw [hempty]
    simp
  unfold Zones.get? at h ⊢
  unfold FlowSolver.updateZoneTemperatures
  split_ifs at h ⊢ with h1 h2 h3
  · simp only [Option.some.injEq] at h; subst h; simp only [hz]
  · simp only [Option.some.injEq] at h; subst h; simp only [hz]
  · simp only [Option.some.injEq] at h; subst h; simp only [hz]

/-- After `n` calls on a zone whose list is empty the zone temperature is
`A + 0.999 ^ n * (T0 - A)`. -/
theorem updateZoneTemperatures_iterate (fs : FlowSolver K) (particles : List (AirParticle K))
    (key : String) (zone : Zone K) (h : fs.apartment.zones.get? key = some zone)
    (hempty : zone.airParticles = []) (n : Nat) :
    ((fun s : FlowSolver K => s.updateZoneTemperatures particles)^[n] fs).apartment.zones.get? key
      = some { zone with temperature :=
          fs.ambientTemperature + 0.999 ^ n * (zone.temperature - fs.ambientTemperature) } ∧
    ((fun s : FlowSolver K => s.updateZoneTemperatures particles)^[n] fs).ambientTemperature
      = fs.ambientTemperature := by
  induction n with
  | zero => simpa using h
  | succ n ih =>
    rw [Function.iterate_succ_apply']
    obtain ⟨h1, h2⟩ := updateZoneTemperatures_empty _ particles key _ ih.1 hempty
    rw [h1, h2, ih.2]
    refine ⟨?_, rfl⟩
    simp only [Option.some.injEq, Zone.mk.injEq, true_and, and_true]
    rw [pow_succ]
    norm_num
    ring

/-- One loop iteration of `moveParticlesBetweenZones` records at most one
`addForce` call. -/
theorem nudgeParticle_length [FloorRing K] (sqrt : K → K) (sourceZone targetZone : Zone K)
    (flowStrength : K) (state : List (AirParticle K) × List (Nat × K × K)) (draw : K) :
    (FlowSolver.nudgeParticle sqrt sourceZone targetZone flowStrength state draw).2.length
      ≤ state.2.length + 1 := by
  unfold FlowSolver.nudgeParticle
  simp only []
  split
  · exact Nat.le_succ _
  · split
    · exact Nat.le_succ _
    · split_ifs
      · simp
      · exact Nat.le_succ _

/-- A run of loop iterations records at most one `addForce` call per iteration. -/
theorem nudgeLoop_length [FloorRing K] (sqrt : K → K) (rand : Nat → K)
    (sourceZone targetZone : Zone K) (flowStrength : K) (iterations : List Nat)
    (state : List (AirParticle K) × List (Nat × K × K)) :
    (iterations.foldl (fun st i =>
        FlowSolver.nudgeParticle sqrt sourceZone targetZone flowStrength st (rand i))
      state).2.length ≤ state.2.length + iterations.length := by
  induction iterations generalizing state with
  | nil => simp
  | cons i rest ih =>
    rw [List.foldl_cons]
    have h1 := ih (FlowSolver.nudgeParticle sqrt sourceZone targetZone flowStrength state (rand i))
    have h2 := nudgeParticle_length sqrt sourceZone targetZone flowStrength state (rand i)
    simp only [List.length_cons]
    omega

/-- One loop iteration keeps the array equal to the replay of the record. -/
theorem nudgeParticle_replay [FloorRing K] (sqrt : K → K) (sourceZone targetZone : Zone K)
    (flowStrength : K) (particles : List (AirParticle K))
    (state : List (AirParticle K) × List (Nat × K × K)) (draw : K)
    (h : state.1 = FlowSolver.applyForces sqrt particles state.2) :
    (FlowSolver.nudgeParticle sqrt sourceZone targetZone flowStrength state draw).1 =
      FlowSolver.applyForces sqrt particles
        (FlowSolver.nudgeParticle sqrt sourceZone targetZone flowStrength state draw).2 := by
  unfold FlowSolver.nudgeParticle
  simp only []
  split
  · exact h
  · split
    · exact h
    · rename_i ref _ particle hp
      split_ifs
      · simp only [FlowSolver.applyForces, List.foldl_append, List.foldl_cons, List.foldl_nil]
        rw [← FlowSolver.applyForces, ← h, hp]
      · exact h

/-- A run of loop iterations keeps the array equal to the replay of the record. -/
theorem nudgeLoop_replay [FloorRing K] (sqrt : K → K) (rand : Nat → K)
    (sourceZone targetZone : Zone K) (flowStrength : K) (particles : List (AirParticle K))
    (iterations : List Nat) (state : List (AirParticle K) × List (Nat × K × K))
    (h : state.1 = FlowSolver.applyForces sqrt particles state.2) :
    (iterations.foldl (fun st i =>
        FlowSolver.nudgeParticle sqrt sourceZone targetZone flowStrength st (rand i))
      state).1 = FlowSolver.applyForces sqrt particles
        (iterations.foldl (fun st i =>
          FlowSolver.nudgeParticle sqrt sourceZone targetZone flowStrength st (rand i))
        state).2 := by
  induction iterations generalizing state with
  | nil => exact h
  | cons i rest ih =>
    rw [List.foldl_cons]
    exact ih _ (nudgeParticle_replay sqrt sourceZone targetZone flowStrength particles
      state (rand i) h)

/-- The array returned by `moveParticlesBetweenZones` is the input array after
the recorded `addForce` calls. -/
theorem moveParticlesBetweenZones_replay [FloorRing K] (sqrt : K → K) (rand : Nat → K)
    (particles : List (AirParticle K)) (zoneA zoneB : Zone K) (flowDirection flowStrength : K) :
    (FlowSolver.moveParticlesBetweenZones sqrt rand particles zoneA zoneB flowDirection
      flowStrength).1 = FlowSolver.applyForces sqrt particles
        (FlowSolver.moveParticlesBetweenZones sqrt rand particles zoneA zoneB flowDirection
          flowStrength).2 := by
  unfold FlowSolver.moveParticlesBetweenZones
  simp only []
  split_ifs
  · rfl
  · exact nudgeLoop_replay sqrt rand _ _ flowStrength particles _ (particles, []) rfl

/-- One loop iteration only records references taken from the source zone list. -/
theorem nudgeParticle_refs [FloorRing K] (sqrt : K → K) (sourceZone targetZone : Zone K)
    (flowStrength : K) (state : List (AirParticle K) × List (Nat × K × K)) (draw : K)
    (h : ∀ call ∈ state.2, call.1 ∈ sourceZone.airParticles) :
    ∀ call ∈ (FlowSolver.nudgeParticle sqrt sourceZone targetZone flowStrength state draw).2,
      call.1 ∈ sourceZone.airParticles := by
  unfold FlowSolver.nudgeParticle
  simp only []
  split
  · exact h
  · rename_i ref href
    split
    · exact h
    · split_ifs with hd
      · intro call hcall
        rw [List.mem_append, List.mem_singleton] at hcall
        rcases hcall with hc | rfl
        · exact h call hc
        · split_ifs at href with hi
          exact List.getElem?_mem href
      · exact h

/-- A run of loop iterations only records references of the source zone list. -/
theorem nudgeLoop_refs [FloorRing K] (sqrt : K → K) (rand : Nat → K)
    (sourceZone targetZone : Zone K) (flowStrength : K) (iterations : List Nat)
    (state : List (AirParticle K) × List (Nat × K × K))
    (h : ∀ call ∈ state.2, call.1 ∈ sourceZone.airParticles) :
    ∀ call ∈ (iterations.foldl (fun st i =>
        FlowSolver.nudgeParticle sqrt sourceZone targetZone flowStrength st (rand i))
      state).2, call.1 ∈ sourceZone.airParticles := by
  induction iterations generalizing state with
  | nil => exact h
  | cons i rest ih =>
    rw [List.foldl_cons]
    exact ih _ (nudgeParticle_refs sqrt sourceZone targetZone flowStrength state (rand i) h)

/-- Every `addForce` call of `moveParticlesBetweenZones` is on a particle of the
source zone list. -/
theorem moveParticlesBetweenZones_refs [FloorRing K] (sqrt : K → K) (rand : Nat → K)
    (particles : List (AirParticle K)) (zoneA zoneB : Zone K) (flowDirection flowStrength : K) :
    ∀ call ∈ (FlowSolver.moveParticlesBetweenZones sqrt rand particles zoneA zoneB
        flowDirection flowStrength).2,
      call.1 ∈ (FlowSolver.sourceZone zoneA zoneB flowDirection).airParticles := by
  unfold FlowSolver.moveParticlesBetweenZones
  simp only []
  split_ifs
  · intro call hcall; exact absurd hcall (List.not_mem_nil _)
  · exact nudgeLoop_refs sqrt rand _ _ flowStrength _ (particles, [])
      (fun call hcall => absurd hcall (List.not_mem_nil _))

/-- The square root of 16 is 4. -/
theorem sqrt_sixteen : Real.sqrt 16 = 4 := by
  rw [show (16 : ℝ) = 4 * 4 by norm_num]
  exact Real.sqrt_mul_self (by norm_num)

/-- The square root of 441 is 21. -/
theorem sqrt_441 : Real.sqrt 441 = 21 := by
  rw [show (441 : ℝ) = 21 * 21 by norm_num]
  exact Real.sqrt_mul_self (by norm_num)

/-- The square root of 625 is 25. -/
theorem sqrt_625 : Real.sqrt 625 = 25 := by
  rw [show (625 : ℝ) = 25 * 25 by norm_num]
  exact Real.sqrt_mul_self (by norm_num)

/-- The transport action between the cooled mezzanine (20 degrees) and the warm
bedroom (30 degrees) with the door area 1.68, dt = 10 and all draws 0 makes one
`addForce` call, on particle 0 of the bedroom list, with force (-0.84, 0). -/
theorem createInterZoneFlow_warm_bedroom :
    FlowSolver.createInterZoneFlow Real.sqrt (fun _ => (0 : ℝ)) bedroomParticles
      coolMezzanine warmBedroom 1.68 10 =
    ((AirParticle.new (7 : ℝ) 4.5 30 { x := -0.84, y := 0 } 0) ::
        List.replicate 5 (AirParticle.new (7 : ℝ) 4.5 30 { x := 0, y := 0 } 0),
      [(0, -0.84, 0)]) := by
  have hfl1 : ⌊(6 : ℝ) * 1.68 * 0.1⌋ = 1 := by
    rw [Int.floor_eq_iff]; constructor <;> norm_num
  have hfl2 : ⌊(6 : ℝ) * 0.05⌋ = 0 := by
    rw [Int.floor_eq_iff]; constructor <;> norm_num
  have hsrc : FlowSolver.sourceZone (coolMezzanine : Zone ℝ) warmBedroom (-1) = warmBedroom := by
    unfold FlowSolver.sourceZone; rw [if_neg (by norm_num)]
  have htgt : FlowSolver.targetZone (coolMezzanine : Zone ℝ) warmBedroom (-1) = coolMezzanine := by
    unfold FlowSolver.targetZone; rw [if_neg (by norm_num)]
  have hlen : (warmBedroom : Zone ℝ).airParticles = [0, 1, 2, 3, 4, 5] := rfl
  have hN : (((warmBedroom : Zone ℝ).airParticles.length : ℕ) : ℝ) = 6 := by
    rw [hlen]; norm_num
  have hmove : FlowSolver.particlesToMove (warmBedroom : Zone ℝ) 1.68 = 1 := by
    unfold FlowSolver.particlesToMove
    rw [hN, hfl1, hfl2]
    rfl
  have hflow : |((coolMezzanine : Zone ℝ).temperature - (warmBedroom : Zone ℝ).temperature)
      * 0.1| * 1.68 * 10 * 0.1 = 1.68 := by
    norm_num [coolMezzanine, warmBedroom, defaultApartment, Apartment.new, abs_of_neg]
  have hdiff : (coolMezzanine : Zone ℝ).temperature - (warmBedroom : Zone ℝ).temperature
      = -10 := by
    norm_num [coolMezzanine, warmBedroom, defaultApartment, Apartment.new]
  unfold FlowSolver.createInterZoneFlow
  simp only [hflow]
  rw [hdiff]
  rw [if_pos (by norm_num [abs_of_neg]), if_neg (by norm_num)]
  unfold FlowSolver.moveParticlesBetweenZones
  simp only [hsrc, htgt, hmove]
  rw [if_neg (by rw [hlen]; decide)]
  have hr : List.range 1 = [0] := rfl
  simp only [Int.toNat_one, hr, List.foldl_cons, List.foldl_nil]
  unfold FlowSolver.nudgeParticle
  simp only [hN, zero_mul, Int.floor_zero, le_refl, if_true, Int.toNat_zero, hlen,
    List.getElem?_cons_zero, bedroomParticles, List.replicate]
  norm_num [coolMezzanine, defaultApartment, Apartment.new, AirParticle.new, sqrt_sixteen,
    AirParticle.addForce, Vec2.speed, sqrt_441, sqrt_625]

/-- The point (1, 1) is a valid position of the default apartment. -/
theorem isValidPosition_one_one :
    (defaultApartment : Apartment K).isValidPosition 1 1 = true := by
  have h : (defaultApartment : Apartment K).getZoneAtPoint 1 1
      = some (defaultApartment : Apartment K).zones.lowerFloor := by
    unfold Apartment.getZoneAtPoint
    rw [if_neg (by norm_num)]
    norm_num [Zones.values, List.find?, defaultApartment, Apartment.new]
  unfold Apartment.isValidPosition
  rw [if_neg (by norm_num [defaultApartment, Apartment.new]), h]
  rfl

/-- The injection handler at a valid point appends five particles, one per
loop iteration. -/
theorem injectAir_valid (rand : Nat → K) (a : Apartment K) (particles : List (AirParticle K))
    (x y temperature : K) (velocity : Vec2 K) (hvalid : a.isValidPosition x y = true) :
    FluidSimulation.injectAir rand a particles x y temperature velocity =
      particles ++ (List.range 5).map fun i => AirParticle.new
        (x + (rand (5 * i) - 0.5) * 0.3)
        (y + (rand (5 * i + 1) - 0.5) * 0.3)
        temperature
        { x := velocity.x + (rand (5 * i + 2) - 0.5) * 0.5,
          y := velocity.y + (rand (5 * i + 3) - 0.5) * 0.5 }
        (rand (5 * i + 4)) := by
  unfold FluidSimulation.injectAir
  rw [if_pos hvalid]
  have hr : List.range 5 = [0, 1, 2, 3, 4] := rfl
  simp only [hr, List.foldl_cons, List.foldl_nil, List.map_cons, List.map_nil,
    List.append_assoc, List.singleton_append, List.cons_append, List.nil_append]

/-- In the default layout a point out of bounds, or in the floor band outside
the stair gap, is not a valid position. -/
theorem isValidPosition_false (a : Apartment K) (hL : DefaultLayout a) (x y : K)
    (h : x < 0 ∨ 9 < x ∨ y < 0 ∨ 6 < y ∨
      (2.95 < y ∧ y < 3.05 ∧ ¬ (4.9 ≤ x ∧ x ≤ 6.1))) :
    a.isValidPosition x y = false := by
  unfold Apartment.isValidPosition
  rw [hL.width, hL.height]
  by_cases hb : x < 0 ∨ 9 < x ∨ y < 0 ∨ 6 < y
  · rw [if_pos hb]
  · rw [if_neg hb]
    rcases h with h | h | h | h | ⟨h1, h2, h3⟩
    · exact absurd (Or.inl h) hb
    · exact absurd (Or.inr (Or.inl h)) hb
    · exact absurd (Or.inr (Or.inr (Or.inl h))) hb
    · exact absurd (Or.inr (Or.inr (Or.inr h))) hb
    · rw [getZoneAtPoint_band_outside a hL x y h1 h2 h3]
      rfl

/-! ### Temperature and mass are not touched by the boundary resolution -/

@[simp] theorem bounceLeft_temperature (p : AirParticle K) :
    p.bounceLeft.temperature = p.temperature := by
  unfold AirParticle.bounceLeft; split_ifs <;> rfl

@[simp] theorem bounceRight_temperature (p : AirParticle K) (a : Apartment K) :
    (p.bounceRight a).temperature = p.temperature := by
  unfold AirParticle.bounceRight; split_ifs <;> rfl

@[simp] theorem bounceBottom_temperature (p : AirParticle K) :
    p.bounceBottom.temperature = p.temperature := by
  unfold AirParticle.bounceBottom; split_ifs <;> rfl

@[simp] theorem bounceTop_temperature (p : AirParticle K) (a : Apartment K) :
    (p.bounceTop a).temperature = p.temperature := by
  unfold AirParticle.bounceTop; split_ifs <;> rfl

@[simp] theorem bounceFloor_temperature (p : AirParticle K) (a : Apartment K) :
    (p.bounceFloor a).temperature = p.temperature := by
  unfold AirParticle.bounceFloor; simp only []; split_ifs <;> rfl

@[simp] theorem bounceFromWalls_temperature (p : AirParticle K) (a : Apartment K) :
    (p.bounceFromWalls a).temperature = p.temperature := by
  simp [AirParticle.bounceFromWalls]

@[simp] theorem bedroomWall_temperature (p : AirParticle K) (a : Apartment K) :
    (p.bedroomWall a).temperature = p.temperature := by
  unfold AirParticle.bedroomWall; simp only []; split_ifs <;> rfl

@[simp] theorem acCenter_temperature (p : AirParticle K) (c d : K) :
    (p.acCenter c d).temperature = p.temperature := by
  unfold AirParticle.acCenter; simp only []; split_ifs <;> rfl

@[simp] theorem acTubeWalls_temperature (p : AirParticle K) (c d : K) :
    (p.acTubeWalls c d).temperature = p.temperature := by
  unfold AirParticle.acTubeWalls; split_ifs <;> rfl

@[simp] theorem acNoBackward_temperature (p : AirParticle K) (ac : ACUnit K) (m t : Bool) :
    (p.acNoBackward ac m t).temperature = p.temperature := by
  unfold AirParticle.acNoBackward; split_ifs <;> rfl

@[simp] theorem acChannel_temperature (p : AirParticle K) (a : Apartment K) :
    (p.acChannel a).temperature = p.temperature := by
  unfold AirParticle.acChannel; simp only []; split_ifs <;> simp

@[simp] theorem ductBounceX_temperature (p : AirParticle K) (duct : Rect K) :
    (p.ductBounceX duct).temperature = p.temperature := by
  unfold AirParticle.ductBounceX; split_ifs <;> rfl

@[simp] theorem ductBounceY_temperature (p : AirParticle K) (duct : Rect K) :
    (p.ductBounceY duct).temperature = p.temperature := by
  unfold AirParticle.ductBounceY; split_ifs <;> rfl

@[simp] theorem ductCorrectX_temperature (p : AirParticle K) (duct : Rect K) :
    (p.ductCorrectX duct).temperature = p.temperature := by
  unfold AirParticle.ductCorrectX; simp only []; split_ifs <;> rfl

@[simp] theorem ductCorrectY_temperature (p : AirParticle K) (duct : Rect K) :
    (p.ductCorrectY duct).temperature = p.temperature := by
  unfold AirParticle.ductCorrectY; simp only []; split_ifs <;> rfl

@[simp] theorem fanDuct_temperature (p : AirParticle K) (fan : Fan K) :
    (p.fanDuct fan).temperature = p.temperature := by
  unfold AirParticle.fanDuct
  split
  · simp only []; split_ifs <;> simp
  · rfl

@[simp] theorem bounceLeft_mass (p : AirParticle K) :
    p.bounceLeft.mass = p.mass := by
  unfold AirParticle.bounceLeft; split_ifs <;> rfl

@[simp] theorem bounceRight_mass (p : AirParticle K) (a : Apartment K) :
    (p.bounceRight a).mass = p.mass := by
  unfold AirParticle.bounceRight; split_ifs <;> rfl

@[simp] theorem bounceBottom_mass (p : AirParticle K) :
    p.bounceBottom.mass = p.mass := by
  unfold AirParticle.bounceBottom; split_ifs <;> rfl

@[simp] theorem bounceTop_mass (p : AirParticle K) (a : Apartment K) :
    (p.bounceTop a).mass = p.mass := by
  unfold AirParticle.bounceTop; split_ifs <;> rfl

@[simp] theorem bounceFloor_mass (p : AirParticle K) (a : Apartment K) :
    (p.bounceFloor a).mass = p.mass := by
  unfold AirParticle.bounceFloor; simp only []; split_ifs <;> rfl

@[simp] theorem bounceFromWalls_mass (p : AirParticle K) (a : Apartment K) :
    (p.bounceFromWalls a).mass = p.mass := by
  simp [AirParticle.bounceFromWalls]

@[simp] theorem bedroomWall_mass (p : AirParticle K) (a : Apartment K) :
    (p.bedroomWall a).mass = p.mass := by
  unfold AirParticle.bedroomWall; simp only []; split_ifs <;> rfl

@[simp] theorem acCenter_mass (p : AirParticle K) (c d : K) :
    (p.acCenter c d).mass = p.mass := by
  unfold AirParticle.acCenter; simp only []; split_ifs <;> rfl

@[simp] theorem acTubeWalls_mass (p : AirParticle K) (c d : K) :
    (p.acTubeWalls c d).mass = p.mass := by
  unfold AirParticle.acTubeWalls; split_ifs <;> rfl

@[simp] theorem acNoBackward_mass (p : AirParticle K) (ac : ACUnit K) (m t : Bool) :
    (p.acNoBackward ac m t).mass = p.mass := by
  unfold AirParticle.acNoBackward; split_ifs <;> rfl

@[simp] theorem acChannel_mass (p : AirParticle K) (a : Apartment K) :
    (p.acChannel a).mass = p.mass := by
  unfold AirParticle.acChannel; simp only []; split_ifs <;> simp

@[simp] theorem ductBounceX_mass (p : AirParticle K) (duct : Rect K) :
    (p.ductBounceX duct).mass = p.mass := by
  unfold AirParticle.ductBounceX; split_ifs <;> rfl

@[simp] theorem ductBounceY_mass (p : AirParticle K) (duct : Rect K) :
    (p.ductBounceY duct).mass = p.mass := by
  unfold AirParticle.ductBounceY; split_ifs <;> rfl

@[simp] theorem ductCorrectX_mass (p : AirParticle K) (duct : Rect K) :
    (p.ductCorrectX duct).mass = p.mass := by
  unfold AirParticle.ductCorrectX; simp only []; split_ifs <;> rfl

@[simp] theorem ductCorrectY_mass (p : AirParticle K) (duct : Rect K) :
    (p.ductCorrectY duct).mass = p.mass := by
  unfold AirParticle.ductCorrectY; simp only []; split_ifs <;> rfl

@[simp] theorem fanDuct_mass (p : AirParticle K) (fan : Fan K) :
    (p.fanDuct fan).mass = p.mass := by
  unfold AirParticle.fanDuct
  split
  · simp only []; split_ifs <;> simp
  · rfl

/-- The method `handleBoundaries` is the zone lookup followed by
`handleWindowEscape`. -/
theorem handleBoundaries_eq (p : AirParticle K) (a : Apartment K) :
    p.handleBoundaries a = (p.resolveZone a).handleWindowEscape a := rfl

@[simp] theorem resolveZone_age (p : AirParticle K) (a : Apartment K) :
    (p.resolveZone a).age = p.age := by
  unfold AirParticle.resolveZone; split <;> simp

@[simp] theorem resolveZone_maxAge (p : AirParticle K) (a : Apartment K) :
    (p.resolveZone a).maxAge = p.maxAge := by
  unfold AirParticle.resolveZone; split <;> simp

@[simp] theorem resolveZone_temperature (p : AirParticle K) (a : Apartment K) :
    (p.resolveZone a).temperature = p.temperature := by
  unfold AirParticle.resolveZone; split <;> simp

@[simp] theorem resolveZone_mass (p : AirParticle K) (a : Apartment K) :
    (p.resolveZone a).mass = p.mass := by
  unfold AirParticle.resolveZone; split <;> simp

@[simp] theorem handleWindowEscape_temperature (p : AirParticle K) (a : Apartment K) :
    (p.handleWindowEscape a).temperature = p.temperature := by
  unfold AirParticle.handleWindowEscape
  split_ifs
  · rfl
  · simp [Fans.values]

@[simp] theorem handleWindowEscape_mass (p : AirParticle K) (a : Apartment K) :
    (p.handleWindowEscape a).mass = p.mass := by
  unfold AirParticle.handleWindowEscape
  split_ifs
  · rfl
  · simp [Fans.values]

@[simp] theorem handleBoundaries_temperature (p : AirParticle K) (a : Apartment K) :
    (p.handleBoundaries a).temperature = p.temperature := by
  rw [handleBoundaries_eq]; simp

@[simp] theorem handleBoundaries_mass (p : AirParticle K) (a : Apartment K) :
    (p.handleBoundaries a).mass = p.mass := by
  rw [handleBoundaries_eq]; simp

/-- The method `addForce` only writes the velocity. -/
theorem addForce_frame (sqrt : K → K) (p : AirParticle K) (forceX forceY : K) :
    (p.addForce sqrt forceX forceY).temperature = p.temperature ∧
    (p.addForce sqrt forceX forceY).mass = p.mass ∧
    (p.addForce sqrt forceX forceY).x = p.x ∧
    (p.addForce sqrt forceX forceY).y = p.y ∧
    (p.addForce sqrt forceX forceY).age = p.age ∧
    (p.addForce sqrt forceX forceY).maxAge = p.maxAge := by
  unfold AirParticle.addForce
  simp only []
  split_ifs <;> exact ⟨rfl, rfl, rfl, rfl, rfl, rfl⟩

/-- One `update` leaves the mass computed from the temperature at the start of
the step and moves the temperature 0.1 % of the way to ambient. -/
theorem update_mass_temperature (sqrt : K → K) (p : AirParticle K) (dt : K) (a : Apartment K)
    (ambientTemp : K) :
    (p.update sqrt dt a ambientTemp).1.mass = AirParticle.calculateMass p.temperature ∧
    (p.update sqrt dt a ambientTemp).1.temperature =
      p.temperature + (ambientTemp - p.temperature) * 0.001 := by
  unfold AirParticle.update
  simp only [handleBoundaries_mass, handleBoundaries_temperature]
  exact ⟨rfl, rfl⟩

/-- The AC cooling of one particle leaves its mass as it was. -/
theorem coolParticle_mass (sqrt : K → K) (ac : ACUnit K) (dt : K) (particle : AirParticle K) :
    (FlowSolver.coolParticle sqrt ac dt particle).mass = particle.mass := by
  unfold FlowSolver.coolParticle
  simp only []
  split_ifs
  · rw [(addForce_frame sqrt _ _ _).2.1]
  · rfl
  · rfl

/-- One `update` increments the age by 1 unless the escape test succeeds, in
which case the age becomes `maxAge`; `maxAge` is never changed and the returned
flag is `age < maxAge` for the new age. -/
theorem update_age (sqrt : K → K) (p : AirParticle K) (dt : K) (a : Apartment K)
    (ambientTemp : K) :
    (p.update sqrt dt a ambientTemp).1.age =
      (if p.escapesInUpdate sqrt dt a ambientTemp then p.maxAge else p.age + 1) ∧
    (p.update sqrt dt a ambientTemp).1.maxAge = p.maxAge ∧
    (p.update sqrt dt a ambientTemp).2 =
      decide ((p.update sqrt dt a ambientTemp).1.age < (p.update sqrt dt a ambientTemp).1.maxAge) := by
  obtain ⟨h1, h2⟩ := handleWindowEscape_age ((p.integrate sqrt dt ambientTemp).resolveZone a) a
  have hU : (p.update sqrt dt a ambientTemp).1 =
      ((p.integrate sqrt dt ambientTemp).resolveZone a).handleWindowEscape a := rfl
  refine ⟨?_, ?_, rfl⟩
  · rw [hU, h1]
    simp only [resolveZone_age, resolveZone_maxAge]
    rfl
  · rw [hU, h2, resolveZone_maxAge]
    rfl

/-- Along a sequence of updates without escape the age grows by one per update
and update number `i + 1` returns `age + i + 1 < maxAge`. -/
theorem updateFlags_of_neverEscapes (sqrt : K → K) (steps : List (K × Apartment K × K)) :
    ∀ p : AirParticle K, p.neverEscapes sqrt steps →
      (p.updateAll sqrt steps).age = p.age + steps.length ∧
      (p.updateAll sqrt steps).maxAge = p.maxAge ∧
      p.updateFlags sqrt steps =
        (List.range steps.length).map fun i => decide (p.age + i + 1 < p.maxAge) := by
  induction steps with
  | nil => intro p _; exact ⟨rfl, rfl, rfl⟩
  | cons step rest ih =>
    intro p hne
    obtain ⟨hesc, hrest⟩ := hne
    obtain ⟨hage, hmax, hflag⟩ := update_age sqrt p step.1 step.2.1 step.2.2
    rw [hesc] at hage
    simp only [Bool.false_eq_true, if_false] at hage
    obtain ⟨i1, i2, i3⟩ := ih _ hrest
    refine ⟨?_, ?_, ?_⟩
    · show (AirParticle.updateAll sqrt (p.update sqrt step.1 step.2.1 step.2.2).1 rest).age = _
      rw [i1, hage, List.length_cons]; omega
    · show (AirParticle.updateAll sqrt (p.update sqrt step.1 step.2.1 step.2.2).1 rest).maxAge = _
      rw [i2, hmax]
    · show (p.update sqrt step.1 step.2.1 step.2.2).2 ::
        AirParticle.updateFlags sqrt (p.update sqrt step.1 step.2.1 step.2.2).1 rest = _
      rw [i3, hflag, hage, hmax, List.length_cons, List.range_succ_eq_map, List.map_cons,
        List.map_map]
      congr 1
      apply List.map_congr_left
      intro i _
      simp only [Function.comp_apply, Nat.succ_eq_add_one]
      congr 1
      apply propext
      constructor <;> intro h <;> omega

/-- With both windows closed no particle passes the escape test. -/
theorem escapes_closed (a : Apartment K) (hL : DefaultLayout a)
    (hl : a.openings.leftWindow.isOpen = false) (hr : a.openings.rightWindow.isOpen = false)
    (q : AirParticle K) : q.escapes a = false := by
  rw [escapes_eq a hL, hl, hr]; rfl

/-- In the default apartment (both windows closed) no sequence of updates
lets a particle escape. -/
theorem neverEscapes_default (sqrt : K → K) (steps : List (K × K)) :
    ∀ p : AirParticle K, p.neverEscapes sqrt
      (steps.map fun s => (s.1, (defaultApartment : Apartment K), s.2)) := by
  induction steps with
  | nil => intro p; exact trivial
  | cons s rest ih =>
    intro p
    exact ⟨escapes_closed _ defaultApartment_layout rfl rfl _, ih _⟩

/-- In the default layout the valid positions are the points inside the bounds
that are not in the floor band outside the stair gap, and they are the points
that resolve to a zone. -/
theorem isValidPosition_iff (a : Apartment K) (hL : DefaultLayout a) (x y : K) :
    (a.isValidPosition x y = true ↔ InsideDefaultLayout x y) ∧
    ((a.getZoneAtPoint x y).isSome = true ↔ InsideDefaultLayout x y) := by
  obtain ⟨tl, ll, hlow⟩ := hL.lowerFloor
  obtain ⟨tu, lu, hup⟩ := hL.upperMezzanine
  obtain ⟨tb, lb, hbed⟩ := hL.upperBedroom
  have hzone : (a.getZoneAtPoint x y).isSome = true ↔ InsideDefaultLayout x y := by
    constructor
    · intro h
      obtain ⟨zone, hz⟩ := Option.isSome_iff_exists.mp h
      obtain ⟨h1, h2, h3, h4⟩ := getZoneAtPoint_some_bounds a hL x y zone hz
      refine ⟨h1, h2, h3, h4, fun hb1 hb2 => ?_⟩
      by_contra hgap
      rw [getZoneAtPoint_band_outside a hL x y hb1 hb2 hgap] at hz
      exact absurd hz (by simp)
    · rintro ⟨h1, h2, h3, h4, hband⟩
      unfold Apartment.getZoneAtPoint
      by_cases hb : 2.95 < y ∧ y < 3.05
      · have hg := hband hb.1 hb.2
        rw [if_pos hb, hL.stairOpening]
        have hg2 : (4.9 : K) ≤ x ∧ x ≤ 4.9 + 1.2 := ⟨hg.1, by norm_num at hg ⊢; linarith [hg.2]⟩
        rw [if_pos hg2]
        split_ifs <;> rfl
      · rw [if_neg hb]
        rw [List.find?_isSome]
        by_cases hy : y ≤ 3
        · refine ⟨a.zones.lowerFloor, by simp [Zones.values], ?_⟩
          rw [hlow]
          simp only [defaultApartment, Apartment.new, decide_eq_true_eq]
          norm_num
          exact ⟨h1, h2, h3, hy⟩
        · push_neg at hy
          by_cases hx : x ≤ 6
          · refine ⟨a.zones.upperMezzanine, by simp [Zones.values], ?_⟩
            rw [hup]
            simp only [defaultApartment, Apartment.new, decide_eq_true_eq]
            norm_num
            exact ⟨h1, hx, hy.le, h4⟩
          · push_neg at hx
            refine ⟨a.zones.upperBedroom, by simp [Zones.values], ?_⟩
            rw [hbed]
            simp only [defaultApartment, Apartment.new, decide_eq_true_eq]
            norm_num
            exact ⟨hx.le, h2, hy.le, h4⟩
  refine ⟨?_, hzone⟩
  unfold Apartment.isValidPosition
  rw [hL.width, hL.height]
  constructor
  · intro h
    split_ifs at h with hb
    exact hzone.mp h
  · intro h
    have hb : ¬ (x < 0 ∨ 9 < x ∨ y < 0 ∨ 6 < y) := by
      obtain ⟨h1, h2, h3, h4, -⟩ := h
      push_neg
      exact ⟨h1, h2, h3, h4⟩
    rw [if_neg hb]
    exact hzone.mpr h
/-- In the default layout the two outer-wall blocks in y clamp y to [0, 6]. -/
theorem bounceBottomTop_y (a : Apartment K) (hL : DefaultLayout a) (q : AirParticle K) :
    ((q.bounceBottom).bounceTop a).y = (if q.y ≤ 0 then 0 else if 6 ≤ q.y then 6 else q.y) := by
  unfold AirParticle.bounceTop AirParticle.bounceBottom
  rw [hL.height]
  by_cases h1 : q.y ≤ 0
  · have h2 : ¬ (6 : K) ≤ 0 := by norm_num
    simp only [h1, h2, if_true, if_false]
  · by_cases h2 : (6 : K) ≤ q.y
    · simp only [h1, h2, if_true, if_false]
    · simp only [h1, h2, if_false]

/-- In the default layout the floor block maps a point inside the bounds to a
valid point. -/
theorem bounceFloor_inside (a : Apartment K) (hL : DefaultLayout a) (q : AirParticle K)
    (hx0 : 0 ≤ q.x) (hx9 : q.x ≤ 9) (hy0 : 0 ≤ q.y) (hy6 : q.y ≤ 6) :
    InsideDefaultLayout (q.bounceFloor a).x (q.bounceFloor a).y := by
  have e1 : (4.9 : K) + 1.2 = 6.1 := by norm_num
  rw [bounceFloor_x]
  unfold AirParticle.bounceFloor
  simp only [hL.stairOpening, e1]
  by_cases hgap : 4.9 ≤ q.x ∧ q.x ≤ 6.1
  · rw [if_neg (not_not.mpr hgap)]
    exact ⟨hx0, hx9, hy0, hy6, fun _ _ => hgap⟩
  · rw [if_pos hgap]
    by_cases hband : 2.95 < q.y ∧ q.y < 3.05
    · rw [if_pos hband]
      split_ifs
      · refine ⟨hx0, hx9, by norm_num, by norm_num, fun h _ => absurd h (lt_irrefl _)⟩
      · refine ⟨hx0, hx9, by norm_num, by norm_num, fun _ h => absurd h (lt_irrefl _)⟩
    · rw [if_neg hband]
      by_cases hup : 3 < q.y ∧ q.y < 3.1
      · rw [if_pos hup]
        refine ⟨hx0, hx9, by norm_num, by norm_num, fun _ h => absurd h (lt_irrefl _)⟩
      · rw [if_neg hup]
        by_cases hlow : q.y < 3 ∧ 2.9 < q.y
        · rw [if_pos hlow]
          refine ⟨hx0, hx9, by norm_num, by norm_num, fun h _ => absurd h (lt_irrefl _)⟩
        · rw [if_neg hlow]
          exact ⟨hx0, hx9, hy0, hy6, fun h1 h2 => absurd ⟨h1, h2⟩ hband⟩

/-- In the default layout `bounceFromWalls` always returns a valid position. -/
theorem bounceFromWalls_inside (a : Apartment K) (hL : DefaultLayout a) (q : AirParticle K) :
    InsideDefaultLayout (q.bounceFromWalls a).x (q.bounceFromWalls a).y := by
  unfold AirParticle.bounceFromWalls
  apply bounceFloor_inside a hL
  · rw [bounceTop_x, bounceBottom_x, bounceLeftRight_x a hL]
    split_ifs with h1 h2
    · exact le_refl _
    · norm_num
    · exact le_of_not_le h1
  · rw [bounceTop_x, bounceBottom_x, bounceLeftRight_x a hL]
    split_ifs with h1 h2
    · norm_num
    · exact le_refl _
    · exact le_of_not_le h2
  · have h := bounceBottomTop_y a hL ((q.bounceLeft).bounceRight a)
    rw [h]
    split_ifs with h1 h2
    · exact le_refl _
    · norm_num
    · exact le_of_not_le h1
  · have h := bounceBottomTop_y a hL ((q.bounceLeft).bounceRight a)
    rw [h]
    split_ifs with h1 h2
    · norm_num
    · exact le_refl _
    · exact le_of_not_le h2

/-- In the default layout the zone lookup with its bounce fallback always
returns a valid position. -/
theorem resolveZone_inside (a : Apartment K) (hL : DefaultLayout a) (q : AirParticle K) :
    InsideDefaultLayout (q.resolveZone a).x (q.resolveZone a).y := by
  unfold AirParticle.resolveZone
  cases hz : a.getZoneAtPoint q.x q.y with
  | none => exact bounceFromWalls_inside a hL q
  | some zone =>
    exact (isValidPosition_iff a hL q.x q.y).2.mp (by rw [hz]; rfl)
@[simp] theorem bedroomWall_y (p : AirParticle K) (a : Apartment K) :
    (p.bedroomWall a).y = p.y := by
  unfold AirParticle.bedroomWall; simp only []; split_ifs <;> rfl

@[simp] theorem acCenter_x (p : AirParticle K) (c d : K) : (p.acCenter c d).x = p.x := by
  unfold AirParticle.acCenter; simp only []; split_ifs <;> rfl

@[simp] theorem acCenter_y (p : AirParticle K) (c d : K) : (p.acCenter c d).y = p.y := by
  unfold AirParticle.acCenter; simp only []; split_ifs <;> rfl

@[simp] theorem acTubeWalls_x (p : AirParticle K) (c d : K) : (p.acTubeWalls c d).x = p.x := by
  unfold AirParticle.acTubeWalls; split_ifs <;> rfl

@[simp] theorem acNoBackward_y (p : AirParticle K) (ac : ACUnit K) (m t : Bool) :
    (p.acNoBackward ac m t).y = p.y := by
  unfold AirParticle.acNoBackward; split_ifs <;> rfl

@[simp] theorem ductBounceX_y (p : AirParticle K) (duct : Rect K) :
    (p.ductBounceX duct).y = p.y := by
  unfold AirParticle.ductBounceX; split_ifs <;> rfl

@[simp] theorem ductBounceY_x (p : AirParticle K) (duct : Rect K) :
    (p.ductBounceY duct).x = p.x := by
  unfold AirParticle.ductBounceY; split_ifs <;> rfl

@[simp] theorem ductCorrectX_x (p : AirParticle K) (duct : Rect K) :
    (p.ductCorrectX duct).x = p.x := by
  unfold AirParticle.ductCorrectX; simp only []; split_ifs <;> rfl

@[simp] theorem ductCorrectX_y (p : AirParticle K) (duct : Rect K) :
    (p.ductCorrectX duct).y = p.y := by
  unfold AirParticle.ductCorrectX; simp only []; split_ifs <;> rfl

@[simp] theorem ductCorrectY_x (p : AirParticle K) (duct : Rect K) :
    (p.ductCorrectY duct).x = p.x := by
  unfold AirParticle.ductCorrectY; simp only []; split_ifs <;> rfl

@[simp] theorem ductCorrectY_y (p : AirParticle K) (duct : Rect K) :
    (p.ductCorrectY duct).y = p.y := by
  unfold AirParticle.ductCorrectY; simp only []; split_ifs <;> rfl

/-- The bedroom-wall block keeps x, or moves a particle of the wall band to a
face of the wall. -/
theorem bedroomWall_x_cases (p : AirParticle K) (a : Apartment K) :
    (p.bedroomWall a).x = p.x ∨
    (5.9 < p.x ∧ p.x < 6.1 ∧ 3 ≤ p.y ∧ p.y ≤ 6 ∧
      ((p.bedroomWall a).x = 5.9 ∨ (p.bedroomWall a).x = 6.1)) := by
  unfold AirParticle.bedroomWall
  simp only []
  split_ifs with h1 h2 h3
  · exact Or.inr ⟨h1.1, h1.2.1, h1.2.2.1, h1.2.2.2, Or.inl rfl⟩
  · exact Or.inr ⟨h1.1, h1.2.1, h1.2.2.1, h1.2.2.2, Or.inr rfl⟩
  · exact Or.inl rfl
  · exact Or.inl rfl

/-- The tube-wall block keeps y or puts it 0.01 inside one of the two walls. -/
theorem acTubeWalls_y_cases (p : AirParticle K) (sectionBottom sectionTop : K) :
    (p.acTubeWalls sectionBottom sectionTop).y = p.y ∨
    (p.acTubeWalls sectionBottom sectionTop).y = sectionBottom + 0.01 ∨
    (p.acTubeWalls sectionBottom sectionTop).y = sectionTop - 0.01 := by
  unfold AirParticle.acTubeWalls
  split_ifs
  · exact Or.inr (Or.inl rfl)
  · exact Or.inr (Or.inr rfl)
  · exact Or.inl rfl

/-- The backward-movement block keeps x or puts it 0.01 inside an entry face. -/
theorem acNoBackward_x_cases (p : AirParticle K) (ac : ACUnit K) (m t : Bool) :
    (p.acNoBackward ac m t).x = p.x ∨
    (p.acNoBackward ac m t).x = ac.x + 0.01 ∨
    (p.acNoBackward ac m t).x = ac.tube.x + 0.01 := by
  unfold AirParticle.acNoBackward
  split_ifs
  · exact Or.inr (Or.inl rfl)
  · exact Or.inr (Or.inr rfl)
  · exact Or.inl rfl

/-- The AC block does nothing outside the housing and the tube; inside, it is
the minimum outlet speed followed by the centring, tube-wall and
backward-movement blocks of the section the particle is in. -/
theorem acChannel_unfold (p : AirParticle K) (a : Apartment K) :
    (¬ a.acUnit.inMainUnit p.x p.y ∧ ¬ a.acUnit.tube.contains p.x p.y ∧ p.acChannel a = p) ∨
    ((a.acUnit.inMainUnit p.x p.y ∨ a.acUnit.tube.contains p.x p.y) ∧
      ∃ (centerY allowedDeviation sectionBottom sectionTop : K) (m t : Bool),
        p.acChannel a =
          (((({ p with velocity := { p.velocity with x := max p.velocity.x 2.5 } } :
            AirParticle K).acCenter centerY allowedDeviation).acTubeWalls sectionBottom
              sectionTop).acNoBackward a.acUnit m t) ∧
        ((sectionBottom = a.acUnit.y ∧ sectionTop = a.acUnit.y + a.acUnit.height) ∨
          (sectionBottom = a.acUnit.tube.y ∧
            sectionTop = a.acUnit.tube.y + a.acUnit.tube.height))) := by
  unfold AirParticle.acChannel ACUnit.inMainUnit Rect.contains
  by_cases hm : a.acUnit.x ≤ p.x ∧ p.x ≤ a.acUnit.x + a.acUnit.width ∧
      a.acUnit.y ≤ p.y ∧ p.y ≤ a.acUnit.y + a.acUnit.height
  · right
    refine ⟨Or.inl hm, a.acUnit.y + a.acUnit.height / 2,
      (if a.acUnit.tube.x ≤ p.x ∧ p.x ≤ a.acUnit.tube.x + a.acUnit.tube.width ∧
        a.acUnit.tube.y ≤ p.y ∧ p.y ≤ a.acUnit.tube.y + a.acUnit.tube.height
        then a.acUnit.tube.height * 0.2 else a.acUnit.height * 0.3),
      a.acUnit.y, a.acUnit.y + a.acUnit.height, true,
      decide (a.acUnit.tube.x ≤ p.x ∧ p.x ≤ a.acUnit.tube.x + a.acUnit.tube.width ∧
        a.acUnit.tube.y ≤ p.y ∧ p.y ≤ a.acUnit.tube.y + a.acUnit.tube.height), ?_,
      Or.inl ⟨rfl, rfl⟩⟩
    simp only [hm, and_self, decide_True, true_or, if_true, decide_eq_true_eq]
  · by_cases ht : a.acUnit.tube.x ≤ p.x ∧ p.x ≤ a.acUnit.tube.x + a.acUnit.tube.width ∧
        a.acUnit.tube.y ≤ p.y ∧ p.y ≤ a.acUnit.tube.y + a.acUnit.tube.height
    · right
      refine ⟨Or.inr ht, a.acUnit.tube.y + a.acUnit.tube.height / 2,
        a.acUnit.tube.height * 0.2, a.acUnit.tube.y,
        a.acUnit.tube.y + a.acUnit.tube.height, false, true, ?_, Or.inr ⟨rfl, rfl⟩⟩
      simp only [hm, ht, and_self, decide_True, decide_False, or_true, if_true,
        Bool.false_eq_true, if_false]
    · left
      refine ⟨hm, ht, ?_⟩
      simp only [hm, ht, decide_False, Bool.false_eq_true, or_self, if_false]
/-- The duct-wall block in x keeps x or puts it 0.01 inside a duct wall. -/
theorem ductBounceX_x_cases (p : AirParticle K) (duct : Rect K) :
    (p.ductBounceX duct).x = p.x ∨ (p.ductBounceX duct).x = duct.x + 0.01 ∨
    (p.ductBounceX duct).x = duct.x + duct.width - 0.01 := by
  unfold AirParticle.ductBounceX
  split_ifs
  · exact Or.inr (Or.inl rfl)
  · exact Or.inr (Or.inr rfl)
  · exact Or.inl rfl

/-- The duct-wall block in y keeps y or puts it 0.01 inside a duct wall. -/
theorem ductBounceY_y_cases (p : AirParticle K) (duct : Rect K) :
    (p.ductBounceY duct).y = p.y ∨ (p.ductBounceY duct).y = duct.y + 0.01 ∨
    (p.ductBounceY duct).y = duct.y + duct.height - 0.01 := by
  unfold AirParticle.ductBounceY
  split_ifs
  · exact Or.inr (Or.inl rfl)
  · exact Or.inr (Or.inr rfl)
  · exact Or.inl rfl

/-- The fan block does nothing for an inactive fan and outside the duct. -/
theorem fanDuct_of_outside (p : AirParticle K) (fan : Fan K)
    (h : fan.isActive = true → ∀ duct, fan.duct = some duct → ¬ duct.contains p.x p.y) :
    p.fanDuct fan = p := by
  unfold AirParticle.fanDuct
  split
  · rename_i duct hact hduct
    rw [if_neg]
    exact h hact duct hduct
  · rfl

/-- The fan block keeps the position, or moves a particle of the duct of an
active fan to 0.01 inside a duct wall. -/
theorem fanDuct_pos (p : AirParticle K) (fan : Fan K) :
    ((p.fanDuct fan).x = p.x ∧ (p.fanDuct fan).y = p.y) ∨
    ∃ duct, fan.duct = some duct ∧ duct.contains p.x p.y ∧
      ((p.fanDuct fan).x = p.x ∨ (p.fanDuct fan).x = duct.x + 0.01 ∨
        (p.fanDuct fan).x = duct.x + duct.width - 0.01) ∧
      ((p.fanDuct fan).y = p.y ∨ (p.fanDuct fan).y = duct.y + 0.01 ∨
        (p.fanDuct fan).y = duct.y + duct.height - 0.01) := by
  unfold AirParticle.fanDuct
  split
  · rename_i duct hact hduct
    split_ifs with hin
    · right
      refine ⟨duct, hduct, hin, ?_, ?_⟩
      · simp only [ductCorrectY_x, ductCorrectX_x, ductBounceY_x]
        exact ductBounceX_x_cases _ duct
      · simp only [ductCorrectY_y, ductCorrectX_y]
        have h := ductBounceY_y_cases
          (({ p with velocity :=
            { x := p.velocity.x + fan.direction.x * 3.0,
              y := p.velocity.y + fan.direction.y * 3.0 } } : AirParticle K).ductBounceX duct) duct
        simpa using h
    · exact Or.inl ⟨rfl, rfl⟩
  · exact Or.inl ⟨rfl, rfl⟩

/-- The bedroom-wall block keeps a valid position valid. -/
theorem bedroomWall_inside (p : AirParticle K) (a : Apartment K)
    (h : InsideDefaultLayout p.x p.y) :
    InsideDefaultLayout (p.bedroomWall a).x (p.bedroomWall a).y := by
  obtain ⟨h1, h2, h3, h4, h5⟩ := h
  rw [bedroomWall_y]
  rcases bedroomWall_x_cases p a with hx | ⟨-, -, -, -, hx | hx⟩
  · rw [hx]; exact ⟨h1, h2, h3, h4, h5⟩
  · rw [hx]; exact ⟨by norm_num, by norm_num, h3, h4, fun _ _ => by norm_num⟩
  · rw [hx]; exact ⟨by norm_num, by norm_num, h3, h4, fun _ _ => by norm_num⟩

/-- In the default layout the AC block keeps a valid position valid. -/
theorem acChannel_inside (a : Apartment K) (hL : DefaultLayout a) (p : AirParticle K)
    (h : InsideDefaultLayout p.x p.y) :
    InsideDefaultLayout (p.acChannel a).x (p.acChannel a).y := by
  obtain ⟨t, f, b, hac⟩ := hL.acUnit
  rcases acChannel_unfold p a with ⟨-, -, he⟩ | ⟨hreg, c, d, sb, st, m, u, he, hsec⟩
  · rw [he]; exact h
  · rw [he, acNoBackward_y]
    have hbox : 0.2 ≤ p.x ∧ p.x ≤ 1.2 ∧ 4 ≤ p.y ∧ p.y ≤ 4.3 := by
      unfold ACUnit.inMainUnit Rect.contains at hreg
      rw [hac] at hreg
      simp only [defaultApartment, Apartment.new] at hreg
      norm_num at hreg ⊢
      rcases hreg with ⟨r1, r2, r3, r4⟩ | ⟨r1, r2, r3, r4⟩
      · exact ⟨r1, by linarith, r3, r4⟩
      · exact ⟨by linarith, r2, by linarith, by linarith⟩
    have hx : 0.2 ≤ ((((({ p with velocity := { p.velocity with x := max p.velocity.x 2.5 } } :
        AirParticle K).acCenter c d).acTubeWalls sb st).acNoBackward a.acUnit m u)).x ∧
        ((((({ p with velocity := { p.velocity with x := max p.velocity.x 2.5 } } :
        AirParticle K).acCenter c d).acTubeWalls sb st).acNoBackward a.acUnit m u)).x ≤ 1.2 := by
      rcases acNoBackward_x_cases ((({ p with velocity :=
          { p.velocity with x := max p.velocity.x 2.5 } } :
          AirParticle K).acCenter c d).acTubeWalls sb st) a.acUnit m u with hx | hx | hx
      · rw [hx]; simp only [acTubeWalls_x, acCenter_x]; exact ⟨hbox.1, hbox.2.1⟩
      · rw [hx, hac]; simp only [defaultApartment, Apartment.new]; norm_num
      · rw [hx, hac]; simp only [defaultApartment, Apartment.new]; norm_num
    have hy : 4 ≤ (((({ p with velocity := { p.velocity with x := max p.velocity.x 2.5 } } :
        AirParticle K).acCenter c d).acTubeWalls sb st)).y ∧
        (((({ p with velocity := { p.velocity with x := max p.velocity.x 2.5 } } :
        AirParticle K).acCenter c d).acTubeWalls sb st)).y ≤ 4.3 := by
      have hsec2 : (sb = 4 ∧ st = 4.3) ∨ (sb = 4.05 ∧ st = 4.25) := by
        rw [hac] at hsec
        simp only [defaultApartment, Apartment.new] at hsec
        norm_num at hsec ⊢
        exact hsec
      rcases acTubeWalls_y_cases (({ p with velocity :=
          { p.velocity with x := max p.velocity.x 2.5 } } :
          AirParticle K).acCenter c d) sb st with hy | hy | hy
      · rw [hy]; simp only [acCenter_y]; exact ⟨hbox.2.2.1, hbox.2.2.2⟩
      · rw [hy]; rcases hsec2 with ⟨e1, -⟩ | ⟨e1, -⟩ <;> rw [e1] <;> norm_num
      · rw [hy]; rcases hsec2 with ⟨-, e1⟩ | ⟨-, e1⟩ <;> rw [e1] <;> norm_num
    refine ⟨by norm_num at hx ⊢; linarith [hx.1], by norm_num at hx ⊢; linarith [hx.2],
      by linarith [hy.1], by norm_num at hy ⊢; linarith [hy.2], fun _ hb => ?_⟩
    exfalso
    norm_num at hb
    linarith [hy.1]
/-- A fan block whose duct lies in a box of valid points away from the floor
band keeps a valid position valid. -/
theorem fanDuct_inside (p : AirParticle K) (fan : Fan K)
    (hduct : ∀ duct, fan.duct = some duct →
      0 ≤ duct.x ∧ duct.x + duct.width ≤ 9 ∧ 3.05 ≤ duct.y ∧ duct.y + duct.height ≤ 6 ∧
      0.01 ≤ duct.width ∧ 0.01 ≤ duct.height)
    (h : InsideDefaultLayout p.x p.y) :
    InsideDefaultLayout (p.fanDuct fan).x (p.fanDuct fan).y := by
  rcases fanDuct_pos p fan with ⟨hx, hy⟩ | ⟨duct, hd, hin, hx, hy⟩
  · rw [hx, hy]; exact h
  · obtain ⟨d1, d2, d3, d4, d5, d6⟩ := hduct duct hd
    obtain ⟨i1, i2, i3, i4⟩ := hin
    have hxb : duct.x ≤ (p.fanDuct fan).x ∧ (p.fanDuct fan).x ≤ duct.x + duct.width := by
      rcases hx with hx | hx | hx <;> rw [hx]
      · exact ⟨i1, i2⟩
      · exact ⟨by norm_num, by norm_num at d5 ⊢; linarith⟩
      · exact ⟨by norm_num at d5 ⊢; linarith, by norm_num⟩
    have hyb : duct.y ≤ (p.fanDuct fan).y ∧ (p.fanDuct fan).y ≤ duct.y + duct.height := by
      rcases hy with hy | hy | hy <;> rw [hy]
      · exact ⟨i3, i4⟩
      · exact ⟨by norm_num, by norm_num at d6 ⊢; linarith⟩
      · exact ⟨by norm_num at d6 ⊢; linarith, by norm_num⟩
    refine ⟨by linarith [hxb.1], by linarith [hxb.2], ?_, by linarith [hyb.2], fun _ hb => ?_⟩
    · norm_num at d3; linarith [hyb.1]
    · exfalso; linarith [hyb.1]

/-- In the default layout `handleWindowEscape` keeps a valid position valid. -/
theorem handleWindowEscape_inside (a : Apartment K) (hL : DefaultLayout a) (p : AirParticle K)
    (h : InsideDefaultLayout p.x p.y) :
    InsideDefaultLayout (p.handleWindowEscape a).x (p.handleWindowEscape a).y := by
  obtain ⟨f1, b1, hf1⟩ := hL.stairFan
  obtain ⟨f2, b2, hf2⟩ := hL.bedroomFan
  unfold AirParticle.handleWindowEscape
  split_ifs
  · exact h
  · simp only [Fans.values, List.foldl_cons, List.foldl_nil]
    apply fanDuct_inside
    · intro duct hd
      rw [hf2] at hd
      simp only [defaultApartment, Apartment.new, Option.some.injEq] at hd
      subst hd
      norm_num
    · apply fanDuct_inside
      · intro duct hd
        rw [hf1] at hd
        simp only [defaultApartment, Apartment.new, Option.some.injEq] at hd
        subst hd
        norm_num
      · exact acChannel_inside a hL _ (bedroomWall_inside _ a h)

/-- One `update` of the housing particle with dt = 0.001 in the default
apartment: the AC block raises vx from 0 to the outlet speed 2.5 while friction
leaves vy = 4.851. -/
theorem housingParticle_update :
    ((housingParticle : AirParticle ℝ).update Real.sqrt 0.001 defaultApartment 22).1.velocity
      = { x := 2.5, y := 4.851 } := by
  have hq : (housingParticle : AirParticle ℝ).integrate Real.sqrt 0.001 22 =
      { (housingParticle : AirParticle ℝ) with
        x := 0.5, y := 4.154851, velocity := { x := 0, y := 4.851 }, age := 1 } := by
    norm_num [AirParticle.integrate, housingParticle, AirParticle.new, Vec2.speed]
  have habs : |(4851 / 1000000 : ℝ)| = 4851 / 1000000 := abs_of_pos (by norm_num)
  unfold AirParticle.update
  simp only [hq, handleBoundaries_eq]
  norm_num [AirParticle.resolveZone, Apartment.getZoneAtPoint, Zones.values, housingParticle,
    AirParticle.new, defaultApartment, Apartment.new, AirParticle.handleWindowEscape,
    AirParticle.escapes, Openings.entries, Opening.inWindow, AirParticle.bedroomWall,
    AirParticle.acChannel, AirParticle.acCenter, AirParticle.acTubeWalls,
    AirParticle.acNoBackward, AirParticle.fanDuct, Fans.values, habs]
/-- An outer-wall, floor or partition-wall bounce never increases the size of a
velocity component: left wall. -/
theorem bounceLeft_slower (p : AirParticle K) :
    |p.bounceLeft.velocity.x| ≤ |p.velocity.x| ∧ |p.bounceLeft.velocity.y| ≤ |p.velocity.y| := by
  unfold AirParticle.bounceLeft
  split_ifs
  · refine ⟨?_, le_refl _⟩
    show |(|p.velocity.x| * 0.3)| ≤ |p.velocity.x|
    rw [abs_mul, abs_abs, abs_of_pos (by norm_num : (0 : K) < 0.3)]
    nlinarith [abs_nonneg p.velocity.x]
  · exact ⟨le_refl _, le_refl _⟩

/-- Right wall: no velocity component grows. -/
theorem bounceRight_slower (p : AirParticle K) (a : Apartment K) :
    |(p.bounceRight a).velocity.x| ≤ |p.velocity.x| ∧
    |(p.bounceRight a).velocity.y| ≤ |p.velocity.y| := by
  unfold AirParticle.bounceRight
  split_ifs
  · refine ⟨?_, le_refl _⟩
    show |(-|p.velocity.x| * 0.3)| ≤ |p.velocity.x|
    rw [abs_mul, abs_neg, abs_abs, abs_of_pos (by norm_num : (0 : K) < 0.3)]
    nlinarith [abs_nonneg p.velocity.x]
  · exact ⟨le_refl _, le_refl _⟩

/-- Bottom wall: no velocity component grows. -/
theorem bounceBottom_slower (p : AirParticle K) :
    |p.bounceBottom.velocity.x| ≤ |p.velocity.x| ∧
    |p.bounceBottom.velocity.y| ≤ |p.velocity.y| := by
  unfold AirParticle.bounceBottom
  split_ifs
  · refine ⟨le_refl _, ?_⟩
    show |(|p.velocity.y| * 0.3)| ≤ |p.velocity.y|
    rw [abs_mul, abs_abs, abs_of_pos (by norm_num : (0 : K) < 0.3)]
    nlinarith [abs_nonneg p.velocity.y]
  · exact ⟨le_refl _, le_refl _⟩

/-- Top wall: no velocity component grows. -/
theorem bounceTop_slower (p : AirParticle K) (a : Apartment K) :
    |(p.bounceTop a).velocity.x| ≤ |p.velocity.x| ∧
    |(p.bounceTop a).velocity.y| ≤ |p.velocity.y| := by
  unfold AirParticle.bounceTop
  split_ifs
  · refine ⟨le_refl _, ?_⟩
    show |(-|p.velocity.y| * 0.3)| ≤ |p.velocity.y|
    rw [abs_mul, abs_neg, abs_abs, abs_of_pos (by norm_num : (0 : K) < 0.3)]
    nlinarith [abs_nonneg p.velocity.y]
  · exact ⟨le_refl _, le_refl _⟩

/-- Floor block: no velocity component grows, and y is kept or set to a face of
the floor band. -/
theorem bounceFloor_slower (p : AirParticle K) (a : Apartment K) :
    |(p.bounceFloor a).velocity.x| ≤ |p.velocity.x| ∧
    |(p.bounceFloor a).velocity.y| ≤ |p.velocity.y| ∧
    ((p.bounceFloor a).y = p.y ∨ (p.bounceFloor a).y = 2.95 ∨ (p.bounceFloor a).y = 3.05) := by
  have h3 : |(|p.velocity.y| * 0.3)| ≤ |p.velocity.y| := by
    rw [abs_mul, abs_abs, abs_of_pos (by norm_num : (0 : K) < 0.3)]
    nlinarith [abs_nonneg p.velocity.y]
  have h3n : |(-|p.velocity.y| * 0.3)| ≤ |p.velocity.y| := by
    rw [abs_mul, abs_neg, abs_abs, abs_of_pos (by norm_num : (0 : K) < 0.3)]
    nlinarith [abs_nonneg p.velocity.y]
  have h5 : |(|p.velocity.y| * 0.5)| ≤ |p.velocity.y| := by
    rw [abs_mul, abs_abs, abs_of_pos (by norm_num : (0 : K) < 0.5)]
    nlinarith [abs_nonneg p.velocity.y]
  have h5n : |(-|p.velocity.y| * 0.5)| ≤ |p.velocity.y| := by
    rw [abs_mul, abs_neg, abs_abs, abs_of_pos (by norm_num : (0 : K) < 0.5)]
    nlinarith [abs_nonneg p.velocity.y]
  rw [bounceFloor_vx]
  refine ⟨le_refl _, ?_⟩
  unfold AirParticle.bounceFloor
  simp only []
  split_ifs
  all_goals first
    | exact ⟨le_refl _, Or.inl rfl⟩
    | exact ⟨h3n, Or.inr (Or.inl rfl)⟩
    | exact ⟨h3, Or.inr (Or.inr rfl)⟩
    | exact ⟨h5, Or.inr (Or.inr rfl)⟩
    | exact ⟨h5n, Or.inr (Or.inl rfl)⟩

/-- Partition wall: no velocity component grows. -/
theorem bedroomWall_slower (p : AirParticle K) (a : Apartment K) :
    |(p.bedroomWall a).velocity.x| ≤ |p.velocity.x| ∧
    |(p.bedroomWall a).velocity.y| ≤ |p.velocity.y| := by
  have h3 : |(|p.velocity.x| * 0.3)| ≤ |p.velocity.x| := by
    rw [abs_mul, abs_abs, abs_of_pos (by norm_num : (0 : K) < 0.3)]
    nlinarith [abs_nonneg p.velocity.x]
  have h3n : |(-|p.velocity.x| * 0.3)| ≤ |p.velocity.x| := by
    rw [abs_mul, abs_neg, abs_abs, abs_of_pos (by norm_num : (0 : K) < 0.3)]
    nlinarith [abs_nonneg p.velocity.x]
  unfold AirParticle.bedroomWall
  simp only []
  split_ifs
  all_goals first
    | exact ⟨le_refl _, le_refl _⟩
    | exact ⟨h3n, le_refl _⟩
    | exact ⟨h3, le_refl _⟩

/-- In the default layout `bounceFromWalls` never increases the size of a
velocity component, and it keeps the position or puts a coordinate on an outer
wall or on a face of the floor band. -/
theorem bounceFromWalls_slower (a : Apartment K) (hL : DefaultLayout a) (p : AirParticle K) :
    |(p.bounceFromWalls a).velocity.x| ≤ |p.velocity.x| ∧
    |(p.bounceFromWalls a).velocity.y| ≤ |p.velocity.y| ∧
    (((p.bounceFromWalls a).x = p.x ∧ (p.bounceFromWalls a).y = p.y) ∨
      (p.bounceFromWalls a).x = 0 ∨ (p.bounceFromWalls a).x = 9 ∨
      (p.bounceFromWalls a).y = 0 ∨ (p.bounceFromWalls a).y = 6 ∨
      (p.bounceFromWalls a).y = 2.95 ∨ (p.bounceFromWalls a).y = 3.05) := by
  have hx := bounceLeftRight_x a hL p
  have hy := bounceBottomTop_y a hL ((p.bounceLeft).bounceRight a)
  obtain ⟨f1, f2, f3⟩ := bounceFloor_slower ((((p.bounceLeft).bounceRight a).bounceBottom).bounceTop a) a
  obtain ⟨t1, t2⟩ := bounceTop_slower (((p.bounceLeft).bounceRight a).bounceBottom) a
  obtain ⟨b1, b2⟩ := bounceBottom_slower ((p.bounceLeft).bounceRight a)
  obtain ⟨r1, r2⟩ := bounceRight_slower (p.bounceLeft) a
  obtain ⟨l1, l2⟩ := bounceLeft_slower p
  unfold AirParticle.bounceFromWalls
  refine ⟨le_trans f1 (le_trans t1 (le_trans b1 (le_trans r1 l1))),
    le_trans f2 (le_trans t2 (le_trans b2 (le_trans r2 l2))), ?_⟩
  rw [bounceFloor_x, bounceTop_x, bounceBottom_x, hx]
  simp only [bounceRight_y, bounceLeft_y] at hy
  rcases f3 with f3 | f3 | f3
  · rw [f3, hy]
    split_ifs
    all_goals first
      | exact Or.inl ⟨rfl, rfl⟩
      | exact Or.inr (Or.inl rfl)
      | exact Or.inr (Or.inr (Or.inl rfl))
      | exact Or.inr (Or.inr (Or.inr (Or.inl rfl)))
      | exact Or.inr (Or.inr (Or.inr (Or.inr (Or.inl rfl))))
  · exact Or.inr (Or.inr (Or.inr (Or.inr (Or.inr (Or.inl f3)))))
  · exact Or.inr (Or.inr (Or.inr (Or.inr (Or.inr (Or.inr f3)))))
/-- In the default layout a point with a coordinate on an outer wall, on a face
of the partition wall or on a face of the floor band is outside the AC
housing, the tube and both fan ducts. -/
theorem outside_devices (a : Apartment K) (hL : DefaultLayout a) (x y : K)
    (h : x = 0 ∨ x = 9 ∨ x = 5.9 ∨ x = 6.1 ∨ y = 0 ∨ y = 6 ∨ y = 2.95 ∨ y = 3.05) :
    ¬ a.acUnit.inMainUnit x y ∧ ¬ a.acUnit.tube.contains x y ∧
    ∀ fan ∈ a.fans.values, ∀ duct, fan.duct = some duct → ¬ duct.contains x y := by
  obtain ⟨t, f, b, hac⟩ := hL.acUnit
  obtain ⟨f1, b1, hf1⟩ := hL.stairFan
  obtain ⟨f2, b2, hf2⟩ := hL.bedroomFan
  refine ⟨?_, ?_, ?_⟩
  · unfold ACUnit.inMainUnit
    rw [hac]
    simp only [defaultApartment, Apartment.new]
    rintro ⟨h1, h2, h3, h4⟩
    norm_num at h1 h2 h3 h4 h
    rcases h with h | h | h | h | h | h | h | h <;> linarith
  · unfold Rect.contains
    rw [hac]
    simp only [defaultApartment, Apartment.new]
    rintro ⟨h1, h2, h3, h4⟩
    norm_num at h1 h2 h3 h4 h
    rcases h with h | h | h | h | h | h | h | h <;> linarith
  · intro fan hfan duct hduct
    simp only [Fans.values, List.mem_cons, List.mem_singleton, List.not_mem_nil, or_false] at hfan
    rcases hfan with rfl | rfl
    · rw [hf1] at hduct
      simp only [defaultApartment, Apartment.new, Option.some.injEq] at hduct
      subst hduct
      unfold Rect.contains
      rintro ⟨h1, h2, h3, h4⟩
      norm_num at h1 h2 h3 h4 h
      rcases h with h | h | h | h | h | h | h | h <;> linarith
    · rw [hf2] at hduct
      simp only [defaultApartment, Apartment.new, Option.some.injEq] at hduct
      subst hduct
      unfold Rect.contains
      rintro ⟨h1, h2, h3, h4⟩
      norm_num at h1 h2 h3 h4 h
      rcases h with h | h | h | h | h | h | h | h <;> linarith
/-- In the default layout the zone lookup with its bounce fallback never
increases the size of a velocity component, and it keeps the position or puts
a coordinate on an outer wall or on a face of the floor band. -/
theorem resolveZone_slower (a : Apartment K) (hL : DefaultLayout a) (p : AirParticle K) :
    |(p.resolveZone a).velocity.x| ≤ |p.velocity.x| ∧
    |(p.resolveZone a).velocity.y| ≤ |p.velocity.y| ∧
    (((p.resolveZone a).x = p.x ∧ (p.resolveZone a).y = p.y) ∨
      (p.resolveZone a).x = 0 ∨ (p.resolveZone a).x = 9 ∨
      (p.resolveZone a).y = 0 ∨ (p.resolveZone a).y = 6 ∨
      (p.resolveZone a).y = 2.95 ∨ (p.resolveZone a).y = 3.05) := by
  unfold AirParticle.resolveZone
  split
  · exact bounceFromWalls_slower a hL p
  · exact ⟨le_refl _, le_refl _, Or.inl ⟨rfl, rfl⟩⟩

/-- In the default layout, boundary resolution of a particle outside the AC
housing, the tube and the duct of every active fan never increases the size
of a velocity component. -/
theorem handleBoundaries_slower (a : Apartment K) (hL : DefaultLayout a) (q : AirParticle K)
    (hmain : ¬ a.acUnit.inMainUnit q.x q.y) (htube : ¬ a.acUnit.tube.contains q.x q.y)
    (hfans : ∀ fan ∈ a.fans.values, fan.isActive = true →
      ∀ duct, fan.duct = some duct → ¬ duct.contains q.x q.y) :
    |(q.handleBoundaries a).velocity.x| ≤ |q.velocity.x| ∧
    |(q.handleBoundaries a).velocity.y| ≤ |q.velocity.y| := by
  obtain ⟨z1, z2, z3⟩ := resolveZone_slower a hL q
  obtain ⟨w1, w2⟩ := bedroomWall_slower (q.resolveZone a) a
  rw [handleBoundaries_eq]
  unfold AirParticle.handleWindowEscape
  split_ifs
  · exact ⟨z1, z2⟩
  · have hpos : (((q.resolveZone a).bedroomWall a).x = q.x ∧
        ((q.resolveZone a).bedroomWall a).y = q.y) ∨
        (((q.resolveZone a).bedroomWall a).x = 0 ∨ ((q.resolveZone a).bedroomWall a).x = 9 ∨
         ((q.resolveZone a).bedroomWall a).x = 5.9 ∨ ((q.resolveZone a).bedroomWall a).x = 6.1 ∨
         ((q.resolveZone a).bedroomWall a).y = 0 ∨ ((q.resolveZone a).bedroomWall a).y = 6 ∨
         ((q.resolveZone a).bedroomWall a).y = 2.95 ∨
         ((q.resolveZone a).bedroomWall a).y = 3.05) := by
      rw [bedroomWall_y]
      rcases bedroomWall_x_cases (q.resolveZone a) a with hx | ⟨-, -, -, -, hx | hx⟩
      · rw [hx]
        rcases z3 with ⟨e1, e2⟩ | e | e | e | e | e | e
        · exact Or.inl ⟨e1, e2⟩
        all_goals (right; simp only [e, true_or, or_true])
      · right; simp only [hx, true_or, or_true]
      · right; simp only [hx, true_or, or_true]
    have hout : ¬ a.acUnit.inMainUnit ((q.resolveZone a).bedroomWall a).x
          ((q.resolveZone a).bedroomWall a).y ∧
        ¬ a.acUnit.tube.contains ((q.resolveZone a).bedroomWall a).x
          ((q.resolveZone a).bedroomWall a).y ∧
        ∀ fan ∈ a.fans.values, fan.isActive = true → ∀ duct, fan.duct = some duct →
          ¬ duct.contains ((q.resolveZone a).bedroomWall a).x
            ((q.resolveZone a).bedroomWall a).y := by
      rcases hpos with ⟨e1, e2⟩ | hS
      · rw [e1, e2]; exact ⟨hmain, htube, hfans⟩
      · obtain ⟨o1, o2, o3⟩ := outside_devices a hL _ _ hS
        exact ⟨o1, o2, fun fan hfan _ duct hduct => o3 fan hfan duct hduct⟩
    have hac : ((q.resolveZone a).bedroomWall a).acChannel a = (q.resolveZone a).bedroomWall a := by
      rcases acChannel_unfold ((q.resolveZone a).bedroomWall a) a with ⟨-, -, he⟩ | ⟨hreg, -⟩
      · exact he
      · rcases hreg with hreg | hreg
        · exact absurd hreg hout.1
        · exact absurd hreg hout.2.1
    simp only [Fans.values, List.foldl_cons, List.foldl_nil, hac]
    have hf1 : ((q.resolveZone a).bedroomWall a).fanDuct a.fans.stairFan
        = (q.resolveZone a).bedroomWall a :=
      fanDuct_of_outside _ _ (hout.2.2 a.fans.stairFan (by simp [Fans.values]))
    rw [hf1]
    have hf2 : ((q.resolveZone a).bedroomWall a).fanDuct a.fans.bedroomFan
        = (q.resolveZone a).bedroomWall a :=
      fanDuct_of_outside _ _ (hout.2.2 a.fans.bedroomFan (by simp [Fans.values]))
    rw [hf2]
    exact ⟨le_trans w1 z1, le_trans w2 z2⟩

/-- A velocity with smaller components has a smaller speed. -/
theorem speed_le_of_abs_le (v w : Vec2 ℝ) (hx : |v.x| ≤ |w.x|) (hy : |v.y| ≤ |w.y|) :
    v.speed Real.sqrt ≤ w.speed Real.sqrt := by
  unfold Vec2.speed
  apply Real.sqrt_le_sqrt
  have h1 : v.x * v.x ≤ w.x * w.x := by
    rw [← abs_mul_abs_self v.x, ← abs_mul_abs_self w.x]
    exact mul_self_le_mul_self (abs_nonneg _) hx
  have h2 : v.y * v.y ≤ w.y * w.y := by
    rw [← abs_mul_abs_self v.y, ← abs_mul_abs_self w.y]
    exact mul_self_le_mul_self (abs_nonneg _) hy
  exact add_le_add h1 h2

/-- At ambient temperature the kinetic part of `update` is friction alone: the
speed is multiplied by 0.99. -/
theorem integrate_speed_ambient (p : AirParticle ℝ) (dt : ℝ) :
    (p.integrate Real.sqrt dt p.temperature).velocity.speed Real.sqrt =
      0.99 * p.velocity.speed Real.sqrt := by
  unfold AirParticle.integrate Vec2.speed
  simp only [sub_self, zero_mul, add_zero, lt_self_iff_false, if_false]
  have h : p.velocity.x * 0.99 * (p.velocity.x * 0.99) + p.velocity.y * 0.99 * (p.velocity.y * 0.99)
      = 0.99 * 0.99 * (p.velocity.x * p.velocity.x + p.velocity.y * p.velocity.y) := by ring
  rw [h, Real.sqrt_mul (by norm_num), Real.sqrt_mul_self (by norm_num)]

/-- The `reduce` of `avgTemp` is the sum of the listed particle temperatures. -/
theorem avgTemp_eq (zone : Zone K) (particles : List (AirParticle K)) :
    zone.avgTemp particles =
      (zone.airParticles.map (particleTemperature particles)).sum /
        (zone.airParticles.length : K) := by
  unfold Zone.avgTemp
  congr 1
  rw [List.sum_eq_foldl, List.foldl_map]

/-- A sum of `n` values that are all at least `lo` is at least `n * lo`. -/
theorem sum_ge_of_forall_ge (f : Nat → K) (lo : K) (l : List Nat) (h : ∀ ref ∈ l, lo ≤ f ref) :
    (l.length : K) * lo ≤ (l.map f).sum := by
  induction l with
  | nil => simp
  | cons r rest ih =>
    have h1 := h r (List.mem_cons_self _ _)
    have h2 := ih (fun ref hr => h ref (List.mem_cons_of_mem _ hr))
    simp only [List.length_cons, List.map_cons, List.sum_cons, Nat.cast_add, Nat.cast_one]
    linarith

/-- A sum of `n` values that are all at most `hi` is at most `n * hi`. -/
theorem sum_le_of_forall_le (f : Nat → K) (hi : K) (l : List Nat) (h : ∀ ref ∈ l, f ref ≤ hi) :
    (l.map f).sum ≤ (l.length : K) * hi := by
  induction l with
  | nil => simp
  | cons r rest ih =>
    have h1 := h r (List.mem_cons_self _ _)
    have h2 := ih (fun ref hr => h ref (List.mem_cons_of_mem _ hr))
    simp only [List.length_cons, List.map_cons, List.sum_cons, Nat.cast_add, Nat.cast_one]
    linarith

/-- The id `'stairShaft'` names no zone: the guard `if (!connectedZone) return`
ends the iteration for it before any flow area is computed. -/
theorem flowBetween_stairShaft [FloorRing K] (sqrt : K → K) (rand : Nat → K) (fs : FlowSolver K)
    (dt : K) (state : List (AirParticle K) × List (String × String × K) × List (Nat × K × K))
    (zone : Zone K) :
    FlowSolver.flowBetween sqrt rand fs dt state zone "stairShaft" = state := by
  have h : fs.apartment.zones.get? "stairShaft" = none := by
    unfold Zones.get?
    simp
  unfold FlowSolver.flowBetween
  rw [h]

/-- In the default layout the pairs visited by `calculateInterZoneFlows` are
mezzanine to bedroom, mezzanine to `'stairShaft'` and bedroom to mezzanine. -/
theorem connectionPairs_layout (fs : FlowSolver K) (hL : DefaultLayout fs.apartment) :
    fs.connectionPairs =
      [(fs.apartment.zones.upperMezzanine, "upperBedroom"),
       (fs.apartment.zones.upperMezzanine, "stairShaft"),
       (fs.apartment.zones.upperBedroom, "upperMezzanine")] := by
  obtain ⟨tm, lm, hm⟩ := hL.upperMezzanine
  obtain ⟨tb, lb, hb⟩ := hL.upperBedroom
  obtain ⟨tl, ll, hl⟩ := hL.lowerFloor
  unfold FlowSolver.connectionPairs Zones.values
  simp [hm, hb, hl, defaultApartment, Apartment.new]

/-- In the default layout the only opening between the mezzanine and the bedroom
is the bedroom door. -/
theorem getOpeningsBetweenZones_door (a : Apartment K) (hL : DefaultLayout a) :
    a.getOpeningsBetweenZones "upperMezzanine" "upperBedroom" = [a.openings.bedroomDoor] ∧
    a.getOpeningsBetweenZones "upperBedroom" "upperMezzanine" = [a.openings.bedroomDoor] := by
  obtain ⟨b, hd⟩ := hL.bedroomDoor
  obtain ⟨bl, hl, -, -, hlw⟩ := hL.leftWindow
  obtain ⟨br, hr, -, -, hrw⟩ := hL.rightWindow
  unfold Apartment.getOpeningsBetweenZones Openings.entries
  simp [hd, hlw, hrw, defaultApartment, Apartment.new, List.filter]

/-- In the default layout, the iteration for the mezzanine and the bedroom (in
either order) does nothing when the door is closed, and otherwise records one
call with the area 1.68 of the door. -/
theorem flowBetween_door [FloorRing K] (sqrt : K → K) (rand : Nat → K) (fs : FlowSolver K)
    (hL : DefaultLayout fs.apartment) (dt : K)
    (state : List (AirParticle K) × List (String × String × K) × List (Nat × K × K))
    (zone : Zone K) (id : String)
    (hpair : (zone.id = "upperMezzanine" ∧ id = "upperBedroom") ∨
      (zone.id = "upperBedroom" ∧ id = "upperMezzanine")) :
    (fs.apartment.openings.bedroomDoor.isOpen = false →
      FlowSolver.flowBetween sqrt rand fs dt state zone id = state) ∧
    (fs.apartment.openings.bedroomDoor.isOpen = true →
      (FlowSolver.flowBetween sqrt rand fs dt state zone id).2.1 =
        state.2.1 ++ [(zone.id, id, 1.68)]) := by
  obtain ⟨b, hd⟩ := hL.bedroomDoor
  obtain ⟨tm, lm, hm⟩ := hL.upperMezzanine
  obtain ⟨tb, lb, hb⟩ := hL.upperBedroom
  have hop := getOpeningsBetweenZones_door fs.apartment hL
  have harea : (0.8 : K) * 2.1 = 1.68 := by norm_num
  have hpos : (0 : K) < 1.68 := by norm_num
  unfold FlowSolver.flowBetween
  rcases hpair with ⟨hz, hi⟩ | ⟨hz, hi⟩
  · subst hi
    have hget : fs.apartment.zones.get? "upperBedroom" = some fs.apartment.zones.upperBedroom := by
      unfold Zones.get?
      simp
    rw [hget]
    simp only [hz, hop.1, hd, List.foldl_cons, List.foldl_nil]
    constructor
    · intro hc
      subst hc
      simp [defaultApartment, Apartment.new]
    · intro hc
      subst hc
      simp [defaultApartment, Apartment.new, harea, hpos, hb]
  · subst hi
    have hget : fs.apartment.zones.get? "upperMezzanine" =
        some fs.apartment.zones.upperMezzanine := by
      unfold Zones.get?
      simp
    rw [hget]
    simp only [hz, hop.2, hd, List.foldl_cons, List.foldl_nil]
    constructor
    · intro hc
      subst hc
      simp [defaultApartment, Apartment.new]
    · intro hc
      subst hc
      simp [defaultApartment, Apartment.new, harea, hpos, hm]

/-- The apartment `closedDoorApartment` has the default layout. -/
theorem closedDoorApartment_layout : DefaultLayout (closedDoorApartment : Apartment K) where
  width := by norm_num [closedDoorApartment, Apartment.updateOpeningState, defaultApartment, Apartment.new]
  height := by norm_num [closedDoorApartment, Apartment.updateOpeningState, defaultApartment, Apartment.new]
  stairOpening := rfl
  upperMezzanine := ⟨16, [], rfl⟩
  upperBedroom := ⟨22, [], rfl⟩
  lowerFloor := ⟨22, [], rfl⟩
  bedroomDoor := ⟨false, rfl⟩
  leftWindow := ⟨false, 1.5, by norm_num, by norm_num, rfl⟩
  rightWindow := ⟨false, 1.5, by norm_num, by norm_num, rfl⟩
  acUnit := ⟨16, 0.5, true, rfl⟩
  stairFan := ⟨0.5, false, rfl⟩
  bedroomFan := ⟨0.5, false, rfl⟩

/-- The spawn loop with the cap of 1000: the result is the old array followed by
new particles, as many as there are iterations but at most the room left
under 1000. -/
theorem spawnLoop_append {α : Type} (f : Nat → α) (iterations : List Nat) (ps : List α) :
    ∃ added, iterations.foldl
        (fun ps i => if ps.length < 1000 then ps ++ [f i] else ps) ps = ps ++ added ∧
      added.length = min iterations.length (1000 - ps.length) ∧
      ∀ p ∈ added, ∃ i, p = f i := by
  induction iterations generalizing ps with
  | nil => exact ⟨[], by simp⟩
  | cons i rest ih =>
    rw [List.foldl_cons]
    by_cases h : ps.length < 1000
    · rw [if_pos h]
      obtain ⟨added, h1, h2, h3⟩ := ih (ps ++ [f i])
      refine ⟨f i :: added, ?_, ?_, ?_⟩
      · rw [h1, List.append_assoc]
        rfl
      · rw [List.length_append, List.length_singleton] at h2
        rw [List.length_cons, List.length_cons, h2]
        omega
      · intro p hp
        rcases List.mem_cons.mp hp with hp | hp
        · exact ⟨i, hp⟩
        · exact h3 p hp
    · rw [if_neg h]
      obtain ⟨added, h1, h2, h3⟩ := ih ps
      refine ⟨added, h1, ?_, h3⟩
      rw [h2, List.length_cons]
      omega

/-- The spawn loop of `applyACEffects` appends to the array, as many particles as
`floor(flowStrength * 2)` (none when that is negative) but at most the room
left under 1000; each new particle is one built by `createACParticle`. -/
theorem spawnACParticles_append [FloorRing K] (cos sin : K → K) (pi : K) (rand : Nat → K)
    (ac : ACUnit K) (particles : List (AirParticle K)) :
    ∃ added, FlowSolver.spawnACParticles cos sin pi rand ac particles = particles ++ added ∧
      added.length = min (⌊ac.flowStrength * 2⌋).toNat (1000 - particles.length) ∧
      ∀ p ∈ added, ∃ angleDraw idDraw,
        p = FlowSolver.createACParticle cos sin pi ac angleDraw idDraw := by
  obtain ⟨added, h1, h2, h3⟩ := spawnLoop_append
    (fun i => FlowSolver.createACParticle cos sin pi ac (rand (2 * i)) (rand (2 * i + 1)))
    (List.range (⌊ac.flowStrength * 2⌋).toNat) particles
  refine ⟨added, h1, ?_, ?_⟩
  · rw [h2, List.length_range]
  · intro p hp
    obtain ⟨i, hi⟩ := h3 p hp
    exact ⟨_, _, hi⟩

/-- A loop whose body keeps the length of the array keeps it overall; the cooling
loop of `applyACEffects`, which writes particles in place, is such a loop. -/
theorem foldl_length_of_step {α β : Type} (step : List α → β → List α)
    (hstep : ∀ ps ref, (step ps ref).length = ps.length) (refs : List β) (ps : List α) :
    (refs.foldl step ps).length = ps.length := by
  induction refs generalizing ps with
  | nil => rfl
  | cons ref rest ih => rw [List.foldl_cons, ih, hstep]

/-- A particle that the AC cools (in the airflow path, closer than 2 to the
outlet) leaves `coolParticle` with the blend of its temperature and the target
temperature weighted by `coolingEffect`. -/
theorem coolParticle_temperature (sqrt : K → K) (ac : ACUnit K) (dt : K) (particle : AirParticle K)
    (hpath : ac.isInAirflowPath particle) (hdist : ac.outletDistance sqrt particle < 2) :
    (FlowSolver.coolParticle sqrt ac dt particle).temperature =
      particle.temperature * (1 - ac.coolingEffect dt (ac.outletDistance sqrt particle)) +
        ac.temperature * ac.coolingEffect dt (ac.outletDistance sqrt particle) := by
  have hd : ac.outletDistance sqrt particle < 2.0 := by
    norm_num
    exact hdist
  unfold FlowSolver.coolParticle
  simp only [hpath, if_true, hd]
  rw [(addForce_frame sqrt _ _ _).1]

/-- The particle `outletParticle` is in the airflow path of `fullFlowAC`, at
distance 0 from its outlet. -/
theorem outletParticle_fullFlowAC :
    (fullFlowAC : ACUnit ℝ).isInAirflowPath outletParticle ∧
    (fullFlowAC : ACUnit ℝ).outletDistance Real.sqrt outletParticle = 0 := by
  constructor
  · norm_num [ACUnit.isInAirflowPath, fullFlowAC, Apartment.updateACSettings,
      defaultApartment, Apartment.new, outletParticle, AirParticle.new]
  · norm_num [ACUnit.outletDistance, fullFlowAC, Apartment.updateACSettings,
      defaultApartment, Apartment.new, outletParticle, AirParticle.new]

/-- A property kept by every step of a loop holds after the loop. -/
theorem foldl_invariant {σ β : Type} (P : σ → Prop) (f : σ → β → σ) (l : List β)
    (hstep : ∀ s, ∀ x ∈ l, P s → P (f s x)) (init : σ) (h0 : P init) :
    P (l.foldl f init) := by
  induction l generalizing init with
  | nil => exact h0
  | cons x rest ih =>
    rw [List.foldl_cons]
    exact ih (fun s y hy hs => hstep s y (List.mem_cons_of_mem _ hy) hs) _
      (hstep init x (List.mem_cons_self _ _) h0)

/-- Writing an entry of an array changes the sum of a field by the difference
of the new and the old value. -/
theorem sum_map_set {α : Type} (f : α → K) (l : List α) (i : Nat) (a b : α)
    (h : l[i]? = some b) : ((l.set i a).map f).sum = (l.map f).sum - f b + f a := by
  induction l generalizing i with
  | nil => simp at h
  | cons c rest ih =>
    cases i with
    | zero =>
      simp only [List.getElem?_cons_zero, Option.some.injEq] at h
      subst h
      simp only [List.set_cons_zero, List.map_cons, List.sum_cons]
      ring
    | succ k =>
      simp only [List.getElem?_cons_succ] at h
      simp only [List.set_cons_succ, List.map_cons, List.sum_cons, ih k h]
      ring

/-- Writing an entry of an array with a value that agrees with the old one on a
field leaves the list of that field unchanged. -/
theorem map_set_same {α β : Type} (g : α → β) (l : List α) (i : Nat) (a b : α)
    (h : l[i]? = some b) (hg : g a = g b) : (l.set i a).map g = l.map g := by
  induction l generalizing i with
  | nil => simp at h
  | cons c rest ih =>
    cases i with
    | zero =>
      simp only [List.getElem?_cons_zero, Option.some.injEq] at h
      subst h
      simp only [List.set_cons_zero, List.map_cons, hg]
    | succ k =>
      simp only [List.getElem?_cons_succ] at h
      simp only [List.set_cons_succ, List.map_cons, ih k h]

/-- Writing two different entries of a particle array with particles that keep
the positions and the sum of the two temperatures keeps the length, the
positions and the sum of all temperatures. -/
theorem set_pair_frame (l : List (AirParticle K)) (i j : Nat) (hij : i ≠ j)
    (A B a b : AirParticle K) (hA : l[i]? = some A) (hB : l[j]? = some B)
    (hax : a.x = A.x) (hay : a.y = A.y) (hbx : b.x = B.x) (hby : b.y = B.y)
    (hT : a.temperature + b.temperature = A.temperature + B.temperature) :
    ((l.set i a).set j b).length = l.length ∧
    ((l.set i a).set j b).map (fun p => p.x) = l.map (fun p => p.x) ∧
    ((l.set i a).set j b).map (fun p => p.y) = l.map (fun p => p.y) ∧
    (((l.set i a).set j b).map (fun p => p.temperature)).sum =
      (l.map (fun p => p.temperature)).sum := by
  have hB2 : (l.set i a)[j]? = some B := by rw [List.getElem?_set_ne hij]; exact hB
  refine ⟨by simp, ?_, ?_, ?_⟩
  · rw [map_set_same (fun p => p.x) _ j b B hB2 hbx, map_set_same (fun p => p.x) l i a A hA hax]
  · rw [map_set_same (fun p => p.y) _ j b B hB2 hby, map_set_same (fun p => p.y) l i a A hA hay]
  · rw [sum_map_set (fun p => p.temperature) _ j b B hB2,
      sum_map_set (fun p => p.temperature) l i a A hA]
    linarith

/-- The pairs visited by `handleParticleInteractions` are the pairs `i < j` of
indices of the array. -/
theorem mem_interactionPairs (n i j : Nat) :
    (i, j) ∈ FlowSolver.interactionPairs n ↔ i < j ∧ j < n := by
  unfold FlowSolver.interactionPairs
  simp only [List.mem_flatMap, List.mem_range, List.mem_map, List.mem_range'_1, Prod.mk.injEq]
  constructor
  · rintro ⟨a, ha, b, hb, rfl, rfl⟩
    omega
  · rintro ⟨h1, h2⟩
    exact ⟨i, by omega, j, by omega, rfl, rfl⟩

/-- One pair interaction keeps the length of the array, every position and the
sum of the temperatures, and never removes an index from the list of the
particles with a `NaN` velocity. -/
theorem interactPair_frame (sqrt : K → K) (dt : K) (state : List (AirParticle K) × List Nat)
    (i j : Nat) (hij : i ≠ j) :
    (FlowSolver.interactPair sqrt dt state i j).1.length = state.1.length ∧
    (FlowSolver.interactPair sqrt dt state i j).1.map (fun p => p.x) =
      state.1.map (fun p => p.x) ∧
    (FlowSolver.interactPair sqrt dt state i j).1.map (fun p => p.y) =
      state.1.map (fun p => p.y) ∧
    ((FlowSolver.interactPair sqrt dt state i j).1.map (fun p => p.temperature)).sum =
      (state.1.map (fun p => p.temperature)).sum ∧
    ∀ k ∈ state.2, k ∈ (FlowSolver.interactPair sqrt dt state i j).2 := by
  unfold FlowSolver.interactPair
  cases hA : state.1[i]? with
  | none => exact ⟨rfl, rfl, rfl, rfl, fun k hk => hk⟩
  | some A =>
    cases hB : state.1[j]? with
    | none => exact ⟨rfl, rfl, rfl, rfl, fun k hk => hk⟩
    | some B =>
      simp only []
      split_ifs with h1 h2
      · obtain ⟨e1, e2, e3, e4⟩ := set_pair_frame state.1 i j hij A B
          { A with temperature := A.temperature - (A.temperature - B.temperature) * (0.1 * dt) }
          { B with temperature := B.temperature + (A.temperature - B.temperature) * (0.1 * dt) }
          hA hB rfl rfl rfl rfl (by simp only []; ring)
        exact ⟨e1, e2, e3, e4, fun k hk => List.mem_append_left _ hk⟩
      · obtain ⟨e1, e2, e3, e4⟩ := set_pair_frame state.1 i j hij A B
          (AirParticle.addForce sqrt
            { A with temperature := A.temperature - (A.temperature - B.temperature) * (0.1 * dt) }
            ((A.x - B.x) / A.distanceTo sqrt B * 0.05) ((A.y - B.y) / A.distanceTo sqrt B * 0.05))
          (AirParticle.addForce sqrt
            { B with temperature := B.temperature + (A.temperature - B.temperature) * (0.1 * dt) }
            (-((A.x - B.x) / A.distanceTo sqrt B) * 0.05)
            (-((A.y - B.y) / A.distanceTo sqrt B) * 0.05))
          hA hB (addForce_frame sqrt _ _ _).2.2.1 (addForce_frame sqrt _ _ _).2.2.2.1
          (addForce_frame sqrt _ _ _).2.2.1 (addForce_frame sqrt _ _ _).2.2.2.1
          (by rw [(addForce_frame sqrt _ _ _).1, (addForce_frame sqrt _ _ _).1]; simp only []; ring)
        exact ⟨e1, e2, e3, e4, fun k hk => hk⟩
      · exact ⟨rfl, rfl, rfl, rfl, fun k hk => hk⟩
/-- A run of pair interactions over pairs of different indices keeps the length
of the array, every position and the sum of the temperatures, and never
removes an index from the list of the particles with a `NaN` velocity. -/
theorem interactLoop_frame (sqrt : K → K) (dt : K) (pairs : List (Nat × Nat))
    (hpairs : ∀ pair ∈ pairs, pair.1 ≠ pair.2) (state : List (AirParticle K) × List Nat) :
    (pairs.foldl (fun s pair => FlowSolver.interactPair sqrt dt s pair.1 pair.2)
      state).1.length = state.1.length ∧
    (pairs.foldl (fun s pair => FlowSolver.interactPair sqrt dt s pair.1 pair.2)
      state).1.map (fun p => p.x) = state.1.map (fun p => p.x) ∧
    (pairs.foldl (fun s pair => FlowSolver.interactPair sqrt dt s pair.1 pair.2)
      state).1.map (fun p => p.y) = state.1.map (fun p => p.y) ∧
    ((pairs.foldl (fun s pair => FlowSolver.interactPair sqrt dt s pair.1 pair.2)
      state).1.map (fun p => p.temperature)).sum = (state.1.map (fun p => p.temperature)).sum ∧
    ∀ k ∈ state.2, k ∈ (pairs.foldl
      (fun s pair => FlowSolver.interactPair sqrt dt s pair.1 pair.2) state).2 := by
  refine foldl_invariant
    (fun s => s.1.length = state.1.length ∧
      s.1.map (fun p => p.x) = state.1.map (fun p => p.x) ∧
      s.1.map (fun p => p.y) = state.1.map (fun p => p.y) ∧
      (s.1.map (fun p => p.temperature)).sum = (state.1.map (fun p => p.temperature)).sum ∧
      ∀ k ∈ state.2, k ∈ s.2)
    _ pairs ?_ state ⟨rfl, rfl, rfl, rfl, fun k hk => hk⟩
  intro s pair hpair ⟨h1, h2, h3, h4, h5⟩
  obtain ⟨e1, e2, e3, e4, e5⟩ := interactPair_frame sqrt dt s pair.1 pair.2 (hpairs pair hpair)
  exact ⟨e1.trans h1, e2.trans h2, e3.trans h3, e4.trans h4, fun k hk => e5 k (h5 k hk)⟩

/-- Two particles at the same position are at distance 0, so their pair
interaction divides 0 by 0 and leaves both with a `NaN` velocity. -/
theorem interactPair_coincident (dt : ℝ) (state : List (AirParticle ℝ) × List Nat) (i j : Nat)
    (A B : AirParticle ℝ) (hA : state.1[i]? = some A) (hB : state.1[j]? = some B)
    (hx : A.x = B.x) (hy : A.y = B.y) :
    (FlowSolver.interactPair Real.sqrt dt state i j).2 = state.2 ++ [i, j] := by
  have hd : A.distanceTo Real.sqrt B = 0 := by
    unfold AirParticle.distanceTo
    simp [hx, hy]
  unfold FlowSolver.interactPair
  simp only [hA, hB, hd]
  norm_num

/-- Two particles of the array at the same position both end
`handleParticleInteractions` with a `NaN` velocity. -/
theorem handleParticleInteractions_coincident (particles : List (AirParticle ℝ)) (dt : ℝ)
    (i j : Nat) (A B : AirParticle ℝ) (hij : i < j) (hA : particles[i]? = some A)
    (hB : particles[j]? = some B) (hx : A.x = B.x) (hy : A.y = B.y) :
    i ∈ (FlowSolver.handleParticleInteractions Real.sqrt particles dt).2 ∧
    j ∈ (FlowSolver.handleParticleInteractions Real.sqrt particles dt).2 := by
  have hj : j < particles.length := by
    by_contra hn
    rw [List.getElem?_eq_none (by omega)] at hB
    cases hB
  have hmem : (i, j) ∈ FlowSolver.interactionPairs particles.length :=
    (mem_interactionPairs _ _ _).mpr ⟨hij, hj⟩
  have hne : ∀ pair ∈ FlowSolver.interactionPairs particles.length, pair.1 ≠ pair.2 := by
    intro pair hp
    have := (mem_interactionPairs particles.length pair.1 pair.2).mp hp
    omega
  obtain ⟨before, after, hsplit⟩ := List.append_of_mem hmem
  have hb : ∀ pair ∈ before, pair.1 ≠ pair.2 := fun pair hp =>
    hne pair (by rw [hsplit]; exact List.mem_append_left _ hp)
  have ha : ∀ pair ∈ after, pair.1 ≠ pair.2 := fun pair hp =>
    hne pair (by rw [hsplit]; exact List.mem_append_right _ (List.mem_cons_of_mem _ hp))
  unfold FlowSolver.handleParticleInteractions
  rw [hsplit, List.foldl_append, List.foldl_cons]
  obtain ⟨-, h2, h3, -, -⟩ := interactLoop_frame Real.sqrt dt before hb (particles, [])
  set s := before.foldl (fun s pair => FlowSolver.interactPair Real.sqrt dt s pair.1 pair.2)
    (particles, []) with hs
  have hgetx : ∀ k : Nat, (s.1[k]?).map (fun p : AirParticle ℝ => p.x) =
      (particles[k]?).map (fun p : AirParticle ℝ => p.x) := by
    intro k
    rw [← List.getElem?_map, ← List.getElem?_map, h2]
  have hgety : ∀ k : Nat, (s.1[k]?).map (fun p : AirParticle ℝ => p.y) =
      (particles[k]?).map (fun p : AirParticle ℝ => p.y) := by
    intro k
    rw [← List.getElem?_map, ← List.getElem?_map, h3]
  have hAx := hgetx i
  have hAy := hgety i
  have hBx := hgetx j
  have hBy := hgety j
  rw [hA] at hAx hAy
  rw [hB] at hBx hBy
  cases hA2 : s.1[i]? with
  | none => rw [hA2] at hAx; cases hAx
  | some A2 =>
    cases hB2 : s.1[j]? with
    | none => rw [hB2] at hBx; cases hBx
    | some B2 =>
      rw [hA2] at hAx hAy
      rw [hB2] at hBx hBy
      simp only [Option.map_some', Option.some.injEq] at hAx hAy hBx hBy
      have hco := interactPair_coincident dt s i j A2 B2 hA2 hB2
        (by rw [hAx, hBx, hx]) (by rw [hAy, hBy, hy])
      obtain ⟨-, -, -, -, h5⟩ := interactLoop_frame Real.sqrt dt after ha
        (FlowSolver.interactPair Real.sqrt dt s i j)
      exact ⟨h5 i (by rw [hco]; simp), h5 j (by rw [hco]; simp)⟩
/-- With the default settings (AC flow 50) and the default apartment, one call of
`addACParticles` on an empty array creates four particles, all at
(0.25, 4.15) with velocity (1.2, 0) and temperature 16. -/
theorem addACParticles_default (rand : Nat → ℝ) :
    FluidSimulation.addACParticles defaultSettings (defaultApartment : Apartment ℝ) rand [] =
      [ventParticle (rand 0), ventParticle (rand 1), ventParticle (rand 2),
       ventParticle (rand 3)] := by
  have hfloor : ⌊(50 : ℝ) / 12⌋ = 4 := by
    rw [Int.floor_eq_iff]
    constructor <;> norm_num
  have hrange : List.range 4 = [0, 1, 2, 3] := by decide
  have hmax : max (500 : ℝ) (100 * 8) * 0.95 = 760 := by
    rw [max_eq_right (by norm_num)]
    norm_num
  have hspeed : max (1.2 : ℝ) (0.5 * 1.5) = 1.2 := max_eq_left (by norm_num)
  have hx : (0.2 : ℝ) + 0.05 = 0.25 := by norm_num
  have hy : (4 : ℝ) + 0.3 / 2 = 4.15 := by norm_num
  unfold FluidSimulation.addACParticles
  simp only [ventParticle, defaultSettings, defaultApartment, Apartment.new, hfloor, Int.toNat_ofNat, hrange,
    hmax, hspeed, hx, hy]
  rw [show Int.toNat 4 = 4 from rfl, hrange]
  norm_num
/-- One pair interaction at distance below 0.3 moves the two temperatures by the
opposite amounts `(TA - TB) * (0.1 * dt)`; at distance 0.3 or more it changes
nothing. -/
theorem interactPair_temperatures (sqrt : K → K) (dt : K)
    (state : List (AirParticle K) × List Nat) (i j : Nat) (hij : i ≠ j) (A B : AirParticle K)
    (hA : state.1[i]? = some A) (hB : state.1[j]? = some B) :
    (A.distanceTo sqrt B < 0.3 →
      ((FlowSolver.interactPair sqrt dt state i j).1[i]?).map (fun p => p.temperature) =
        some (A.temperature - (A.temperature - B.temperature) * (0.1 * dt)) ∧
      ((FlowSolver.interactPair sqrt dt state i j).1[j]?).map (fun p => p.temperature) =
        some (B.temperature + (A.temperature - B.temperature) * (0.1 * dt))) ∧
    (¬ A.distanceTo sqrt B < 0.3 → FlowSolver.interactPair sqrt dt state i j = state) := by
  have hi : i < state.1.length := by
    by_contra hn
    rw [List.getElem?_eq_none (by omega)] at hA
    cases hA
  have hj : j < state.1.length := by
    by_contra hn
    rw [List.getElem?_eq_none (by omega)] at hB
    cases hB
  have hji : j ≠ i := fun h => hij h.symm
  unfold FlowSolver.interactPair
  simp only [hA, hB]
  constructor
  · intro hd
    rw [if_pos hd]
    split_ifs
    · simp [List.getElem?_set, hij, hji, hi, hj]
    · simp [List.getElem?_set, hij, hji, hi, hj, (addForce_frame sqrt _ _ _).1]
  · intro hd
    rw [if_neg hd]
/-- The zone `getZoneAtPoint` returns is the zone object under the key that
`getZoneKeyAtPoint` returns. -/
theorem getZoneAtPoint_eq_byKey (a : Apartment K) (x y : K) :
    a.getZoneAtPoint x y = (a.getZoneKeyAtPoint x y).map a.zones.byKey := by
  unfold Apartment.getZoneAtPoint Apartment.getZoneKeyAtPoint
  split_ifs
  · rfl
  · rfl
  · rfl
  · rw [show a.zones.values = Zones.keys.map a.zones.byKey from rfl, List.find?_map]
    rfl

/-- Pushing a reference on a zone list changes that list only. -/
theorem byKey_push {F : Type} (z : Zones F) (key pushed : ZoneKey) (ref : Nat) :
    ((z.push pushed ref).byKey key).airParticles =
      (if key = pushed then (z.byKey key).airParticles ++ [ref]
        else (z.byKey key).airParticles) := by
  cases key <;> cases pushed <;> simp [Zones.push, Zones.byKey]

/-- Zone resolution does not read the zone lists: it is the same after a push. -/
theorem getZoneKeyAtPoint_push (a : Apartment K) (pushed : ZoneKey) (ref : Nat) (x y : K) :
    ({ a with zones := a.zones.push pushed ref } : Apartment K).getZoneKeyAtPoint x y =
      a.getZoneKeyAtPoint x y := by
  cases pushed <;> rfl

/-- Zone resolution does not read the zone lists: it is the same after they are
cleared. -/
theorem getZoneKeyAtPoint_clearZones (fs : FlowSolver K) (x y : K) :
    fs.clearZones.apartment.getZoneKeyAtPoint x y = fs.apartment.getZoneKeyAtPoint x y := rfl

/-- The assignment loop appends to each zone list the indices of the visited
particles that resolve to that zone, in the order visited, and leaves zone
resolution as it was. -/
theorem assignLoop_lists (a : Apartment K) (entries : List (Nat × AirParticle K))
    (state : FlowSolver K × List (AirParticle K))
    (hgeo : ∀ x y, state.1.apartment.getZoneKeyAtPoint x y = a.getZoneKeyAtPoint x y)
    (key : ZoneKey) :
    ((entries.foldl FlowSolver.assignParticle state).1.apartment.zones.byKey key).airParticles =
      (state.1.apartment.zones.byKey key).airParticles ++
        (entries.filter fun entry =>
          decide (a.getZoneKeyAtPoint entry.2.x entry.2.y = some key)).map Prod.fst := by
  induction entries generalizing state with
  | nil => simp
  | cons entry rest ih =>
    rw [List.foldl_cons]
    have hstep : ∀ x y, (FlowSolver.assignParticle state entry).1.apartment.getZoneKeyAtPoint x y
        = a.getZoneKeyAtPoint x y := by
      intro x y
      unfold FlowSolver.assignParticle
      cases hk : state.1.apartment.getZoneKeyAtPoint entry.2.x entry.2.y with
      | none => exact hgeo x y
      | some pushed =>
        simp only []
        rw [getZoneKeyAtPoint_push]
        exact hgeo x y
    rw [ih _ hstep]
    unfold FlowSolver.assignParticle
    rw [List.filter_cons]
    cases hk : state.1.apartment.getZoneKeyAtPoint entry.2.x entry.2.y with
    | none =>
      rw [hgeo] at hk
      simp [hk]
    | some pushed =>
      rw [hgeo] at hk
      simp only [hk, byKey_push, Option.some.injEq]
      by_cases hkey : key = pushed
      · subst hkey
        simp
      · have hkey2 : ¬ pushed = key := fun h => hkey h.symm
        simp [hkey, hkey2]
/-- In the default layout the AC housing and its tube lie in
[0.2, 1.2] x [4, 4.3]. -/
theorem acRegion_bounds (a : Apartment K) (hL : DefaultLayout a) (x y : K)
    (h : a.acUnit.inMainUnit x y ∨ a.acUnit.tube.contains x y) :
    0.2 ≤ x ∧ x ≤ 1.2 ∧ 4 ≤ y ∧ y ≤ 4.3 := by
  obtain ⟨t, f, b, hac⟩ := hL.acUnit
  unfold ACUnit.inMainUnit Rect.contains at h
  rw [hac] at h
  simp only [defaultApartment, Apartment.new] at h
  rcases h with ⟨h1, h2, h3, h4⟩ | ⟨h1, h2, h3, h4⟩
  · norm_num at h1 h2 h3 h4 ⊢
    exact ⟨h1, by linarith, h3, h4⟩
  · norm_num at h1 h2 h3 h4 ⊢
    exact ⟨by linarith, h2, by linarith, by linarith⟩

/-- In the default layout the fan ducts are [5.35, 5.65] x [5.1, 5.5] and
[8, 8.5] x [4.55, 4.75]. -/
theorem duct_bounds (a : Apartment K) (hL : DefaultLayout a) (fan : Fan K)
    (hfan : fan ∈ a.fans.values) (duct : Rect K) (hduct : fan.duct = some duct) :
    duct = { x := 5.35, y := 5.1, width := 0.3, height := 0.4 } ∨
    duct = { x := 8.0, y := 4.55, width := 0.5, height := 0.2 } := by
  obtain ⟨f1, b1, hf1⟩ := hL.stairFan
  obtain ⟨f2, b2, hf2⟩ := hL.bedroomFan
  simp only [Fans.values, List.mem_cons, List.mem_singleton, List.not_mem_nil, or_false] at hfan
  rcases hfan with rfl | rfl
  · rw [hf1] at hduct
    simp only [defaultApartment, Apartment.new, Option.some.injEq] at hduct
    exact Or.inl hduct.symm
  · rw [hf2] at hduct
    simp only [defaultApartment, Apartment.new, Option.some.injEq] at hduct
    exact Or.inr hduct.symm

/-- In the default layout a point with 1.2 < x that is not in the columns
[5.35, 5.65] and [8, 8.5] of the fan ducts is outside the AC housing, the tube
and both ducts. -/
theorem outside_devices_of_column (a : Apartment K) (hL : DefaultLayout a) (x y : K)
    (hac : 1.2 < x) (hduct : ¬ (5.35 ≤ x ∧ x ≤ 5.65) ∧ ¬ (8 ≤ x ∧ x ≤ 8.5)) :
    ¬ a.acUnit.inMainUnit x y ∧ ¬ a.acUnit.tube.contains x y ∧
    ∀ fan ∈ a.fans.values, ∀ duct, fan.duct = some duct → ¬ duct.contains x y := by
  refine ⟨?_, ?_, ?_⟩
  · intro h
    have := acRegion_bounds a hL x y (Or.inl h)
    linarith [this.2.1]
  · intro h
    have := acRegion_bounds a hL x y (Or.inr h)
    linarith [this.2.1]
  · intro fan hfan duct hd hin
    unfold Rect.contains at hin
    rcases duct_bounds a hL fan hfan duct hd with rfl | rfl
    · apply hduct.1
      norm_num at hin ⊢
      exact ⟨hin.1, hin.2.1⟩
    · apply hduct.2
      norm_num at hin ⊢
      exact ⟨hin.1, hin.2.1⟩

/-- A particle that does not escape and that the bedroom-wall block leaves
outside the AC housing, the tube and the duct of every active fan leaves
`handleWindowEscape` as the bedroom-wall block left it. -/
theorem handleWindowEscape_of_outside (p : AirParticle K) (a : Apartment K)
    (hesc : p.escapes a = false)
    (hmain : ¬ a.acUnit.inMainUnit (p.bedroomWall a).x (p.bedroomWall a).y)
    (htube : ¬ a.acUnit.tube.contains (p.bedroomWall a).x (p.bedroomWall a).y)
    (hfans : ∀ fan ∈ a.fans.values, fan.isActive = true → ∀ duct, fan.duct = some duct →
      ¬ duct.contains (p.bedroomWall a).x (p.bedroomWall a).y) :
    p.handleWindowEscape a = p.bedroomWall a := by
  have hac : (p.bedroomWall a).acChannel a = p.bedroomWall a := by
    rcases acChannel_unfold (p.bedroomWall a) a with ⟨-, -, he⟩ | ⟨hreg, -⟩
    · exact he
    · rcases hreg with h | h
      · exact absurd h hmain
      · exact absurd h htube
  unfold AirParticle.handleWindowEscape
  rw [if_neg (by rw [hesc]; decide), hac]
  simp only [Fans.values, List.foldl_cons, List.foldl_nil]
  rw [fanDuct_of_outside _ a.fans.stairFan (hfans _ (by simp [Fans.values])),
    fanDuct_of_outside _ a.fans.bedroomFan (hfans _ (by simp [Fans.values]))]

/-- In the default layout a particle that passes the escape test is inside the
expanded rectangle of a window, so its y is at most 2.5. -/
theorem escapes_low (a : Apartment K) (hL : DefaultLayout a) (q : AirParticle K)
    (h : q.escapes a = true) : q.y ≤ 2.5 := by
  obtain ⟨bl, hl, hl0, hl2, hlw⟩ := hL.leftWindow
  obtain ⟨br, hr, hr0, hr2, hrw⟩ := hL.rightWindow
  rw [escapes_eq a hL q] at h
  simp only [Bool.or_eq_true, Bool.and_eq_true, decide_eq_true_eq] at h
  rcases h with ⟨-, h⟩ | ⟨-, h⟩
  · unfold Opening.inWindow at h
    rw [hlw] at h
    simp only [defaultApartment, Apartment.new] at h
    norm_num at h ⊢
    linarith [h.2.2.2]
  · unfold Opening.inWindow at h
    rw [hrw] at h
    simp only [defaultApartment, Apartment.new] at h
    norm_num at h ⊢
    linarith [h.2.2.2]

/-- In the default layout the AC block keeps the position or leaves the particle
with x at most 1.2. -/
theorem acChannel_column (a : Apartment K) (hL : DefaultLayout a) (p : AirParticle K) :
    ((p.acChannel a).x = p.x ∧ (p.acChannel a).y = p.y) ∨ (p.acChannel a).x ≤ 1.2 := by
  obtain ⟨t, f, b, hac⟩ := hL.acUnit
  rcases acChannel_unfold p a with ⟨-, -, he⟩ | ⟨hreg, c, d, sb, st, m, u, he, -⟩
  · rw [he]
    exact Or.inl ⟨rfl, rfl⟩
  · right
    have hb := acRegion_bounds a hL p.x p.y hreg
    rw [he]
    rcases acNoBackward_x_cases
      ((({ p with velocity := { p.velocity with x := max p.velocity.x 2.5 } } :
        AirParticle K).acCenter c d).acTubeWalls sb st) a.acUnit m u with hx | hx | hx
    · rw [hx]
      simp only [acTubeWalls_x, acCenter_x]
      exact hb.2.1
    · rw [hx, hac]
      simp only [defaultApartment, Apartment.new]
      norm_num
    · rw [hx, hac]
      simp only [defaultApartment, Apartment.new]
      norm_num

/-- In the default layout a fan block keeps the position or leaves the particle
in the column [5.35, 5.65] or [8, 8.5] of a duct. -/
theorem fanDuct_column (a : Apartment K) (hL : DefaultLayout a) (p : AirParticle K)
    (fan : Fan K) (hfan : fan ∈ a.fans.values) :
    ((p.fanDuct fan).x = p.x ∧ (p.fanDuct fan).y = p.y) ∨
    (p.fanDuct fan).x ≤ 5.65 ∨ 8 ≤ (p.fanDuct fan).x := by
  rcases fanDuct_pos p fan with h | ⟨duct, hduct, hin, hx, -⟩
  · exact Or.inl h
  · right
    unfold Rect.contains at hin
    rcases duct_bounds a hL fan hfan duct hduct with rfl | rfl
    · left
      norm_num at hin hx ⊢
      rcases hx with hx | hx | hx
      · rw [hx]; exact hin.2.1
      · rw [hx]; norm_num
      · rw [hx]; norm_num
    · right
      norm_num at hin hx ⊢
      rcases hx with hx | hx | hx
      · rw [hx]; exact hin.1
      · rw [hx]; norm_num
      · rw [hx]; norm_num

/-- The bedroom-wall block on a particle of the wall band: a blocked particle is
put on the face it came from with its x-velocity reflected at restitution
0.3, and a particle in the open door is left alone. -/
theorem bedroomWall_band (p : AirParticle K) (a : Apartment K)
    (hx1 : 5.9 < p.x) (hx2 : p.x < 6.1) (hy1 : 3 ≤ p.y) (hy2 : p.y ≤ 6) :
    ((a.openings.bedroomDoor.isOpen = false ∨ 5.1 < p.y) →
      (0 < p.velocity.x → (p.bedroomWall a).x = 5.9 ∧
        (p.bedroomWall a).velocity.x = -0.3 * |p.velocity.x|) ∧
      (¬ 0 < p.velocity.x → (p.bedroomWall a).x = 6.1 ∧
        (p.bedroomWall a).velocity.x = 0.3 * |p.velocity.x|)) ∧
    (a.openings.bedroomDoor.isOpen = true ∧ p.y ≤ 5.1 → p.bedroomWall a = p) := by
  unfold AirParticle.bedroomWall
  rw [if_pos ⟨hx1, hx2, hy1, hy2⟩]
  simp only []
  constructor
  · intro hblocked
    have hcond : a.openings.bedroomDoor.isOpen = false ∨ ¬ (3 ≤ p.y ∧ p.y ≤ 5.1) := by
      rcases hblocked with h | h
      · exact Or.inl h
      · exact Or.inr (fun hc => absurd hc.2 (not_le.mpr h))
    rw [if_pos hcond]
    constructor
    · intro hv
      rw [if_pos hv]
      exact ⟨rfl, by simp only []; ring⟩
    · intro hv
      rw [if_neg hv]
      exact ⟨rfl, by simp only []; ring⟩
  · rintro ⟨hopen, hy⟩
    rw [if_neg]
    rintro (h | h)
    · rw [hopen] at h
      cases h
    · exact h ⟨hy1, hy⟩

/-- In the default layout with the bedroom door closed, no particle leaves
`handleWindowEscape` strictly inside the band of the partition wall. -/
theorem handleWindowEscape_wall_closed (a : Apartment K) (hL : DefaultLayout a)
    (hclosed : a.openings.bedroomDoor.isOpen = false) (p : AirParticle K) :
    ¬ (5.9 < (p.handleWindowEscape a).x ∧ (p.handleWindowEscape a).x < 6.1 ∧
      3 ≤ (p.handleWindowEscape a).y ∧ (p.handleWindowEscape a).y ≤ 6) := by
  by_cases hesc : p.escapes a = true
  · have hlow := escapes_low a hL p hesc
    unfold AirParticle.handleWindowEscape
    rw [if_pos hesc]
    rintro ⟨-, -, h3, -⟩
    simp only [] at h3
    norm_num at hlow
    linarith
  · have hwall : ¬ (5.9 < (p.bedroomWall a).x ∧ (p.bedroomWall a).x < 6.1 ∧
        3 ≤ (p.bedroomWall a).y ∧ (p.bedroomWall a).y ≤ 6) := by
      rw [bedroomWall_y]
      rcases bedroomWall_x_cases p a with hx | ⟨b1, b2, b3, b4, hx | hx⟩
      · rw [hx]
        rintro ⟨b1, b2, b3, b4⟩
        have := ((bedroomWall_band p a b1 b2 b3 b4).1 (Or.inl hclosed))
        by_cases hv : 0 < p.velocity.x
        · rw [(this.1 hv).1] at hx
          rw [← hx] at b1
          exact lt_irrefl _ b1
        · rw [(this.2 hv).1] at hx
          rw [← hx] at b2
          exact lt_irrefl _ b2
      · rw [hx]
        rintro ⟨h, -⟩
        exact lt_irrefl _ h
      · rw [hx]
        rintro ⟨-, h, -⟩
        exact lt_irrefl _ h
    have hac : ¬ (5.9 < ((p.bedroomWall a).acChannel a).x ∧
        ((p.bedroomWall a).acChannel a).x < 6.1 ∧
        3 ≤ ((p.bedroomWall a).acChannel a).y ∧ ((p.bedroomWall a).acChannel a).y ≤ 6) := by
      rcases acChannel_column a hL (p.bedroomWall a) with ⟨e1, e2⟩ | h
      · rw [e1, e2]
        exact hwall
      · rintro ⟨h1, -⟩
        norm_num at h h1
        linarith
    have hf1 : ¬ (5.9 < (((p.bedroomWall a).acChannel a).fanDuct a.fans.stairFan).x ∧
        (((p.bedroomWall a).acChannel a).fanDuct a.fans.stairFan).x < 6.1 ∧
        3 ≤ (((p.bedroomWall a).acChannel a).fanDuct a.fans.stairFan).y ∧
        (((p.bedroomWall a).acChannel a).fanDuct a.fans.stairFan).y ≤ 6) := by
      rcases fanDuct_column a hL ((p.bedroomWall a).acChannel a) a.fans.stairFan
        (by simp [Fans.values]) with ⟨e1, e2⟩ | h | h
      · rw [e1, e2]
        exact hac
      · rintro ⟨h1, -⟩
        norm_num at h h1
        linarith
      · rintro ⟨-, h2, -⟩
        norm_num at h h2
        linarith
    unfold AirParticle.handleWindowEscape
    rw [if_neg hesc]
    simp only [Fans.values, List.foldl_cons, List.foldl_nil]
    rcases fanDuct_column a hL (((p.bedroomWall a).acChannel a).fanDuct a.fans.stairFan)
      a.fans.bedroomFan (by simp [Fans.values]) with ⟨e1, e2⟩ | h | h
    · rw [e1, e2]
      exact hf1
    · rintro ⟨h1, -⟩
      norm_num at h h1
      linarith
    · rintro ⟨-, h2, -⟩
      norm_num at h h2
      linarith

/-- The centring block of the AC section keeps the x-velocity. -/
theorem acCenter_vx (p : AirParticle K) (c d : K) :
    (p.acCenter c d).velocity.x = p.velocity.x := by
  unfold AirParticle.acCenter; simp only []; split_ifs <;> rfl

/-- The tube-wall block of the AC section keeps the x-velocity. -/
theorem acTubeWalls_vx (p : AirParticle K) (c d : K) :
    (p.acTubeWalls c d).velocity.x = p.velocity.x := by
  unfold AirParticle.acTubeWalls; split_ifs <;> rfl

/-- The backward-movement block keeps an x-velocity of at least 2.5 at least 2.5. -/
theorem acNoBackward_vx_ge (p : AirParticle K) (ac : ACUnit K) (m t : Bool)
    (h : 2.5 ≤ p.velocity.x) : 2.5 ≤ (p.acNoBackward ac m t).velocity.x := by
  have hpos : 0 ≤ p.velocity.x := le_trans (by norm_num) h
  unfold AirParticle.acNoBackward
  split_ifs
  · show (2.5 : K) ≤ |p.velocity.x| * 1.5
    rw [abs_of_nonneg hpos]
    linarith
  · show (2.5 : K) ≤ |p.velocity.x| * 1.2
    rw [abs_of_nonneg hpos]
    linarith
  · exact h

/-- The bedroom-wall block leaves a particle outside the wall band alone. -/
theorem bedroomWall_of_outside (p : AirParticle K) (a : Apartment K)
    (h : ¬ (5.9 < p.x ∧ p.x < 6.1 ∧ 3 ≤ p.y ∧ p.y ≤ 6)) : p.bedroomWall a = p := by
  unfold AirParticle.bedroomWall
  rw [if_neg h]

/-- In the default layout a particle inside the AC housing or its tube leaves the
AC block with an x-velocity of at least 2.5 and with x at most 1.2. -/
theorem acChannel_vx_ge (a : Apartment K) (hL : DefaultLayout a) (p : AirParticle K)
    (hreg : a.acUnit.inMainUnit p.x p.y ∨ a.acUnit.tube.contains p.x p.y) :
    2.5 ≤ (p.acChannel a).velocity.x ∧ (p.acChannel a).x ≤ 1.2 := by
  have hb := acRegion_bounds a hL p.x p.y hreg
  constructor
  · rcases acChannel_unfold p a with ⟨h1, h2, -⟩ | ⟨-, c, d, sb, st, m, u, he, -⟩
    · rcases hreg with h | h
      · exact absurd h h1
      · exact absurd h h2
    · rw [he]
      apply acNoBackward_vx_ge
      rw [acTubeWalls_vx, acCenter_vx]
      exact le_max_right _ _
  · rcases acChannel_column a hL p with ⟨e1, -⟩ | h
    · rw [e1]
      exact hb.2.1
    · exact h

/-- The floor block keeps a particle at or below y = 2.95 at or below 2.95. -/
theorem bounceFloor_le (p : AirParticle K) (a : Apartment K) (h : p.y ≤ 2.95) :
    (p.bounceFloor a).y ≤ 2.95 := by
  unfold AirParticle.bounceFloor
  simp only []
  by_cases hs : a.stairOpening.x ≤ p.x ∧ p.x ≤ a.stairOpening.x + a.stairOpening.width
  · rw [if_neg (not_not.mpr hs)]
    exact h
  · have hb : ¬ (2.95 < p.y ∧ p.y < 3.05) := fun hb => absurd h (not_le.mpr hb.1)
    have h3 : ¬ (3 < p.y ∧ p.y < 3.1) := fun hc => by
      norm_num at h hc
      linarith [hc.1]
    rw [if_pos hs, if_neg hb, if_neg h3]
    split_ifs
    · show (2.95 : K) ≤ 2.95
      exact le_refl _
    · exact h

/-- The floor block keeps a particle at or above y = 3.05 at or above 3.05. -/
theorem bounceFloor_ge (p : AirParticle K) (a : Apartment K) (h : 3.05 ≤ p.y) :
    3.05 ≤ (p.bounceFloor a).y := by
  unfold AirParticle.bounceFloor
  simp only []
  by_cases hs : a.stairOpening.x ≤ p.x ∧ p.x ≤ a.stairOpening.x + a.stairOpening.width
  · rw [if_neg (not_not.mpr hs)]
    exact h
  · have hb : ¬ (2.95 < p.y ∧ p.y < 3.05) := fun hb => absurd h (not_le.mpr hb.2)
    have h3 : ¬ (p.y < 3 ∧ 2.9 < p.y) := fun hc => by
      norm_num at h hc
      linarith [hc.1]
    rw [if_pos hs, if_neg hb]
    split_ifs
    · show (3.05 : K) ≤ 3.05
      exact le_refl _
    · exact h

/-- In the default layout, the zone lookup with its bounce fallback leaves on the
lower level a particle outside the stair gap that is below the upper face of
the floor band and, if inside the band, is moving up. -/
theorem resolveZone_lower (a : Apartment K) (hL : DefaultLayout a) (q : AirParticle K)
    (hx : ¬ (4.9 ≤ q.x ∧ q.x ≤ 6.1)) (hy : q.y < 3.05)
    (hv : 2.95 < q.y → 0 < q.velocity.y) : (q.resolveZone a).y ≤ 2.95 := by
  by_cases hband : 2.95 < q.y
  · have hz := getZoneAtPoint_band_outside a hL _ _ hband hy hx
    obtain ⟨h1, -, -⟩ := bounceFromWalls_band a hL q hx hband hy
    unfold AirParticle.resolveZone
    rw [hz]
    simp only []
    rw [h1, if_pos (hv hband)]
  · have hle : q.y ≤ 2.95 := not_lt.mp hband
    unfold AirParticle.resolveZone
    split
    · unfold AirParticle.bounceFromWalls
      apply bounceFloor_le
      rw [bounceBottomTop_y a hL]
      simp only [bounceRight_y, bounceLeft_y]
      split_ifs with h1 h2
      · norm_num
      · exfalso
        norm_num at hle
        linarith
      · exact hle
    · exact hle

/-- In the default layout, the zone lookup with its bounce fallback leaves on the
upper level a particle outside the stair gap that is above the lower face of
the floor band and, if inside the band, is not moving up. -/
theorem resolveZone_upper (a : Apartment K) (hL : DefaultLayout a) (q : AirParticle K)
    (hx : ¬ (4.9 ≤ q.x ∧ q.x ≤ 6.1)) (hy : 2.95 < q.y)
    (hv : q.y < 3.05 → ¬ 0 < q.velocity.y) : 3.05 ≤ (q.resolveZone a).y := by
  by_cases hband : q.y < 3.05
  · have hz := getZoneAtPoint_band_outside a hL _ _ hy hband hx
    obtain ⟨h1, -, -⟩ := bounceFromWalls_band a hL q hx hy hband
    unfold AirParticle.resolveZone
    rw [hz]
    simp only []
    rw [h1, if_neg (hv hband)]
  · have hge : 3.05 ≤ q.y := not_lt.mp hband
    unfold AirParticle.resolveZone
    split
    · unfold AirParticle.bounceFromWalls
      apply bounceFloor_ge
      rw [bounceBottomTop_y a hL]
      simp only [bounceRight_y, bounceLeft_y]
      split_ifs with h1 h2
      · exfalso
        norm_num at hge
        linarith
      · norm_num
      · exact hge
    · exact hge

/-- In the default layout the AC block keeps y or leaves it at 4 or above. -/
theorem acChannel_y_cases (a : Apartment K) (hL : DefaultLayout a) (p : AirParticle K) :
    (p.acChannel a).y = p.y ∨ 4 ≤ (p.acChannel a).y := by
  obtain ⟨t, f, b, hac⟩ := hL.acUnit
  rcases acChannel_unfold p a with ⟨-, -, he⟩ | ⟨hreg, c, d, sb, st, m, u, he, hsec⟩
  · rw [he]
    exact Or.inl rfl
  · rw [he, acNoBackward_y]
    rcases acTubeWalls_y_cases
      (({ p with velocity := { p.velocity with x := max p.velocity.x 2.5 } } :
        AirParticle K).acCenter c d) sb st with hy | hy | hy
    · left
      rw [hy, acCenter_y]
    · right
      rw [hy]
      rcases hsec with ⟨e1, -⟩ | ⟨e1, -⟩
      · rw [e1, hac]
        simp only [defaultApartment, Apartment.new]
        norm_num
      · rw [e1, hac]
        simp only [defaultApartment, Apartment.new]
        norm_num
    · right
      rw [hy]
      rcases hsec with ⟨-, e2⟩ | ⟨-, e2⟩
      · rw [e2, hac]
        simp only [defaultApartment, Apartment.new]
        norm_num
      · rw [e2, hac]
        simp only [defaultApartment, Apartment.new]
        norm_num

/-- In the default layout a fan block keeps y or leaves it at 4 or above. -/
theorem fanDuct_y_cases (a : Apartment K) (hL : DefaultLayout a) (p : AirParticle K)
    (fan : Fan K) (hfan : fan ∈ a.fans.values) :
    (p.fanDuct fan).y = p.y ∨ 4 ≤ (p.fanDuct fan).y := by
  rcases fanDuct_pos p fan with h | ⟨duct, hduct, hin, -, hy⟩
  · exact Or.inl h.2
  · unfold Rect.contains at hin
    rcases duct_bounds a hL fan hfan duct hduct with rfl | rfl
    · norm_num at hin hy ⊢
      rcases hy with hy | hy | hy
      · exact Or.inl hy
      · right; rw [hy]; norm_num
      · right; rw [hy]; norm_num
    · norm_num at hin hy ⊢
      rcases hy with hy | hy | hy
      · exact Or.inl hy
      · right; rw [hy]; norm_num
      · right; rw [hy]; norm_num

/-- In the default layout `handleWindowEscape` keeps y or leaves it at 4 or above. -/
theorem handleWindowEscape_y_cases (a : Apartment K) (hL : DefaultLayout a)
    (p : AirParticle K) :
    (p.handleWindowEscape a).y = p.y ∨ 4 ≤ (p.handleWindowEscape a).y := by
  unfold AirParticle.handleWindowEscape
  split_ifs
  · exact Or.inl rfl
  · simp only [Fans.values, List.foldl_cons, List.foldl_nil]
    rcases fanDuct_y_cases a hL (((p.bedroomWall a).acChannel a).fanDuct a.fans.stairFan)
      a.fans.bedroomFan (by simp [Fans.values]) with h2 | h2
    · rw [h2]
      rcases fanDuct_y_cases a hL ((p.bedroomWall a).acChannel a) a.fans.stairFan
        (by simp [Fans.values]) with h1 | h1
      · rw [h1]
        rcases acChannel_y_cases a hL (p.bedroomWall a) with h0 | h0
        · rw [h0, bedroomWall_y]
          exact Or.inl rfl
        · exact Or.inr h0
      · exact Or.inr h1
    · exact Or.inr h2
/-- The Euler step of `update` moves y by the new y-velocity times dt. -/
theorem integrate_y (sqrt : K → K) (p : AirParticle K) (dt ambientTemp : K) :
    (p.integrate sqrt dt ambientTemp).y =
      p.y + (p.integrate sqrt dt ambientTemp).velocity.y * dt := by
  unfold AirParticle.integrate
  simp only []

/-- One `update` of `jumpParticle` with dt = 0.1 in the default apartment: the
Euler step takes it from y = 2.95 over the whole floor band to (1, 3.148), a
point of the upper mezzanine, and boundary resolution leaves it there. -/
theorem jumpParticle_update :
    ((jumpParticle : AirParticle ℝ).integrate Real.sqrt 0.1 22).x = 1 ∧
    ((jumpParticle : AirParticle ℝ).update Real.sqrt 0.1 defaultApartment 22).1.y = 3.148 := by
  have hq : (jumpParticle : AirParticle ℝ).integrate Real.sqrt 0.1 22 =
      { (jumpParticle : AirParticle ℝ) with
        x := 1, y := 3.148, velocity := { x := 0, y := 1.98 }, age := 1 } := by
    norm_num [AirParticle.integrate, jumpParticle, AirParticle.new, Vec2.speed]
  constructor
  · rw [hq]
  · unfold AirParticle.update
    simp only [hq, handleBoundaries_eq]
    norm_num [AirParticle.resolveZone, Apartment.getZoneAtPoint, Zones.values, jumpParticle,
      AirParticle.new, defaultApartment, Apartment.new, AirParticle.handleWindowEscape,
      AirParticle.escapes, Openings.entries, Opening.inWindow, AirParticle.bedroomWall,
      AirParticle.acChannel, AirParticle.acCenter, AirParticle.acTubeWalls,
      AirParticle.acNoBackward, AirParticle.fanDuct, Fans.values]

/-- The new y-velocity of `update` is the old one plus the buoyancy and gravity
terms, times the friction factor 0.99. -/
theorem integrate_vy (sqrt : K → K) (p : AirParticle K) (dt ambientTemp : K) :
    (p.integrate sqrt dt ambientTemp).velocity.y =
      (p.velocity.y + p.buoyancyGravity sqrt dt ambientTemp) * 0.99 := by
  unfold AirParticle.integrate AirParticle.buoyancyGravity
  simp only []
  split_ifs <;> ring

/-- The buoyancy and gravity terms as a product: the momentum factor, which is at
least 0.1, times dt times `(ambientTemp - temperature) * 0.02`, less 0.1 for a
particle colder than ambient. -/
theorem buoyancyGravity_eq (sqrt : K → K) (p : AirParticle K) (dt ambientTemp : K) :
    ∃ momentumFactor : K, 0.1 ≤ momentumFactor ∧
      p.buoyancyGravity sqrt dt ambientTemp =
        momentumFactor * dt * ((ambientTemp - p.temperature) * 0.02 -
          (if p.temperature < ambientTemp then 0.1 else 0)) := by
  refine ⟨max 0.1 (1 - p.velocity.speed sqrt * 0.5), le_max_left _ _, ?_⟩
  unfold AirParticle.buoyancyGravity
  simp only []
  split_ifs <;> ring

/-- A flow strength of at most 0.01 does not pass the threshold of
`createInterZoneFlow`: no particle is moved and no force applied. -/
theorem createInterZoneFlow_quiet [FloorRing K] (sqrt : K → K) (rand : Nat → K)
    (particles : List (AirParticle K)) (zoneA zoneB : Zone K) (flowArea dt : K)
    (h : |(zoneA.temperature - zoneB.temperature) * 0.1| * flowArea * dt * 0.1 ≤ 0.01) :
    FlowSolver.createInterZoneFlow sqrt rand particles zoneA zoneB flowArea dt =
      (particles, []) := by
  unfold FlowSolver.createInterZoneFlow
  simp only []
  rw [if_neg]
  rintro ⟨-, h2⟩
  exact absurd h (not_le.mpr h2)

/-- With the door area 1.68, a temperature difference of at most 35 degrees and
a time step of at most 1/60 the flow strength is at most 0.0098. -/
theorem flowStrength_le (d dt : K) (hd : |d| ≤ 35) (hdt0 : 0 ≤ dt) (hdt1 : dt ≤ 1 / 60) :
    |d * 0.1| * 1.68 * dt * 0.1 ≤ 0.01 := by
  have h1 : |d * 0.1| = |d| * 0.1 := by
    rw [abs_mul, abs_of_pos (by norm_num : (0 : K) < 0.1)]
  have h2 : |d| * dt ≤ 35 * (1 / 60) := mul_le_mul hd hdt1 hdt0 (by norm_num)
  rw [h1]
  norm_num at h2 ⊢
  nlinarith [abs_nonneg d]

/-- One iteration of `calculateInterZoneFlows` either does nothing or makes one
`createInterZoneFlow` call with a positive area and records it. -/
theorem flowBetween_cases [FloorRing K] (sqrt : K → K) (rand : Nat → K) (fs : FlowSolver K)
    (dt : K) (state : List (AirParticle K) × List (String × String × K) × List (Nat × K × K))
    (zone : Zone K) (id : String) :
    FlowSolver.flowBetween sqrt rand fs dt state zone id = state ∨
    ∃ connectedZone area, fs.apartment.zones.get? id = some connectedZone ∧
      FlowSolver.flowBetween sqrt rand fs dt state zone id =
        ((FlowSolver.createInterZoneFlow sqrt rand state.1 zone connectedZone area dt).1,
          state.2.1 ++ [(zone.id, connectedZone.id, area)],
          state.2.2 ++
            (FlowSolver.createInterZoneFlow sqrt rand state.1 zone connectedZone area dt).2) := by
  unfold FlowSolver.flowBetween
  cases hget : fs.apartment.zones.get? id with
  | none => exact Or.inl rfl
  | some connectedZone =>
    simp only []
    split_ifs
    · exact Or.inr ⟨connectedZone, _, rfl, rfl⟩
    · exact Or.inl rfl
    · exact Or.inr ⟨connectedZone, _, rfl, rfl⟩
    · exact Or.inl rfl

/-- In the default layout, with zone temperatures of the mezzanine and the
bedroom at most 35 degrees apart and 0 ≤ dt ≤ 1/60, the iteration for these two
zones (in either order) moves no particle and applies no force. -/
theorem flowBetween_quiet [FloorRing K] (sqrt : K → K) (rand : Nat → K) (fs : FlowSolver K)
    (hL : DefaultLayout fs.apartment) (dt : K) (hdt0 : 0 ≤ dt) (hdt1 : dt ≤ 1 / 60)
    (htemp : |fs.apartment.zones.upperMezzanine.temperature -
      fs.apartment.zones.upperBedroom.temperature| ≤ 35)
    (state : List (AirParticle K) × List (String × String × K) × List (Nat × K × K))
    (zone : Zone K) (id : String)
    (hpair : (zone = fs.apartment.zones.upperMezzanine ∧ id = "upperBedroom") ∨
      (zone = fs.apartment.zones.upperBedroom ∧ id = "upperMezzanine")) :
    (FlowSolver.flowBetween sqrt rand fs dt state zone id).1 = state.1 ∧
    (FlowSolver.flowBetween sqrt rand fs dt state zone id).2.2 = state.2.2 := by
  obtain ⟨tm, lm, hm⟩ := hL.upperMezzanine
  obtain ⟨tb, lb, hb⟩ := hL.upperBedroom
  have hmid : fs.apartment.zones.upperMezzanine.id = "upperMezzanine" := by rw [hm]; rfl
  have hbid : fs.apartment.zones.upperBedroom.id = "upperBedroom" := by rw [hb]; rfl
  have hids : (zone.id = "upperMezzanine" ∧ id = "upperBedroom") ∨
      (zone.id = "upperBedroom" ∧ id = "upperMezzanine") := by
    rcases hpair with ⟨h1, h2⟩ | ⟨h1, h2⟩
    · exact Or.inl ⟨by rw [h1, hmid], h2⟩
    · exact Or.inr ⟨by rw [h1, hbid], h2⟩
  obtain ⟨hclosed, hopen⟩ := flowBetween_door sqrt rand fs hL dt state zone id hids
  cases hdoor : fs.apartment.openings.bedroomDoor.isOpen with
  | false => rw [hclosed hdoor]; exact ⟨rfl, rfl⟩
  | true =>
    rcases flowBetween_cases sqrt rand fs dt state zone id with he | ⟨cz, area, hget, he⟩
    · rw [he]; exact ⟨rfl, rfl⟩
    · have hcalls := hopen hdoor
      rw [he] at hcalls
      simp only [List.append_cancel_left_eq, List.cons.injEq, Prod.mk.injEq, and_true] at hcalls
      obtain ⟨-, -, harea⟩ := hcalls
      have hquiet : FlowSolver.createInterZoneFlow sqrt rand state.1 zone cz area dt =
          (state.1, []) := by
        apply createInterZoneFlow_quiet
        rw [harea]
        apply flowStrength_le _ dt _ hdt0 hdt1
        rcases hpair with ⟨h1, h2⟩ | ⟨h1, h2⟩
        · subst h2
          have : cz = fs.apartment.zones.upperBedroom := by
            unfold Zones.get? at hget
            simp at hget
            exact hget.symm
          rw [this, h1]
          exact htemp
        · subst h2
          have : cz = fs.apartment.zones.upperMezzanine := by
            unfold Zones.get? at hget
            simp at hget
            exact hget.symm
          rw [this, h1, abs_sub_comm]
          exact htemp
      rw [he, hquiet]
      exact ⟨rfl, by simp⟩

/-- The apartment `coolMezzanineApartment` has the default layout. -/
theorem coolMezzanineApartment_layout : DefaultLayout (coolMezzanineApartment : Apartment K) where
  width := by norm_num [coolMezzanineApartment, defaultApartment, Apartment.new]
  height := by norm_num [coolMezzanineApartment, defaultApartment, Apartment.new]
  stairOpening := rfl
  upperMezzanine := ⟨16, [], rfl⟩
  upperBedroom := ⟨22, [], rfl⟩
  lowerFloor := ⟨22, [], rfl⟩
  bedroomDoor := ⟨true, rfl⟩
  leftWindow := ⟨false, 1.5, by norm_num, by norm_num, rfl⟩
  rightWindow := ⟨false, 1.5, by norm_num, by norm_num, rfl⟩
  acUnit := ⟨16, 0.5, true, rfl⟩
  stairFan := ⟨0.5, false, rfl⟩
  bedroomFan := ⟨0.5, false, rfl⟩

/-- One pair interaction leaves every mass as it was. -/
theorem interactPair_mass (sqrt : K → K) (dt : K) (state : List (AirParticle K) × List Nat)
    (i j : Nat) (hij : i ≠ j) :
    (FlowSolver.interactPair sqrt dt state i j).1.map (fun p => p.mass) =
      state.1.map (fun p => p.mass) := by
  unfold FlowSolver.interactPair
  cases hA : state.1[i]? with
  | none => rfl
  | some A =>
    cases hB : state.1[j]? with
    | none => rfl
    | some B =>
      simp only []
      split_ifs with h1 h2
      · have e1 := map_set_same (fun p : AirParticle K => p.mass) state.1 i
          ({ A with temperature :=
            A.temperature - (A.temperature - B.temperature) * (0.1 * dt) } : AirParticle K)
          A hA rfl
        have hB2 : (state.1.set i
            ({ A with temperature :=
              A.temperature - (A.temperature - B.temperature) * (0.1 * dt) } :
                AirParticle K))[j]? = some B := by
          rw [List.getElem?_set_ne hij]; exact hB
        have e2 := map_set_same (fun p : AirParticle K => p.mass) _ j
          ({ B with temperature :=
            B.temperature + (A.temperature - B.temperature) * (0.1 * dt) } : AirParticle K)
          B hB2 rfl
        exact e2.trans e1
      · have e1 := map_set_same (fun p : AirParticle K => p.mass) state.1 i
          (AirParticle.addForce sqrt
            { A with temperature :=
              A.temperature - (A.temperature - B.temperature) * (0.1 * dt) }
            ((A.x - B.x) / A.distanceTo sqrt B * 0.05)
            ((A.y - B.y) / A.distanceTo sqrt B * 0.05))
          A hA (addForce_frame sqrt _ _ _).2.1
        have hB2 : (state.1.set i
            (AirParticle.addForce sqrt
              { A with temperature :=
                A.temperature - (A.temperature - B.temperature) * (0.1 * dt) }
              ((A.x - B.x) / A.distanceTo sqrt B * 0.05)
              ((A.y - B.y) / A.distanceTo sqrt B * 0.05)))[j]? = some B := by
          rw [List.getElem?_set_ne hij]; exact hB
        have e2 := map_set_same (fun p : AirParticle K => p.mass) _ j
          (AirParticle.addForce sqrt
            { B with temperature :=
              B.temperature + (A.temperature - B.temperature) * (0.1 * dt) }
            (-((A.x - B.x) / A.distanceTo sqrt B) * 0.05)
            (-((A.y - B.y) / A.distanceTo sqrt B) * 0.05))
          B hB2 (addForce_frame sqrt _ _ _).2.1
        exact e2.trans e1
      · rfl

/-- The method `handleParticleInteractions` leaves every mass as it was. -/
theorem handleParticleInteractions_mass (sqrt : K → K) (particles : List (AirParticle K))
    (dt : K) :
    (FlowSolver.handleParticleInteractions sqrt particles dt).1.map (fun p => p.mass) =
      particles.map (fun p => p.mass) := by
  unfold FlowSolver.handleParticleInteractions
  refine foldl_invariant
    (fun s : List (AirParticle K) × List Nat =>
      s.1.map (fun p => p.mass) = particles.map (fun p => p.mass))
    _ (FlowSolver.interactionPairs particles.length) ?_ (particles, []) rfl
  intro s pair hpair hs
  have hne : pair.1 ≠ pair.2 := by
    have := (mem_interactionPairs particles.length pair.1 pair.2).mp hpair
    omega
  exact (interactPair_mass sqrt dt s pair.1 pair.2 hne).trans hs

/-! ### NaN operands -/

@[simp] theorem JSNumber.not_nan_le (x : JSNumber K) : ¬ (JSNumber.nan ≤ x) := fun h => h

@[simp] theorem JSNumber.not_le_nan (x : JSNumber K) : ¬ (x ≤ JSNumber.nan) := by
  cases x <;> exact fun h => h

@[simp] theorem JSNumber.not_nan_lt (x : JSNumber K) : ¬ (JSNumber.nan < x) := fun h => h

@[simp] theorem JSNumber.not_lt_nan (x : JSNumber K) : ¬ (x < JSNumber.nan) := by
  cases x <;> exact fun h => h

@[simp] theorem JSNumber.nan_add (x : JSNumber K) : JSNumber.nan + x = JSNumber.nan := rfl

@[simp] theorem JSNumber.add_nan (x : JSNumber K) : x + JSNumber.nan = JSNumber.nan := by
  cases x <;> rfl

@[simp] theorem JSNumber.nan_sub (x : JSNumber K) : JSNumber.nan - x = JSNumber.nan := rfl

@[simp] theorem JSNumber.sub_nan (x : JSNumber K) : x - JSNumber.nan = JSNumber.nan := by
  cases x <;> rfl

@[simp] theorem JSNumber.nan_mul (x : JSNumber K) : JSNumber.nan * x = JSNumber.nan := rfl

@[simp] theorem JSNumber.mul_nan (x : JSNumber K) : x * JSNumber.nan = JSNumber.nan := by
  cases x <;> rfl

@[simp] theorem JSNumber.max_nan (x : JSNumber K) : JSNumber.max x JSNumber.nan = JSNumber.nan := by
  cases x <;> rfl

@[simp] theorem JSNumber.sqrt_nan (sqrt : K → K) :
    JSNumber.sqrt sqrt (JSNumber.nan : JSNumber K) = JSNumber.nan := rfl

/-- No zone contains a point with NaN coordinates. -/
theorem getZoneAtPointJS_nan (a : Apartment K) :
    a.getZoneAtPointJS JSNumber.nan JSNumber.nan = none := by
  simp [Apartment.getZoneAtPointJS]

/-- A particle at a NaN position passes `bounceFromWalls` unchanged: every test
of the method is false. -/
theorem bounceFromWallsJS_nan (p : AirParticle (JSNumber K)) (a : Apartment K)
    (hx : p.x = JSNumber.nan) (hy : p.y = JSNumber.nan) : p.bounceFromWallsJS a = p := by
  have h1 : p.bounceLeftJS = p := by simp [AirParticle.bounceLeftJS, hx]
  have h2 : p.bounceRightJS a = p := by simp [AirParticle.bounceRightJS, hx]
  have h3 : p.bounceBottomJS = p := by simp [AirParticle.bounceBottomJS, hy]
  have h4 : p.bounceTopJS a = p := by simp [AirParticle.bounceTopJS, hy]
  have h5 : p.bounceFloorJS a = p := by simp [AirParticle.bounceFloorJS, hx, hy]
  rw [AirParticle.bounceFromWallsJS, h1, h2, h3, h4, h5]

/-- A particle at a NaN position passes one fan block unchanged. -/
theorem fanDuctJS_nan (p : AirParticle (JSNumber K)) (fan : Fan K)
    (hx : p.x = JSNumber.nan) : p.fanDuctJS fan = p := by
  unfold AirParticle.fanDuctJS
  split
  · simp [hx]
  · rfl

/-- A particle at a NaN position passes `handleWindowEscape` unchanged: it is in
no window, not at the bedroom wall, not in the AC channel and in no duct. -/
theorem handleWindowEscapeJS_nan (p : AirParticle (JSNumber K)) (a : Apartment K)
    (hx : p.x = JSNumber.nan) : p.handleWindowEscapeJS a = p := by
  have he : p.escapesJS a = false := by
    simp [AirParticle.escapesJS, Opening.inWindowJS, hx]
  have hb : p.bedroomWallJS a = p := by simp [AirParticle.bedroomWallJS, hx]
  have hc : p.acChannelJS a = p := by simp [AirParticle.acChannelJS, hx]
  rw [AirParticle.handleWindowEscapeJS, he, hb, hc]
  simp [Fans.values, fanDuctJS_nan p _ hx]

/-- A particle at a NaN position passes `handleBoundaries` unchanged. -/
theorem handleBoundariesJS_nan (p : AirParticle (JSNumber K)) (a : Apartment K)
    (hx : p.x = JSNumber.nan) (hy : p.y = JSNumber.nan) : p.handleBoundariesJS a = p := by
  simp only [AirParticle.handleBoundariesJS, hx, hy, getZoneAtPointJS_nan]
  rw [bounceFromWallsJS_nan p a hx hy, handleWindowEscapeJS_nan p a hx]

/-- The Euler step of a particle whose velocity is NaN gives a NaN position and
leaves the velocity NaN. -/
theorem integrateJS_nan (sqrt : K → K) (p : AirParticle (JSNumber K))
    (dt ambientTemp : JSNumber K)
    (hv : p.velocity = { x := JSNumber.nan, y := JSNumber.nan }) :
    (p.integrateJS sqrt dt ambientTemp).x = JSNumber.nan ∧
    (p.integrateJS sqrt dt ambientTemp).y = JSNumber.nan ∧
    (p.integrateJS sqrt dt ambientTemp).velocity = { x := JSNumber.nan, y := JSNumber.nan } ∧
    (p.integrateJS sqrt dt ambientTemp).zone = p.zone := by
  refine ⟨?_, ?_, ?_, rfl⟩
  · simp [AirParticle.integrateJS, hv]
  · simp only [AirParticle.integrateJS, hv, Vec2.speedJS]
    split <;> simp
  · simp only [AirParticle.integrateJS, hv, Vec2.speedJS]
    split <;> simp

/-- One `update` of a particle whose velocity is NaN: position and velocity are
NaN afterwards, the zone field is not written. -/
theorem updateJS_nan (sqrt : K → K) (p : AirParticle (JSNumber K)) (dt : JSNumber K)
    (a : Apartment K) (ambientTemp : JSNumber K)
    (hv : p.velocity = { x := JSNumber.nan, y := JSNumber.nan }) :
    (p.updateJS sqrt dt a ambientTemp).1.x = JSNumber.nan ∧
    (p.updateJS sqrt dt a ambientTemp).1.y = JSNumber.nan ∧
    (p.updateJS sqrt dt a ambientTemp).1.velocity = { x := JSNumber.nan, y := JSNumber.nan } ∧
    (p.updateJS sqrt dt a ambientTemp).1.zone = p.zone := by
  obtain ⟨hx, hy, hv2, hz⟩ := integrateJS_nan sqrt p dt ambientTemp hv
  have h : (p.updateJS sqrt dt a ambientTemp).1 = p.integrateJS sqrt dt ambientTemp := by
    show (p.integrateJS sqrt dt ambientTemp).handleBoundariesJS a = _
    exact handleBoundariesJS_nan _ a hx hy
  rw [h]
  exact ⟨hx, hy, hv2, hz⟩

/-- After any positive number of `update` calls a particle whose velocity is NaN
has a NaN position, a NaN velocity and the zone field it started with. -/
theorem updatesJS_nan (sqrt : K → K) (dt : JSNumber K) (a : Apartment K)
    (ambientTemp : JSNumber K) (n : Nat) (p : AirParticle (JSNumber K))
    (hv : p.velocity = { x := JSNumber.nan, y := JSNumber.nan }) :
    (AirParticle.updatesJS sqrt dt a ambientTemp (n + 1) p).x = JSNumber.nan ∧
    (AirParticle.updatesJS sqrt dt a ambientTemp (n + 1) p).y = JSNumber.nan ∧
    (AirParticle.updatesJS sqrt dt a ambientTemp (n + 1) p).velocity
      = { x := JSNumber.nan, y := JSNumber.nan } ∧
    (AirParticle.updatesJS sqrt dt a ambientTemp (n + 1) p).zone = p.zone := by
  induction n generalizing p with
  | zero => exact updateJS_nan sqrt p dt a ambientTemp hv
  | succ n ih =>
    obtain ⟨_, _, hv2, hz⟩ := updateJS_nan sqrt p dt a ambientTemp hv
    have h := ih (p.updateJS sqrt dt a ambientTemp).1 hv2
    rw [hz] at h
    exact h

/-! ### Rounding to double precision -/

/-- Rounding to the nearest integer moves a number by at most one half. -/
theorem roundHalfEven_sub_le [FloorRing K] (x : K) :
    |((roundHalfEven x : Int) : K) - x| ≤ 1 / 2 := by
  have h0 : 0 ≤ x - (⌊x⌋ : K) := sub_nonneg.mpr (Int.floor_le x)
  have h1 : x - (⌊x⌋ : K) < 1 := by have := Int.lt_floor_add_one x; linarith
  unfold roundHalfEven
  split_ifs with ha hb hc
  · rw [abs_le]; constructor <;> linarith
  · rw [abs_le]; push_cast; constructor <;> linarith
  · rw [abs_le]; constructor <;> linarith
  · rw [abs_le]; push_cast; constructor <;> linarith

/-- A number less than one half away from an integer rounds to that integer. -/
theorem roundHalfEven_eq_of_lt [FloorRing K] (x : K) (m : Int)
    (h1 : (m : K) - 1 / 2 < x) (h2 : x < (m : K) + 1 / 2) : roundHalfEven x = m := by
  rcases le_or_lt (m : K) x with hle | hlt
  · have hf : ⌊x⌋ = m := Int.floor_eq_iff.mpr ⟨hle, by linarith⟩
    unfold roundHalfEven
    rw [hf, if_pos (by linarith)]
  · have hf : ⌊x⌋ = m - 1 := Int.floor_eq_iff.mpr ⟨by push_cast; linarith, by push_cast; linarith⟩
    unfold roundHalfEven
    rw [hf, if_neg (by push_cast; linarith), if_pos (by push_cast; linarith)]
    ring

/-- An integer rounds to itself. -/
theorem roundHalfEven_intCast [FloorRing K] (m : Int) : roundHalfEven (m : K) = m :=
  roundHalfEven_eq_of_lt _ m (by linarith) (by linarith)

/-- A number half way between the even integer `m` and `m + 1` rounds to `m`. -/
theorem roundHalfEven_tie [FloorRing K] (x : K) (m : Int) (hm : m % 2 = 0)
    (hx : x = (m : K) + 1 / 2) : roundHalfEven x = m := by
  have hf : ⌊x⌋ = m := Int.floor_eq_iff.mpr ⟨by linarith, by linarith⟩
  unfold roundHalfEven
  rw [hf, if_neg (by linarith), if_neg (by linarith), if_pos hm]

/-- Evaluation of `toDouble`: for `r` with `2 ^ e ≤ |r| < 2 ^ (e + 1)` and
`-1022 ≤ e`, the double is the rounded significand times `2 ^ (e - 52)`. -/
theorem toDouble_eval [FloorRing K] (r : K) (e m : Int) (he : -1022 ≤ e)
    (hlo : (2 : K) ^ e ≤ |r|) (hhi : |r| < (2 : K) ^ (e + 1))
    (hm : roundHalfEven (r * (2 : K) ^ (52 - e)) = m)
    (hfin : |(m : K) * (2 : K) ^ (e - 52)| < (2 : K) ^ (1024 : Int)) :
    toDouble r = some ((m : K) * (2 : K) ^ (e - 52)) := by
  have hpos : 0 < |r| := lt_of_lt_of_le (by positivity) hlo
  have hr : r ≠ 0 := abs_pos.mp hpos
  have hlog : Int.log 2 |r| = e := by
    apply le_antisymm
    · have := (Int.lt_zpow_iff_log_lt (by norm_num : 1 < 2) hpos).mp (by exact_mod_cast hhi)
      omega
    · exact (Int.zpow_le_iff_le_log (by norm_num : 1 < 2) hpos).mp (by exact_mod_cast hlo)
  unfold toDouble
  rw [if_neg hr]
  simp only [hlog, max_eq_left he, hm]
  rw [if_pos hfin]

/-- The rounded value before the overflow test is within half a spacing of `r`:
at most `|r| / 2 ^ 53` in the normal range and `2 ^ (-1075)` below it. -/
theorem round_scaled_error [FloorRing K] (r : K) (hr : r ≠ 0) :
    |((roundHalfEven (r * (2 : K) ^ (52 - max (Int.log 2 |r|) (-1022))) : Int) : K) *
        (2 : K) ^ (max (Int.log 2 |r|) (-1022) - 52) - r|
      ≤ |r| / 2 ^ 53 + 1 / 2 ^ 1075 := by
  have hpos : 0 < |r| := abs_pos.mpr hr
  set e : Int := max (Int.log 2 |r|) (-1022) with he
  have h2 : (0 : K) < (2 : K) ^ (e - 52) := by positivity
  have hone : (2 : K) ^ (52 - e) * (2 : K) ^ (e - 52) = 1 := by
    rw [← zpow_add₀ (by norm_num : (2 : K) ≠ 0)]
    simp
  have hrw : ((roundHalfEven (r * (2 : K) ^ (52 - e)) : Int) : K) * (2 : K) ^ (e - 52) - r
      = (((roundHalfEven (r * (2 : K) ^ (52 - e)) : Int) : K) - r * (2 : K) ^ (52 - e)) *
        (2 : K) ^ (e - 52) := by
    rw [sub_mul, mul_assoc, hone, mul_one]
  rw [hrw, abs_mul, abs_of_pos h2]
  have hround := roundHalfEven_sub_le (r * (2 : K) ^ (52 - e))
  have hstep : |((roundHalfEven (r * (2 : K) ^ (52 - e)) : Int) : K) - r * (2 : K) ^ (52 - e)| *
      (2 : K) ^ (e - 52) ≤ 1 / 2 * (2 : K) ^ (e - 52) :=
    mul_le_mul_of_nonneg_right hround h2.le
  refine hstep.trans ?_
  have hsplit : (1 : K) / 2 * (2 : K) ^ (e - 52) = (2 : K) ^ e / 2 ^ 53 := by
    rw [zpow_sub₀ (by norm_num : (2 : K) ≠ 0)]
    norm_num
    ring
  rw [hsplit]
  rcases le_total (Int.log 2 |r|) (-1022) with hc | hc
  · have hem : e = -1022 := by rw [he]; exact max_eq_right hc
    rw [hem]
    have : (2 : K) ^ (-1022 : Int) / 2 ^ 53 = 1 / 2 ^ 1075 := by
      rw [zpow_neg, zpow_ofNat, div_eq_mul_inv, ← mul_inv, ← pow_add, one_div]
    rw [this]
    have : (0 : K) ≤ |r| / 2 ^ 53 := by positivity
    linarith
  · have hem : e = Int.log 2 |r| := by rw [he]; exact max_eq_left hc
    rw [hem]
    have hle : (2 : K) ^ (Int.log 2 |r|) ≤ |r| := by
      have := Int.zpow_log_le_self (by norm_num : 1 < 2) hpos
      exact_mod_cast this
    have h1 : (2 : K) ^ (Int.log 2 |r|) / 2 ^ 53 ≤ |r| / 2 ^ 53 :=
      div_le_div_of_nonneg_right hle (by positivity)
    have h3 : (0 : K) ≤ 1 / 2 ^ 1075 := by positivity
    linarith

/-- The rounding error of one operation: a double returned for the exact result
`r` differs from `r` by at most `|r| / 2 ^ 53 + 2 ^ (-1075)`. -/
theorem toDouble_error [FloorRing K] (r d : K) (h : toDouble r = some d) :
    |d - r| ≤ |r| / 2 ^ 53 + 1 / 2 ^ 1075 := by
  by_cases h0 : r = 0
  · rw [toDouble, if_pos h0] at h
    obtain rfl := Option.some.inj h
    rw [h0]
    norm_num
  · rw [toDouble, if_neg h0] at h
    simp only [] at h
    split_ifs at h
    obtain rfl := Option.some.inj h
    exact round_scaled_error r h0

/-- No overflow: an exact result of absolute value at most `2 ^ 1023` has a
double. -/
theorem toDouble_isSome [FloorRing K] (r : K) (h : |r| ≤ 2 ^ 1023) :
    ∃ d, toDouble r = some d := by
  by_cases h0 : r = 0
  · exact ⟨0, by rw [toDouble, if_pos h0]⟩
  · have herr := round_scaled_error r h0
    have habs := abs_sub_abs_le_abs_sub
      (((roundHalfEven (r * (2 : K) ^ (52 - max (Int.log 2 |r|) (-1022))) : Int) : K) *
        (2 : K) ^ (max (Int.log 2 |r|) (-1022) - 52)) r
    have h53 : |r| / 2 ^ 53 ≤ (2 : K) ^ 1023 / 2 ^ 53 :=
      div_le_div_of_nonneg_right h (by positivity)
    have hnum : (2 : K) ^ 1023 + 2 ^ 1023 / 2 ^ 53 + 1 / 2 ^ 1075 < (2 : K) ^ (1024 : Int) := by
      rw [zpow_ofNat]
      norm_num
    refine ⟨((roundHalfEven (r * (2 : K) ^ (52 - max (Int.log 2 |r|) (-1022))) : Int) : K) *
        (2 : K) ^ (max (Int.log 2 |r|) (-1022) - 52), ?_⟩
    rw [toDouble, if_neg h0]
    simp only []
    rw [if_pos (by linarith)]

/-- Evaluation of `toDouble` at a positive number `r` with
`2 ^ e ≤ r < 2 ^ (e + 1)`: the double is `m * 2 ^ (e - 52)` for the integer `m`
less than one half away from `r * 2 ^ (52 - e)`. -/
theorem toDouble_eq [FloorRing K] (r d : K) (e m : Int) (he : -1022 ≤ e) (hpos : 0 < r)
    (hlo : (2 : K) ^ e ≤ r) (hhi : r < (2 : K) ^ (e + 1))
    (h1 : (m : K) - 1 / 2 < r * (2 : K) ^ (52 - e))
    (h2 : r * (2 : K) ^ (52 - e) < (m : K) + 1 / 2)
    (hd : d = (m : K) * (2 : K) ^ (e - 52)) (hfin : |d| < 2 ^ 1024) :
    toDouble r = some d := by
  rw [hd]
  apply toDouble_eval r e m he
  · rwa [abs_of_pos hpos]
  · rwa [abs_of_pos hpos]
  · exact roundHalfEven_eq_of_lt _ m h1 h2
  · rw [← hd, zpow_ofNat]
    exact hfin

/-- Evaluation of `toDouble` at a tie: `r * 2 ^ (52 - e)` lies half way between
the even integer `m` and `m + 1`, and the double is `m * 2 ^ (e - 52)`. -/
theorem toDouble_eq_tie [FloorRing K] (r d : K) (e m : Int) (he : -1022 ≤ e) (hpos : 0 < r)
    (hlo : (2 : K) ^ e ≤ r) (hhi : r < (2 : K) ^ (e + 1)) (hm : m % 2 = 0)
    (h1 : r * (2 : K) ^ (52 - e) = (m : K) + 1 / 2)
    (hd : d = (m : K) * (2 : K) ^ (e - 52)) (hfin : |d| < 2 ^ 1024) :
    toDouble r = some d := by
  rw [hd]
  apply toDouble_eval r e m he
  · rwa [abs_of_pos hpos]
  · rwa [abs_of_pos hpos]
  · exact roundHalfEven_tie _ m hm h1
  · rw [← hd, zpow_ofNat]
    exact hfin

/-- The literal `5.0` is a double. -/
theorem toDouble_five [FloorRing K] : toDouble (5.0 : K) = some 5 :=
  toDouble_eq 5.0 5 2 (5 * 2 ^ 50) (by norm_num) (by norm_num) (by norm_num) (by norm_num)
    (by norm_num) (by norm_num) (by norm_num)
    (by rw [abs_of_pos (by norm_num : (0 : K) < 5)]; norm_num)

/-- The rescaling branch of `addForce` in double precision, operation by
operation. -/
theorem addForceDouble_rescaled [FloorRing K] (sqrt : K → K) (p : AirParticle K)
    (forceX forceY vx vy xx yy sum speed qx rx qy ry : K)
    (h1 : toDouble (p.velocity.x + forceX) = some vx)
    (h2 : toDouble (p.velocity.y + forceY) = some vy)
    (h3 : toDouble (vx * vx) = some xx) (h4 : toDouble (vy * vy) = some yy)
    (h5 : toDouble (xx + yy) = some sum) (h6 : toDouble (sqrt sum) = some speed)
    (h7 : 5 < speed)
    (h8 : toDouble (vx / speed) = some qx) (h9 : toDouble (qx * 5) = some rx)
    (h10 : toDouble (vy / speed) = some qy) (h11 : toDouble (qy * 5) = some ry) :
    p.addForceDouble sqrt forceX forceY = some { p with velocity := { x := rx, y := ry } } := by
  simp only [AirParticle.addForceDouble, h1, h2, h3, h4, h5, h6, h8, h9, h10, h11,
    toDouble_five, Option.bind_eq_bind, Option.some_bind, if_pos h7, Option.pure_def]

/-- The branch of `addForce` that keeps the vector sum, in double precision. -/
theorem addForceDouble_plain [FloorRing K] (sqrt : K → K) (p : AirParticle K)
    (forceX forceY vx vy xx yy sum speed : K)
    (h1 : toDouble (p.velocity.x + forceX) = some vx)
    (h2 : toDouble (p.velocity.y + forceY) = some vy)
    (h3 : toDouble (vx * vx) = some xx) (h4 : toDouble (vy * vy) = some yy)
    (h5 : toDouble (xx + yy) = some sum) (h6 : toDouble (sqrt sum) = some speed)
    (h7 : speed ≤ 5) :
    p.addForceDouble sqrt forceX forceY = some { p with velocity := { x := vx, y := vy } } := by
  simp only [AirParticle.addForceDouble, h1, h2, h3, h4, h5, h6,
    toDouble_five, Option.bind_eq_bind, Option.some_bind, if_neg (not_lt.mpr h7),
    Option.pure_def]

/-- The literal `0.999` denotes the double 8998192055486251 / 2 ^ 53. -/
theorem toDouble_0999 [FloorRing K] :
    toDouble (0.999 : K) = some (8998192055486251 / 2 ^ 53) :=
  toDouble_eq _ _ (-1) 8998192055486251 (by norm_num) (by norm_num) (by norm_num)
    (by norm_num) (by norm_num) (by norm_num) (by norm_num)
    (by rw [abs_of_pos (by norm_num)]; norm_num)

/-- The literal `0.001` denotes the double 1152921504606847 / 2 ^ 60. -/
theorem toDouble_0001 [FloorRing K] :
    toDouble (0.001 : K) = some (1152921504606847 / 2 ^ 60) :=
  toDouble_eq _ _ (-10) 4611686018427388 (by norm_num) (by norm_num) (by norm_num)
    (by norm_num) (by norm_num) (by norm_num) (by norm_num)
    (by rw [abs_of_pos (by norm_num)]; norm_num)

/-- The empty-list branch of `updateZoneTemperatures` in double precision,
operation by operation. -/
theorem updateZoneTemperatureDouble_empty [FloorRing K] (fs : FlowSolver K)
    (particles : List (AirParticle K)) (zone : Zone K) (a b t : K)
    (hempty : zone.airParticles = [])
    (h1 : toDouble (zone.temperature * (8998192055486251 / 2 ^ 53)) = some a)
    (h2 : toDouble (fs.ambientTemperature * (1152921504606847 / 2 ^ 60)) = some b)
    (h3 : toDouble (a + b) = some t) :
    fs.updateZoneTemperatureDouble particles zone = some { zone with temperature := t } := by
  simp only [FlowSolver.updateZoneTemperatureDouble, hempty, List.length_nil, lt_self_iff_false,
    if_false, toDouble_0999, toDouble_0001, h1, h2, h3, Option.bind_eq_bind, Option.some_bind,
    Option.pure_def]

/-- The rounding error of one operation, with the subnormal term bounded by
`2 ^ (-64)`. -/
theorem toDouble_error_coarse [FloorRing K] (r d : K) (h : toDouble r = some d) :
    |d - r| ≤ |r| / 2 ^ 53 + 1 / 2 ^ 64 := by
  have h1 := toDouble_error r d h
  have h2 : (1 : K) / 2 ^ 1075 ≤ 1 / 2 ^ 64 :=
    one_div_le_one_div_of_le (by positivity)
      (pow_le_pow_right₀ (by norm_num) (by norm_num))
  linarith

/-- A double returned for an exact result of absolute value at most `B`, together
with its rounding error. -/
theorem toDouble_bounded [FloorRing K] (r B : K) (h : |r| ≤ B) (hB : B ≤ 2 ^ 1023) :
    ∃ d, toDouble r = some d ∧ |d - r| ≤ B / 2 ^ 53 + 1 / 2 ^ 64 ∧
      |d| ≤ B + (B / 2 ^ 53 + 1 / 2 ^ 64) := by
  obtain ⟨d, hd⟩ := toDouble_isSome r (h.trans hB)
  have e := toDouble_error_coarse r d hd
  have h53 : |r| / 2 ^ 53 ≤ B / 2 ^ 53 := div_le_div_of_nonneg_right h (by positivity)
  have e2 : |d - r| ≤ B / 2 ^ 53 + 1 / 2 ^ 64 := by linarith
  refine ⟨d, hd, e2, ?_⟩
  have := abs_sub_abs_le_abs_sub d r
  linarith

/-- One run of the empty-list branch in double precision, for a zone temperature
`T` with `|T| ≤ 300` and an ambient temperature `A` with `|A| ≤ 100`: the
branch returns a temperature within `10 ^ (-13)` of `0.999 * T + 0.001 * A`. -/
theorem updateZoneTemperatureDouble_empty_error [FloorRing K] (fs : FlowSolver K)
    (particles : List (AirParticle K)) (zone : Zone K) (hempty : zone.airParticles = [])
    (hT : |zone.temperature| ≤ 300) (hA : |fs.ambientTemperature| ≤ 100) :
    ∃ t : K, fs.updateZoneTemperatureDouble particles zone
        = some { zone with temperature := t } ∧
      |t - fs.ambientTemperature - 0.999 * (zone.temperature - fs.ambientTemperature)|
        ≤ 1 / 10 ^ 13 := by
  have hc1 : (0 : K) ≤ 999 / 1000 - 8998192055486251 / 2 ^ 53 := by norm_num
  have hc2 : (0 : K) ≤ 1152921504606847 / 2 ^ 60 - 1 / 1000 := by norm_num
  have hTc : |zone.temperature * (8998192055486251 / 2 ^ 53)| ≤ 300 := by
    rw [abs_mul, abs_of_pos (by norm_num : (0 : K) < 8998192055486251 / 2 ^ 53)]
    calc |zone.temperature| * (8998192055486251 / 2 ^ 53) ≤ 300 * 1 :=
          mul_le_mul hT (by norm_num) (by norm_num) (by norm_num)
      _ = 300 := by norm_num
  have hAc : |fs.ambientTemperature * (1152921504606847 / 2 ^ 60)| ≤ 1 / 5 := by
    rw [abs_mul, abs_of_pos (by norm_num : (0 : K) < 1152921504606847 / 2 ^ 60)]
    calc |fs.ambientTemperature| * (1152921504606847 / 2 ^ 60) ≤ 100 * (1 / 500) :=
          mul_le_mul hA (by norm_num) (by norm_num) (by norm_num)
      _ = 1 / 5 := by norm_num
  obtain ⟨a, ha, ea, ba⟩ := toDouble_bounded _ 300 hTc (by norm_num)
  obtain ⟨b, hb, eb, bb⟩ := toDouble_bounded _ (1 / 5) hAc (by norm_num)
  have hab : |a + b| ≤ 301 := by
    have h1 := abs_add a b
    have h2 : (300 : K) + (300 / 2 ^ 53 + 1 / 2 ^ 64) +
        (1 / 5 + ((1 / 5) / 2 ^ 53 + 1 / 2 ^ 64)) ≤ 301 := by norm_num
    linarith
  obtain ⟨t, ht, et, _⟩ := toDouble_bounded _ 301 hab (by norm_num)
  refine ⟨t, updateZoneTemperatureDouble_empty fs particles zone a b t hempty ha hb ht, ?_⟩
  have e1 : |zone.temperature * (999 / 1000 - 8998192055486251 / 2 ^ 53)|
      ≤ 300 * (999 / 1000 - 8998192055486251 / 2 ^ 53) := by
    rw [abs_mul, abs_of_nonneg hc1]
    exact mul_le_mul_of_nonneg_right hT hc1
  have e2 : |fs.ambientTemperature * (1152921504606847 / 2 ^ 60 - 1 / 1000)|
      ≤ 100 * (1152921504606847 / 2 ^ 60 - 1 / 1000) := by
    rw [abs_mul, abs_of_nonneg hc2]
    exact mul_le_mul_of_nonneg_right hA hc2
  have hnum : (301 : K) / 2 ^ 53 + 1 / 2 ^ 64 + (300 / 2 ^ 53 + 1 / 2 ^ 64) +
      ((1 / 5) / 2 ^ 53 + 1 / 2 ^ 64) +
      300 * (999 / 1000 - 8998192055486251 / 2 ^ 53) +
      100 * (1152921504606847 / 2 ^ 60 - 1 / 1000) ≤ 1 / 10 ^ 13 := by
    norm_num
  have key : t - fs.ambientTemperature - 0.999 * (zone.temperature - fs.ambientTemperature)
      = (t - (a + b)) + (a - zone.temperature * (8998192055486251 / 2 ^ 53)) +
        (b - fs.ambientTemperature * (1152921504606847 / 2 ^ 60)) +
        -(zone.temperature * (999 / 1000 - 8998192055486251 / 2 ^ 53)) +
        fs.ambientTemperature * (1152921504606847 / 2 ^ 60 - 1 / 1000) := by
    ring
  rw [key]
  refine le_trans ?_ hnum
  refine (abs_add _ _).trans (add_le_add ?_ e2)
  refine (abs_add _ _).trans (add_le_add ?_ (by rw [abs_neg]; exact e1))
  refine (abs_add _ _).trans (add_le_add ?_ eb)
  exact (abs_add _ _).trans (add_le_add et ea)

/-- The run `n + 1` of the iteration is one more run of the body on the zone
left by `n` runs. -/
theorem updateZoneTemperatureDoubleIter_succ [FloorRing K] (fs : FlowSolver K)
    (particles : List (AirParticle K)) (n : Nat) (zone : Zone K) :
    fs.updateZoneTemperatureDoubleIter particles (n + 1) zone
      = (fs.updateZoneTemperatureDoubleIter particles n zone).bind
          (fs.updateZoneTemperatureDouble particles) := by
  induction n generalizing zone with
  | zero =>
    simp [FlowSolver.updateZoneTemperatureDoubleIter]
  | succ n ih =>
    rw [FlowSolver.updateZoneTemperatureDoubleIter]
    cases h : fs.updateZoneTemperatureDouble particles zone with
    | none => simp [FlowSolver.updateZoneTemperatureDoubleIter, h]
    | some z =>
      rw [Option.some_bind, ih z]
      conv_rhs => rw [FlowSolver.updateZoneTemperatureDoubleIter, h, Option.some_bind]

/-- An empty zone in double precision, `n` runs: for `|T 0 - A| ≤ 200` and
`|A| ≤ 100` the runs return a temperature `t` with `|t - A| ≤ 200` and
`|t - A - 0.999 ^ n * (T 0 - A)| ≤ 10 ^ (-10) * (1 - 0.999 ^ n)`. -/
theorem updateZoneTemperatureDoubleIter_error [FloorRing K] (fs : FlowSolver K)
    (particles : List (AirParticle K)) (zone : Zone K) (hempty : zone.airParticles = [])
    (hD : |zone.temperature - fs.ambientTemperature| ≤ 200)
    (hA : |fs.ambientTemperature| ≤ 100) (n : Nat) :
    ∃ t : K, fs.updateZoneTemperatureDoubleIter particles n zone
        = some { zone with temperature := t } ∧
      |t - fs.ambientTemperature| ≤ 200 ∧
      |t - fs.ambientTemperature - 0.999 ^ n * (zone.temperature - fs.ambientTemperature)|
        ≤ 1 / 10 ^ 10 * (1 - 0.999 ^ n) := by
  induction n with
  | zero =>
    exact ⟨zone.temperature, rfl, hD, by simp⟩
  | succ n ih =>
    obtain ⟨t, ht, hb, he⟩ := ih
    have htabs : |t| ≤ 300 := by
      have := abs_add (t - fs.ambientTemperature) fs.ambientTemperature
      rw [sub_add_cancel] at this
      linarith
    obtain ⟨t2, ht2, he2⟩ := updateZoneTemperatureDouble_empty_error fs particles
      { zone with temperature := t } hempty htabs hA
    refine ⟨t2, ?_, ?_, ?_⟩
    · rw [updateZoneTemperatureDoubleIter_succ, ht, Option.some_bind, ht2]
    · have h1 : t2 - fs.ambientTemperature
          = (t2 - fs.ambientTemperature - 0.999 * (t - fs.ambientTemperature)) +
            0.999 * (t - fs.ambientTemperature) := by ring
      have h2 := abs_add (t2 - fs.ambientTemperature - 0.999 * (t - fs.ambientTemperature))
        (0.999 * (t - fs.ambientTemperature))
      rw [← h1, abs_mul, abs_of_pos (by norm_num : (0 : K) < 0.999)] at h2
      have h3 : (1 : K) / 10 ^ 13 ≤ 1 / 10 := by norm_num
      have he3 : |t2 - fs.ambientTemperature - 0.999 * (t - fs.ambientTemperature)|
          ≤ 1 / 10 ^ 13 := he2
      linarith
    · have h1 : t2 - fs.ambientTemperature -
            0.999 ^ (n + 1) * (zone.temperature - fs.ambientTemperature)
          = (t2 - fs.ambientTemperature - 0.999 * (t - fs.ambientTemperature)) +
            0.999 * (t - fs.ambientTemperature -
              0.999 ^ n * (zone.temperature - fs.ambientTemperature)) := by ring
      have h2 := abs_add (t2 - fs.ambientTemperature - 0.999 * (t - fs.ambientTemperature))
        (0.999 * (t - fs.ambientTemperature -
          0.999 ^ n * (zone.temperature - fs.ambientTemperature)))
      rw [← h1, abs_mul, abs_of_pos (by norm_num : (0 : K) < 0.999)] at h2
      have he3 : |t2 - fs.ambientTemperature - 0.999 * (t - fs.ambientTemperature)|
          ≤ 1 / 10 ^ 13 := he2
      have h4 : (1 : K) / 10 ^ 10 * (1 - 0.999 ^ (n + 1))
          = 1 / 10 ^ 13 + 0.999 * (1 / 10 ^ 10 * (1 - 0.999 ^ n)) := by
        rw [pow_succ]; ring
      rw [h4]
      have h5 : 0.999 * |t - fs.ambientTemperature -
            0.999 ^ n * (zone.temperature - fs.ambientTemperature)|
          ≤ 0.999 * (1 / 10 ^ 10 * (1 - 0.999 ^ n)) :=
        mul_le_mul_of_nonneg_left he (by norm_num)
      linarith

/-- Rounding of the squared norm: the double `t` computed for `x * x + y * y`
(two products and a sum, each rounded) differs from it by at most
`3 * (x * x + y * y) / 2 ^ 53 + 4 / 2 ^ 64`. -/
theorem norm_sq_rounded (x y t1 t2 t : ℝ)
    (h1 : |t1 - x * x| ≤ |x * x| / 2 ^ 53 + 1 / 2 ^ 64)
    (h2 : |t2 - y * y| ≤ |y * y| / 2 ^ 53 + 1 / 2 ^ 64)
    (h3 : |t - (t1 + t2)| ≤ |t1 + t2| / 2 ^ 53 + 1 / 2 ^ 64) :
    |t - (x * x + y * y)| ≤ 3 * (x * x + y * y) / 2 ^ 53 + 4 / 2 ^ 64 := by
  have hx : 0 ≤ x * x := mul_self_nonneg x
  have hy : 0 ≤ y * y := mul_self_nonneg y
  rw [abs_of_nonneg hx] at h1
  rw [abs_of_nonneg hy] at h2
  have h4 : |t1 + t2 - (x * x + y * y)| ≤ (x * x + y * y) / 2 ^ 53 + 2 / 2 ^ 64 := by
    have e : t1 + t2 - (x * x + y * y) = (t1 - x * x) + (t2 - y * y) := by ring
    rw [e]
    refine (abs_add _ _).trans ?_
    linarith
  have h5 : |t1 + t2| ≤ (x * x + y * y) + ((x * x + y * y) / 2 ^ 53 + 2 / 2 ^ 64) := by
    have := abs_sub_abs_le_abs_sub (t1 + t2) (x * x + y * y)
    rw [abs_of_nonneg (add_nonneg hx hy)] at this
    linarith
  have e : t - (x * x + y * y) = (t - (t1 + t2)) + (t1 + t2 - (x * x + y * y)) := by ring
  rw [e]
  refine (abs_add _ _).trans ?_
  have h6 : |t1 + t2| / 2 ^ 53
      ≤ ((x * x + y * y) + ((x * x + y * y) / 2 ^ 53 + 2 / 2 ^ 64)) / 2 ^ 53 :=
    div_le_div_of_nonneg_right h5 (by positivity)
  have hn : 0 ≤ x * x + y * y := add_nonneg hx hy
  have h7 : ((x * x + y * y) + ((x * x + y * y) / 2 ^ 53 + 2 / 2 ^ 64)) / 2 ^ 53
      ≤ 2 * (x * x + y * y) / 2 ^ 53 + 1 / 2 ^ 64 := by
    have : (x * x + y * y) / 2 ^ 53 / 2 ^ 53 ≤ (x * x + y * y) / 2 ^ 53 := by
      apply div_le_self (by positivity)
      norm_num
    have h8 : (2 : ℝ) / 2 ^ 64 / 2 ^ 53 ≤ 1 / 2 ^ 64 := by norm_num
    have h9 : ((x * x + y * y) + ((x * x + y * y) / 2 ^ 53 + 2 / 2 ^ 64)) / 2 ^ 53
        = (x * x + y * y) / 2 ^ 53 + (x * x + y * y) / 2 ^ 53 / 2 ^ 53 +
          2 / 2 ^ 64 / 2 ^ 53 := by ring
    rw [h9]
    have h10 : 2 * (x * x + y * y) / 2 ^ 53
        = (x * x + y * y) / 2 ^ 53 + (x * x + y * y) / 2 ^ 53 := by ring
    linarith
  have h11 : 3 * (x * x + y * y) / 2 ^ 53
      = 2 * (x * x + y * y) / 2 ^ 53 + (x * x + y * y) / 2 ^ 53 := by ring
  have h12 : (4 : ℝ) / 2 ^ 64 = 1 / 2 ^ 64 + 1 / 2 ^ 64 + 2 / 2 ^ 64 := by norm_num
  linarith

/-- The branch of `addForce` that keeps the sum: when the computed speed is at
most 5, the squared norm of the sum is at most `25 * (1 + 2 ^ (-49))`. -/
theorem plain_branch_bound (x y t s : ℝ)
    (ht : |t - (x * x + y * y)| ≤ 3 * (x * x + y * y) / 2 ^ 53 + 4 / 2 ^ 64)
    (hs : |s - Real.sqrt t| ≤ |Real.sqrt t| / 2 ^ 53 + 1 / 2 ^ 64) (h5 : s ≤ 5) :
    x * x + y * y ≤ 25 * (1 + 1 / 2 ^ 49) := by
  have hn : 0 ≤ x * x + y * y := add_nonneg (mul_self_nonneg x) (mul_self_nonneg y)
  have hw : 0 ≤ Real.sqrt t := Real.sqrt_nonneg t
  rw [abs_of_nonneg hw] at hs
  have hw2 : Real.sqrt t ≤ 5 * (1 + 1 / 2 ^ 52) := by
    have := (abs_le.mp hs).1
    have hc : (5 + 1 / 2 ^ 64 : ℝ) ≤ 5 * (1 + 1 / 2 ^ 52) * (1 - 1 / 2 ^ 53) := by norm_num
    have h6 : Real.sqrt t * (1 - 1 / 2 ^ 53) ≤ 5 + 1 / 2 ^ 64 := by
      have e : Real.sqrt t * (1 - 1 / 2 ^ 53) = Real.sqrt t - Real.sqrt t / 2 ^ 53 := by ring
      rw [e]; linarith
    exact le_of_mul_le_mul_right (h6.trans hc) (by norm_num)
  have ht2 : t ≤ (5 * (1 + 1 / 2 ^ 52)) * (5 * (1 + 1 / 2 ^ 52)) := by
    rcases le_or_lt 0 t with h0 | h0
    · rw [← Real.mul_self_sqrt h0]
      exact mul_self_le_mul_self hw hw2
    · have : (0 : ℝ) ≤ (5 * (1 + 1 / 2 ^ 52)) * (5 * (1 + 1 / 2 ^ 52)) := by positivity
      linarith
  have h7 := (abs_le.mp ht).1
  have h8 : (x * x + y * y) * (1 - 3 / 2 ^ 53)
      ≤ (5 * (1 + 1 / 2 ^ 52)) * (5 * (1 + 1 / 2 ^ 52)) + 4 / 2 ^ 64 := by
    have e : (x * x + y * y) * (1 - 3 / 2 ^ 53)
        = (x * x + y * y) - 3 * (x * x + y * y) / 2 ^ 53 := by ring
    rw [e]; linarith
  have hc : (5 * (1 + 1 / 2 ^ 52)) * (5 * (1 + 1 / 2 ^ 52)) + 4 / 2 ^ 64
      ≤ 25 * (1 + 1 / 2 ^ 49) * (1 - 3 / 2 ^ 53 : ℝ) := by norm_num
  exact le_of_mul_le_mul_right (h8.trans hc) (by norm_num)

/-- One rescaled component: the double `r` computed as `(x / s) * 5` with both
operations rounded is within `11 * |x / s| / 2 ^ 53 + 7 / 2 ^ 64` of
`5 * (x / s)`. -/
theorem rescaled_component (X q r : ℝ)
    (hq : |q - X| ≤ |X| / 2 ^ 53 + 1 / 2 ^ 64)
    (hr : |r - q * 5| ≤ |q * 5| / 2 ^ 53 + 1 / 2 ^ 64) :
    |r - 5 * X| ≤ 11 * |X| / 2 ^ 53 + 7 / 2 ^ 64 := by
  have h1 : |q| ≤ |X| + (|X| / 2 ^ 53 + 1 / 2 ^ 64) := by
    have := abs_sub_abs_le_abs_sub q X
    linarith
  have h2 : |q * 5| = |q| * 5 := by rw [abs_mul, abs_of_pos (by norm_num : (0 : ℝ) < 5)]
  rw [h2] at hr
  have h3 : |q| * 5 / 2 ^ 53 ≤ (|X| + (|X| / 2 ^ 53 + 1 / 2 ^ 64)) * 5 / 2 ^ 53 :=
    div_le_div_of_nonneg_right (mul_le_mul_of_nonneg_right h1 (by norm_num)) (by positivity)
  have e : r - 5 * X = (r - q * 5) + 5 * (q - X) := by ring
  rw [e]
  refine (abs_add _ _).trans ?_
  rw [abs_mul, abs_of_pos (by norm_num : (0 : ℝ) < 5)]
  have hX : 0 ≤ |X| := abs_nonneg X
  have h4 : (|X| + (|X| / 2 ^ 53 + 1 / 2 ^ 64)) * 5 / 2 ^ 53
      = 5 * |X| / 2 ^ 53 + 5 * (|X| / 2 ^ 53) / 2 ^ 53 + 5 / 2 ^ 64 / 2 ^ 53 := by ring
  have h5 : 5 * (|X| / 2 ^ 53) / 2 ^ 53 ≤ |X| / 2 ^ 53 := by
    have : 5 * (|X| / 2 ^ 53) / 2 ^ 53 = |X| / 2 ^ 53 * (5 / 2 ^ 53) := by ring
    rw [this]
    exact mul_le_of_le_one_right (by positivity) (by norm_num)
  have h6 : (5 : ℝ) / 2 ^ 64 / 2 ^ 53 ≤ 1 / 2 ^ 64 := by norm_num
  have h7 : 11 * |X| / 2 ^ 53 = 5 * |X| / 2 ^ 53 + |X| / 2 ^ 53 + 5 * (|X| / 2 ^ 53) := by ring
  have h8 : (7 : ℝ) / 2 ^ 64 = 1 / 2 ^ 64 + 1 / 2 ^ 64 + 5 * (1 / 2 ^ 64) := by norm_num
  linarith

/-- The exact quotients of the rescaling branch: when the computed speed `s`
exceeds 5, the squared norm of `(x / s, y / s)` lies between `1 - 9 / 2 ^ 53`
and `1 + 10 / 2 ^ 53`. -/
theorem rescaled_quotient_bound (x y t s : ℝ)
    (ht : |t - (x * x + y * y)| ≤ 3 * (x * x + y * y) / 2 ^ 53 + 4 / 2 ^ 64)
    (hs : |s - Real.sqrt t| ≤ |Real.sqrt t| / 2 ^ 53 + 1 / 2 ^ 64) (h5 : 5 < s) :
    1 - 9 / 2 ^ 53 ≤ x / s * (x / s) + y / s * (y / s) ∧
    x / s * (x / s) + y / s * (y / s) ≤ 1 + 10 / 2 ^ 53 := by
  have hspos : 0 < s := by linarith
  have hw : 0 ≤ Real.sqrt t := Real.sqrt_nonneg t
  rw [abs_of_nonneg hw] at hs
  obtain ⟨hs1, hs2⟩ := abs_le.mp hs
  obtain ⟨ht1, ht2⟩ := abs_le.mp ht
  -- the exact square root is close to 5 or above
  have hwlo : 49 / 10 < Real.sqrt t := by
    by_contra hc
    push_neg at hc
    have : Real.sqrt t / 2 ^ 53 ≤ 49 / 10 / 2 ^ 53 :=
      div_le_div_of_nonneg_right hc (by positivity)
    have hc2 : (49 / 10 : ℝ) + 49 / 10 / 2 ^ 53 + 1 / 2 ^ 64 < 5 := by norm_num
    linarith
  have ht0 : 0 < t := Real.sqrt_pos.mp (by linarith)
  have hww : Real.sqrt t * Real.sqrt t = t := Real.mul_self_sqrt ht0.le
  have htlo : 49 / 10 * (49 / 10) < t := by
    rw [← hww]
    exact mul_self_lt_mul_self (by norm_num) hwlo
  have hn20 : 20 < x * x + y * y := by
    by_contra hc
    push_neg at hc
    have hn0 : 0 ≤ x * x + y * y := add_nonneg (mul_self_nonneg x) (mul_self_nonneg y)
    have : 3 * (x * x + y * y) / 2 ^ 53 ≤ 3 * 20 / 2 ^ 53 :=
      div_le_div_of_nonneg_right (by linarith) (by positivity)
    have hc2 : (20 : ℝ) + 3 * 20 / 2 ^ 53 + 4 / 2 ^ 64 < 49 / 10 * (49 / 10) := by norm_num
    linarith
  -- s against the exact square root, t against the exact squared norm
  have hη : (1 : ℝ) / 2 ^ 64 ≤ Real.sqrt t / 2 ^ 53 := by
    have : (49 / 10 : ℝ) / 2 ^ 53 ≤ Real.sqrt t / 2 ^ 53 :=
      div_le_div_of_nonneg_right hwlo.le (by positivity)
    have hc2 : (1 : ℝ) / 2 ^ 64 ≤ 49 / 10 / 2 ^ 53 := by norm_num
    linarith
  have hsup : s ≤ Real.sqrt t * (1 + 2 / 2 ^ 53) := by
    have e : Real.sqrt t * (1 + 2 / 2 ^ 53) = Real.sqrt t + 2 * (Real.sqrt t / 2 ^ 53) := by
      ring
    rw [e]; linarith
  have hslo : Real.sqrt t * (1 - 2 / 2 ^ 53) ≤ s := by
    have e : Real.sqrt t * (1 - 2 / 2 ^ 53) = Real.sqrt t - 2 * (Real.sqrt t / 2 ^ 53) := by
      ring
    rw [e]; linarith
  have hssup : s * s ≤ t * ((1 + 2 / 2 ^ 53) * (1 + 2 / 2 ^ 53)) := by
    have := mul_self_le_mul_self hspos.le hsup
    have e : Real.sqrt t * (1 + 2 / 2 ^ 53) * (Real.sqrt t * (1 + 2 / 2 ^ 53))
        = Real.sqrt t * Real.sqrt t * ((1 + 2 / 2 ^ 53) * (1 + 2 / 2 ^ 53)) := by ring
    rw [e, hww] at this
    exact this
  have hsslo : t * ((1 - 2 / 2 ^ 53) * (1 - 2 / 2 ^ 53)) ≤ s * s := by
    have h0 : 0 ≤ Real.sqrt t * (1 - 2 / 2 ^ 53) := mul_nonneg hw (by norm_num)
    have := mul_self_le_mul_self h0 hslo
    have e : Real.sqrt t * (1 - 2 / 2 ^ 53) * (Real.sqrt t * (1 - 2 / 2 ^ 53))
        = Real.sqrt t * Real.sqrt t * ((1 - 2 / 2 ^ 53) * (1 - 2 / 2 ^ 53)) := by ring
    rw [e, hww] at this
    exact this
  have hη2 : (4 : ℝ) / 2 ^ 64 ≤ (x * x + y * y) / 2 ^ 53 := by
    have : (20 : ℝ) / 2 ^ 53 ≤ (x * x + y * y) / 2 ^ 53 :=
      div_le_div_of_nonneg_right hn20.le (by positivity)
    have hc2 : (4 : ℝ) / 2 ^ 64 ≤ 20 / 2 ^ 53 := by norm_num
    linarith
  have htup : t ≤ (x * x + y * y) * (1 + 4 / 2 ^ 53) := by
    have e : (x * x + y * y) * (1 + 4 / 2 ^ 53)
        = (x * x + y * y) + 3 * (x * x + y * y) / 2 ^ 53 + (x * x + y * y) / 2 ^ 53 := by ring
    rw [e]; linarith
  have htlo2 : (x * x + y * y) * (1 - 4 / 2 ^ 53) ≤ t := by
    have e : (x * x + y * y) * (1 - 4 / 2 ^ 53)
        = (x * x + y * y) - 3 * (x * x + y * y) / 2 ^ 53 - (x * x + y * y) / 2 ^ 53 := by ring
    rw [e]; linarith
  have hn0 : 0 ≤ x * x + y * y := by linarith
  have hssN_up : s * s ≤ (x * x + y * y) * (1 + 9 / 2 ^ 53) := by
    have h1 : t * ((1 + 2 / 2 ^ 53) * (1 + 2 / 2 ^ 53))
        ≤ (x * x + y * y) * (1 + 4 / 2 ^ 53) * ((1 + 2 / 2 ^ 53) * (1 + 2 / 2 ^ 53)) :=
      mul_le_mul_of_nonneg_right htup (by positivity)
    have h2 : (x * x + y * y) * (1 + 4 / 2 ^ 53) * ((1 + 2 / 2 ^ 53) * (1 + 2 / 2 ^ 53))
        = (x * x + y * y) * ((1 + 4 / 2 ^ 53) * ((1 + 2 / 2 ^ 53) * (1 + 2 / 2 ^ 53))) := by
      ring
    have h3 : (x * x + y * y) * ((1 + 4 / 2 ^ 53) * ((1 + 2 / 2 ^ 53) * (1 + 2 / 2 ^ 53)))
        ≤ (x * x + y * y) * (1 + 9 / 2 ^ 53) :=
      mul_le_mul_of_nonneg_left (by norm_num) hn0
    linarith
  have hssN_lo : (x * x + y * y) * (1 - 9 / 2 ^ 53) ≤ s * s := by
    have h1 : (x * x + y * y) * (1 - 4 / 2 ^ 53) * ((1 - 2 / 2 ^ 53) * (1 - 2 / 2 ^ 53))
        ≤ t * ((1 - 2 / 2 ^ 53) * (1 - 2 / 2 ^ 53)) :=
      mul_le_mul_of_nonneg_right htlo2 (by norm_num)
    have h2 : (x * x + y * y) * (1 - 4 / 2 ^ 53) * ((1 - 2 / 2 ^ 53) * (1 - 2 / 2 ^ 53))
        = (x * x + y * y) * ((1 - 4 / 2 ^ 53) * ((1 - 2 / 2 ^ 53) * (1 - 2 / 2 ^ 53))) := by
      ring
    have h3 : (x * x + y * y) * (1 - 9 / 2 ^ 53)
        ≤ (x * x + y * y) * ((1 - 4 / 2 ^ 53) * ((1 - 2 / 2 ^ 53) * (1 - 2 / 2 ^ 53))) :=
      mul_le_mul_of_nonneg_left (by norm_num) hn0
    linarith
  -- the exact quotients X = x / s, Y = y / s
  have hss : 0 < s * s := mul_pos hspos hspos
  have hQ : (x / s * (x / s) + y / s * (y / s)) * (s * s) = x * x + y * y := by
    field_simp
  have hQup : x / s * (x / s) + y / s * (y / s) ≤ 1 + 10 / 2 ^ 53 := by
    have h1 : (x / s * (x / s) + y / s * (y / s)) * (1 - 9 / 2 ^ 53) * (s * s)
        ≤ 1 * (s * s) := by
      have e : (x / s * (x / s) + y / s * (y / s)) * (1 - 9 / 2 ^ 53) * (s * s)
          = (x / s * (x / s) + y / s * (y / s)) * (s * s) * (1 - 9 / 2 ^ 53) := by ring
      rw [e, hQ, one_mul]
      exact hssN_lo
    have h2 := le_of_mul_le_mul_right h1 hss
    have h3 : (x / s * (x / s) + y / s * (y / s)) * (1 - 9 / 2 ^ 53)
        ≤ (1 + 10 / 2 ^ 53) * (1 - 9 / 2 ^ 53) := h2.trans (by norm_num)
    exact le_of_mul_le_mul_right h3 (by norm_num)
  have hQlo : 1 - 9 / 2 ^ 53 ≤ x / s * (x / s) + y / s * (y / s) := by
    have h1 : 1 * (s * s)
        ≤ (x / s * (x / s) + y / s * (y / s)) * (1 + 9 / 2 ^ 53) * (s * s) := by
      have e : (x / s * (x / s) + y / s * (y / s)) * (1 + 9 / 2 ^ 53) * (s * s)
          = (x / s * (x / s) + y / s * (y / s)) * (s * s) * (1 + 9 / 2 ^ 53) := by ring
      rw [e, hQ, one_mul]
      exact hssN_up
    have h2 := le_of_mul_le_mul_right h1 hss
    have h3 : (1 - 9 / 2 ^ 53) * (1 + 9 / 2 ^ 53)
        ≤ (x / s * (x / s) + y / s * (y / s)) * (1 + 9 / 2 ^ 53) :=
      le_trans (by norm_num) h2
    exact le_of_mul_le_mul_right h3 (by norm_num)
  exact ⟨hQlo, hQup⟩

/-- The rescaling branch of `addForce`: when the computed speed `s` exceeds 5,
the rescaled velocity `(r1, r2)` has a squared norm between
`25 * (1 - 2 ^ (-49))` and `25 * (1 + 2 ^ (-49))`, and each component is within
`2 ^ (-49)` of the component of the sum multiplied by `5 / s`. -/
theorem rescaled_branch_bound (x y t s q1 r1 q2 r2 : ℝ)
    (ht : |t - (x * x + y * y)| ≤ 3 * (x * x + y * y) / 2 ^ 53 + 4 / 2 ^ 64)
    (hs : |s - Real.sqrt t| ≤ |Real.sqrt t| / 2 ^ 53 + 1 / 2 ^ 64) (h5 : 5 < s)
    (hq1 : |q1 - x / s| ≤ |x / s| / 2 ^ 53 + 1 / 2 ^ 64)
    (hr1 : |r1 - q1 * 5| ≤ |q1 * 5| / 2 ^ 53 + 1 / 2 ^ 64)
    (hq2 : |q2 - y / s| ≤ |y / s| / 2 ^ 53 + 1 / 2 ^ 64)
    (hr2 : |r2 - q2 * 5| ≤ |q2 * 5| / 2 ^ 53 + 1 / 2 ^ 64) :
    25 * (1 - 1 / 2 ^ 49) ≤ r1 * r1 + r2 * r2 ∧
    r1 * r1 + r2 * r2 ≤ 25 * (1 + 1 / 2 ^ 49) ∧
    |r1 - 5 / s * x| ≤ 1 / 2 ^ 49 ∧ |r2 - 5 / s * y| ≤ 1 / 2 ^ 49 := by
  obtain ⟨hQlo, hQup⟩ := rescaled_quotient_bound x y t s ht hs h5
  have hXX : 0 ≤ x / s * (x / s) := mul_self_nonneg _
  have hYY : 0 ≤ y / s * (y / s) := mul_self_nonneg _
  have habs : ∀ z : ℝ, z * z ≤ 1 + 10 / 2 ^ 53 → |z| ≤ 101 / 100 := by
    intro z hz
    have h1 : |z| * |z| ≤ 101 / 100 * (101 / 100) := by
      rw [abs_mul_abs_self]
      exact hz.trans (by norm_num)
    exact (mul_self_le_mul_self_iff (abs_nonneg z) (by norm_num)).mpr h1
  have hX1 : |x / s| ≤ 101 / 100 := habs _ (by linarith)
  have hY1 : |y / s| ≤ 101 / 100 := habs _ (by linarith)
  have hd1 := rescaled_component (x / s) q1 r1 hq1 hr1
  have hd2 := rescaled_component (y / s) q2 r2 hq2 hr2
  have hd1c : |r1 - 5 * (x / s)| ≤ 12 / 2 ^ 53 := by
    have : 11 * |x / s| / 2 ^ 53 ≤ 11 * (101 / 100) / 2 ^ 53 :=
      div_le_div_of_nonneg_right (by linarith) (by positivity)
    have hc : (11 : ℝ) * (101 / 100) / 2 ^ 53 + 7 / 2 ^ 64 ≤ 12 / 2 ^ 53 := by norm_num
    linarith
  have hd2c : |r2 - 5 * (y / s)| ≤ 12 / 2 ^ 53 := by
    have : 11 * |y / s| / 2 ^ 53 ≤ 11 * (101 / 100) / 2 ^ 53 :=
      div_le_div_of_nonneg_right (by linarith) (by positivity)
    have hc : (11 : ℝ) * (101 / 100) / 2 ^ 53 + 7 / 2 ^ 64 ≤ 12 / 2 ^ 53 := by norm_num
    linarith
  -- cross terms and squares of the deviations
  have cross : ∀ X d : ℝ, |X| ≤ 101 / 100 → |d| ≤ 11 * |X| / 2 ^ 53 + 7 / 2 ^ 64 →
      |X * d| ≤ 11 * (X * X) / 2 ^ 53 + 8 / 2 ^ 64 := by
    intro X d hX hd
    rw [abs_mul]
    have h1 : |X| * |d| ≤ |X| * (11 * |X| / 2 ^ 53 + 7 / 2 ^ 64) :=
      mul_le_mul_of_nonneg_left hd (abs_nonneg X)
    have h2 : |X| * (11 * |X| / 2 ^ 53 + 7 / 2 ^ 64)
        = 11 * (|X| * |X|) / 2 ^ 53 + |X| * (7 / 2 ^ 64) := by ring
    rw [h2, abs_mul_abs_self] at h1
    have h3 : |X| * (7 / 2 ^ 64) ≤ 101 / 100 * (7 / 2 ^ 64) :=
      mul_le_mul_of_nonneg_right hX (by positivity)
    have h4 : (101 : ℝ) / 100 * (7 / 2 ^ 64) ≤ 8 / 2 ^ 64 := by norm_num
    linarith
  have sq : ∀ d : ℝ, |d| ≤ 12 / 2 ^ 53 → d * d ≤ 144 / 2 ^ 106 := by
    intro d hd
    have := mul_self_le_mul_self (abs_nonneg d) hd
    rw [abs_mul_abs_self] at this
    exact this.trans (by norm_num)
  have hc1 := cross (x / s) (r1 - 5 * (x / s)) hX1 hd1
  have hc2 := cross (y / s) (r2 - 5 * (y / s)) hY1 hd2
  have hs1 := sq _ hd1c
  have hs2 := sq _ hd2c
  have hs1n : 0 ≤ (r1 - 5 * (x / s)) * (r1 - 5 * (x / s)) := mul_self_nonneg _
  have hs2n : 0 ≤ (r2 - 5 * (y / s)) * (r2 - 5 * (y / s)) := mul_self_nonneg _
  obtain ⟨hc1a, hc1b⟩ := abs_le.mp hc1
  obtain ⟨hc2a, hc2b⟩ := abs_le.mp hc2
  have expand : r1 * r1 + r2 * r2
      = 25 * (x / s * (x / s) + y / s * (y / s)) +
        10 * (x / s * (r1 - 5 * (x / s)) + y / s * (r2 - 5 * (y / s))) +
        ((r1 - 5 * (x / s)) * (r1 - 5 * (x / s)) +
          (r2 - 5 * (y / s)) * (r2 - 5 * (y / s))) := by ring
  have hQ11 : 11 * (x / s * (x / s)) / 2 ^ 53 + 11 * (y / s * (y / s)) / 2 ^ 53
      ≤ 11 * (1 + 10 / 2 ^ 53) / 2 ^ 53 := by
    have e : 11 * (x / s * (x / s)) / 2 ^ 53 + 11 * (y / s * (y / s)) / 2 ^ 53
        = 11 * (x / s * (x / s) + y / s * (y / s)) / 2 ^ 53 := by ring
    rw [e]
    exact div_le_div_of_nonneg_right (by linarith) (by positivity)
  have e5 : ∀ z : ℝ, 5 / s * z = 5 * (z / s) := fun z => by ring
  refine ⟨?_, ?_, ?_, ?_⟩
  · have hnum : (25 : ℝ) * (1 - 1 / 2 ^ 49)
        ≤ 25 * (1 - 9 / 2 ^ 53) - 10 * (11 * (1 + 10 / 2 ^ 53) / 2 ^ 53 + 16 / 2 ^ 64) := by
      norm_num
    rw [expand]
    linarith
  · have hnum : (25 : ℝ) * (1 + 10 / 2 ^ 53) +
        10 * (11 * (1 + 10 / 2 ^ 53) / 2 ^ 53 + 16 / 2 ^ 64) + 2 * (144 / 2 ^ 106)
        ≤ 25 * (1 + 1 / 2 ^ 49) := by
      norm_num
    rw [expand]
    linarith
  · rw [e5]
    exact hd1c.trans (by norm_num)
  · rw [e5]
    exact hd2c.trans (by norm_num)

/-- A double returned for an exact result of absolute value at most `B`, with
`1 ≤ B ≤ 2 ^ 1023`: its absolute value is at most `2 * B`. -/
theorem toDouble_bounded_two [FloorRing K] (r B : K) (h : |r| ≤ B) (h1 : 1 ≤ B)
    (hB : B ≤ 2 ^ 1023) : ∃ d, toDouble r = some d ∧ |d| ≤ 2 * B := by
  obtain ⟨d, hd, _, hb⟩ := toDouble_bounded r B h hB
  refine ⟨d, hd, ?_⟩
  have h2 : B / 2 ^ 53 ≤ B / 2 := by
    apply div_le_div_of_nonneg_left (by linarith) (by norm_num) (by norm_num)
  have h3 : (1 : K) / 2 ^ 64 ≤ 1 / 2 := by norm_num
  linarith

/-- One `addForce` call in double precision, for a vector sum with components of
absolute value at most `B`, where `1 ≤ B` and `64 * B ^ 2 ≤ 2 ^ 1023`: no
operation overflows, the squared norm of the returned velocity is at most
`25 * (1 + 2 ^ (-49))`, the returned velocity is the rounded sum `(vx, vy)` when
the computed speed is at most 5, and otherwise its squared norm is at least
`25 * (1 - 2 ^ (-49))` and each component is within `2 ^ (-49)` of the
component of the rounded sum multiplied by `5 / speed`. -/
theorem addForceDouble_bound (p : AirParticle ℝ) (forceX forceY B : ℝ) (hB1 : 1 ≤ B)
    (hB2 : 64 * (B * B) ≤ 2 ^ 1023) (hx : |p.velocity.x + forceX| ≤ B)
    (hy : |p.velocity.y + forceY| ≤ B) :
    ∃ vx vy xx yy sum speed : ℝ, ∃ q : AirParticle ℝ,
      toDouble (p.velocity.x + forceX) = some vx ∧
      toDouble (p.velocity.y + forceY) = some vy ∧
      toDouble (vx * vx) = some xx ∧ toDouble (vy * vy) = some yy ∧
      toDouble (xx + yy) = some sum ∧ toDouble (Real.sqrt sum) = some speed ∧
      p.addForceDouble Real.sqrt forceX forceY = some q ∧
      q.velocity.x * q.velocity.x + q.velocity.y * q.velocity.y ≤ 25 * (1 + 1 / 2 ^ 49) ∧
      (speed ≤ 5 → q.velocity = { x := vx, y := vy }) ∧
      (5 < speed →
        25 * (1 - 1 / 2 ^ 49) ≤ q.velocity.x * q.velocity.x + q.velocity.y * q.velocity.y ∧
        |q.velocity.x - 5 / speed * vx| ≤ 1 / 2 ^ 49 ∧
        |q.velocity.y - 5 / speed * vy| ≤ 1 / 2 ^ 49) := by
  have hBB : 1 ≤ B * B := by nlinarith
  have hBle : B ≤ B * B := by nlinarith
  obtain ⟨vx, hvx, bvx⟩ := toDouble_bounded_two _ B hx hB1 (by linarith)
  obtain ⟨vy, hvy, bvy⟩ := toDouble_bounded_two _ B hy hB1 (by linarith)
  have hxx : |vx * vx| ≤ 4 * (B * B) := by
    rw [abs_mul]
    have := mul_le_mul bvx bvx (abs_nonneg _) (by linarith)
    linarith
  have hyy : |vy * vy| ≤ 4 * (B * B) := by
    rw [abs_mul]
    have := mul_le_mul bvy bvy (abs_nonneg _) (by linarith)
    linarith
  obtain ⟨xx, hxx2, bxx⟩ := toDouble_bounded_two _ (4 * (B * B)) hxx (by linarith)
    (by linarith)
  obtain ⟨yy, hyy2, byy⟩ := toDouble_bounded_two _ (4 * (B * B)) hyy (by linarith)
    (by linarith)
  have hsum : |xx + yy| ≤ 16 * (B * B) := by
    have := abs_add xx yy
    linarith
  obtain ⟨sum, hsum2, bsum⟩ := toDouble_bounded_two _ (16 * (B * B)) hsum (by linarith)
    (by linarith)
  have hsq : |Real.sqrt sum| ≤ 32 * (B * B) := by
    rw [abs_of_nonneg (Real.sqrt_nonneg _)]
    rw [Real.sqrt_le_left (by linarith)]
    have h1 : sum ≤ 32 * (B * B) := by
      have := le_abs_self sum
      linarith
    have h2 : 32 * (B * B) ≤ (32 * (B * B)) ^ 2 := by nlinarith
    linarith
  obtain ⟨speed, hspeed, _⟩ := toDouble_bounded_two _ (32 * (B * B)) hsq (by linarith)
    (by linarith)
  have et := norm_sq_rounded vx vy xx yy sum (toDouble_error_coarse _ _ hxx2)
    (toDouble_error_coarse _ _ hyy2) (toDouble_error_coarse _ _ hsum2)
  have es := toDouble_error_coarse _ _ hspeed
  rcases le_or_lt speed 5 with h5 | h5
  · refine ⟨vx, vy, xx, yy, sum, speed, { p with velocity := { x := vx, y := vy } }, hvx, hvy,
      hxx2, hyy2, hsum2, hspeed,
      addForceDouble_plain Real.sqrt p forceX forceY vx vy xx yy sum speed hvx hvy hxx2 hyy2
        hsum2 hspeed h5,
      plain_branch_bound vx vy sum speed et es h5, fun _ => rfl, fun h => ?_⟩
    exact absurd h (not_lt.mpr h5)
  · have hdiv : ∀ v : ℝ, |v| ≤ 2 * B → |v / speed| ≤ 2 * B := by
      intro v hv
      rw [abs_div, abs_of_pos (by linarith : (0 : ℝ) < speed)]
      exact (div_le_self (abs_nonneg v) (by linarith)).trans hv
    obtain ⟨qx, hqx, bqx⟩ := toDouble_bounded_two _ (2 * B) (hdiv vx bvx) (by linarith)
      (by linarith)
    obtain ⟨qy, hqy, bqy⟩ := toDouble_bounded_two _ (2 * B) (hdiv vy bvy) (by linarith)
      (by linarith)
    have hq5 : ∀ v : ℝ, |v| ≤ 2 * (2 * B) → |v * 5| ≤ 20 * B := by
      intro v hv
      rw [abs_mul, abs_of_pos (by norm_num : (0 : ℝ) < 5)]
      linarith
    obtain ⟨rx, hrx, _⟩ := toDouble_bounded_two _ (20 * B) (hq5 qx bqx) (by linarith)
      (by linarith)
    obtain ⟨ry, hry, _⟩ := toDouble_bounded_two _ (20 * B) (hq5 qy bqy) (by linarith)
      (by linarith)
    obtain ⟨b1, b2, b3, b4⟩ := rescaled_branch_bound vx vy sum speed qx rx qy ry et es h5
      (toDouble_error_coarse _ _ hqx) (toDouble_error_coarse _ _ hrx)
      (toDouble_error_coarse _ _ hqy) (toDouble_error_coarse _ _ hry)
    refine ⟨vx, vy, xx, yy, sum, speed, { p with velocity := { x := rx, y := ry } }, hvx, hvy,
      hxx2, hyy2, hsum2, hspeed,
      addForceDouble_rescaled Real.sqrt p forceX forceY vx vy xx yy sum speed qx rx qy ry hvx
        hvy hxx2 hyy2 hsum2 hspeed h5 hqx hrx hqy hry,
      b2, fun h => ?_, fun _ => ⟨b1, b3, b4⟩⟩
    exact absurd h5 (not_lt.mpr h)

/-- A velocity of squared norm at most `25 * (1 + 2 ^ (-49))` has components of
absolute value at most 6. -/
theorem component_le_six (a b : ℝ) (h : a * a + b * b ≤ 25 * (1 + 1 / 2 ^ 49)) :
    |a| ≤ 6 ∧ |b| ≤ 6 := by
  have hc : (25 : ℝ) * (1 + 1 / 2 ^ 49) ≤ 6 * 6 := by norm_num
  have ha : |a| * |a| ≤ 6 * 6 := by
    rw [abs_mul_abs_self]
    nlinarith [mul_self_nonneg b]
  have hb : |b| * |b| ≤ 6 * 6 := by
    rw [abs_mul_abs_self]
    nlinarith [mul_self_nonneg a]
  exact ⟨(mul_self_le_mul_self_iff (abs_nonneg a) (by norm_num)).mpr ha,
    (mul_self_le_mul_self_iff (abs_nonneg b) (by norm_num)).mpr hb⟩

/-- A finite sequence of `addForce` calls in double precision, for a velocity
and forces with components of absolute value at most `C`, where `6 ≤ C` and
`256 * C ^ 2 ≤ 2 ^ 1023`: no operation overflows and the components of the
velocity left by the sequence have absolute value at most `C`. -/
theorem addForcesDouble_bounded (C : ℝ) (hC : 6 ≤ C) (hC2 : 256 * (C * C) ≤ 2 ^ 1023)
    (forces : List (ℝ × ℝ)) (hf : ∀ f ∈ forces, |f.1| ≤ C ∧ |f.2| ≤ C) (p : AirParticle ℝ)
    (hp : |p.velocity.x| ≤ C ∧ |p.velocity.y| ≤ C) :
    ∃ q : AirParticle ℝ, p.addForcesDouble Real.sqrt forces = some q ∧
      |q.velocity.x| ≤ C ∧ |q.velocity.y| ≤ C := by
  induction forces generalizing p with
  | nil => exact ⟨p, rfl, hp⟩
  | cons f rest ih =>
    have hfm := hf f (List.mem_cons_self f rest)
    have hx : |p.velocity.x + f.1| ≤ 2 * C := by
      have := abs_add p.velocity.x f.1
      linarith [hp.1, hfm.1]
    have hy : |p.velocity.y + f.2| ≤ 2 * C := by
      have := abs_add p.velocity.y f.2
      linarith [hp.2, hfm.2]
    obtain ⟨vx, vy, xx, yy, sum, speed, q, _, _, _, _, _, _, hq, hb, _, _⟩ :=
      addForceDouble_bound p f.1 f.2 (2 * C) (by linarith) (by nlinarith) hx hy
    obtain ⟨h6x, h6y⟩ := component_le_six _ _ hb
    obtain ⟨q2, hq2, hb2⟩ := ih (fun g hg => hf g (List.mem_cons_of_mem f hg)) q
      ⟨h6x.trans hC, h6y.trans hC⟩
    refine ⟨q2, ?_, hb2⟩
    simp only [AirParticle.addForcesDouble, List.foldlM_cons, hq, Option.bind_eq_bind,
      Option.some_bind]
    exact hq2

/-- A number of absolute value at most 100 is far below the overflow bound used
for `addForce`. -/
theorem abs_le_two_pow (x : ℝ) (h : |x| ≤ 100) : |x| ≤ 2 ^ 499 :=
  h.trans (le_trans (by norm_num : (100 : ℝ) ≤ 2 ^ 7)
    (pow_le_pow_right₀ (by norm_num) (by norm_num)))

/-! ## C1: particle mass -/

/-- C1: for every temperature, `calculateMass` is `max(0.1, 1.0 + (20 - T) * 0.05)`,
is at least 0.1, and is antitone in the temperature. -/
theorem calculateMass_floor_antitone (T1 T2 : K) (h : T1 ≤ T2) :
    AirParticle.calculateMass T1 = max 0.1 (1.0 + (20 - T1) * 0.05) ∧
    (0.1 : K) ≤ AirParticle.calculateMass T1 ∧
    (0.1 : K) ≤ AirParticle.calculateMass T2 ∧
    AirParticle.calculateMass T2 ≤ AirParticle.calculateMass T1 := by
  refine ⟨rfl, le_max_left _ _, le_max_left _ _, ?_⟩
  unfold AirParticle.calculateMass
  apply max_le_max le_rfl
  norm_num
  linarith

/-- C1 at the temperatures 10 and 50: masses 1.5 and 0.1. -/
theorem calculateMass_floor_antitone_witness :
    (10 : ℚ) ≤ 50 ∧ AirParticle.calculateMass (10 : ℚ) = 3 / 2 ∧
    AirParticle.calculateMass (50 : ℚ) = 1 / 10 ∧
    AirParticle.calculateMass (50 : ℚ) ≤ AirParticle.calculateMass (10 : ℚ) :=
  ⟨by norm_num, by norm_num [AirParticle.calculateMass],
    by norm_num [AirParticle.calculateMass],
    (calculateMass_floor_antitone (10 : ℚ) 50 (by norm_num)).2.2.2⟩

/-! ## C2: the speed ceiling of `addForce` -/

/-- C2 as stated fails: the operations of `addForce` are rounded to double
precision and the rescaled velocity can be longer than 5.  For the velocity
(5, 0) and the force (0, 12) the sum (5, 12) has the computed speed 13, the
quotients 5 / 13 and 12 / 13 and their products with 5 are rounded, and the
call returns (8660768514174031 / 2 ^ 52, 5196461108504419 / 2 ^ 50), about
(1.9230769230769231, 4.615384615384616), whose squared norm exceeds 25. -/
theorem addForceDouble_exceeds_ceiling :
    (ceilingParticle : AirParticle ℝ).addForceDouble Real.sqrt 0 12
      = some { (ceilingParticle : AirParticle ℝ) with
          velocity := { x := 8660768514174031 / 2 ^ 52, y := 5196461108504419 / 2 ^ 50 } } ∧
    (5 : ℝ) * 5 < (8660768514174031 / 2 ^ 52) * (8660768514174031 / 2 ^ 52) +
      (5196461108504419 / 2 ^ 50) * (5196461108504419 / 2 ^ 50) := by
  refine ⟨?_, by norm_num⟩
  have hs : Real.sqrt 169 = 13 := by
    rw [show (169 : ℝ) = 13 * 13 by norm_num]
    exact Real.sqrt_mul_self (by norm_num)
  have pos : ∀ x : ℝ, 0 < x → x < 2 ^ 1024 → |x| < 2 ^ 1024 := fun x h0 h1 => by
    rwa [abs_of_pos h0]
  have hvx : (ceilingParticle : AirParticle ℝ).velocity.x + 0 = 5 := by
    norm_num [ceilingParticle, AirParticle.new]
  have hvy : (ceilingParticle : AirParticle ℝ).velocity.y + 12 = 12 := by
    norm_num [ceilingParticle, AirParticle.new]
  apply addForceDouble_rescaled Real.sqrt ceilingParticle 0 12 5 12 25 144 169 13
    (6928614811339225 / 2 ^ 54) (8660768514174031 / 2 ^ 52)
    (8314337773607070 / 2 ^ 53) (5196461108504419 / 2 ^ 50)
  · rw [hvx]
    exact toDouble_eq _ 5 2 (5 * 2 ^ 50) (by norm_num) (by norm_num) (by norm_num)
      (by norm_num) (by norm_num) (by norm_num) (by norm_num) (pos _ (by norm_num) (by norm_num))
  · rw [hvy]
    exact toDouble_eq _ 12 3 (12 * 2 ^ 49) (by norm_num) (by norm_num) (by norm_num)
      (by norm_num) (by norm_num) (by norm_num) (by norm_num) (pos _ (by norm_num) (by norm_num))
  · exact toDouble_eq _ 25 4 (25 * 2 ^ 48) (by norm_num) (by norm_num) (by norm_num)
      (by norm_num) (by norm_num) (by norm_num) (by norm_num) (pos _ (by norm_num) (by norm_num))
  · exact toDouble_eq _ 144 7 (144 * 2 ^ 45) (by norm_num) (by norm_num) (by norm_num)
      (by norm_num) (by norm_num) (by norm_num) (by norm_num) (pos _ (by norm_num) (by norm_num))
  · exact toDouble_eq _ 169 7 (169 * 2 ^ 45) (by norm_num) (by norm_num) (by norm_num)
      (by norm_num) (by norm_num) (by norm_num) (by norm_num) (pos _ (by norm_num) (by norm_num))
  · rw [hs]
    exact toDouble_eq _ 13 3 (13 * 2 ^ 49) (by norm_num) (by norm_num) (by norm_num)
      (by norm_num) (by norm_num) (by norm_num) (by norm_num) (pos _ (by norm_num) (by norm_num))
  · norm_num
  · exact toDouble_eq _ _ (-2) 6928614811339225 (by norm_num) (by norm_num) (by norm_num)
      (by norm_num) (by norm_num) (by norm_num) (by norm_num) (pos _ (by norm_num) (by norm_num))
  · exact toDouble_eq _ _ 0 8660768514174031 (by norm_num) (by norm_num) (by norm_num)
      (by norm_num) (by norm_num) (by norm_num) (by norm_num) (pos _ (by norm_num) (by norm_num))
  · exact toDouble_eq _ _ (-1) 8314337773607070 (by norm_num) (by norm_num) (by norm_num)
      (by norm_num) (by norm_num) (by norm_num) (by norm_num) (pos _ (by norm_num) (by norm_num))
  · exact toDouble_eq _ _ 2 5196461108504419 (by norm_num) (by norm_num) (by norm_num)
      (by norm_num) (by norm_num) (by norm_num) (by norm_num) (pos _ (by norm_num) (by norm_num))

/-- C2 (amended): in double precision, for a velocity and forces whose
components have absolute value at most 2 ^ 499 (no operation overflows), every
`addForce` call of a finite sequence of calls returns a velocity whose speed is
at most 5 * (1 + 2 ^ (-50)).  The call returns the rounded vector sum
`(vx, vy)` when its computed speed is at most 5; otherwise it returns the sum
rescaled: the speed of the result is at least 5 * (1 - 2 ^ (-49)) and each
component is within 2 ^ (-49) of the component of the sum multiplied by the
positive factor 5 / speed. -/
theorem addForceDouble_speed_le (p : AirParticle ℝ) (forces : List (ℝ × ℝ))
    (forceX forceY : ℝ) (hp : |p.velocity.x| ≤ 2 ^ 499 ∧ |p.velocity.y| ≤ 2 ^ 499)
    (hf : ∀ f ∈ forces, |f.1| ≤ 2 ^ 499 ∧ |f.2| ≤ 2 ^ 499)
    (hx : |forceX| ≤ 2 ^ 499) (hy : |forceY| ≤ 2 ^ 499) :
    ∃ p1 q : AirParticle ℝ, ∃ vx vy xx yy sum speed : ℝ,
      p.addForcesDouble Real.sqrt forces = some p1 ∧
      p1.addForceDouble Real.sqrt forceX forceY = some q ∧
      toDouble (p1.velocity.x + forceX) = some vx ∧
      toDouble (p1.velocity.y + forceY) = some vy ∧
      toDouble (vx * vx) = some xx ∧ toDouble (vy * vy) = some yy ∧
      toDouble (xx + yy) = some sum ∧ toDouble (Real.sqrt sum) = some speed ∧
      q.velocity.speed Real.sqrt ≤ 5 * (1 + 1 / 2 ^ 50) ∧
      (speed ≤ 5 → q.velocity = { x := vx, y := vy }) ∧
      (5 < speed →
        5 * (1 - 1 / 2 ^ 49) ≤ q.velocity.speed Real.sqrt ∧
        |q.velocity.x - 5 / speed * vx| ≤ 1 / 2 ^ 49 ∧
        |q.velocity.y - 5 / speed * vy| ≤ 1 / 2 ^ 49) := by
  have h6 : (6 : ℝ) ≤ 2 ^ 499 :=
    le_trans (by norm_num : (6 : ℝ) ≤ 2 ^ 3) (pow_le_pow_right₀ (by norm_num) (by norm_num))
  have hbig : (256 : ℝ) * (2 ^ 499 * 2 ^ 499) ≤ 2 ^ 1023 := by
    have e : (256 : ℝ) * (2 ^ 499 * 2 ^ 499) = 2 ^ 1006 := by
      rw [show (256 : ℝ) = 2 ^ 8 by norm_num, ← pow_add, ← pow_add]
    rw [e]
    exact pow_le_pow_right₀ (by norm_num) (by norm_num)
  obtain ⟨p1, hp1, hb1⟩ := addForcesDouble_bounded (2 ^ 499) h6 hbig forces hf p hp
  have hx2 : |p1.velocity.x + forceX| ≤ 2 * 2 ^ 499 := by
    have := abs_add p1.velocity.x forceX
    linarith [hb1.1]
  have hy2 : |p1.velocity.y + forceY| ≤ 2 * 2 ^ 499 := by
    have := abs_add p1.velocity.y forceY
    linarith [hb1.2]
  have hbig2 : (64 : ℝ) * (2 * 2 ^ 499 * (2 * 2 ^ 499)) ≤ 2 ^ 1023 := by
    have e : (64 : ℝ) * (2 * 2 ^ 499 * (2 * 2 ^ 499)) = 256 * (2 ^ 499 * 2 ^ 499) := by ring
    rw [e]
    exact hbig
  obtain ⟨vx, vy, xx, yy, sum, speed, q, h1, h2, h3, h4, h5, h6s, hq, hb, hplain, hresc⟩ :=
    addForceDouble_bound p1 forceX forceY (2 * 2 ^ 499) (by linarith) hbig2 hx2 hy2
  refine ⟨p1, q, vx, vy, xx, yy, sum, speed, hp1, hq, h1, h2, h3, h4, h5, h6s, ?_, hplain,
    fun h => ?_⟩
  · rw [Vec2.speed, Real.sqrt_le_left (by norm_num)]
    exact hb.trans (by norm_num)
  · obtain ⟨b1, b3, b4⟩ := hresc h
    refine ⟨?_, b3, b4⟩
    rw [Vec2.speed]
    apply Real.le_sqrt_of_sq_le
    exact le_trans (by norm_num) b1

/-- C2 (amended) for the particle with velocity (5, 0), no earlier call and the
force (0, 12). -/
theorem addForceDouble_speed_le_witness :
    ∃ p1 q : AirParticle ℝ, ∃ vx vy xx yy sum speed : ℝ,
      (ceilingParticle : AirParticle ℝ).addForcesDouble Real.sqrt [] = some p1 ∧
      p1.addForceDouble Real.sqrt 0 12 = some q ∧
      toDouble (p1.velocity.x + 0) = some vx ∧
      toDouble (p1.velocity.y + 12) = some vy ∧
      toDouble (vx * vx) = some xx ∧ toDouble (vy * vy) = some yy ∧
      toDouble (xx + yy) = some sum ∧ toDouble (Real.sqrt sum) = some speed ∧
      q.velocity.speed Real.sqrt ≤ 5 * (1 + 1 / 2 ^ 50) ∧
      (speed ≤ 5 → q.velocity = { x := vx, y := vy }) ∧
      (5 < speed →
        5 * (1 - 1 / 2 ^ 49) ≤ q.velocity.speed Real.sqrt ∧
        |q.velocity.x - 5 / speed * vx| ≤ 1 / 2 ^ 49 ∧
        |q.velocity.y - 5 / speed * vy| ≤ 1 / 2 ^ 49) :=
  addForceDouble_speed_le ceilingParticle [] 0 12
    ⟨abs_le_two_pow _ (by norm_num [ceilingParticle, AirParticle.new]),
      abs_le_two_pow _ (by norm_num [ceilingParticle, AirParticle.new])⟩
    (fun f hf => absurd hf (List.not_mem_nil f))
    (abs_le_two_pow _ (by norm_num)) (abs_le_two_pow _ (by norm_num))

/-- Exact arithmetic: a velocity longer than 5, divided by its length and
multiplied by 5, has length exactly 5. -/
theorem speed_rescaled (vx vy : ℝ) (h : 5 < Real.sqrt (vx * vx + vy * vy)) :
    Real.sqrt ((vx / Real.sqrt (vx * vx + vy * vy) * 5) *
        (vx / Real.sqrt (vx * vx + vy * vy) * 5) +
      (vy / Real.sqrt (vx * vx + vy * vy) * 5) *
        (vy / Real.sqrt (vx * vx + vy * vy) * 5)) = 5 := by
  set s := Real.sqrt (vx * vx + vy * vy) with hs
  have hpos : 0 < s := by linarith
  have ha : 0 ≤ vx * vx + vy * vy := add_nonneg (mul_self_nonneg _) (mul_self_nonneg _)
  have hss : s * s = vx * vx + vy * vy := Real.mul_self_sqrt ha
  have : (vx / s * 5) * (vx / s * 5) + (vy / s * 5) * (vy / s * 5) = 5 * 5 := by
    field_simp
    nlinarith [hss]
  rw [this]
  exact Real.sqrt_mul_self (by norm_num)

/-- Exact arithmetic, without the rounding of the operations: after every
`addForce` call of every finite sequence of calls the speed is at most 5; one
call yields the plain vector sum when its norm is at most 5, and otherwise a
positive multiple of the sum whose norm is exactly 5. -/
theorem addForce_speed_le (p : AirParticle ℝ) (forces : List (ℝ × ℝ)) (forceX forceY : ℝ) :
    ((p.addForces Real.sqrt forces).addForce Real.sqrt forceX forceY).velocity.speed
        Real.sqrt ≤ 5 ∧
    (Real.sqrt ((p.velocity.x + forceX) * (p.velocity.x + forceX) +
        (p.velocity.y + forceY) * (p.velocity.y + forceY)) ≤ 5 →
      (p.addForce Real.sqrt forceX forceY).velocity =
        { x := p.velocity.x + forceX, y := p.velocity.y + forceY }) ∧
    (5 < Real.sqrt ((p.velocity.x + forceX) * (p.velocity.x + forceX) +
        (p.velocity.y + forceY) * (p.velocity.y + forceY)) →
      (p.addForce Real.sqrt forceX forceY).velocity.speed Real.sqrt = 5 ∧
      ∃ c : ℝ, 0 < c ∧ (p.addForce Real.sqrt forceX forceY).velocity =
        { x := c * (p.velocity.x + forceX), y := c * (p.velocity.y + forceY) }) := by
  have key : ∀ (q : AirParticle ℝ) (fx fy : ℝ),
      (q.addForce Real.sqrt fx fy).velocity.speed Real.sqrt ≤ 5 := by
    intro q fx fy
    unfold AirParticle.addForce
    simp only []
    split_ifs with h
    · simp only [Vec2.speed] at h ⊢
      norm_num at h ⊢
      rw [speed_rescaled _ _ h]
    · norm_num at h
      exact h
  refine ⟨key _ _ _, ?_, ?_⟩
  · intro h
    unfold AirParticle.addForce
    simp only [Vec2.speed]
    rw [if_neg (by norm_num; exact h)]
  · intro h
    unfold AirParticle.addForce
    simp only [Vec2.speed]
    rw [if_pos (by norm_num; exact h)]
    refine ⟨by norm_num; exact speed_rescaled _ _ h, 5 / Real.sqrt _, by
      apply div_pos (by norm_num); linarith, ?_⟩
    simp only [Vec2.mk.injEq]
    constructor <;> ring

/-! ## C3: zone resolution in the floor band -/

/-- C3: in an apartment of the default layout and for `y` in the floor band,
a point with `x` in the stair gap resolves to the lower zone below 3.0 and to
the upper mezzanine from 3.0 on, and a point outside the gap resolves to no zone. -/
theorem getZoneAtPoint_floor_band (a : Apartment K) (hL : DefaultLayout a) (x y : K)
    (hlo : 2.95 < y) (hhi : y < 3.05) :
    (4.9 ≤ x ∧ x ≤ 6.1 →
      (y < 3.0 → a.getZoneAtPoint x y = some a.zones.lowerFloor) ∧
      (3.0 ≤ y → a.getZoneAtPoint x y = some a.zones.upperMezzanine)) ∧
    (¬ (4.9 ≤ x ∧ x ≤ 6.1) → a.getZoneAtPoint x y = none) ∧
    a.zones.lowerFloor.id = "lowerFloor" ∧ a.zones.upperMezzanine.id = "upperMezzanine" := by
  obtain ⟨tl, ll, hlow⟩ := hL.lowerFloor
  obtain ⟨tu, lu, hup⟩ := hL.upperMezzanine
  have hgap : a.stairOpening.x + a.stairOpening.width = 6.1 := by
    rw [hL.stairOpening]; norm_num
  have hx0 : a.stairOpening.x = 4.9 := by rw [hL.stairOpening]
  refine ⟨?_, ?_, by rw [hlow]; rfl, by rw [hup]; rfl⟩
  · intro hx
    unfold Apartment.getZoneAtPoint
    rw [if_pos ⟨hlo, hhi⟩, hgap, hx0, if_pos hx]
    constructor
    · intro h3
      rw [if_pos (by norm_num at h3; exact h3)]
    · intro h3
      rw [if_neg (by norm_num at h3; exact not_lt.mpr h3)]
  · intro hx
    exact getZoneAtPoint_band_outside a hL x y hlo hhi hx

/-- C3 at the points (5, 2.97) and (5, 3) inside the gap and (3, 3) outside it. -/
theorem getZoneAtPoint_floor_band_witness :
    (defaultApartment : Apartment ℚ).getZoneAtPoint 5 2.97
      = some (defaultApartment : Apartment ℚ).zones.lowerFloor ∧
    (defaultApartment : Apartment ℚ).getZoneAtPoint 5 3
      = some (defaultApartment : Apartment ℚ).zones.upperMezzanine ∧
    (defaultApartment : Apartment ℚ).getZoneAtPoint 3 3 = none :=
  ⟨((getZoneAtPoint_floor_band defaultApartment defaultApartment_layout 5 2.97
      (by norm_num) (by norm_num)).1 (by norm_num)).1 (by norm_num),
   ((getZoneAtPoint_floor_band defaultApartment defaultApartment_layout 5 3
      (by norm_num) (by norm_num)).1 (by norm_num)).2 (by norm_num),
   (getZoneAtPoint_floor_band defaultApartment defaultApartment_layout 3 3
      (by norm_num) (by norm_num)).2.1 (by norm_num)⟩

/-! ## C4: the floor band outside the stair gap -/

/-- C4: in the default layout, a particle whose position after the Euler
integration of `update` is in the floor band outside the stair gap ends the
step on a face of the band: at y = 2.95 with vy = -0.3 |vy| when it was moving up,
otherwise at y = 3.05 with vy = 0.3 |vy|; the rules after `bounceFromWalls`
leave y where `bounceFromWalls` put it, so the step does not end in the open band. -/
theorem update_floor_band (sqrt : K → K) (a : Apartment K) (hL : DefaultLayout a)
    (p : AirParticle K) (dt ambientTemp : K)
    (hx : ¬ (4.9 ≤ (p.integrate sqrt dt ambientTemp).x ∧
      (p.integrate sqrt dt ambientTemp).x ≤ 6.1))
    (hlo : 2.95 < (p.integrate sqrt dt ambientTemp).y)
    (hhi : (p.integrate sqrt dt ambientTemp).y < 3.05) :
    (0 < (p.integrate sqrt dt ambientTemp).velocity.y →
      (p.update sqrt dt a ambientTemp).1.y = 2.95 ∧
      (p.update sqrt dt a ambientTemp).1.velocity.y =
        -0.3 * |(p.integrate sqrt dt ambientTemp).velocity.y|) ∧
    (¬ 0 < (p.integrate sqrt dt ambientTemp).velocity.y →
      (p.update sqrt dt a ambientTemp).1.y = 3.05 ∧
      (p.update sqrt dt a ambientTemp).1.velocity.y =
        0.3 * |(p.integrate sqrt dt ambientTemp).velocity.y|) ∧
    (p.update sqrt dt a ambientTemp).1.y =
      ((p.integrate sqrt dt ambientTemp).bounceFromWalls a).y ∧
    ¬ (2.95 < (p.update sqrt dt a ambientTemp).1.y ∧
      (p.update sqrt dt a ambientTemp).1.y < 3.05) := by
  have hz := getZoneAtPoint_band_outside a hL _ _ hlo hhi hx
  obtain ⟨h1, h2, h3⟩ := bounceFromWalls_band a hL _ hx hlo hhi
  have hy4 : ((p.integrate sqrt dt ambientTemp).bounceFromWalls a).y < 4 := by
    rw [h1]; split_ifs <;> norm_num
  have hw : ((p.integrate sqrt dt ambientTemp).bounceFromWalls a).x ≤ 5.9 ∨
      6.1 ≤ ((p.integrate sqrt dt ambientTemp).bounceFromWalls a).x ∨
      ((p.integrate sqrt dt ambientTemp).bounceFromWalls a).y < 3 := by
    rcases h3 with h | h
    · exact Or.inl h
    · exact Or.inr (Or.inl h)
  have hU : (p.update sqrt dt a ambientTemp).1 =
      ((p.integrate sqrt dt ambientTemp).bounceFromWalls a).handleWindowEscape a := by
    simp only [AirParticle.update, AirParticle.handleBoundaries, hz]
  have hW := handleWindowEscape_below_devices a hL _ hy4 hw
  have hy : (p.update sqrt dt a ambientTemp).1.y =
      ((p.integrate sqrt dt ambientTemp).bounceFromWalls a).y := by
    rw [hU, hW]; split_ifs <;> rfl
  have hv : (p.update sqrt dt a ambientTemp).1.velocity =
      ((p.integrate sqrt dt ambientTemp).bounceFromWalls a).velocity := by
    rw [hU, hW]; split_ifs <;> rfl
  rw [hy, hv, h1, h2]
  refine ⟨fun h => ?_, fun h => ?_, rfl, ?_⟩
  · rw [if_pos h, if_pos h]; exact ⟨rfl, by ring⟩
  · rw [if_neg h, if_neg h]; exact ⟨rfl, by ring⟩
  · split_ifs <;> norm_num

/-- C4 for a cold particle at rest at (3, 2.7) with ambient 22 and dt = 1: it
rises to y = 2.997 with vy = 0.297 and is put back to y = 2.95. -/
theorem update_floor_band_witness :
    ((floorBandParticle : AirParticle ℝ).integrate Real.sqrt 1 22).y = 2.997 ∧
    ((floorBandParticle : AirParticle ℝ).integrate Real.sqrt 1 22).velocity.y = 0.297 ∧
    ((floorBandParticle : AirParticle ℝ).update Real.sqrt 1 defaultApartment 22).1.y = 2.95 ∧
    ((floorBandParticle : AirParticle ℝ).update Real.sqrt 1 defaultApartment 22).1.velocity.y
      = -0.0891 := by
  have hy : ((floorBandParticle : AirParticle ℝ).integrate Real.sqrt 1 22).y = 2.997 := by
    norm_num [floorBandParticle, AirParticle.new, AirParticle.integrate, Vec2.speed]
  have hv : ((floorBandParticle : AirParticle ℝ).integrate Real.sqrt 1 22).velocity.y
      = 0.297 := by
    norm_num [floorBandParticle, AirParticle.new, AirParticle.integrate, Vec2.speed]
  have hx : ((floorBandParticle : AirParticle ℝ).integrate Real.sqrt 1 22).x = 3 := by
    norm_num [floorBandParticle, AirParticle.new, AirParticle.integrate, Vec2.speed]
  have h := (update_floor_band Real.sqrt defaultApartment defaultApartment_layout
    floorBandParticle 1 22 (by rw [hx]; norm_num) (by rw [hy]; norm_num)
    (by rw [hy]; norm_num)).1 (by rw [hv]; norm_num)
  refine ⟨hy, hv, h.1, ?_⟩
  rw [h.2, hv]; norm_num [abs_of_pos]

/-! ## C5: window escape -/

/-- C5: in the default layout, for a particle whose position at boundary
resolution lies inside a window opening leading outside (expanded by 0.1 in x):
when the opening is closed, `update` only increments the age by 1; when it is
open, `update` sets the age to `maxAge`, returns false, and the liveness filter
drops the particle. -/
theorem window_escape (sqrt : K → K) (a : Apartment K) (hL : DefaultLayout a)
    (p : AirParticle K) (dt ambientTemp : K) (entry : String × Opening K)
    (hmem : entry ∈ a.openings.entries) (hout : entry.2.toZone = "outside")
    (hin : entry.2.inWindow (p.integrate sqrt dt ambientTemp).x
      (p.integrate sqrt dt ambientTemp).y) :
    (entry.2.isOpen = false →
      (p.update sqrt dt a ambientTemp).1.age = p.age + 1 ∧
      (p.update sqrt dt a ambientTemp).2 = decide (p.age + 1 < p.maxAge)) ∧
    (entry.2.isOpen = true →
      (p.update sqrt dt a ambientTemp).1.age = p.maxAge ∧
      (p.update sqrt dt a ambientTemp).2 = false ∧
      ∀ before after : List (AirParticle K),
        FluidSimulation.updateParticles sqrt (before ++ p :: after) dt a ambientTemp =
          FluidSimulation.updateParticles sqrt before dt a ambientTemp ++
          FluidSimulation.updateParticles sqrt after dt a ambientTemp) := by
  obtain ⟨q1, hb, hage, hmax, hesc⟩ := escapes_in_window a hL _ entry hmem hout hin
  obtain ⟨hA, hM⟩ := handleWindowEscape_age q1 a
  have hU : (p.update sqrt dt a ambientTemp).1 = q1.handleWindowEscape a := by
    rw [← hb]; rfl
  have hF : (p.update sqrt dt a ambientTemp).2 =
      decide ((q1.handleWindowEscape a).age < (q1.handleWindowEscape a).maxAge) := by
    rw [← hb]; rfl
  have hqa : (p.integrate sqrt dt ambientTemp).age = p.age + 1 := rfl
  have hqm : (p.integrate sqrt dt ambientTemp).maxAge = p.maxAge := rfl
  rw [hesc] at hA
  constructor
  · intro hc
    rw [hc, if_neg Bool.false_ne_true] at hA
    rw [hF, hU, hA, hM, hage, hmax, hqa, hqm]
    exact ⟨rfl, rfl⟩
  · intro ho
    rw [ho, if_pos rfl] at hA
    have h2 : (p.update sqrt dt a ambientTemp).2 = false := by
      rw [hF, hA, hM]; simp
    refine ⟨by rw [hU, hA, hmax, hqm], h2, ?_⟩
    intro before after
    unfold FluidSimulation.updateParticles
    rw [List.filterMap_append, List.filterMap_cons]
    simp only [h2, Bool.false_eq_true, if_false]

/-- C5 for an ambient particle at rest at (0.1, 1), inside the left window: with
the window closed (default) it ages to 1 and stays alive; after
`updateOpeningState('leftWindow', true)` its age becomes 1200 and the liveness
filter returns the empty list. -/
theorem window_escape_witness :
    ((windowParticle : AirParticle ℝ).update Real.sqrt 1 defaultApartment 22).1.age = 1 ∧
    ((windowParticle : AirParticle ℝ).update Real.sqrt 1 defaultApartment 22).2 = true ∧
    ((windowParticle : AirParticle ℝ).update Real.sqrt 1
      (defaultApartment.updateOpeningState "leftWindow" true) 22).1.age = 1200 ∧
    ((windowParticle : AirParticle ℝ).update Real.sqrt 1
      (defaultApartment.updateOpeningState "leftWindow" true) 22).2 = false ∧
    FluidSimulation.updateParticles Real.sqrt [(windowParticle : AirParticle ℝ)] 1
      (defaultApartment.updateOpeningState "leftWindow" true) 22 = [] := by
  have hx : ((windowParticle : AirParticle ℝ).integrate Real.sqrt 1 22).x = 0.1 := by
    norm_num [windowParticle, AirParticle.new, AirParticle.integrate, Vec2.speed]
  have hy : ((windowParticle : AirParticle ℝ).integrate Real.sqrt 1 22).y = 1 := by
    norm_num [windowParticle, AirParticle.new, AirParticle.integrate, Vec2.speed]
  have hc := (window_escape Real.sqrt defaultApartment defaultApartment_layout
    windowParticle 1 22 ("leftWindow", defaultApartment.openings.leftWindow)
    (by simp [Openings.entries]) rfl
    (by unfold Opening.inWindow; rw [hx, hy]; norm_num [defaultApartment, Apartment.new])).1 rfl
  have ho := (window_escape Real.sqrt (defaultApartment.updateOpeningState "leftWindow" true)
    (updateOpeningState_layout _ defaultApartment_layout _ _)
    windowParticle 1 22
    ("leftWindow", (defaultApartment.updateOpeningState "leftWindow" true).openings.leftWindow)
    (by simp [Openings.entries])
    (by rw [updateOpeningState_leftWindow]; rfl)
    (by rw [updateOpeningState_leftWindow]; unfold Opening.inWindow; rw [hx, hy]
        norm_num [defaultApartment, Apartment.new])).2
    (by rw [updateOpeningState_leftWindow])
  refine ⟨hc.1, ?_, ho.1, ho.2.1, ?_⟩
  · rw [hc.2]; rfl
  · have := ho.2.2 [] []
    simpa [FluidSimulation.updateParticles] using this

/-! ## C6: an empty zone relaxes to ambient -/

/-- C6 as stated fails: the operations of the line
`zone.temperature * 0.999 + this.ambientTemperature * 0.001` are rounded to
double precision and the iteration has fixed points other than the ambient
temperature.  With ambient temperature 30, the empty zone at the double
8444249301319493 / 2 ^ 48 = 29.999999999999336 is returned unchanged by every
number of runs: the distance to 30 does not decrease, the closed form fails and
the temperature does not tend to 30. -/
theorem empty_zone_stalls :
    (stalledZone : Zone ℝ).airParticles = [] ∧
    (stalledZone : Zone ℝ).temperature
      ≠ (warmAmbientSolver : FlowSolver ℝ).ambientTemperature ∧
    ∀ n : Nat,
      (warmAmbientSolver : FlowSolver ℝ).updateZoneTemperatureDoubleIter [] n stalledZone
        = some stalledZone := by
  have pos : ∀ x : ℝ, 0 < x → x < 2 ^ 1024 → |x| < 2 ^ 1024 := fun x h0 h1 => by
    rwa [abs_of_pos h0]
  have hA : (warmAmbientSolver : FlowSolver ℝ).ambientTemperature = 30 := rfl
  have hT : (stalledZone : Zone ℝ).temperature = 8444249301319493 / 2 ^ 48 := rfl
  have hstep : (warmAmbientSolver : FlowSolver ℝ).updateZoneTemperatureDouble [] stalledZone
      = some stalledZone := by
    apply updateZoneTemperatureDouble_empty warmAmbientSolver [] stalledZone
      (8435805052018173 / 2 ^ 48) (8646911284551352 / 2 ^ 58) (8444249301319493 / 2 ^ 48) rfl
    · rw [hT]
      exact toDouble_eq _ _ 4 8435805052018173 (by norm_num) (by norm_num) (by norm_num)
        (by norm_num) (by norm_num) (by norm_num) (by norm_num)
        (pos _ (by norm_num) (by norm_num))
    · rw [hA]
      exact toDouble_eq_tie _ _ (-6) 8646911284551352 (by norm_num) (by norm_num)
        (by norm_num) (by norm_num) (by decide) (by norm_num) (by norm_num)
        (pos _ (by norm_num) (by norm_num))
    · exact toDouble_eq _ _ 4 8444249301319493 (by norm_num) (by norm_num) (by norm_num)
        (by norm_num) (by norm_num) (by norm_num) (by norm_num)
        (pos _ (by norm_num) (by norm_num))
  refine ⟨rfl, by rw [hA, hT]; norm_num, ?_⟩
  intro n
  induction n with
  | zero => rfl
  | succ n ih =>
    rw [FlowSolver.updateZoneTemperatureDoubleIter, hstep, Option.some_bind, ih]

/-- C6 (amended): in double precision, for a zone that holds no particles, a
starting temperature `T 0` and an ambient temperature `A` of absolute value at
most 100, every number `n` of consecutive runs returns a temperature `T n`
with `T n - A = 0.999 ^ n * (T 0 - A)` up to an error of at most 10 ^ (-10);
one more run gives `T (n + 1) - A = 0.999 * (T n - A)` up to 10 ^ (-13), so the
distance to `A` strictly decreases at every run at which it exceeds 10 ^ (-10);
`T n` does not pass `A` by more than 10 ^ (-10); and from some run on `T n`
stays within 2 * 10 ^ (-10) of `A`. -/
theorem empty_zone_relaxes_double (fs : FlowSolver ℝ) (particles : List (AirParticle ℝ))
    (zone : Zone ℝ) (hempty : zone.airParticles = []) (hT : |zone.temperature| ≤ 100)
    (hA : |fs.ambientTemperature| ≤ 100) :
    (∀ n : Nat, ∃ t t2 : ℝ,
      fs.updateZoneTemperatureDoubleIter particles n zone
        = some { zone with temperature := t } ∧
      fs.updateZoneTemperatureDoubleIter particles (n + 1) zone
        = some { zone with temperature := t2 } ∧
      |t - fs.ambientTemperature - 0.999 ^ n * (zone.temperature - fs.ambientTemperature)|
        ≤ 1 / 10 ^ 10 ∧
      |t2 - fs.ambientTemperature - 0.999 * (t - fs.ambientTemperature)| ≤ 1 / 10 ^ 13 ∧
      (1 / 10 ^ 10 < |t - fs.ambientTemperature| →
        |t2 - fs.ambientTemperature| < |t - fs.ambientTemperature|) ∧
      (zone.temperature ≤ fs.ambientTemperature → t ≤ fs.ambientTemperature + 1 / 10 ^ 10) ∧
      (fs.ambientTemperature ≤ zone.temperature → fs.ambientTemperature - 1 / 10 ^ 10 ≤ t)) ∧
    ∃ N : Nat, ∀ n : Nat, N ≤ n → ∃ t : ℝ,
      fs.updateZoneTemperatureDoubleIter particles n zone
        = some { zone with temperature := t } ∧
      |t - fs.ambientTemperature| ≤ 2 / 10 ^ 10 := by
  have hD : |zone.temperature - fs.ambientTemperature| ≤ 200 := by
    have := abs_sub zone.temperature fs.ambientTemperature
    linarith
  have hpow : ∀ n : Nat, (0 : ℝ) < 0.999 ^ n ∧ (0.999 : ℝ) ^ n ≤ 1 := fun n =>
    ⟨by positivity, pow_le_one₀ (by norm_num) (by norm_num)⟩
  constructor
  · intro n
    obtain ⟨t, ht, hb, he⟩ := updateZoneTemperatureDoubleIter_error fs particles zone hempty
      hD hA n
    have htabs : |t| ≤ 300 := by
      have := abs_add (t - fs.ambientTemperature) fs.ambientTemperature
      rw [sub_add_cancel] at this
      linarith
    obtain ⟨t2, ht2, he2⟩ := updateZoneTemperatureDouble_empty_error fs particles
      { zone with temperature := t } hempty htabs hA
    have he3 : |t2 - fs.ambientTemperature - 0.999 * (t - fs.ambientTemperature)|
        ≤ 1 / 10 ^ 13 := he2
    have he4 : |t - fs.ambientTemperature -
        0.999 ^ n * (zone.temperature - fs.ambientTemperature)| ≤ 1 / 10 ^ 10 := by
      have h1 : (1 : ℝ) / 10 ^ 10 * (1 - 0.999 ^ n) ≤ 1 / 10 ^ 10 := by
        have := (hpow n).1
        nlinarith
      linarith
    refine ⟨t, t2, ht, ?_, he4, he3, ?_, ?_, ?_⟩
    · rw [updateZoneTemperatureDoubleIter_succ, ht, Option.some_bind, ht2]
    · intro hlt
      have h1 : t2 - fs.ambientTemperature
          = (t2 - fs.ambientTemperature - 0.999 * (t - fs.ambientTemperature)) +
            0.999 * (t - fs.ambientTemperature) := by ring
      have h2 := abs_add (t2 - fs.ambientTemperature - 0.999 * (t - fs.ambientTemperature))
        (0.999 * (t - fs.ambientTemperature))
      rw [← h1, abs_mul, abs_of_pos (by norm_num : (0 : ℝ) < 0.999)] at h2
      have h3 : (1 : ℝ) / 10 ^ 13 = 0.001 * (1 / 10 ^ 10) := by norm_num
      linarith
    · intro hle
      have h1 : 0.999 ^ n * (zone.temperature - fs.ambientTemperature) ≤ 0 :=
        mul_nonpos_of_nonneg_of_nonpos (hpow n).1.le (by linarith)
      have := (abs_le.mp he4).2
      linarith
    · intro hle
      have h1 : 0 ≤ 0.999 ^ n * (zone.temperature - fs.ambientTemperature) :=
        mul_nonneg (hpow n).1.le (by linarith)
      have := (abs_le.mp he4).1
      linarith
  · obtain ⟨N, hN⟩ := exists_pow_lt_of_lt_one (by norm_num : (0 : ℝ) < 1 / (200 * 10 ^ 10))
      (by norm_num : (0.999 : ℝ) < 1)
    refine ⟨N, fun n hn => ?_⟩
    obtain ⟨t, ht, hb, he⟩ := updateZoneTemperatureDoubleIter_error fs particles zone hempty
      hD hA n
    refine ⟨t, ht, ?_⟩
    have hle : (0.999 : ℝ) ^ n ≤ 0.999 ^ N :=
      pow_le_pow_of_le_one (by norm_num) (by norm_num) hn
    have h1 : |0.999 ^ n * (zone.temperature - fs.ambientTemperature)| ≤ 1 / 10 ^ 10 := by
      rw [abs_mul, abs_of_pos (hpow n).1]
      calc (0.999 : ℝ) ^ n * |zone.temperature - fs.ambientTemperature|
          ≤ 1 / (200 * 10 ^ 10) * 200 :=
            mul_le_mul (hle.trans hN.le) hD (abs_nonneg _) (by norm_num)
        _ = 1 / 10 ^ 10 := by norm_num
    have h2 : t - fs.ambientTemperature
        = (t - fs.ambientTemperature -
            0.999 ^ n * (zone.temperature - fs.ambientTemperature)) +
          0.999 ^ n * (zone.temperature - fs.ambientTemperature) := by ring
    have h3 := abs_add (t - fs.ambientTemperature -
        0.999 ^ n * (zone.temperature - fs.ambientTemperature))
      (0.999 ^ n * (zone.temperature - fs.ambientTemperature))
    rw [← h2] at h3
    have h4 : (1 : ℝ) / 10 ^ 10 * (1 - 0.999 ^ n) ≤ 1 / 10 ^ 10 := by
      have := (hpow n).1
      nlinarith
    have h5 : (2 : ℝ) / 10 ^ 10 = 1 / 10 ^ 10 + 1 / 10 ^ 10 := by norm_num
    linarith

/-- C6 (amended) for the empty lower floor of the default apartment
(22 degrees) after `setAmbientTemperature(30)`. -/
theorem empty_zone_relaxes_double_witness :
    (∀ n : Nat, ∃ t t2 : ℝ,
      (warmAmbientSolver : FlowSolver ℝ).updateZoneTemperatureDoubleIter [] n
          (defaultApartment : Apartment ℝ).zones.lowerFloor
        = some { (defaultApartment : Apartment ℝ).zones.lowerFloor with temperature := t } ∧
      (warmAmbientSolver : FlowSolver ℝ).updateZoneTemperatureDoubleIter [] (n + 1)
          (defaultApartment : Apartment ℝ).zones.lowerFloor
        = some { (defaultApartment : Apartment ℝ).zones.lowerFloor with temperature := t2 } ∧
      |t - 30 - 0.999 ^ n * (22 - 30)| ≤ 1 / 10 ^ 10 ∧
      |t2 - 30 - 0.999 * (t - 30)| ≤ 1 / 10 ^ 13 ∧
      (1 / 10 ^ 10 < |t - 30| → |t2 - 30| < |t - 30|) ∧
      ((22 : ℝ) ≤ 30 → t ≤ 30 + 1 / 10 ^ 10) ∧
      ((30 : ℝ) ≤ 22 → 30 - 1 / 10 ^ 10 ≤ t)) ∧
    ∃ N : Nat, ∀ n : Nat, N ≤ n → ∃ t : ℝ,
      (warmAmbientSolver : FlowSolver ℝ).updateZoneTemperatureDoubleIter [] n
          (defaultApartment : Apartment ℝ).zones.lowerFloor
        = some { (defaultApartment : Apartment ℝ).zones.lowerFloor with temperature := t } ∧
      |t - 30| ≤ 2 / 10 ^ 10 :=
  empty_zone_relaxes_double warmAmbientSolver []
    (defaultApartment : Apartment ℝ).zones.lowerFloor rfl
    (by rw [show (defaultApartment : Apartment ℝ).zones.lowerFloor.temperature = 22 from rfl]
        rw [abs_of_pos] <;> norm_num)
    (by rw [show (warmAmbientSolver : FlowSolver ℝ).ambientTemperature = 30 from rfl]
        rw [abs_of_pos] <;> norm_num)

/-- Exact arithmetic, without the rounding of the operations: for a zone that
holds no particles during `n` consecutive
`updateZoneTemperatures` calls with ambient temperature `A`, the zone
temperature `T n` satisfies `T n - A = 0.999 ^ n * (T 0 - A)`; when `T 0 ≠ A` the
distance to `A` strictly decreases at every call, `T n - A` keeps the sign of
`T 0 - A`, and `T n` tends to `A`. -/
theorem empty_zone_relaxes (fs : FlowSolver ℝ) (particles : List (AirParticle ℝ))
    (key : String) (zone : Zone ℝ) (h : fs.apartment.zones.get? key = some zone)
    (hempty : zone.airParticles = []) :
    ∃ T : ℕ → ℝ,
      (∀ n, (((fun s : FlowSolver ℝ => s.updateZoneTemperatures particles)^[n]
          fs).apartment.zones.get? key).map (fun z => (z.temperature, z.airParticles))
            = some (T n, [])) ∧
      T 0 = zone.temperature ∧
      (∀ n, T n - fs.ambientTemperature = 0.999 ^ n * (zone.temperature - fs.ambientTemperature)) ∧
      (zone.temperature ≠ fs.ambientTemperature →
        ∀ n, |T (n + 1) - fs.ambientTemperature| < |T n - fs.ambientTemperature|) ∧
      (∀ n, SignType.sign (T n - fs.ambientTemperature)
        = SignType.sign (zone.temperature - fs.ambientTemperature)) ∧
      Filter.Tendsto T Filter.atTop (nhds fs.ambientTemperature) := by
  refine ⟨fun n => fs.ambientTemperature +
    0.999 ^ n * (zone.temperature - fs.ambientTemperature), ?_, ?_, ?_, ?_, ?_, ?_⟩
  · intro n
    rw [(updateZoneTemperatures_iterate fs particles key zone h hempty n).1]
    simp [hempty]
  · simp
  · intro n; ring
  · intro hne n
    have hd : 0 < |zone.temperature - fs.ambientTemperature| :=
      abs_pos.mpr (sub_ne_zero.mpr hne)
    have hp : (0 : ℝ) < 0.999 ^ n := by positivity
    simp only [add_sub_cancel_left, abs_mul, pow_succ]
    rw [abs_of_pos hp, abs_of_pos (by positivity : (0 : ℝ) < 0.999)]
    have : 0.999 ^ n * 0.999 * |zone.temperature - fs.ambientTemperature|
        < 0.999 ^ n * 1 * |zone.temperature - fs.ambientTemperature| := by
      apply mul_lt_mul_of_pos_right _ hd
      apply mul_lt_mul_of_pos_left (by norm_num) hp
    simpa using this
  · intro n
    have hp : (0 : ℝ) < 0.999 ^ n := by positivity
    simp only [add_sub_cancel_left, sign_mul, sign_pos hp, one_mul]
  · have h0 : Filter.Tendsto (fun n : ℕ => (0.999 : ℝ) ^ n) Filter.atTop (nhds 0) :=
      tendsto_pow_atTop_nhds_zero_of_lt_one (by norm_num) (by norm_num)
    have h1 := (h0.mul_const (zone.temperature - fs.ambientTemperature)).const_add
      fs.ambientTemperature
    simpa using h1

/-- Exact arithmetic, for the empty lower floor of the default apartment
(22 degrees) after `setAmbientTemperature(30)`. -/
theorem empty_zone_relaxes_witness :
    ∃ T : ℕ → ℝ,
      (∀ n, (((fun s : FlowSolver ℝ => s.updateZoneTemperatures [])^[n]
          warmAmbientSolver).apartment.zones.get? "lowerFloor").map
            (fun z => (z.temperature, z.airParticles)) = some (T n, [])) ∧
      T 0 = 22 ∧
      (∀ n, T n - 30 = 0.999 ^ n * (22 - 30)) ∧
      ((22 : ℝ) ≠ 30 → ∀ n, |T (n + 1) - 30| < |T n - 30|) ∧
      (∀ n, SignType.sign (T n - 30) = SignType.sign ((22 : ℝ) - 30)) ∧
      Filter.Tendsto T Filter.atTop (nhds 30) :=
  empty_zone_relaxes warmAmbientSolver [] "lowerFloor"
    (defaultApartment : Apartment ℝ).zones.lowerFloor rfl rfl

/-! ## C7: the number of particles nudged by one transport action -/

/-- C7: one call of `moveParticlesBetweenZones` makes at most `particlesToMove`
`addForce` calls, where `particlesToMove = min(floor(N * flowStrength * 0.1),
max(1, floor(N * 0.05)))` for the `N` particles of the source zone; hence at most
`max(1, floor(N * 0.05))`, and none (leaving the array unchanged) when `N = 0`;
the returned array is the input array after exactly the recorded calls. -/
theorem moveParticlesBetweenZones_count [FloorRing K] (sqrt : K → K) (rand : Nat → K)
    (particles : List (AirParticle K)) (zoneA zoneB : Zone K) (flowDirection flowStrength : K) :
    FlowSolver.particlesToMove (FlowSolver.sourceZone zoneA zoneB flowDirection) flowStrength
      = min ⌊((FlowSolver.sourceZone zoneA zoneB flowDirection).airParticles.length : K)
            * flowStrength * 0.1⌋
          (max 1 ⌊((FlowSolver.sourceZone zoneA zoneB flowDirection).airParticles.length : K)
            * 0.05⌋) ∧
    (((FlowSolver.moveParticlesBetweenZones sqrt rand particles zoneA zoneB flowDirection
        flowStrength).2.length : Int)
      ≤ max 0 (FlowSolver.particlesToMove (FlowSolver.sourceZone zoneA zoneB flowDirection)
          flowStrength)) ∧
    (((FlowSolver.moveParticlesBetweenZones sqrt rand particles zoneA zoneB flowDirection
        flowStrength).2.length : Int)
      ≤ max 1 ⌊((FlowSolver.sourceZone zoneA zoneB flowDirection).airParticles.length : K)
          * 0.05⌋) ∧
    ((FlowSolver.sourceZone zoneA zoneB flowDirection).airParticles.length = 0 →
      FlowSolver.moveParticlesBetweenZones sqrt rand particles zoneA zoneB flowDirection
        flowStrength = (particles, [])) ∧
    (FlowSolver.moveParticlesBetweenZones sqrt rand particles zoneA zoneB flowDirection
      flowStrength).1 = FlowSolver.applyForces sqrt particles
        (FlowSolver.moveParticlesBetweenZones sqrt rand particles zoneA zoneB flowDirection
          flowStrength).2 := by
  have hcount : ((FlowSolver.moveParticlesBetweenZones sqrt rand particles zoneA zoneB
      flowDirection flowStrength).2.length : Int)
      ≤ max 0 (FlowSolver.particlesToMove (FlowSolver.sourceZone zoneA zoneB flowDirection)
          flowStrength) := by
    unfold FlowSolver.moveParticlesBetweenZones
    simp only []
    split_ifs with h0
    · simp
    · have h := nudgeLoop_length sqrt rand (FlowSolver.sourceZone zoneA zoneB flowDirection)
        (FlowSolver.targetZone zoneA zoneB flowDirection) flowStrength
        (List.range (FlowSolver.particlesToMove
          (FlowSolver.sourceZone zoneA zoneB flowDirection) flowStrength).toNat) (particles, [])
      simp only [List.length_nil, List.length_range, zero_add] at h
      omega
  refine ⟨rfl, hcount, ?_, ?_, moveParticlesBetweenZones_replay _ _ _ _ _ _ _⟩
  · refine le_trans hcount ?_
    apply max_le
    · exact le_trans zero_le_one (le_max_left _ _)
    · exact min_le_right _ _
  · intro h0
    unfold FlowSolver.moveParticlesBetweenZones
    simp only [h0, if_true]

/-! ## C8: the direction of a transport action -/

/-- C8 (what the code does): every `addForce` call made by `createInterZoneFlow`
is on a particle of the list of the warmer of the two zones, so the transport
action pushes warm-zone particles; the claimed direction is cold to warm. -/
theorem createInterZoneFlow_nudges_warmer_zone [FloorRing K] (sqrt : K → K) (rand : Nat → K)
    (particles : List (AirParticle K)) (zoneA zoneB : Zone K) (flowArea dt : K)
    (call : Nat × K × K)
    (hcall : call ∈ (FlowSolver.createInterZoneFlow sqrt rand particles zoneA zoneB
      flowArea dt).2) :
    zoneA.temperature ≠ zoneB.temperature ∧
    (zoneB.temperature < zoneA.temperature → call.1 ∈ zoneA.airParticles) ∧
    (zoneA.temperature < zoneB.temperature → call.1 ∈ zoneB.airParticles) := by
  unfold FlowSolver.createInterZoneFlow at hcall
  simp only [] at hcall
  by_cases hfire : 0.5 < |zoneA.temperature - zoneB.temperature| ∧
      0.01 < |(zoneA.temperature - zoneB.temperature) * 0.1| * flowArea * dt * 0.1
  · rw [if_pos hfire] at hcall
    have hne : zoneA.temperature ≠ zoneB.temperature := by
      intro he
      have h1 := hfire.1
      rw [he, sub_self, abs_zero] at h1
      norm_num at h1
    by_cases hpos : 0 < zoneA.temperature - zoneB.temperature
    · rw [if_pos hpos] at hcall
      have h := moveParticlesBetweenZones_refs sqrt rand particles zoneA zoneB 1 _ call hcall
      have hs : FlowSolver.sourceZone zoneA zoneB (1 : K) = zoneA := by
        unfold FlowSolver.sourceZone; rw [if_pos one_pos]
      rw [hs] at h
      have hlt : zoneB.temperature < zoneA.temperature := by linarith
      exact ⟨hne, fun _ => h, fun h2 => absurd h2 (not_lt.mpr hlt.le)⟩
    · rw [if_neg hpos] at hcall
      have h := moveParticlesBetweenZones_refs sqrt rand particles zoneA zoneB (-1) _ call hcall
      have hs : FlowSolver.sourceZone zoneA zoneB (-1 : K) = zoneB := by
        unfold FlowSolver.sourceZone; rw [if_neg (by norm_num)]
      rw [hs] at h
      have hlt : zoneA.temperature < zoneB.temperature :=
        lt_of_le_of_ne (by linarith [not_lt.mp hpos]) hne
      exact ⟨hne, fun h2 => absurd h2 (not_lt.mpr hlt.le), fun _ => h⟩
  · rw [if_neg hfire] at hcall
    exact absurd hcall (List.not_mem_nil _)

/-- C8 at the cooled mezzanine (20 degrees) and the warm bedroom (30 degrees),
door area 1.68, dt = 10, all draws 0: the one `addForce` call is on particle 0
of the warmer bedroom and pushes it by (-0.84, 0), toward the centroid (3, 4.5)
of the colder mezzanine. -/
theorem createInterZoneFlow_nudges_warmer_zone_witness :
    FlowSolver.createInterZoneFlow Real.sqrt (fun _ => (0 : ℝ)) bedroomParticles
      coolMezzanine warmBedroom 1.68 10 =
    ((AirParticle.new (7 : ℝ) 4.5 30 { x := -0.84, y := 0 } 0) ::
        List.replicate 5 (AirParticle.new (7 : ℝ) 4.5 30 { x := 0, y := 0 } 0),
      [(0, -0.84, 0)]) ∧
    (coolMezzanine : Zone ℝ).temperature < (warmBedroom : Zone ℝ).temperature ∧
    0 ∈ (warmBedroom : Zone ℝ).airParticles ∧
    (coolMezzanine : Zone ℝ).x + (coolMezzanine : Zone ℝ).width / 2 = 3 ∧
    (coolMezzanine : Zone ℝ).y + (coolMezzanine : Zone ℝ).height / 2 = 4.5 := by
  have hlt : (coolMezzanine : Zone ℝ).temperature < (warmBedroom : Zone ℝ).temperature := by
    norm_num [coolMezzanine, warmBedroom, defaultApartment, Apartment.new]
  refine ⟨createInterZoneFlow_warm_bedroom, hlt, ?_, ?_, ?_⟩
  · exact (createInterZoneFlow_nudges_warmer_zone Real.sqrt (fun _ => (0 : ℝ)) bedroomParticles
      coolMezzanine warmBedroom 1.68 10 (0, -0.84, 0)
      (by rw [createInterZoneFlow_warm_bedroom]; exact List.mem_singleton.mpr rfl)).2.2 hlt
  · norm_num [coolMezzanine, defaultApartment, Apartment.new]
  · norm_num [coolMezzanine, defaultApartment, Apartment.new]

/-! ## C9: injection at a valid point -/

/-- C9 as stated fails: at the valid point (1, 1) with every draw equal to 0, an
injected particle is at (0.85, 0.85), farther than 0.15 from the injection
point. -/
theorem injectAir_not_within_radius :
    (defaultApartment : Apartment ℝ).isValidPosition 1 1 = true ∧
    (0 : ℝ) ≤ 0 ∧ (0 : ℝ) < 1 ∧
    ∃ q ∈ FluidSimulation.injectAir (fun _ => (0 : ℝ)) defaultApartment [] 1 1 28
        { x := 0, y := 0 },
      q.x = 0.85 ∧ q.y = 0.85 ∧
      0.15 < Real.sqrt ((q.x - 1) * (q.x - 1) + (q.y - 1) * (q.y - 1)) := by
  refine ⟨isValidPosition_one_one, le_refl _, one_pos, ?_⟩
  rw [injectAir_valid _ _ _ _ _ _ _ isValidPosition_one_one]
  refine ⟨AirParticle.new (1 + ((0 : ℝ) - 0.5) * 0.3) (1 + ((0 : ℝ) - 0.5) * 0.3) 28
    { x := 0 + ((0 : ℝ) - 0.5) * 0.5, y := 0 + ((0 : ℝ) - 0.5) * 0.5 } 0, ?_, ?_, ?_, ?_⟩
  · have hr : List.range 5 = [0, 1, 2, 3, 4] := rfl
    simp [hr]
  · norm_num [AirParticle.new]
  · norm_num [AirParticle.new]
  · apply Real.lt_sqrt_of_sq_lt
    norm_num [AirParticle.new]

/-- C9 (amended): at a valid point and with every draw in [0, 1), the injection
handler appends exactly 5 particles of age 0 (below `maxAge` = 1200) with the
requested temperature, each within 0.15 of the injection point along each
axis, hence at squared distance at most 0.045. -/
theorem injectAir_cluster (rand : Nat → K) (a : Apartment K) (particles : List (AirParticle K))
    (x y temperature : K) (velocity : Vec2 K) (hvalid : a.isValidPosition x y = true)
    (hrand : ∀ i, 0 ≤ rand i ∧ rand i < 1) :
    ∃ added : List (AirParticle K),
      FluidSimulation.injectAir rand a particles x y temperature velocity = particles ++ added ∧
      added.length = 5 ∧
      ∀ q ∈ added, q.age = 0 ∧ q.maxAge = 1200 ∧ q.temperature = temperature ∧
        q.mass = AirParticle.calculateMass temperature ∧
        |q.x - x| ≤ 0.15 ∧ |q.y - y| ≤ 0.15 ∧
        (q.x - x) * (q.x - x) + (q.y - y) * (q.y - y) ≤ 0.045 := by
  refine ⟨_, injectAir_valid rand a particles x y temperature velocity hvalid, by simp, ?_⟩
  intro q hq
  rw [List.mem_map] at hq
  obtain ⟨i, -, rfl⟩ := hq
  obtain ⟨h1, h2⟩ := hrand (5 * i)
  obtain ⟨h3, h4⟩ := hrand (5 * i + 1)
  have hx : |x + (rand (5 * i) - 0.5) * 0.3 - x| ≤ 0.15 := by
    rw [abs_le]; constructor <;> norm_num <;> linarith
  have hy : |y + (rand (5 * i + 1) - 0.5) * 0.3 - y| ≤ 0.15 := by
    rw [abs_le]; constructor <;> norm_num <;> linarith
  refine ⟨rfl, rfl, rfl, rfl, hx, hy, ?_⟩
  show (x + (rand (5 * i) - 0.5) * 0.3 - x) * (x + (rand (5 * i) - 0.5) * 0.3 - x) +
    (y + (rand (5 * i + 1) - 0.5) * 0.3 - y) * (y + (rand (5 * i + 1) - 0.5) * 0.3 - y) ≤ 0.045
  norm_num
  nlinarith

/-- C9 (amended) at the valid point (1, 1) of the default apartment with every
draw equal to 0. -/
theorem injectAir_cluster_witness :
    ∃ added : List (AirParticle ℚ),
      FluidSimulation.injectAir (fun _ => (0 : ℚ)) defaultApartment [] 1 1 28
        { x := 0, y := 0 } = [] ++ added ∧
      added.length = 5 ∧
      ∀ q ∈ added, q.age = 0 ∧ q.maxAge = 1200 ∧ q.temperature = 28 ∧
        q.mass = AirParticle.calculateMass 28 ∧
        |q.x - 1| ≤ 0.15 ∧ |q.y - 1| ≤ 0.15 ∧
        (q.x - 1) * (q.x - 1) + (q.y - 1) * (q.y - 1) ≤ 0.045 :=
  injectAir_cluster (fun _ => (0 : ℚ)) defaultApartment [] 1 1 28 { x := 0, y := 0 }
    isValidPosition_one_one (fun _ => ⟨le_refl _, one_pos⟩)

/-! ## C10: injection at an invalid point -/

/-- C10: when `isValidPosition(x, y)` is false the injection handler leaves the
particle list exactly as it was. -/
theorem injectAir_rejected (rand : Nat → K) (a : Apartment K)
    (particles : List (AirParticle K)) (x y temperature : K) (velocity : Vec2 K)
    (hinvalid : a.isValidPosition x y = false) :
    FluidSimulation.injectAir rand a particles x y temperature velocity = particles := by
  unfold FluidSimulation.injectAir
  rw [hinvalid, if_neg Bool.false_ne_true]

/-- C10 in the default apartment at the out-of-bounds point (-1, 1) and at the
point (3, 3) of the floor band outside the stair gap, with one particle
already in the list. -/
theorem injectAir_rejected_witness :
    (defaultApartment : Apartment ℚ).isValidPosition (-1) 1 = false ∧
    (defaultApartment : Apartment ℚ).isValidPosition 3 3 = false ∧
    FluidSimulation.injectAir (fun _ => (0 : ℚ)) defaultApartment [windowParticle] (-1) 1 28
      { x := 0, y := 0 } = [windowParticle] ∧
    FluidSimulation.injectAir (fun _ => (0 : ℚ)) defaultApartment [windowParticle] 3 3 28
      { x := 0, y := 0 } = [windowParticle] := by
  have h1 : (defaultApartment : Apartment ℚ).isValidPosition (-1) 1 = false :=
    isValidPosition_false _ defaultApartment_layout _ _ (Or.inl (by norm_num))
  have h2 : (defaultApartment : Apartment ℚ).isValidPosition 3 3 = false :=
    isValidPosition_false _ defaultApartment_layout _ _
      (Or.inr (Or.inr (Or.inr (Or.inr ⟨by norm_num, by norm_num, by norm_num⟩))))
  exact ⟨h1, h2, injectAir_rejected _ _ _ _ _ _ _ h1, injectAir_rejected _ _ _ _ _ _ _ h2⟩

/-! ## C11: mass and temperature -/

/-- C11 as stated fails: `update` computes the mass first and relaxes the
temperature afterwards, and the AC cooling writes the temperature without
recomputing the mass.  At ambient 22 a particle of temperature 20 leaves
`update` with temperature 20.002 and mass 1, not `calculateMass(20.002)` =
0.9999; a particle of temperature 22 at the AC outlet leaves the AC cooling
(target 16, flow strength 0.5, dt = 1/60) with temperature 21.96 and mass 0.9,
not 0.902. -/
theorem update_leaves_stale_mass :
    ((lowerFloorParticle : AirParticle ℝ).update Real.sqrt (1 / 60) defaultApartment 22).1.temperature
      = 20.002 ∧
    ((lowerFloorParticle : AirParticle ℝ).update Real.sqrt (1 / 60) defaultApartment 22).1.mass = 1 ∧
    AirParticle.calculateMass (20.002 : ℝ) = 0.9999 ∧
    ((lowerFloorParticle : AirParticle ℝ).update Real.sqrt (1 / 60) defaultApartment 22).1.mass ≠
      AirParticle.calculateMass
        ((lowerFloorParticle : AirParticle ℝ).update Real.sqrt (1 / 60)
          defaultApartment 22).1.temperature ∧
    (FlowSolver.coolParticle Real.sqrt (defaultApartment : Apartment ℝ).acUnit (1 / 60)
      outletParticle).temperature = 21.96 ∧
    (FlowSolver.coolParticle Real.sqrt (defaultApartment : Apartment ℝ).acUnit (1 / 60)
      outletParticle).mass = 0.9 ∧
    AirParticle.calculateMass (21.96 : ℝ) = 0.902 := by
  have hT : ((lowerFloorParticle : AirParticle ℝ).update Real.sqrt (1 / 60)
      defaultApartment 22).1.temperature = 20.002 := by
    rw [(update_mass_temperature Real.sqrt _ _ _ _).2]
    norm_num [lowerFloorParticle, AirParticle.new]
  have hM : ((lowerFloorParticle : AirParticle ℝ).update Real.sqrt (1 / 60)
      defaultApartment 22).1.mass = 1 := by
    rw [(update_mass_temperature Real.sqrt _ _ _ _).1]
    norm_num [lowerFloorParticle, AirParticle.new, AirParticle.calculateMass]
  have hC : AirParticle.calculateMass (20.002 : ℝ) = 0.9999 := by
    norm_num [AirParticle.calculateMass]
  refine ⟨hT, hM, hC, ?_, ?_, ?_, ?_⟩
  · rw [hT, hM, hC]
    norm_num
  · unfold FlowSolver.coolParticle
    have hpath : (defaultApartment : Apartment ℝ).acUnit.isInAirflowPath outletParticle := by
      norm_num [ACUnit.isInAirflowPath, defaultApartment, Apartment.new, outletParticle,
        AirParticle.new]
    have hd : (defaultApartment : Apartment ℝ).acUnit.outletDistance Real.sqrt outletParticle
        = 0 := by
      norm_num [ACUnit.outletDistance, defaultApartment, Apartment.new, outletParticle,
        AirParticle.new]
    simp only [hpath, if_true, hd]
    rw [if_pos (by norm_num), (addForce_frame Real.sqrt _ _ _).1]
    norm_num [ACUnit.coolingEffect, defaultApartment, Apartment.new, outletParticle,
      AirParticle.new]
  · rw [coolParticle_mass]
    norm_num [outletParticle, AirParticle.new, AirParticle.calculateMass]
  · norm_num [AirParticle.calculateMass]

/-- C11 (amended): mass equals `calculateMass(temperature)` after construction
and after `setTemperature`.  After an `update` step the mass is `calculateMass`
of the temperature the particle had at the start of the step, because `update`
recomputes the mass first and relaxes the temperature afterwards; that is the
current temperature when the particle started the step at ambient temperature.
The AC cooling and the pairwise mixing change temperatures and leave every mass
as it was. -/
theorem mass_follows_recomputation (sqrt : K → K) :
    (∀ (x y T : K) (v : Vec2 K) (idDraw : K),
      (AirParticle.new x y T v idDraw).mass =
        AirParticle.calculateMass (AirParticle.new x y T v idDraw).temperature) ∧
    (∀ (p : AirParticle K) (T : K),
      (p.setTemperature T).mass = AirParticle.calculateMass (p.setTemperature T).temperature) ∧
    (∀ (p : AirParticle K) (dt : K) (a : Apartment K) (ambientTemp : K),
      (p.update sqrt dt a ambientTemp).1.mass = AirParticle.calculateMass p.temperature ∧
      (p.update sqrt dt a ambientTemp).1.temperature =
        p.temperature + (ambientTemp - p.temperature) * 0.001 ∧
      (p.temperature = ambientTemp →
        (p.update sqrt dt a ambientTemp).1.mass =
          AirParticle.calculateMass (p.update sqrt dt a ambientTemp).1.temperature)) ∧
    (∀ (ac : ACUnit K) (dt : K) (particle : AirParticle K),
      (FlowSolver.coolParticle sqrt ac dt particle).mass = particle.mass) ∧
    (∀ (particles : List (AirParticle K)) (dt : K),
      (FlowSolver.handleParticleInteractions sqrt particles dt).1.map (fun p => p.mass) =
        particles.map (fun p => p.mass)) := by
  refine ⟨fun _ _ _ _ _ => rfl, fun _ _ => rfl, ?_, fun ac dt particle =>
    coolParticle_mass sqrt ac dt particle, fun particles dt =>
    handleParticleInteractions_mass sqrt particles dt⟩
  intro p dt a ambientTemp
  obtain ⟨h1, h2⟩ := update_mass_temperature sqrt p dt a ambientTemp
  refine ⟨h1, h2, fun hT => ?_⟩
  rw [h1, h2, hT]
  congr 1
  ring

/-! ## C12: age and liveness -/

/-- C12: `update` increments the age by exactly 1 unless the window-escape rule
sets it to `maxAge`, never changes `maxAge`, and returns `age < maxAge` for the
new age; so for a particle with age 0 and `maxAge` 1200 that never escapes,
update number `i + 1` returns true exactly when `i + 1 < 1200` (true for the
first 1199 updates, false for the 1200th), and a particle whose `update`
returned false is dropped by the caller's filter. -/
theorem update_age_liveness (sqrt : K → K) (p : AirParticle K)
    (steps : List (K × Apartment K × K)) (hage : p.age = 0) (hmax : p.maxAge = 1200)
    (hne : p.neverEscapes sqrt steps) :
    (∀ (q : AirParticle K) (dt : K) (a : Apartment K) (ambientTemp : K),
      (q.update sqrt dt a ambientTemp).1.age =
        (if q.escapesInUpdate sqrt dt a ambientTemp then q.maxAge else q.age + 1) ∧
      (q.update sqrt dt a ambientTemp).1.maxAge = q.maxAge ∧
      (q.update sqrt dt a ambientTemp).2 =
        decide ((q.update sqrt dt a ambientTemp).1.age <
          (q.update sqrt dt a ambientTemp).1.maxAge)) ∧
    (p.updateAll sqrt steps).age = steps.length ∧
    (p.updateFlags sqrt steps).length = steps.length ∧
    (∀ i, i < steps.length → (p.updateFlags sqrt steps)[i]? = some (decide (i + 1 < 1200))) ∧
    (∀ (q : AirParticle K) (dt : K) (a : Apartment K) (ambientTemp : K),
      (q.update sqrt dt a ambientTemp).2 = false →
      ∀ before after : List (AirParticle K),
        FluidSimulation.updateParticles sqrt (before ++ q :: after) dt a ambientTemp =
          FluidSimulation.updateParticles sqrt before dt a ambientTemp ++
          FluidSimulation.updateParticles sqrt after dt a ambientTemp) := by
  obtain ⟨h1, -, h3⟩ := updateFlags_of_neverEscapes sqrt steps p hne
  refine ⟨fun q dt a ambientTemp => update_age sqrt q dt a ambientTemp, ?_, ?_, ?_, ?_⟩
  · rw [h1, hage, zero_add]
  · rw [h3, List.length_map, List.length_range]
  · intro i hi
    rw [h3, List.getElem?_map, List.getElem?_range hi, hage, hmax]
    simp only [Option.map_some', zero_add]
  · intro q dt a ambientTemp hfalse before after
    unfold FluidSimulation.updateParticles
    rw [List.filterMap_append, List.filterMap_cons]
    simp only [hfalse, Bool.false_eq_true, if_false]

/-- C12 for a particle created at (1, 1) and updated 1200 times in the default
apartment (windows closed) with dt = 1/60 and ambient 22: its age is then
1200, the updates number 1 and 1199 return true and update number 1200
returns false. -/
theorem update_age_liveness_witness :
    ((lowerFloorParticle : AirParticle ℝ).updateAll Real.sqrt
      ((List.replicate 1200 ((1 / 60 : ℝ), (22 : ℝ))).map fun s =>
        (s.1, (defaultApartment : Apartment ℝ), s.2))).age = 1200 ∧
    ((lowerFloorParticle : AirParticle ℝ).updateFlags Real.sqrt
      ((List.replicate 1200 ((1 / 60 : ℝ), (22 : ℝ))).map fun s =>
        (s.1, (defaultApartment : Apartment ℝ), s.2)))[0]? = some true ∧
    ((lowerFloorParticle : AirParticle ℝ).updateFlags Real.sqrt
      ((List.replicate 1200 ((1 / 60 : ℝ), (22 : ℝ))).map fun s =>
        (s.1, (defaultApartment : Apartment ℝ), s.2)))[1198]? = some true ∧
    ((lowerFloorParticle : AirParticle ℝ).updateFlags Real.sqrt
      ((List.replicate 1200 ((1 / 60 : ℝ), (22 : ℝ))).map fun s =>
        (s.1, (defaultApartment : Apartment ℝ), s.2)))[1199]? = some false := by
  have h := update_age_liveness Real.sqrt (lowerFloorParticle : AirParticle ℝ)
    ((List.replicate 1200 ((1 / 60 : ℝ), (22 : ℝ))).map fun s =>
      (s.1, (defaultApartment : Apartment ℝ), s.2)) rfl rfl (neverEscapes_default _ _ _)
  have hlen : ((List.replicate 1200 ((1 / 60 : ℝ), (22 : ℝ))).map fun s =>
      (s.1, (defaultApartment : Apartment ℝ), s.2)).length = 1200 := by
    rw [List.length_map, List.length_replicate]
  obtain ⟨-, h2, -, h4, -⟩ := h
  rw [hlen] at h2 h4
  refine ⟨by exact_mod_cast h2, ?_, ?_, ?_⟩
  · rw [h4 0 (by norm_num)]; rfl
  · rw [h4 1198 (by norm_num)]; rfl
  · rw [h4 1199 (by norm_num)]; rfl

/-! ## C13: the speed ceiling across a whole particle step -/

/-- C13 as stated fails: the AC block of the boundary resolution writes the
velocity directly, without the `addForce` clamp.  In the default apartment an
ambient particle at (0.5, 4.15) inside the AC housing with velocity (0, 4.9),
speed 4.9, leaves `update` (dt = 0.001) with velocity (2.5, 4.851), speed
above 5. -/
theorem update_speed_exceeds_ceiling :
    (housingParticle : AirParticle ℝ).velocity.speed Real.sqrt ≤ 5 ∧
    (0 : ℝ) ≤ 0.001 ∧
    ((housingParticle : AirParticle ℝ).update Real.sqrt 0.001 defaultApartment 22).1.velocity
      = { x := 2.5, y := 4.851 } ∧
    5 < ((housingParticle : AirParticle ℝ).update Real.sqrt 0.001
      defaultApartment 22).1.velocity.speed Real.sqrt := by
  refine ⟨?_, by norm_num, housingParticle_update, ?_⟩
  · unfold Vec2.speed
    rw [Real.sqrt_le_iff]
    norm_num [housingParticle, AirParticle.new]
  · rw [housingParticle_update]
    unfold Vec2.speed
    apply Real.lt_sqrt_of_sq_lt
    norm_num

/-- C13 (amended): in the default layout, when the speed after the kinetic part
of `update` is at most 5 and the position at boundary resolution is outside
the AC housing, its extension tube and the duct of every active fan, the
speed after `update` is at most the speed after the kinetic part, hence at
most 5 (wall and floor bounces never increase the speed); and for a particle
at ambient temperature the kinetic part multiplies the speed by 0.99, so a
speed of at most 5 before `update` stays at most 5. -/
theorem update_speed_le_outside_devices (a : Apartment ℝ) (hL : DefaultLayout a)
    (p : AirParticle ℝ) (dt ambientTemp : ℝ)
    (hspeed : (p.integrate Real.sqrt dt ambientTemp).velocity.speed Real.sqrt ≤ 5)
    (hmain : ¬ a.acUnit.inMainUnit (p.integrate Real.sqrt dt ambientTemp).x
      (p.integrate Real.sqrt dt ambientTemp).y)
    (htube : ¬ a.acUnit.tube.contains (p.integrate Real.sqrt dt ambientTemp).x
      (p.integrate Real.sqrt dt ambientTemp).y)
    (hfans : ∀ fan ∈ a.fans.values, fan.isActive = true → ∀ duct, fan.duct = some duct →
      ¬ duct.contains (p.integrate Real.sqrt dt ambientTemp).x
        (p.integrate Real.sqrt dt ambientTemp).y) :
    (p.update Real.sqrt dt a ambientTemp).1.velocity.speed Real.sqrt ≤
      (p.integrate Real.sqrt dt ambientTemp).velocity.speed Real.sqrt ∧
    (p.update Real.sqrt dt a ambientTemp).1.velocity.speed Real.sqrt ≤ 5 ∧
    (p.temperature = ambientTemp → p.velocity.speed Real.sqrt ≤ 5 →
      (p.integrate Real.sqrt dt ambientTemp).velocity.speed Real.sqrt =
        0.99 * p.velocity.speed Real.sqrt ∧
      (p.integrate Real.sqrt dt ambientTemp).velocity.speed Real.sqrt ≤ 5) := by
  obtain ⟨h1, h2⟩ := handleBoundaries_slower a hL _ hmain htube hfans
  have hle : (p.update Real.sqrt dt a ambientTemp).1.velocity.speed Real.sqrt ≤
      (p.integrate Real.sqrt dt ambientTemp).velocity.speed Real.sqrt :=
    speed_le_of_abs_le _ _ h1 h2
  refine ⟨hle, le_trans hle hspeed, ?_⟩
  intro hT hp
  subst hT
  rw [integrate_speed_ambient]
  exact ⟨rfl, by linarith⟩

/-- C13 (amended) for an ambient particle at (1, 1) with velocity (3, 4) in the
default apartment, dt = 0.1: after the kinetic part it is at (1.297, 1.396),
outside every device, and its speed after `update` is at most 5. -/
theorem update_speed_le_outside_devices_witness :
    ((diagonalParticle : AirParticle ℝ).integrate Real.sqrt 0.1 22).x = 1.297 ∧
    ((diagonalParticle : AirParticle ℝ).integrate Real.sqrt 0.1 22).y = 1.396 ∧
    ((diagonalParticle : AirParticle ℝ).update Real.sqrt 0.1 defaultApartment
      22).1.velocity.speed Real.sqrt ≤ 5 := by
  have hx : ((diagonalParticle : AirParticle ℝ).integrate Real.sqrt 0.1 22).x = 1.297 := by
    norm_num [AirParticle.integrate, diagonalParticle, AirParticle.new]
  have hy : ((diagonalParticle : AirParticle ℝ).integrate Real.sqrt 0.1 22).y = 1.396 := by
    norm_num [AirParticle.integrate, diagonalParticle, AirParticle.new]
  have hv : ((diagonalParticle : AirParticle ℝ).integrate Real.sqrt 0.1 22).velocity
      = { x := 2.97, y := 3.96 } := by
    norm_num [AirParticle.integrate, diagonalParticle, AirParticle.new]
  have hS : ((diagonalParticle : AirParticle ℝ).integrate Real.sqrt 0.1 22).velocity.speed
      Real.sqrt ≤ 5 := by
    rw [hv]
    unfold Vec2.speed
    rw [Real.sqrt_le_iff]
    norm_num
  refine ⟨hx, hy, (update_speed_le_outside_devices defaultApartment defaultApartment_layout
    diagonalParticle 0.1 22 hS ?_ ?_ ?_).2.1⟩
  · rw [hx, hy]
    norm_num [ACUnit.inMainUnit, defaultApartment, Apartment.new]
  · rw [hx, hy]
    norm_num [Rect.contains, defaultApartment, Apartment.new]
  · intro fan hfan hact
    simp only [Fans.values, List.mem_cons, List.mem_singleton, List.not_mem_nil, or_false]
      at hfan
    rcases hfan with rfl | rfl
    · exact absurd hact (by simp [defaultApartment, Apartment.new])
    · exact absurd hact (by simp [defaultApartment, Apartment.new])

/-! ## C14: boundary resolution always ends at a valid position -/

/-- C14 fails in the code for a particle whose velocity is NaN, the state the
pair interaction of coincident particles leaves (C21).  For every apartment
state, time step and ambient temperature: `addForce(NaN, NaN)` leaves both
velocity components NaN; `getZoneAtPoint(NaN, NaN)` is null and
`isValidPosition(NaN, NaN)` is false; a particle that enters `handleBoundaries`
with a NaN position leaves it unchanged, every test of the boundary resolution
being false; and the particle released at the AC outlet (0.25, 4.15), once its
velocity is NaN, has after every number n + 1 of `update` calls a NaN position
that resolves to no zone, while its zone field still names the mezzanine. -/
theorem nan_position_survives_boundaries (sqrt : K → K) (a : Apartment K)
    (dt ambientTemp : JSNumber K) :
    (∀ p : AirParticle (JSNumber K),
      (p.addForceJS sqrt JSNumber.nan JSNumber.nan).velocity
        = { x := JSNumber.nan, y := JSNumber.nan }) ∧
    a.getZoneAtPointJS JSNumber.nan JSNumber.nan = none ∧
    a.isValidPositionJS JSNumber.nan JSNumber.nan = false ∧
    (∀ p : AirParticle (JSNumber K),
      AirParticle.handleBoundariesJS { p with x := JSNumber.nan, y := JSNumber.nan } a
        = { p with x := JSNumber.nan, y := JSNumber.nan }) ∧
    (∀ n : Nat,
      (AirParticle.updatesJS sqrt dt a ambientTemp (n + 1) nanVelocityParticle).x
        = JSNumber.nan ∧
      (AirParticle.updatesJS sqrt dt a ambientTemp (n + 1) nanVelocityParticle).y
        = JSNumber.nan ∧
      (AirParticle.updatesJS sqrt dt a ambientTemp (n + 1) nanVelocityParticle).zone
        = some "upperMezzanine" ∧
      a.getZoneAtPointJS
        (AirParticle.updatesJS sqrt dt a ambientTemp (n + 1) nanVelocityParticle).x
        (AirParticle.updatesJS sqrt dt a ambientTemp (n + 1) nanVelocityParticle).y = none ∧
      a.isValidPositionJS
        (AirParticle.updatesJS sqrt dt a ambientTemp (n + 1) nanVelocityParticle).x
        (AirParticle.updatesJS sqrt dt a ambientTemp (n + 1) nanVelocityParticle).y
        = false) := by
  have hvalid : a.isValidPositionJS JSNumber.nan JSNumber.nan = false := by
    simp [Apartment.isValidPositionJS, getZoneAtPointJS_nan]
  refine ⟨?_, getZoneAtPointJS_nan a, hvalid, ?_, ?_⟩
  · intro p
    simp [AirParticle.addForceJS, Vec2.speedJS]
  · intro p
    exact handleBoundariesJS_nan _ a rfl rfl
  · intro n
    obtain ⟨hx, hy, _, hz⟩ := updatesJS_nan sqrt dt a ambientTemp n
      (nanVelocityParticle : AirParticle (JSNumber K)) rfl
    rw [hx, hy]
    exact ⟨rfl, rfl, hz, getZoneAtPointJS_nan a, hvalid⟩

/-- Finite numbers: in the default layout, for every particle that enters
boundary resolution with a finite position and velocity (any position, any
velocity of the field), the position after `handleBoundaries` lies within
[0, 9] x [0, 6], `getZoneAtPoint` of it returns a zone and `isValidPosition` of
it is true. -/
theorem handleBoundaries_valid (a : Apartment K) (hL : DefaultLayout a) (p : AirParticle K) :
    0 ≤ (p.handleBoundaries a).x ∧ (p.handleBoundaries a).x ≤ 9 ∧
    0 ≤ (p.handleBoundaries a).y ∧ (p.handleBoundaries a).y ≤ 6 ∧
    (a.getZoneAtPoint (p.handleBoundaries a).x (p.handleBoundaries a).y).isSome = true ∧
    a.isValidPosition (p.handleBoundaries a).x (p.handleBoundaries a).y = true := by
  have h : InsideDefaultLayout (p.handleBoundaries a).x (p.handleBoundaries a).y := by
    rw [handleBoundaries_eq]
    exact handleWindowEscape_inside a hL _ (resolveZone_inside a hL p)
  exact ⟨h.1, h.2.1, h.2.2.1, h.2.2.2.1, (isValidPosition_iff a hL _ _).2.mpr h,
    (isValidPosition_iff a hL _ _).1.mpr h⟩

/-- A particle at (-1, 3) moving up, out of bounds and in the floor band:
boundary resolution of the default apartment puts it at (0, 2.95), a valid
position of the lower floor. -/
theorem handleBoundaries_valid_witness :
    (defaultApartment : Apartment ℚ).isValidPosition (-1) 3 = false ∧
    ((AirParticle.new (-1 : ℚ) 3 22 { x := 0, y := 1 } 0).handleBoundaries defaultApartment).x
      = 0 ∧
    ((AirParticle.new (-1 : ℚ) 3 22 { x := 0, y := 1 } 0).handleBoundaries defaultApartment).y
      = 2.95 ∧
    (defaultApartment : Apartment ℚ).isValidPosition
      ((AirParticle.new (-1 : ℚ) 3 22 { x := 0, y := 1 } 0).handleBoundaries defaultApartment).x
      ((AirParticle.new (-1 : ℚ) 3 22 { x := 0, y := 1 } 0).handleBoundaries defaultApartment).y
      = true := by
  have hq : (AirParticle.new (-1 : ℚ) 3 22 { x := 0, y := 1 } 0).resolveZone defaultApartment
      = { AirParticle.new (0 : ℚ) 2.95 22 { x := 0, y := -0.3 } 0 with
          mass := AirParticle.calculateMass 22 } := by
    norm_num [AirParticle.resolveZone, Apartment.getZoneAtPoint, AirParticle.bounceFromWalls,
      AirParticle.bounceLeft, AirParticle.bounceRight, AirParticle.bounceBottom,
      AirParticle.bounceTop, AirParticle.bounceFloor, AirParticle.new, defaultApartment,
      Apartment.new]
  have hw := handleWindowEscape_below_devices (defaultApartment : Apartment ℚ)
    defaultApartment_layout _ (by rw [hq]; norm_num [AirParticle.new] :
      ((AirParticle.new (-1 : ℚ) 3 22 { x := 0, y := 1 } 0).resolveZone defaultApartment).y < 4)
    (Or.inl (by rw [hq]; norm_num [AirParticle.new]))
  rw [escapes_closed _ defaultApartment_layout rfl rfl] at hw
  have he : (AirParticle.new (-1 : ℚ) 3 22 { x := 0, y := 1 } 0).handleBoundaries defaultApartment
      = { AirParticle.new (0 : ℚ) 2.95 22 { x := 0, y := -0.3 } 0 with
          mass := AirParticle.calculateMass 22 } := by
    rw [handleBoundaries_eq, hw, ← hq]
    rfl
  refine ⟨isValidPosition_false _ defaultApartment_layout _ _ (Or.inl (by norm_num)), ?_, ?_,
    (handleBoundaries_valid defaultApartment defaultApartment_layout _).2.2.2.2.2⟩
  · rw [he]; rfl
  · rw [he]; rfl

/-! ## C15: the average temperature of an existing zone -/

/-- C15: for an existing zone, `getAverageTemperatureInZone` returns the zone's
own temperature when its particle list is empty, and otherwise the sum of the
listed particle temperatures divided by their number, which lies between any
lower and upper bound of those temperatures (so between their minimum and
maximum). -/
theorem getAverageTemperatureInZone_mean (a : Apartment K) (particles : List (AirParticle K))
    (zoneId : String) (zone : Zone K) (hzone : a.zones.get? zoneId = some zone) :
    (zone.airParticles = [] →
      a.getAverageTemperatureInZone particles zoneId = Except.ok zone.temperature) ∧
    (zone.airParticles ≠ [] →
      a.getAverageTemperatureInZone particles zoneId =
        Except.ok ((zone.airParticles.map (particleTemperature particles)).sum /
          (zone.airParticles.length : K)) ∧
      ∀ lo hi : K,
        (∀ ref ∈ zone.airParticles, lo ≤ particleTemperature particles ref ∧
          particleTemperature particles ref ≤ hi) →
        lo ≤ (zone.airParticles.map (particleTemperature particles)).sum /
          (zone.airParticles.length : K) ∧
        (zone.airParticles.map (particleTemperature particles)).sum /
          (zone.airParticles.length : K) ≤ hi) := by
  unfold Apartment.getAverageTemperatureInZone
  rw [hzone]
  constructor
  · intro he
    simp only [he, List.length_nil, if_true]
  · intro hne
    have hlen : zone.airParticles.length ≠ 0 := fun h => hne (List.length_eq_zero.mp h)
    have hpos : (0 : K) < (zone.airParticles.length : K) :=
      Nat.cast_pos.mpr (Nat.pos_of_ne_zero hlen)
    refine ⟨?_, fun lo hi hb => ⟨?_, ?_⟩⟩
    · simp only [hlen, if_false, avgTemp_eq]
    · rw [le_div_iff₀ hpos]
      have := sum_ge_of_forall_ge (particleTemperature particles) lo zone.airParticles
        (fun ref hr => (hb ref hr).1)
      linarith
    · rw [div_le_iff₀ hpos]
      have := sum_le_of_forall_le (particleTemperature particles) hi zone.airParticles
        (fun ref hr => (hb ref hr).2)
      linarith

/-- C15 in the default apartment: the lower floor listing two particles of
temperatures 20 and 26 averages to 23, and the empty upper bedroom returns its
own temperature 22. -/
theorem getAverageTemperatureInZone_mean_witness :
    (twoParticleApartment : Apartment ℚ).getAverageTemperatureInZone twoParticles "lowerFloor"
      = Except.ok 23 ∧
    (twoParticleApartment : Apartment ℚ).getAverageTemperatureInZone twoParticles "upperBedroom"
      = Except.ok 22 := by
  have h1 := (getAverageTemperatureInZone_mean (twoParticleApartment : Apartment ℚ) twoParticles
    "lowerFloor" (twoParticleApartment : Apartment ℚ).zones.lowerFloor rfl).2
    (by simp [twoParticleApartment])
  have h2 := (getAverageTemperatureInZone_mean (twoParticleApartment : Apartment ℚ) twoParticles
    "upperBedroom" (twoParticleApartment : Apartment ℚ).zones.upperBedroom rfl).1 rfl
  refine ⟨?_, ?_⟩
  · rw [h1.1]
    norm_num [twoParticleApartment, twoParticles, particleTemperature, AirParticle.new]
  · rw [h2]
    rfl

/-! ## C16: a zone query with an id that names no zone -/

/-- C16 fails in the code: `'stairShaft'` is a connection id of the upper
mezzanine but no zone of any apartment, and for it the guard `!zone || ...` of
`getAverageTemperatureInZone` is true, so the method evaluates
`zone.temperature` on `undefined` and throws; it returns no number at all,
while `getConnectedZones` returns the empty list for the same id. -/
theorem getAverageTemperatureInZone_unknown_throws (a : Apartment K)
    (particles : List (AirParticle K)) :
    a.zones.get? "stairShaft" = none ∧
    a.getAverageTemperatureInZone particles "stairShaft" =
      Except.error "TypeError: zone is undefined" ∧
    (∀ value : K, a.getAverageTemperatureInZone particles "stairShaft" ≠ Except.ok value) ∧
    a.getConnectedZones "stairShaft" = [] := by
  have h : a.zones.get? "stairShaft" = none := by
    unfold Zones.get?
    simp
  refine ⟨h, ?_, ?_, ?_⟩
  · unfold Apartment.getAverageTemperatureInZone
    rw [h]
  · intro value
    unfold Apartment.getAverageTemperatureInZone
    rw [h]
    intro hc
    cases hc
  · unfold Apartment.getConnectedZones
    rw [h]

/-! ## C17: the frame of `updateOpeningState` -/

/-- C17: `updateOpeningState name isOpen` leaves the whole apartment unchanged
when `name` is not an opening; when it is one, that opening keeps every field
but `isOpen`, which becomes the given value, and every other opening, the
zones, the AC unit, the fans, the stair opening and the dimensions are
unchanged. -/
theorem updateOpeningState_frame {F : Type} (a : Apartment F) (name : String) (isOpen : Bool) :
    (a.openings.get? name = none → a.updateOpeningState name isOpen = a) ∧
    (∀ opening, a.openings.get? name = some opening →
      (a.updateOpeningState name isOpen).openings.get? name =
        some { opening with isOpen := isOpen }) ∧
    (∀ other, other ≠ name →
      (a.updateOpeningState name isOpen).openings.get? other = a.openings.get? other) ∧
    (a.updateOpeningState name isOpen).zones = a.zones ∧
    (a.updateOpeningState name isOpen).acUnit = a.acUnit ∧
    (a.updateOpeningState name isOpen).fans = a.fans ∧
    (a.updateOpeningState name isOpen).stairOpening = a.stairOpening ∧
    (a.updateOpeningState name isOpen).width = a.width ∧
    (a.updateOpeningState name isOpen).height = a.height ∧
    (a.updateOpeningState name isOpen).floorHeight = a.floorHeight := by
  unfold Apartment.updateOpeningState Openings.get?
  by_cases h1 : name = "bedroomDoor"
  · subst h1
    refine ⟨by simp, ?_, ?_, rfl, rfl, rfl, rfl, rfl, rfl, rfl⟩
    · intro opening h
      simp only [if_true, Option.some.injEq] at h ⊢
      rw [← h]
    · intro other ho
      simp only [if_true, ho, if_false]
  · by_cases h2 : name = "leftWindow"
    · subst h2
      refine ⟨by simp, ?_, ?_, rfl, rfl, rfl, rfl, rfl, rfl, rfl⟩
      · intro opening h
        simp only [h1, if_true, if_false, Option.some.injEq] at h ⊢
        rw [← h]
      · intro other ho
        simp only [h1, if_true, if_false, ho]
    · by_cases h3 : name = "rightWindow"
      · subst h3
        refine ⟨by simp, ?_, ?_, rfl, rfl, rfl, rfl, rfl, rfl, rfl⟩
        · intro opening h
          simp only [h1, h2, if_true, if_false, Option.some.injEq] at h ⊢
          rw [← h]
        · intro other ho
          simp only [h1, h2, if_true, if_false, ho]
      · simp [h1, h2, h3]

/-- C17 in the default apartment: closing `'kitchenDoor'`, which is no opening,
changes nothing, and closing the bedroom door changes the flag of that door
and nothing else. -/
theorem updateOpeningState_frame_witness :
    (defaultApartment : Apartment ℚ).updateOpeningState "kitchenDoor" false = defaultApartment ∧
    ((defaultApartment : Apartment ℚ).updateOpeningState "bedroomDoor" false).openings.get?
        "bedroomDoor" =
      some { (defaultApartment : Apartment ℚ).openings.bedroomDoor with isOpen := false } ∧
    ((defaultApartment : Apartment ℚ).updateOpeningState "bedroomDoor" false).openings.get?
        "leftWindow" = some (defaultApartment : Apartment ℚ).openings.leftWindow :=
  ⟨(updateOpeningState_frame (defaultApartment : Apartment ℚ) "kitchenDoor" false).1 rfl,
   (updateOpeningState_frame (defaultApartment : Apartment ℚ) "bedroomDoor" false).2.1 _ rfl,
   (updateOpeningState_frame (defaultApartment : Apartment ℚ) "bedroomDoor" false).2.2.1
     "leftWindow" (by decide)⟩

/-! ## C18: the stair-shaft connection in `calculateInterZoneFlows` -/

/-- C18 fails in the code: in the default layout the upper mezzanine declares
the connection `'stairShaft'`, but that id names no zone, so the iteration for
this pair ends at `if (!connectedZone) return` before the default area 1.0 is
substituted and makes no `createInterZoneFlow` call.  With the bedroom door
closed `calculateInterZoneFlows` makes no call at all and leaves the particles
unchanged; with the door open its only calls are the two between the
mezzanine and the bedroom, with the door area 1.68. -/
theorem stairShaft_pair_skipped [FloorRing K] (sqrt : K → K) (rand : Nat → Nat → K)
    (fs : FlowSolver K) (hL : DefaultLayout fs.apartment) (particles : List (AirParticle K))
    (dt : K) :
    "stairShaft" ∈ fs.apartment.zones.upperMezzanine.connections ∧
    (∀ state, FlowSolver.flowBetween sqrt (rand 1) fs dt state
      fs.apartment.zones.upperMezzanine "stairShaft" = state) ∧
    (fs.apartment.openings.bedroomDoor.isOpen = false →
      FlowSolver.calculateInterZoneFlows sqrt rand fs particles dt = (particles, [], [])) ∧
    (fs.apartment.openings.bedroomDoor.isOpen = true →
      (FlowSolver.calculateInterZoneFlows sqrt rand fs particles dt).2.1 =
        [("upperMezzanine", "upperBedroom", 1.68), ("upperBedroom", "upperMezzanine", 1.68)]) := by
  obtain ⟨tm, lm, hm⟩ := hL.upperMezzanine
  obtain ⟨tb, lb, hb⟩ := hL.upperBedroom
  have hmid : fs.apartment.zones.upperMezzanine.id = "upperMezzanine" := by rw [hm]; rfl
  have hbid : fs.apartment.zones.upperBedroom.id = "upperBedroom" := by rw [hb]; rfl
  have hcalc : FlowSolver.calculateInterZoneFlows sqrt rand fs particles dt =
      FlowSolver.flowBetween sqrt (rand 2) fs dt
        (FlowSolver.flowBetween sqrt (rand 0) fs dt (particles, [], [])
          fs.apartment.zones.upperMezzanine "upperBedroom")
        fs.apartment.zones.upperBedroom "upperMezzanine" := by
    unfold FlowSolver.calculateInterZoneFlows
    rw [connectionPairs_layout fs hL]
    simp only [List.enum, List.enumFrom, List.foldl_cons, List.foldl_nil,
      flowBetween_stairShaft]
  refine ⟨?_, fun state => flowBetween_stairShaft sqrt (rand 1) fs dt state _, ?_, ?_⟩
  · rw [hm]
    simp [defaultApartment, Apartment.new]
  · intro hc
    rw [hcalc,
      (flowBetween_door sqrt (rand 0) fs hL dt _ _ _ (Or.inl ⟨hmid, rfl⟩)).1 hc,
      (flowBetween_door sqrt (rand 2) fs hL dt _ _ _ (Or.inr ⟨hbid, rfl⟩)).1 hc]
  · intro ho
    rw [hcalc,
      (flowBetween_door sqrt (rand 2) fs hL dt _ _ _ (Or.inr ⟨hbid, rfl⟩)).2 ho,
      (flowBetween_door sqrt (rand 0) fs hL dt _ _ _ (Or.inl ⟨hmid, rfl⟩)).2 ho, hmid, hbid]
    rfl

/-- C18 in the default apartment with the bedroom door closed and the mezzanine
at 16 degrees above a lower floor at 22 degrees: `calculateInterZoneFlows`
makes no `createInterZoneFlow` call, although the mezzanine lists the
`'stairShaft'` connection. -/
theorem stairShaft_pair_skipped_witness :
    "stairShaft" ∈ (closedDoorApartment : Apartment ℚ).zones.upperMezzanine.connections ∧
    FlowSolver.calculateInterZoneFlows (fun x => x) (fun _ _ => 0)
      (FlowSolver.new (closedDoorApartment : Apartment ℚ)) [lowerFloorParticle] (1 / 60) =
        ([lowerFloorParticle], [], []) :=
  ⟨(stairShaft_pair_skipped (fun x => x) (fun _ _ => 0)
      (FlowSolver.new (closedDoorApartment : Apartment ℚ)) closedDoorApartment_layout
      [lowerFloorParticle] (1 / 60)).1,
   (stairShaft_pair_skipped (fun x => x) (fun _ _ => 0)
      (FlowSolver.new (closedDoorApartment : Apartment ℚ)) closedDoorApartment_layout
      [lowerFloorParticle] (1 / 60)).2.2.1 rfl⟩

/-! ## C19: the cap of 1000 particles in `applyACEffects` -/

/-- C19: with the AC inactive `applyACEffects` returns the particle array as it
was.  With the AC active (its zone being a zone of the apartment) and a flow
strength that is not negative, the spawn loop appends new particles to the `n`
given ones and the cooling loop keeps the length, so that the array ends with
`n + min(floor(flowStrength * 2), max(0, 1000 - n))` particles: an array of at
most 1000 stays at most 1000, and one of 1000 or more keeps its length. -/
theorem applyACEffects_cap [FloorRing K] (sqrt cos sin : K → K) (pi : K) (rand : Nat → K)
    (fs : FlowSolver K) (particles : List (AirParticle K)) (dt : K) :
    (fs.apartment.acUnit.isActive = false →
      FlowSolver.applyACEffects sqrt cos sin pi rand fs particles dt = particles) ∧
    (fs.apartment.acUnit.isActive = true →
      ∀ acZone, fs.apartment.zones.get? fs.apartment.acUnit.zone = some acZone →
      0 ≤ fs.apartment.acUnit.flowStrength →
      (∃ added, FlowSolver.spawnACParticles cos sin pi rand fs.apartment.acUnit particles =
          particles ++ added ∧
        (added.length : Int) = min ⌊fs.apartment.acUnit.flowStrength * 2⌋
          (max 0 (1000 - (particles.length : Int))) ∧
        (FlowSolver.applyACEffects sqrt cos sin pi rand fs particles dt).length =
          particles.length + added.length) ∧
      ((FlowSolver.applyACEffects sqrt cos sin pi rand fs particles dt).length : Int) =
        particles.length + min ⌊fs.apartment.acUnit.flowStrength * 2⌋
          (max 0 (1000 - (particles.length : Int))) ∧
      (particles.length ≤ 1000 →
        (FlowSolver.applyACEffects sqrt cos sin pi rand fs particles dt).length ≤ 1000) ∧
      (1000 ≤ particles.length →
        (FlowSolver.applyACEffects sqrt cos sin pi rand fs particles dt).length =
          particles.length)) := by
  constructor
  · intro hoff
    unfold FlowSolver.applyACEffects
    rw [if_pos hoff]
  · intro hon acZone hzone hflow
    obtain ⟨added, h1, h2, -⟩ :=
      spawnACParticles_append cos sin pi rand fs.apartment.acUnit particles
    have hlen : (FlowSolver.applyACEffects sqrt cos sin pi rand fs particles dt).length =
        particles.length + added.length := by
      unfold FlowSolver.applyACEffects
      rw [if_neg (by rw [hon]; decide)]
      simp only [hzone]
      rw [h1]
      refine (foldl_length_of_step _ (fun ps ref => ?_) _ _).trans (List.length_append _ _)
      split
      · exact List.length_set _ _ _
      · rfl
    have hfloor : (0 : Int) ≤ ⌊fs.apartment.acUnit.flowStrength * 2⌋ :=
      Int.floor_nonneg.mpr (by linarith)
    have hcast : ((⌊fs.apartment.acUnit.flowStrength * 2⌋).toNat : Int) =
        ⌊fs.apartment.acUnit.flowStrength * 2⌋ := Int.toNat_of_nonneg hfloor
    have hadded : (added.length : Int) = min ⌊fs.apartment.acUnit.flowStrength * 2⌋
        (max 0 (1000 - (particles.length : Int))) := by
      omega
    refine ⟨⟨added, h1, hadded, hlen⟩, ?_, ?_, ?_⟩
    · rw [hlen]
      push_cast
      rw [hadded]
    · intro hn
      rw [hlen]
      omega
    · intro hn
      rw [hlen]
      omega

/-- C19 in the default apartment (AC active, flow strength 0.5, so one particle
per call): an empty array receives one particle. -/
theorem applyACEffects_cap_witness :
    ((FlowSolver.applyACEffects (fun x => x) (fun x => x) (fun x => x) 3 (fun _ => 0)
      (FlowSolver.new (defaultApartment : Apartment ℚ)) [] (1 / 60)).length : Int) = 1 := by
  have h := ((applyACEffects_cap (fun x => x) (fun x => x) (fun x => x) 3 (fun _ => 0)
    (FlowSolver.new (defaultApartment : Apartment ℚ)) [] (1 / 60)).2 rfl
    (defaultApartment : Apartment ℚ).zones.upperMezzanine rfl
    (by norm_num [FlowSolver.new, defaultApartment, Apartment.new])).2.1
  norm_num [FlowSolver.new, defaultApartment, Apartment.new] at h ⊢
  exact h

/-! ## C20: the blend coefficient of the AC cooling -/

/-- C20 as stated fails: nothing bounds the coefficient from above.  With the
target 16, flow strength 1 and dt = 2, a particle of temperature 22 at the very
centre of the outlet (in the airflow path, distance 0) gets the coefficient
1.6 and leaves with temperature 12.4, below the target. -/
theorem coolParticle_passes_target :
    (fullFlowAC : ACUnit ℝ).isInAirflowPath outletParticle ∧
    (fullFlowAC : ACUnit ℝ).outletDistance Real.sqrt outletParticle < 2 ∧
    (0 : ℝ) ≤ (fullFlowAC : ACUnit ℝ).flowStrength ∧
    (fullFlowAC : ACUnit ℝ).flowStrength ≤ 1 ∧
    (0 : ℝ) ≤ 2 ∧
    (1 : ℝ) < (fullFlowAC : ACUnit ℝ).coolingEffect 2
      ((fullFlowAC : ACUnit ℝ).outletDistance Real.sqrt outletParticle) ∧
    (outletParticle : AirParticle ℝ).temperature = 22 ∧
    (fullFlowAC : ACUnit ℝ).temperature = 16 ∧
    (FlowSolver.coolParticle Real.sqrt fullFlowAC 2 (outletParticle : AirParticle ℝ)).temperature
      = 12.4 ∧
    (FlowSolver.coolParticle Real.sqrt fullFlowAC 2 (outletParticle : AirParticle ℝ)).temperature
      < (fullFlowAC : ACUnit ℝ).temperature := by
  obtain ⟨hpath, hd⟩ := outletParticle_fullFlowAC
  have hT := coolParticle_temperature Real.sqrt (fullFlowAC : ACUnit ℝ) 2 outletParticle hpath
    (by rw [hd]; norm_num)
  rw [hd] at hT
  have hc : (fullFlowAC : ACUnit ℝ).coolingEffect 2 0 = 1.6 := by
    norm_num [ACUnit.coolingEffect, fullFlowAC, Apartment.updateACSettings, defaultApartment,
      Apartment.new]
  have hT2 : (FlowSolver.coolParticle Real.sqrt fullFlowAC 2
      (outletParticle : AirParticle ℝ)).temperature = 12.4 := by
    rw [hT, hc]
    norm_num [fullFlowAC, Apartment.updateACSettings, defaultApartment, Apartment.new,
      outletParticle, AirParticle.new]
  refine ⟨hpath, by rw [hd]; norm_num, ?_, ?_, by norm_num, ?_, rfl, rfl, hT2, ?_⟩
  · norm_num [fullFlowAC, Apartment.updateACSettings, defaultApartment, Apartment.new]
  · norm_num [fullFlowAC, Apartment.updateACSettings, defaultApartment, Apartment.new]
  · rw [hd, hc]
    norm_num
  · rw [hT2]
    norm_num [fullFlowAC, Apartment.updateACSettings, defaultApartment, Apartment.new]

/-- C20 (amended): for a particle in the AC airflow path at distance below 2
from the outlet, a flow strength in [0, 1] and a time step with
0 ≤ dt ≤ 1.25, the blend coefficient lies in [0, 1], the new temperature is
the blend of the old temperature and the target with that coefficient, and it
lies between the two. -/
theorem coolParticle_bounded_blend (ac : ACUnit ℝ) (dt : ℝ) (particle : AirParticle ℝ)
    (hpath : ac.isInAirflowPath particle)
    (hdist : ac.outletDistance Real.sqrt particle < 2)
    (hflow0 : 0 ≤ ac.flowStrength) (hflow1 : ac.flowStrength ≤ 1)
    (hdt0 : 0 ≤ dt) (hdt1 : dt ≤ 1.25) :
    0 ≤ ac.coolingEffect dt (ac.outletDistance Real.sqrt particle) ∧
    ac.coolingEffect dt (ac.outletDistance Real.sqrt particle) ≤ 1 ∧
    (FlowSolver.coolParticle Real.sqrt ac dt particle).temperature =
      particle.temperature * (1 - ac.coolingEffect dt (ac.outletDistance Real.sqrt particle)) +
        ac.temperature * ac.coolingEffect dt (ac.outletDistance Real.sqrt particle) ∧
    min particle.temperature ac.temperature ≤
      (FlowSolver.coolParticle Real.sqrt ac dt particle).temperature ∧
    (FlowSolver.coolParticle Real.sqrt ac dt particle).temperature ≤
      max particle.temperature ac.temperature := by
  have hT := coolParticle_temperature Real.sqrt ac dt particle hpath hdist
  have hd0 : 0 ≤ ac.outletDistance Real.sqrt particle := by
    unfold ACUnit.outletDistance
    exact Real.sqrt_nonneg _
  set d := ac.outletDistance Real.sqrt particle with hdef
  have hm0 : (0 : ℝ) ≤ max 0 ((2.0 - d) / 2.0) := le_max_left _ _
  have hm1 : max 0 ((2.0 - d) / 2.0) ≤ (1 : ℝ) := by
    apply max_le (by norm_num)
    rw [div_le_iff₀ (by norm_num)]
    linarith
  have hc0 : 0 ≤ ac.coolingEffect dt d := by
    unfold ACUnit.coolingEffect
    exact mul_nonneg (mul_nonneg (mul_nonneg hm0 hflow0) hdt0) (by norm_num)
  have hc1 : ac.coolingEffect dt d ≤ 1 := by
    unfold ACUnit.coolingEffect
    have h1 : max 0 ((2.0 - d) / 2.0) * ac.flowStrength ≤ 1 := by
      calc max 0 ((2.0 - d) / 2.0) * ac.flowStrength ≤ 1 * 1 :=
            mul_le_mul hm1 hflow1 hflow0 (by norm_num)
        _ = 1 := by norm_num
    have h2 : max 0 ((2.0 - d) / 2.0) * ac.flowStrength * dt ≤ 1 * 1.25 :=
      mul_le_mul h1 hdt1 hdt0 (by norm_num)
    have h3 : 0 ≤ max 0 ((2.0 - d) / 2.0) * ac.flowStrength * dt :=
      mul_nonneg (mul_nonneg hm0 hflow0) hdt0
    nlinarith
  refine ⟨hc0, hc1, hT, ?_, ?_⟩
  · rw [hT]
    rcases le_total particle.temperature ac.temperature with h | h
    · rw [min_eq_left h]
      nlinarith
    · rw [min_eq_right h]
      nlinarith
  · rw [hT]
    rcases le_total particle.temperature ac.temperature with h | h
    · rw [max_eq_right h]
      nlinarith
    · rw [max_eq_left h]
      nlinarith

/-- C20 (amended) at the centre of the outlet of the default AC (target 16, flow
strength 0.5) with dt = 1/60: the coefficient is 1/150 and a particle of
temperature 22 leaves with 21.96, between 16 and 22. -/
theorem coolParticle_bounded_blend_witness :
    (FlowSolver.coolParticle Real.sqrt (defaultApartment : Apartment ℝ).acUnit (1 / 60)
      (outletParticle : AirParticle ℝ)).temperature = 21.96 ∧
    min (outletParticle : AirParticle ℝ).temperature (defaultApartment : Apartment ℝ).acUnit.temperature
      ≤ (FlowSolver.coolParticle Real.sqrt (defaultApartment : Apartment ℝ).acUnit (1 / 60)
        (outletParticle : AirParticle ℝ)).temperature := by
  have hpath : (defaultApartment : Apartment ℝ).acUnit.isInAirflowPath outletParticle := by
    norm_num [ACUnit.isInAirflowPath, defaultApartment, Apartment.new, outletParticle,
      AirParticle.new]
  have hd : (defaultApartment : Apartment ℝ).acUnit.outletDistance Real.sqrt outletParticle
      = 0 := by
    norm_num [ACUnit.outletDistance, defaultApartment, Apartment.new, outletParticle,
      AirParticle.new]
  have h := coolParticle_bounded_blend (defaultApartment : Apartment ℝ).acUnit (1 / 60)
    outletParticle hpath (by rw [hd]; norm_num)
    (by norm_num [defaultApartment, Apartment.new])
    (by norm_num [defaultApartment, Apartment.new]) (by norm_num) (by norm_num)
  refine ⟨?_, h.2.2.2.1⟩
  rw [h.2.2.1, hd]
  norm_num [ACUnit.coolingEffect, defaultApartment, Apartment.new, outletParticle,
    AirParticle.new]

/-! ## C21: pair interaction of particles at the same position -/

/-- C21 fails in the code: two particles of the array at the same position are at
distance 0, which is below 0.3, so `handleParticleInteractions` divides their
coordinate differences 0 by the distance 0; unlike `moveParticlesBetweenZones`,
which tests `distance > 0` before it divides, nothing guards this division, and
both particles end with a velocity that is `NaN`. -/
theorem coincident_particles_nan_velocity (particles : List (AirParticle ℝ)) (dt : ℝ)
    (i j : Nat) (A B : AirParticle ℝ) (hij : i < j) (hA : particles[i]? = some A)
    (hB : particles[j]? = some B) (hx : A.x = B.x) (hy : A.y = B.y) :
    A.distanceTo Real.sqrt B = 0 ∧
    A.distanceTo Real.sqrt B < 0.3 ∧
    i ∈ (FlowSolver.handleParticleInteractions Real.sqrt particles dt).2 ∧
    j ∈ (FlowSolver.handleParticleInteractions Real.sqrt particles dt).2 := by
  have hd : A.distanceTo Real.sqrt B = 0 := by
    unfold AirParticle.distanceTo
    simp [hx, hy]
  refine ⟨hd, by rw [hd]; norm_num, ?_⟩
  exact handleParticleInteractions_coincident particles dt i j A B hij hA hB hx hy

/-- C21 on the four particles that one call of `addACParticles` creates in the
default apartment with the default settings, all at (0.25, 4.15): the first two
leave `handleParticleInteractions` with a `NaN` velocity. -/
theorem coincident_particles_nan_velocity_witness :
    0 ∈ (FlowSolver.handleParticleInteractions Real.sqrt
      (FluidSimulation.addACParticles defaultSettings (defaultApartment : Apartment ℝ)
        (fun _ => 0) []) (1 / 60)).2 ∧
    1 ∈ (FlowSolver.handleParticleInteractions Real.sqrt
      (FluidSimulation.addACParticles defaultSettings (defaultApartment : Apartment ℝ)
        (fun _ => 0) []) (1 / 60)).2 :=
  (coincident_particles_nan_velocity
    (FluidSimulation.addACParticles defaultSettings (defaultApartment : Apartment ℝ)
      (fun _ => 0) []) (1 / 60) 0 1 (ventParticle 0) (ventParticle 0) (by decide)
    (by rw [addACParticles_default]; rfl) (by rw [addACParticles_default]; rfl) rfl rfl).2.2

/-! ## C22: the zone lists after steps 1 and 2 of `FlowSolver.update` -/

/-- C22: after the zone lists are cleared and the particles assigned, whatever
the lists held before, the list of each zone holds exactly the indices of the
input particles that `getZoneAtPoint` resolves to that zone object, in input
order; so an index is in the list of a zone exactly when its particle resolves
to it, no index is in two lists or twice in one, and a particle that resolves
to no zone is in none. -/
theorem assignZones_lists (fs : FlowSolver K) (particles : List (AirParticle K)) :
    (∀ x y, fs.apartment.getZoneAtPoint x y =
      (fs.apartment.getZoneKeyAtPoint x y).map fs.apartment.zones.byKey) ∧
    (∀ key, ((fs.assignZones particles).1.apartment.zones.byKey key).airParticles =
      (particles.enum.filter fun entry =>
        decide (fs.apartment.getZoneKeyAtPoint entry.2.x entry.2.y = some key)).map Prod.fst) ∧
    (∀ key, List.Pairwise (fun i j => i < j)
      ((fs.assignZones particles).1.apartment.zones.byKey key).airParticles) ∧
    (∀ key i, i ∈ ((fs.assignZones particles).1.apartment.zones.byKey key).airParticles ↔
      ∃ p, particles[i]? = some p ∧ fs.apartment.getZoneKeyAtPoint p.x p.y = some key) ∧
    (∀ key other i,
      i ∈ ((fs.assignZones particles).1.apartment.zones.byKey key).airParticles →
      i ∈ ((fs.assignZones particles).1.apartment.zones.byKey other).airParticles →
      key = other) ∧
    (∀ i p, particles[i]? = some p → fs.apartment.getZoneAtPoint p.x p.y = none →
      ∀ key, i ∉ ((fs.assignZones particles).1.apartment.zones.byKey key).airParticles) := by
  have hlist : ∀ key, ((fs.assignZones particles).1.apartment.zones.byKey key).airParticles =
      (particles.enum.filter fun entry =>
        decide (fs.apartment.getZoneKeyAtPoint entry.2.x entry.2.y = some key)).map Prod.fst := by
    intro key
    unfold FlowSolver.assignZones
    rw [assignLoop_lists fs.apartment particles.enum (fs.clearZones, particles)
      (fun x y => getZoneKeyAtPoint_clearZones fs x y) key]
    cases key <;> simp [FlowSolver.clearZones, Zones.byKey]
  have hmem : ∀ key i,
      i ∈ ((fs.assignZones particles).1.apartment.zones.byKey key).airParticles ↔
      ∃ p, particles[i]? = some p ∧ fs.apartment.getZoneKeyAtPoint p.x p.y = some key := by
    intro key i
    rw [hlist]
    simp only [List.mem_map, List.mem_filter, decide_eq_true_eq, Prod.exists,
      List.mk_mem_enum_iff_getElem?]
    constructor
    · rintro ⟨k, p, ⟨hp, hk⟩, rfl⟩
      exact ⟨p, hp, hk⟩
    · rintro ⟨p, hp, hk⟩
      exact ⟨i, p, ⟨hp, hk⟩, rfl⟩
  refine ⟨fun x y => getZoneAtPoint_eq_byKey fs.apartment x y, hlist, ?_, hmem, ?_, ?_⟩
  · intro key
    rw [hlist]
    have hsub : List.Sublist
        ((particles.enum.filter fun entry =>
          decide (fs.apartment.getZoneKeyAtPoint entry.2.x entry.2.y = some key)).map Prod.fst)
        (List.range particles.length) := by
      rw [← List.enum_map_fst]
      exact List.Sublist.map _ (List.filter_sublist _)
    exact List.Pairwise.sublist hsub (List.pairwise_lt_range _)
  · intro key other i h1 h2
    obtain ⟨p, hp, hk⟩ := (hmem key i).mp h1
    obtain ⟨q, hq, hk2⟩ := (hmem other i).mp h2
    rw [hp] at hq
    cases hq
    rw [hk] at hk2
    exact Option.some.inj hk2
  · intro i p hp hnone key hin
    obtain ⟨q, hq, hk⟩ := (hmem key i).mp hin
    rw [hp] at hq
    cases hq
    rw [getZoneAtPoint_eq_byKey, hk] at hnone
    cases hnone

/-- C22 on four particles in the apartment `twoParticleApartment`, whose lower
floor lists stale references: the lower floor ends with particle 0, the
mezzanine with particle 1, the bedroom with particle 2, and particle 3, in the
floor band outside the stair gap, is in no list. -/
theorem assignZones_lists_witness :
    (((FlowSolver.new (twoParticleApartment : Apartment ℚ)).assignZones
      fourParticles).1.apartment.zones.byKey ZoneKey.lowerFloor).airParticles = [0] ∧
    (((FlowSolver.new (twoParticleApartment : Apartment ℚ)).assignZones
      fourParticles).1.apartment.zones.byKey ZoneKey.upperMezzanine).airParticles = [1] ∧
    (((FlowSolver.new (twoParticleApartment : Apartment ℚ)).assignZones
      fourParticles).1.apartment.zones.byKey ZoneKey.upperBedroom).airParticles = [2] := by
  have h := (assignZones_lists (FlowSolver.new (twoParticleApartment : Apartment ℚ))
    fourParticles).2.1
  have e0 : (FlowSolver.new (twoParticleApartment : Apartment ℚ)).apartment.getZoneKeyAtPoint
      1 1 = some ZoneKey.lowerFloor := by
    norm_num [Apartment.getZoneKeyAtPoint, Zones.keys, Zones.byKey, FlowSolver.new,
      twoParticleApartment, defaultApartment, Apartment.new, List.find?]
  have e1 : (FlowSolver.new (twoParticleApartment : Apartment ℚ)).apartment.getZoneKeyAtPoint
      1 4 = some ZoneKey.upperMezzanine := by
    norm_num [Apartment.getZoneKeyAtPoint, Zones.keys, Zones.byKey, FlowSolver.new,
      twoParticleApartment, defaultApartment, Apartment.new, List.find?]
  have e2 : (FlowSolver.new (twoParticleApartment : Apartment ℚ)).apartment.getZoneKeyAtPoint
      7 4 = some ZoneKey.upperBedroom := by
    norm_num [Apartment.getZoneKeyAtPoint, Zones.keys, Zones.byKey, FlowSolver.new,
      twoParticleApartment, defaultApartment, Apartment.new, List.find?]
  have e3 : (FlowSolver.new (twoParticleApartment : Apartment ℚ)).apartment.getZoneKeyAtPoint
      1 3 = none := by
    norm_num [Apartment.getZoneKeyAtPoint, FlowSolver.new,
      twoParticleApartment, defaultApartment, Apartment.new]
  refine ⟨?_, ?_, ?_⟩
  · rw [h]
    simp [fourParticles, AirParticle.new, List.enum, List.enumFrom, List.filter, e0, e1, e2, e3]
  · rw [h]
    simp [fourParticles, AirParticle.new, List.enum, List.enumFrom, List.filter, e0, e1, e2, e3]
  · rw [h]
    simp [fourParticles, AirParticle.new, List.enum, List.enumFrom, List.filter, e0, e1, e2, e3]

/-! ## C23: the temperature of a zone that holds particles -/

/-- C23: for a zone whose list is not empty, `updateZoneTemperatures` sets the
zone temperature to 0.95 times the old one plus 0.05 times the mean of the
listed particle temperatures, a value between the two, and changes no other
field of the zone, in particular not its particle list (the method writes to
no particle). -/
theorem updateZoneTemperatures_blend (fs : FlowSolver K) (particles : List (AirParticle K))
    (key : ZoneKey) (hne : (fs.apartment.zones.byKey key).airParticles ≠ []) :
    ((fs.updateZoneTemperatures particles).apartment.zones.byKey key).temperature =
      0.95 * (fs.apartment.zones.byKey key).temperature +
        0.05 * (((fs.apartment.zones.byKey key).airParticles.map
          (particleTemperature particles)).sum /
            ((fs.apartment.zones.byKey key).airParticles.length : K)) ∧
    min (fs.apartment.zones.byKey key).temperature
        (((fs.apartment.zones.byKey key).airParticles.map (particleTemperature particles)).sum /
          ((fs.apartment.zones.byKey key).airParticles.length : K)) ≤
      ((fs.updateZoneTemperatures particles).apartment.zones.byKey key).temperature ∧
    ((fs.updateZoneTemperatures particles).apartment.zones.byKey key).temperature ≤
      max (fs.apartment.zones.byKey key).temperature
        (((fs.apartment.zones.byKey key).airParticles.map (particleTemperature particles)).sum /
          ((fs.apartment.zones.byKey key).airParticles.length : K)) ∧
    ((fs.updateZoneTemperatures particles).apartment.zones.byKey key).airParticles =
      (fs.apartment.zones.byKey key).airParticles ∧
    (fs.updateZoneTemperatures particles).apartment.zones.byKey key =
      { fs.apartment.zones.byKey key with
        temperature :=
          ((fs.updateZoneTemperatures particles).apartment.zones.byKey key).temperature } := by
  have hkey : (fs.updateZoneTemperatures particles).apartment.zones.byKey key =
      fs.updateZoneTemperature particles (fs.apartment.zones.byKey key) := by
    cases key <;> rfl
  have hpos : 0 < (fs.apartment.zones.byKey key).airParticles.length :=
    List.length_pos.mpr hne
  have hzone : fs.updateZoneTemperature particles (fs.apartment.zones.byKey key) =
      { fs.apartment.zones.byKey key with
        temperature := (fs.apartment.zones.byKey key).temperature * 0.95 +
          (fs.apartment.zones.byKey key).avgTemp particles * 0.05 } := by
    unfold FlowSolver.updateZoneTemperature
    rw [if_pos hpos]
  rw [hkey, hzone, avgTemp_eq]
  simp only []
  refine ⟨by ring, ?_, ?_, trivial, trivial⟩
  · rcases le_total (fs.apartment.zones.byKey key).temperature
      (((fs.apartment.zones.byKey key).airParticles.map (particleTemperature particles)).sum /
        ((fs.apartment.zones.byKey key).airParticles.length : K)) with h | h
    · rw [min_eq_left h]
      linarith
    · rw [min_eq_right h]
      linarith
  · rcases le_total (fs.apartment.zones.byKey key).temperature
      (((fs.apartment.zones.byKey key).airParticles.map (particleTemperature particles)).sum /
        ((fs.apartment.zones.byKey key).airParticles.length : K)) with h | h
    · rw [max_eq_right h]
      linarith
    · rw [max_eq_left h]
      linarith

/-- C23 on the lower floor of `twoParticleApartment` (temperature 22, listing two
particles of temperatures 20 and 26, mean 23): the new zone temperature is
0.95 * 22 + 0.05 * 23 = 22.05. -/
theorem updateZoneTemperatures_blend_witness :
    (((FlowSolver.new (twoParticleApartment : Apartment ℚ)).updateZoneTemperatures
      twoParticles).apartment.zones.byKey ZoneKey.lowerFloor).temperature = 22.05 := by
  rw [(updateZoneTemperatures_blend (FlowSolver.new (twoParticleApartment : Apartment ℚ))
    twoParticles ZoneKey.lowerFloor (by simp [Zones.byKey, FlowSolver.new, twoParticleApartment])).1]
  norm_num [Zones.byKey, FlowSolver.new, twoParticleApartment, defaultApartment, Apartment.new,
    twoParticles, particleTemperature, AirParticle.new]

/-! ## C24: the interior partition wall -/

/-- C24: in the default layout, take a particle whose position when
`handleWindowEscape` runs (after the zone lookup of `handleBoundaries`) has
5.9 < x < 6.1 and 3 ≤ y ≤ 6.  It does not escape.  If the bedroom door is
closed or y > 5.1 it is blocked: boundary resolution ends with x = 5.9 and
vx = -0.3 |vx| when vx > 0, and with x = 6.1 and vx = 0.3 |vx| otherwise.  If
the door is open and y ≤ 5.1, x and vx are unchanged.  With the door closed no
particle at all ends boundary resolution strictly inside the wall band.  A
particle that enters `handleBoundaries` in the band reaches the wall rule with
the same position and velocity. -/
theorem bedroomWall_blocks (a : Apartment K) (hL : DefaultLayout a) (q : AirParticle K)
    (hx1 : 5.9 < (q.resolveZone a).x) (hx2 : (q.resolveZone a).x < 6.1)
    (hy1 : 3 ≤ (q.resolveZone a).y) (hy2 : (q.resolveZone a).y ≤ 6) :
    (q.resolveZone a).escapes a = false ∧
    ((a.openings.bedroomDoor.isOpen = false ∨ 5.1 < (q.resolveZone a).y) →
      (0 < (q.resolveZone a).velocity.x → (q.handleBoundaries a).x = 5.9 ∧
        (q.handleBoundaries a).velocity.x = -0.3 * |(q.resolveZone a).velocity.x|) ∧
      (¬ 0 < (q.resolveZone a).velocity.x → (q.handleBoundaries a).x = 6.1 ∧
        (q.handleBoundaries a).velocity.x = 0.3 * |(q.resolveZone a).velocity.x|)) ∧
    (a.openings.bedroomDoor.isOpen = true ∧ (q.resolveZone a).y ≤ 5.1 →
      (q.handleBoundaries a).x = (q.resolveZone a).x ∧
      (q.handleBoundaries a).velocity.x = (q.resolveZone a).velocity.x) ∧
    (a.openings.bedroomDoor.isOpen = false → ∀ other : AirParticle K,
      ¬ (5.9 < (other.handleBoundaries a).x ∧ (other.handleBoundaries a).x < 6.1 ∧
        3 ≤ (other.handleBoundaries a).y ∧ (other.handleBoundaries a).y ≤ 6)) ∧
    (5.9 < q.x → q.x < 6.1 → 3 ≤ q.y → q.y ≤ 6 →
      (q.resolveZone a).x = q.x ∧ (q.resolveZone a).y = q.y ∧
      (q.resolveZone a).velocity = q.velocity) := by
  have hesc : (q.resolveZone a).escapes a = false := by
    by_contra hne
    have ht : (q.resolveZone a).escapes a = true := by
      cases h : (q.resolveZone a).escapes a
      · exact absurd h hne
      · rfl
    have := escapes_low a hL _ ht
    norm_num at this
    linarith
  have hwx : 5.9 ≤ ((q.resolveZone a).bedroomWall a).x ∧
      ((q.resolveZone a).bedroomWall a).x ≤ 6.1 := by
    rcases bedroomWall_x_cases (q.resolveZone a) a with hx | ⟨-, -, -, -, hx | hx⟩
    · rw [hx]
      exact ⟨le_of_lt hx1, le_of_lt hx2⟩
    · rw [hx]
      exact ⟨le_refl _, by norm_num⟩
    · rw [hx]
      exact ⟨by norm_num, le_refl _⟩
  obtain ⟨o1, o2, o3⟩ := outside_devices_of_column a hL
    ((q.resolveZone a).bedroomWall a).x ((q.resolveZone a).bedroomWall a).y
    (by norm_num at hwx ⊢; linarith [hwx.1])
    ⟨fun h => by norm_num at hwx h; linarith [hwx.1, h.2],
     fun h => by norm_num at hwx h; linarith [hwx.2, h.1]⟩
  have hfinal : q.handleBoundaries a = (q.resolveZone a).bedroomWall a := by
    rw [handleBoundaries_eq]
    exact handleWindowEscape_of_outside _ a hesc o1 o2
      (fun fan hfan _ duct hduct => o3 fan hfan duct hduct)
  obtain ⟨hblock, hopen⟩ := bedroomWall_band (q.resolveZone a) a hx1 hx2 hy1 hy2
  refine ⟨hesc, ?_, ?_, ?_, ?_⟩
  · intro hb
    rw [hfinal]
    exact hblock hb
  · intro ho
    rw [hfinal, hopen ho]
    exact ⟨rfl, rfl⟩
  · intro hclosed other
    rw [handleBoundaries_eq]
    exact handleWindowEscape_wall_closed a hL hclosed _
  · intro b1 b2 b3 b4
    have hin : InsideDefaultLayout q.x q.y := by
      refine ⟨?_, ?_, by linarith, b4, fun _ _ => ⟨?_, le_of_lt b2⟩⟩
      · norm_num at b1 ⊢
        linarith
      · norm_num at b2 ⊢
        linarith
      · norm_num at b1 ⊢
        linarith
    have hsome := ((isValidPosition_iff a hL q.x q.y).2).mpr hin
    unfold AirParticle.resolveZone
    cases hz : a.getZoneAtPoint q.x q.y with
    | none => rw [hz] at hsome; cases hsome
    | some zone => exact ⟨rfl, rfl, rfl⟩

/-- C24 in the default apartment with the bedroom door closed: a particle at
(6, 4) moving right with vx = 2 ends boundary resolution on the mezzanine face
x = 5.9 with vx = -0.6. -/
theorem bedroomWall_blocks_witness :
    ((wallParticle : AirParticle ℚ).handleBoundaries closedDoorApartment).x = 5.9 ∧
    ((wallParticle : AirParticle ℚ).handleBoundaries closedDoorApartment).velocity.x = -0.6 := by
  have hr : (wallParticle : AirParticle ℚ).resolveZone closedDoorApartment =
      { (wallParticle : AirParticle ℚ) with zone := some "upperMezzanine" } := by
    norm_num [AirParticle.resolveZone, Apartment.getZoneAtPoint, Zones.values, wallParticle,
      AirParticle.new, closedDoorApartment, Apartment.updateOpeningState, defaultApartment,
      Apartment.new, List.find?]
  have h := (bedroomWall_blocks (closedDoorApartment : Apartment ℚ) closedDoorApartment_layout
    wallParticle
    (by rw [hr]; norm_num [wallParticle, AirParticle.new])
    (by rw [hr]; norm_num [wallParticle, AirParticle.new])
    (by rw [hr]; norm_num [wallParticle, AirParticle.new])
    (by rw [hr]; norm_num [wallParticle, AirParticle.new])).2.1 (Or.inl rfl)
  have hv : (0 : ℚ) < ((wallParticle : AirParticle ℚ).resolveZone closedDoorApartment).velocity.x := by
    rw [hr]; norm_num [wallParticle, AirParticle.new]
  obtain ⟨e1, e2⟩ := h.1 hv
  refine ⟨e1, ?_⟩
  rw [e2, hr]
  have habs : |(2 : ℚ)| = 2 := abs_of_pos (by norm_num)
  norm_num [wallParticle, AirParticle.new, habs]

/-! ## C25: the minimum outlet speed inside the AC housing and tube -/

/-- C25: in the default layout, a particle whose position when
`handleWindowEscape` runs (after the zone lookup of `handleBoundaries`) lies
inside the AC housing or its extension tube does not escape and ends boundary
resolution with an x-velocity of at least 2.5, hence positive, whatever its
velocity was; a particle that enters `handleBoundaries` inside the housing or
the tube reaches the AC block at the same position. -/
theorem acChannel_outlet_speed (a : Apartment K) (hL : DefaultLayout a) (q : AirParticle K)
    (hreg : a.acUnit.inMainUnit (q.resolveZone a).x (q.resolveZone a).y ∨
      a.acUnit.tube.contains (q.resolveZone a).x (q.resolveZone a).y) :
    (q.resolveZone a).escapes a = false ∧
    2.5 ≤ (q.handleBoundaries a).velocity.x ∧
    0 < (q.handleBoundaries a).velocity.x ∧
    (a.acUnit.inMainUnit q.x q.y ∨ a.acUnit.tube.contains q.x q.y →
      (q.resolveZone a).x = q.x ∧ (q.resolveZone a).y = q.y) := by
  have hb := acRegion_bounds a hL _ _ hreg
  have hesc : (q.resolveZone a).escapes a = false := by
    by_contra hne
    have ht : (q.resolveZone a).escapes a = true := by
      cases h : (q.resolveZone a).escapes a
      · exact absurd h hne
      · rfl
    have := escapes_low a hL _ ht
    norm_num at this
    linarith [hb.2.2.1]
  have hwall : (q.resolveZone a).bedroomWall a = q.resolveZone a := by
    apply bedroomWall_of_outside
    rintro ⟨h1, -⟩
    norm_num at h1
    linarith [hb.2.1]
  obtain ⟨hv, hx⟩ := acChannel_vx_ge a hL (q.resolveZone a) hreg
  have hfinal : q.handleBoundaries a = (q.resolveZone a).acChannel a := by
    rw [handleBoundaries_eq]
    unfold AirParticle.handleWindowEscape
    rw [if_neg (by rw [hesc]; decide), hwall]
    simp only [Fans.values, List.foldl_cons, List.foldl_nil]
    have hout : ∀ fan ∈ a.fans.values, fan.isActive = true → ∀ duct, fan.duct = some duct →
        ¬ duct.contains ((q.resolveZone a).acChannel a).x ((q.resolveZone a).acChannel a).y := by
      intro fan hfan _ duct hduct hin
      unfold Rect.contains at hin
      rcases duct_bounds a hL fan hfan duct hduct with rfl | rfl
      · norm_num at hin hx
        linarith [hin.1]
      · norm_num at hin hx
        linarith [hin.1]
    rw [fanDuct_of_outside _ a.fans.stairFan (hout _ (by simp [Fans.values])),
      fanDuct_of_outside _ a.fans.bedroomFan (hout _ (by simp [Fans.values]))]
  refine ⟨hesc, ?_, ?_, ?_⟩
  · rw [hfinal]
    exact hv
  · rw [hfinal]
    exact lt_of_lt_of_le (by norm_num) hv
  · intro hq
    have hqb := acRegion_bounds a hL q.x q.y hq
    have hin : InsideDefaultLayout q.x q.y := by
      refine ⟨?_, ?_, by linarith [hqb.2.2.1], by linarith [hqb.2.2.2], fun _ h => ?_⟩
      · norm_num at hqb
        linarith [hqb.1]
      · norm_num at hqb
        linarith [hqb.2.1]
      · exfalso
        norm_num at h
        linarith [hqb.2.2.1]
    have hsome := ((isValidPosition_iff a hL q.x q.y).2).mpr hin
    unfold AirParticle.resolveZone
    cases hz : a.getZoneAtPoint q.x q.y with
    | none => rw [hz] at hsome; cases hsome
    | some zone => exact ⟨rfl, rfl⟩

/-- C25 for a particle in the AC housing at (0.5, 4.15) moving left with
velocity (-3, 0) in the default apartment: it ends boundary resolution with
an x-velocity of at least 2.5. -/
theorem acChannel_outlet_speed_witness :
    (2.5 : ℚ) ≤ ((backwardParticle : AirParticle ℚ).handleBoundaries defaultApartment).velocity.x := by
  have hr : (backwardParticle : AirParticle ℚ).resolveZone defaultApartment =
      { (backwardParticle : AirParticle ℚ) with zone := some "upperMezzanine" } := by
    norm_num [AirParticle.resolveZone, Apartment.getZoneAtPoint, Zones.values, backwardParticle,
      AirParticle.new, defaultApartment, Apartment.new, List.find?]
  exact (acChannel_outlet_speed (defaultApartment : Apartment ℚ) defaultApartment_layout
    backwardParticle (Or.inl (by
      rw [hr]
      norm_num [ACUnit.inMainUnit, backwardParticle, AirParticle.new, defaultApartment,
        Apartment.new]))).2.1

/-! ## C26: the floor outside the stair shaft -/

/-- C26 fails in the code: the floor is enforced by position tests on the
integrated point only, so a step long enough to pass the whole floor band goes
through the floor, against the comments "particles can't pass through solid
floor" and "particles can only cross floors through stair opening".  In the
default apartment an ambient particle at (1, 2.95) with velocity (0, 2) and
dt = 0.1 is carried by the Euler step to (1, 3.148), a point outside the stair
gap that resolves to the upper mezzanine, and ends the step there, on the
upper level. -/
theorem update_crosses_floor :
    (jumpParticle : AirParticle ℝ).y ≤ 2.95 ∧
    (0 : ℝ) < 0.1 ∧
    ¬ (4.9 ≤ ((jumpParticle : AirParticle ℝ).integrate Real.sqrt 0.1 22).x ∧
      ((jumpParticle : AirParticle ℝ).integrate Real.sqrt 0.1 22).x ≤ 6.1) ∧
    ((jumpParticle : AirParticle ℝ).update Real.sqrt 0.1 defaultApartment 22).1.y = 3.148 ∧
    3.05 ≤ ((jumpParticle : AirParticle ℝ).update Real.sqrt 0.1 defaultApartment 22).1.y := by
  obtain ⟨hx, hy⟩ := jumpParticle_update
  refine ⟨?_, by norm_num, ?_, hy, ?_⟩
  · norm_num [jumpParticle, AirParticle.new]
  · rw [hx]
    norm_num
  · rw [hy]
    norm_num

/-- What the position tests do achieve: in the default layout, for dt > 0 and a
particle whose x after integration is outside the stair gap [4.9, 6.1], a
particle that starts at y ≤ 2.95 and whose integrated y is still below the
upper face 3.05 of the floor band ends the step with y ≤ 2.95, and a particle
that starts at y ≥ 3.05 and whose integrated y is still above the lower face
2.95 ends it with y ≥ 3.05; the integrated y is such whenever the vertical move
|vy| * dt of the step is below the width 0.1 of the band. -/
theorem update_floor_held_short_step (sqrt : K → K) (a : Apartment K) (hL : DefaultLayout a)
    (p : AirParticle K) (dt ambientTemp : K) (hdt : 0 < dt)
    (hx : ¬ (4.9 ≤ (p.integrate sqrt dt ambientTemp).x ∧
      (p.integrate sqrt dt ambientTemp).x ≤ 6.1)) :
    (p.y ≤ 2.95 → (p.integrate sqrt dt ambientTemp).y < 3.05 →
      (p.update sqrt dt a ambientTemp).1.y ≤ 2.95) ∧
    (3.05 ≤ p.y → 2.95 < (p.integrate sqrt dt ambientTemp).y →
      3.05 ≤ (p.update sqrt dt a ambientTemp).1.y) ∧
    (|(p.integrate sqrt dt ambientTemp).velocity.y| * dt < 0.1 →
      (p.y ≤ 2.95 → (p.integrate sqrt dt ambientTemp).y < 3.05) ∧
      (3.05 ≤ p.y → 2.95 < (p.integrate sqrt dt ambientTemp).y)) := by
  have hU : (p.update sqrt dt a ambientTemp).1 =
      ((p.integrate sqrt dt ambientTemp).resolveZone a).handleWindowEscape a := rfl
  have hy := integrate_y sqrt p dt ambientTemp
  refine ⟨?_, ?_, ?_⟩
  · intro hlow hq
    have hr := resolveZone_lower a hL (p.integrate sqrt dt ambientTemp) hx hq (by
      intro hb
      rw [hy] at hb
      by_contra hv
      have : (p.integrate sqrt dt ambientTemp).velocity.y * dt ≤ 0 :=
        mul_nonpos_of_nonpos_of_nonneg (not_lt.mp hv) (le_of_lt hdt)
      linarith)
    rw [hU]
    rcases handleWindowEscape_y_cases a hL ((p.integrate sqrt dt ambientTemp).resolveZone a)
      with h | h
    · rw [h]
      exact hr
    · have hW := handleWindowEscape_below_devices a hL
        ((p.integrate sqrt dt ambientTemp).resolveZone a)
        (by norm_num at hr ⊢; linarith) (Or.inr (Or.inr (by norm_num at hr ⊢; linarith)))
      rw [hW]
      split_ifs <;> exact hr
  · intro hup hq
    have hr := resolveZone_upper a hL (p.integrate sqrt dt ambientTemp) hx hq (by
      intro hb hv
      rw [hy] at hb
      have : 0 < (p.integrate sqrt dt ambientTemp).velocity.y * dt := mul_pos hv hdt
      linarith)
    rw [hU]
    rcases handleWindowEscape_y_cases a hL ((p.integrate sqrt dt ambientTemp).resolveZone a)
      with h | h
    · rw [h]
      exact hr
    · norm_num at h ⊢
      linarith
  · intro hmove
    have h1 : (p.integrate sqrt dt ambientTemp).velocity.y * dt ≤
        |(p.integrate sqrt dt ambientTemp).velocity.y| * dt :=
      mul_le_mul_of_nonneg_right (le_abs_self _) (le_of_lt hdt)
    have h2 : -(|(p.integrate sqrt dt ambientTemp).velocity.y| * dt) ≤
        (p.integrate sqrt dt ambientTemp).velocity.y * dt := by
      have := mul_le_mul_of_nonneg_right (neg_abs_le (p.integrate sqrt dt ambientTemp).velocity.y)
        (le_of_lt hdt)
      linarith
    constructor
    · intro hlow
      rw [hy]
      norm_num at hmove hlow ⊢
      linarith
    · intro hup
      rw [hy]
      norm_num at hmove hup ⊢
      linarith

/-- An ambient particle at (1, 2.9) with velocity (0, 2) and dt = 0.05 in the
default apartment: the Euler step takes it to (1, 2.999), in the floor band
outside the stair gap, and it ends the step with y ≤ 2.95. -/
theorem update_floor_held_short_step_example :
    ((risingParticle : AirParticle ℝ).integrate Real.sqrt 0.05 22).y = 2.999 ∧
    ((risingParticle : AirParticle ℝ).update Real.sqrt 0.05 defaultApartment 22).1.y ≤ 2.95 := by
  have hq : (risingParticle : AirParticle ℝ).integrate Real.sqrt 0.05 22 =
      { (risingParticle : AirParticle ℝ) with
        x := 1, y := 2.999, velocity := { x := 0, y := 1.98 }, age := 1 } := by
    norm_num [AirParticle.integrate, risingParticle, AirParticle.new, Vec2.speed]
  refine ⟨by rw [hq], ?_⟩
  exact (update_floor_held_short_step Real.sqrt defaultApartment defaultApartment_layout
    risingParticle 0.05 22 (by norm_num) (by rw [hq]; norm_num)).1
    (by norm_num [risingParticle, AirParticle.new]) (by rw [hq]; norm_num)

/-! ## C27: the direction of buoyancy -/

/-- C27 fails in the code: with dt > 0 the buoyancy term adds
`(ambientTemp - temperature) * 0.02 * momentumFactor * dt` to vy, which is
negative (downward, the direction of the gravity term) for a particle warmer
than ambient and positive for a colder one, against the comment "cold air
sinks, warm air rises".  So every warm particle is pushed down, and a cold
particle is pushed down only while it is less than 5 degrees below ambient
(where the gravity term outweighs the buoyancy); more than 5 degrees below
ambient it is pushed up. -/
theorem buoyancy_pushes_warm_air_down (sqrt : K → K) (p : AirParticle K)
    (dt ambientTemp : K) (hdt : 0 < dt) :
    (p.integrate sqrt dt ambientTemp).velocity.y =
      (p.velocity.y + p.buoyancyGravity sqrt dt ambientTemp) * 0.99 ∧
    (ambientTemp < p.temperature → p.buoyancyGravity sqrt dt ambientTemp < 0) ∧
    (p.temperature < ambientTemp → ambientTemp - p.temperature < 5 →
      p.buoyancyGravity sqrt dt ambientTemp < 0) ∧
    (5 < ambientTemp - p.temperature → 0 < p.buoyancyGravity sqrt dt ambientTemp) := by
  obtain ⟨m, hm, he⟩ := buoyancyGravity_eq sqrt p dt ambientTemp
  have hmpos : 0 < m * dt := mul_pos (lt_of_lt_of_le (by norm_num) hm) hdt
  refine ⟨integrate_vy sqrt p dt ambientTemp, ?_, ?_, ?_⟩
  · intro hwarm
    rw [he, if_neg (not_lt.mpr (le_of_lt hwarm))]
    apply mul_neg_of_pos_of_neg hmpos
    linarith
  · intro hcold hnear
    rw [he, if_pos hcold]
    apply mul_neg_of_pos_of_neg hmpos
    linarith
  · intro hfar
    have hcold : p.temperature < ambientTemp := by linarith
    rw [he, if_pos hcold]
    apply mul_pos hmpos
    linarith

/-- C27 for a particle of temperature 30 at rest with ambient temperature 22 and
dt = 1/60: the buoyancy term is negative and `update` takes vy from 0 to
-0.00264, so the warm particle is pushed down. -/
theorem buoyancy_pushes_warm_air_down_witness :
    (warmParticle : AirParticle ℝ).buoyancyGravity Real.sqrt (1 / 60) 22 < 0 ∧
    ((warmParticle : AirParticle ℝ).integrate Real.sqrt (1 / 60) 22).velocity.y = -0.00264 := by
  have h := buoyancy_pushes_warm_air_down Real.sqrt (warmParticle : AirParticle ℝ) (1 / 60) 22
    (by norm_num)
  refine ⟨h.2.1 (by norm_num [warmParticle, AirParticle.new]), ?_⟩
  have hmax : max (0.1 : ℝ) 1 = 1 := max_eq_right (by norm_num)
  rw [h.1]
  norm_num [AirParticle.buoyancyGravity, warmParticle, AirParticle.new, Vec2.speed, hmax]

/-! ## C28: the zone returned by `getZoneAtPoint` and its rectangle -/

/-- C28 as stated fails: in the floor band the stair gap [4.9, 6.1] reaches 0.1
past the right edge x = 6 of the upper mezzanine, and there `getZoneAtPoint`
returns the mezzanine without testing its rectangle.  In the default apartment
the point (6.05, 3.02) resolves to the upper mezzanine, whose rectangle ends
at x = 6. -/
theorem getZoneAtPoint_outside_rectangle :
    (defaultApartment : Apartment ℚ).getZoneAtPoint 6.05 3.02 =
      some (defaultApartment : Apartment ℚ).zones.upperMezzanine ∧
    (defaultApartment : Apartment ℚ).zones.upperMezzanine.x +
      (defaultApartment : Apartment ℚ).zones.upperMezzanine.width = 6 ∧
    ¬ ((6.05 : ℚ) ≤ (defaultApartment : Apartment ℚ).zones.upperMezzanine.x +
      (defaultApartment : Apartment ℚ).zones.upperMezzanine.width) := by
  refine ⟨?_, ?_, ?_⟩
  · norm_num [Apartment.getZoneAtPoint, defaultApartment, Apartment.new]
  · norm_num [defaultApartment, Apartment.new]
  · norm_num [defaultApartment, Apartment.new]

/-- C28 (amended): in the default layout, if `getZoneAtPoint` returns a zone for
a point that is not in the strip 6 < x ≤ 6.1, 3 ≤ y < 3.05 of the floor band,
the point lies inside the rectangle of that zone, also in the floor band inside
the stair gap; for the points of that strip it returns the upper mezzanine. -/
theorem getZoneAtPoint_in_rectangle (a : Apartment K) (hL : DefaultLayout a) (x y : K)
    (zone : Zone K) (hzone : a.getZoneAtPoint x y = some zone)
    (hstrip : ¬ (6 < x ∧ x ≤ 6.1 ∧ 3 ≤ y ∧ y < 3.05)) :
    (zone.x ≤ x ∧ x ≤ zone.x + zone.width ∧ zone.y ≤ y ∧ y ≤ zone.y + zone.height) ∧
    (∀ u v : K, 6 < u → u ≤ 6.1 → 3 ≤ v → v < 3.05 →
      a.getZoneAtPoint u v = some a.zones.upperMezzanine) := by
  obtain ⟨tm, lm, hm⟩ := hL.upperMezzanine
  obtain ⟨tl, ll, hl⟩ := hL.lowerFloor
  have hgap : a.stairOpening.x + a.stairOpening.width = 6.1 := by
    rw [hL.stairOpening]; norm_num
  have hx0 : a.stairOpening.x = 4.9 := by rw [hL.stairOpening]
  constructor
  · unfold Apartment.getZoneAtPoint at hzone
    rw [hgap, hx0] at hzone
    by_cases hband : 2.95 < y ∧ y < 3.05
    · rw [if_pos hband] at hzone
      by_cases hin : 4.9 ≤ x ∧ x ≤ 6.1
      · rw [if_pos hin] at hzone
        by_cases hy : y < 3
        · rw [if_pos hy] at hzone
          cases hzone
          rw [hl]
          simp only [defaultApartment, Apartment.new]
          norm_num at hin hband ⊢
          exact ⟨by linarith [hin.1], by linarith [hin.2], by linarith [hband.1], le_of_lt hy⟩
        · rw [if_neg hy] at hzone
          cases hzone
          have hx6 : x ≤ 6 := by
            by_contra hc
            exact hstrip ⟨not_le.mp hc, hin.2, not_lt.mp hy, hband.2⟩
          rw [hm]
          simp only [defaultApartment, Apartment.new]
          norm_num at hin hband ⊢
          exact ⟨by linarith [hin.1], hx6, not_lt.mp hy, by linarith [hband.2]⟩
      · rw [if_neg hin] at hzone
        cases hzone
    · rw [if_neg hband] at hzone
      have := List.find?_some hzone
      simpa using this
  · intro u v hu1 hu2 hv1 hv2
    unfold Apartment.getZoneAtPoint
    rw [hgap, hx0, if_pos ⟨by norm_num at hv1 ⊢; linarith, hv2⟩,
      if_pos ⟨by norm_num at hu1 ⊢; linarith, hu2⟩, if_neg (not_lt.mpr hv1)]

/-- C28 (amended) at the point (5, 3.02) of the floor band inside the stair gap
in the default apartment: it resolves to the upper mezzanine and lies in its
rectangle [0, 6] x [3, 6]. -/
theorem getZoneAtPoint_in_rectangle_witness :
    (defaultApartment : Apartment ℚ).zones.upperMezzanine.x ≤ 5 ∧
    (5 : ℚ) ≤ (defaultApartment : Apartment ℚ).zones.upperMezzanine.x +
      (defaultApartment : Apartment ℚ).zones.upperMezzanine.width ∧
    (defaultApartment : Apartment ℚ).zones.upperMezzanine.y ≤ 3.02 ∧
    (3.02 : ℚ) ≤ (defaultApartment : Apartment ℚ).zones.upperMezzanine.y +
      (defaultApartment : Apartment ℚ).zones.upperMezzanine.height :=
  (getZoneAtPoint_in_rectangle (defaultApartment : Apartment ℚ) defaultApartment_layout 5 3.02
    (defaultApartment : Apartment ℚ).zones.upperMezzanine
    (by norm_num [Apartment.getZoneAtPoint, defaultApartment, Apartment.new])
    (by norm_num)).1

/-! ## C29: pair interaction conserves heat -/

/-- C29: `handleParticleInteractions` keeps the sum of all particle temperatures,
every particle position and the length of the array.  Each pair interaction at
distance below 0.3 moves the two temperatures by the opposite amounts
`(TA - TB) * 0.1 * dt`, and at distance 0.3 or more it changes nothing. -/
theorem handleParticleInteractions_conserves_heat (sqrt : K → K)
    (particles : List (AirParticle K)) (dt : K) :
    ((FlowSolver.handleParticleInteractions sqrt particles dt).1.map
      (fun p => p.temperature)).sum = (particles.map (fun p => p.temperature)).sum ∧
    (FlowSolver.handleParticleInteractions sqrt particles dt).1.map (fun p => p.x) =
      particles.map (fun p => p.x) ∧
    (FlowSolver.handleParticleInteractions sqrt particles dt).1.map (fun p => p.y) =
      particles.map (fun p => p.y) ∧
    (FlowSolver.handleParticleInteractions sqrt particles dt).1.length = particles.length ∧
    (∀ (state : List (AirParticle K) × List Nat) (i j : Nat) (A B : AirParticle K),
      i ≠ j → state.1[i]? = some A → state.1[j]? = some B →
      (A.distanceTo sqrt B < 0.3 →
        ((FlowSolver.interactPair sqrt dt state i j).1[i]?).map (fun p => p.temperature) =
          some (A.temperature - (A.temperature - B.temperature) * (0.1 * dt)) ∧
        ((FlowSolver.interactPair sqrt dt state i j).1[j]?).map (fun p => p.temperature) =
          some (B.temperature + (A.temperature - B.temperature) * (0.1 * dt))) ∧
      (¬ A.distanceTo sqrt B < 0.3 → FlowSolver.interactPair sqrt dt state i j = state)) := by
  have hne : ∀ pair ∈ FlowSolver.interactionPairs particles.length, pair.1 ≠ pair.2 := by
    intro pair hp
    have := (mem_interactionPairs particles.length pair.1 pair.2).mp hp
    omega
  obtain ⟨h1, h2, h3, h4, -⟩ := interactLoop_frame sqrt dt
    (FlowSolver.interactionPairs particles.length) hne (particles, [])
  exact ⟨h4, h2, h3, h1, fun state i j A B hij hA hB =>
    interactPair_temperatures sqrt dt state i j hij A B hA hB⟩

/-! ## C30: no transport through the bedroom door at frame-sized time steps -/

/-- C30: in the default layout, where the bedroom door of area 0.8 * 2.1 = 1.68
is the only opening between connected zones, for 0 ≤ dt ≤ 1/60 and zone
temperatures of the mezzanine and the bedroom at most 35 degrees apart, the
flow strength |tempDiff| * 0.1 * 1.68 * dt * 0.1 is at most 0.0098, below the
threshold 0.01, so `calculateInterZoneFlows` leaves the particle array as it
was and applies no force; and whatever the temperatures, no
`createInterZoneFlow` call has the lower floor as one of its two zones. -/
theorem calculateInterZoneFlows_quiet [FloorRing K] (sqrt : K → K) (rand : Nat → Nat → K)
    (fs : FlowSolver K) (hL : DefaultLayout fs.apartment) (particles : List (AirParticle K))
    (dt : K) (hdt0 : 0 ≤ dt) (hdt1 : dt ≤ 1 / 60)
    (htemp : |fs.apartment.zones.upperMezzanine.temperature -
      fs.apartment.zones.upperBedroom.temperature| ≤ 35) :
    (0.8 : K) * 2.1 = 1.68 ∧
    |(fs.apartment.zones.upperMezzanine.temperature -
      fs.apartment.zones.upperBedroom.temperature) * 0.1| * 1.68 * dt * 0.1 ≤ 0.01 ∧
    (FlowSolver.calculateInterZoneFlows sqrt rand fs particles dt).1 = particles ∧
    (FlowSolver.calculateInterZoneFlows sqrt rand fs particles dt).2.2 = [] ∧
    (∀ call ∈ (FlowSolver.calculateInterZoneFlows sqrt rand fs particles dt).2.1,
      call.1 ≠ "lowerFloor" ∧ call.2.1 ≠ "lowerFloor") := by
  obtain ⟨tm, lm, hm⟩ := hL.upperMezzanine
  obtain ⟨tb, lb, hb⟩ := hL.upperBedroom
  have hmid : fs.apartment.zones.upperMezzanine.id = "upperMezzanine" := by rw [hm]; rfl
  have hbid : fs.apartment.zones.upperBedroom.id = "upperBedroom" := by rw [hb]; rfl
  have hcalc : FlowSolver.calculateInterZoneFlows sqrt rand fs particles dt =
      FlowSolver.flowBetween sqrt (rand 2) fs dt
        (FlowSolver.flowBetween sqrt (rand 0) fs dt (particles, [], [])
          fs.apartment.zones.upperMezzanine "upperBedroom")
        fs.apartment.zones.upperBedroom "upperMezzanine" := by
    unfold FlowSolver.calculateInterZoneFlows
    rw [connectionPairs_layout fs hL]
    simp only [List.enum, List.enumFrom, List.foldl_cons, List.foldl_nil,
      flowBetween_stairShaft]
  obtain ⟨a1, a2⟩ := flowBetween_quiet sqrt (rand 0) fs hL dt hdt0 hdt1 htemp (particles, [], [])
    fs.apartment.zones.upperMezzanine "upperBedroom" (Or.inl ⟨rfl, rfl⟩)
  obtain ⟨b1, b2⟩ := flowBetween_quiet sqrt (rand 2) fs hL dt hdt0 hdt1 htemp
    (FlowSolver.flowBetween sqrt (rand 0) fs dt (particles, [], [])
      fs.apartment.zones.upperMezzanine "upperBedroom")
    fs.apartment.zones.upperBedroom "upperMezzanine" (Or.inr ⟨rfl, rfl⟩)
  refine ⟨by norm_num, flowStrength_le _ dt htemp hdt0 hdt1, ?_, ?_, ?_⟩
  · rw [hcalc, b1, a1]
  · rw [hcalc, b2, a2]
  · intro call hcall
    rw [hcalc] at hcall
    cases hdoor : fs.apartment.openings.bedroomDoor.isOpen with
    | false =>
      rw [(flowBetween_door sqrt (rand 2) fs hL dt _ _ _ (Or.inr ⟨hbid, rfl⟩)).1 hdoor,
        (flowBetween_door sqrt (rand 0) fs hL dt _ _ _ (Or.inl ⟨hmid, rfl⟩)).1 hdoor] at hcall
      cases hcall
    | true =>
      rw [(flowBetween_door sqrt (rand 2) fs hL dt _ _ _ (Or.inr ⟨hbid, rfl⟩)).2 hdoor,
        (flowBetween_door sqrt (rand 0) fs hL dt _ _ _ (Or.inl ⟨hmid, rfl⟩)).2 hdoor,
        hmid, hbid] at hcall
      simp only [List.nil_append, List.cons_append, List.mem_cons, List.mem_singleton,
        List.not_mem_nil, or_false] at hcall
      rcases hcall with rfl | rfl
      · exact ⟨by simp, by simp⟩
      · exact ⟨by simp, by simp⟩

/-- C30 in the default apartment with the mezzanine at 16 degrees, the bedroom at
22 degrees and the door open, for dt = 1/60: `calculateInterZoneFlows` leaves
the particles as they were and applies no force. -/
theorem calculateInterZoneFlows_quiet_witness :
    (FlowSolver.calculateInterZoneFlows (fun x => x) (fun _ _ => 0)
      (FlowSolver.new (coolMezzanineApartment : Apartment ℚ)) twoParticles (1 / 60)).1 =
        twoParticles ∧
    (FlowSolver.calculateInterZoneFlows (fun x => x) (fun _ _ => 0)
      (FlowSolver.new (coolMezzanineApartment : Apartment ℚ)) twoParticles (1 / 60)).2.2 = [] := by
  have habs : |(-6 : ℚ)| = 6 := by rw [abs_neg]; exact abs_of_pos (by norm_num)
  have h := calculateInterZoneFlows_quiet (fun x => x) (fun _ _ => 0)
    (FlowSolver.new (coolMezzanineApartment : Apartment ℚ)) coolMezzanineApartment_layout
    twoParticles (1 / 60) (by norm_num) (le_refl _)
    (by norm_num [FlowSolver.new, coolMezzanineApartment, defaultApartment, Apartment.new, habs])
  exact ⟨h.2.2.1, h.2.2.2.1⟩

end ACOptimizer
